import Mathlib

/-!
RepRapFirmware: the G-code interpreter (`GCodes.cpp`) and the message and
file functions of `Platform.cpp`.

A shallow embedding of `GCodeBuffer` and `GCodes` from `src/GCodes.cpp` and of
`Platform::Message` with the file functions it calls from `src/Platform.cpp`,
followed by theorems about them.

Conventions of the embedding:

* a `char` is a natural number (its byte value); `'\n'` is `10`, `';'` is `59`;
* `char gcodeBuffer[GCODE_LENGTH]` is a list of `GCODE_LENGTH` bytes, written
  with `List.set`; the C string it holds is the run of bytes before the first
  NUL;
* arrays of `float` and the save stacks are functions from the index;
* `float` arithmetic is kept abstract (class `FloatOps`): the theorems hold for
  every interpretation of `+`, `-`, `*` and of the literals;
* calls of the other subsystems (`Platform`, `Webserver`, `Move`, `Heat`,
  `reprap`) that return information are answered by an `Env` value, one per
  control-loop tick; calls that only act on them are recorded as `Event`s;
* constants that `GCodes.h` defines (`GCODE_LENGTH`, `STACK`, `GCODE_LETTERS`,
  `INCH_TO_MM`) are fields of `Config`.
-/

namespace RepRap

set_option maxRecDepth 8000

/-! ## Constants of `Platform.h` -/

/-- The number of drives, `#define DRIVES 4`. -/
def DRIVES : Nat := 4

/-- The number of axes, `#define AXES 3`. -/
def AXES : Nat := 3

/-- Index of the X axis, `#define X_AXIS 0`. -/
def X_AXIS : Nat := 0

/-- Index of the Y axis, `#define Y_AXIS 1`. -/
def Y_AXIS : Nat := 1

/-- Index of the Z axis, `#define Z_AXIS 2`. -/
def Z_AXIS : Nat := 2

/-! ## Messages -/

/-- The text handed to `Platform::Message(HOST_MESSAGE, ...)`: a string literal
of the source, or the bytes of a C string read from a buffer. -/
inductive Msg where
  | str (s : String)
  | buf (bytes : List Nat)
  deriving DecidableEq, Repr

/-- The C string stored at the start of a byte array: the bytes before the
first NUL. -/
def cstr (b : List Nat) : List Nat :=
  b.takeWhile (fun x => x != 0)

/-! ## `GCodeBuffer` -/

/-- The members of `class GCodeBuffer` that `GCodes.cpp` uses. -/
structure GCodeBuffer where
  identity : String
  gcodeBuffer : List Nat
  gcodePointer : Nat
  readPointer : Int
  inComment : Bool
  finished : Bool
  deriving DecidableEq, Repr

namespace GCodeBuffer

/-- Embeds `GCodeBuffer::Init` (GCodes.cpp 638-643). -/
def Init (gb : GCodeBuffer) : GCodeBuffer :=
  { gb with gcodePointer := 0, readPointer := -1, inComment := false }

/-- Embeds `GCodeBuffer::Put` (GCodes.cpp 645-679).  `debug` is the answer of
`reprap.debug()`.  Returns the result, the buffer afterwards and the messages
emitted. -/
def Put (GCODE_LENGTH : Nat) (debug : Bool) (gb : GCodeBuffer) (c : Nat) :
    Bool × GCodeBuffer × List Msg :=
  -- gcodeBuffer[gcodePointer] = c;
  let gb1 := { gb with gcodeBuffer := gb.gcodeBuffer.set gb.gcodePointer c }
  -- if(c == ';') inComment = true;
  let gb2 := if c = 59 then { gb1 with inComment := true } else gb1
  let r : Bool × GCodeBuffer × List Msg :=
    if c = 10 ∨ c = 0 then
      -- gcodeBuffer[gcodePointer] = 0; Init();
      let gb3 := Init { gb2 with gcodeBuffer := gb2.gcodeBuffer.set gb2.gcodePointer 0 }
      (true, gb3,
        if debug && gb3.gcodeBuffer.getD 0 0 != 0 then
          [Msg.str gb3.identity, Msg.buf (cstr gb3.gcodeBuffer), Msg.str "\n"]
        else [])
    else
      -- if(!inComment) gcodePointer++;
      (false, if !gb2.inComment then { gb2 with gcodePointer := gb2.gcodePointer + 1 } else gb2, [])
  -- if(gcodePointer >= GCODE_LENGTH) ...
  if r.2.1.gcodePointer ≥ GCODE_LENGTH then
    (r.1, { r.2.1 with gcodePointer := 0, gcodeBuffer := r.2.1.gcodeBuffer.set 0 0 },
      r.2.2 ++ [Msg.str "G Code buffer length overflow.\n"])
  else r

/-- The loop of `GCodeBuffer::Seen`: the index of the first byte equal to `c`
among the bytes before the first NUL, counting from `i`. -/
def seenLoop (c : Nat) : List Nat → Nat → Option Nat
  | [], _ => none
  | b :: bs, i => if b = 0 then none else if b = c then some i else seenLoop c bs (i + 1)

/-- Embeds `GCodeBuffer::Seen` (GCodes.cpp 684-695). -/
def Seen (gb : GCodeBuffer) (c : Nat) : Bool × GCodeBuffer :=
  match seenLoop c gb.gcodeBuffer 0 with
  | some i => (true, { gb with readPointer := (i : Int) })
  | none => (false, { gb with readPointer := -1 })

/-- The argument `&gcodeBuffer[readPointer + 1]` of `strtod` and `strtol`. -/
def valueText (gb : GCodeBuffer) : List Nat :=
  cstr (gb.gcodeBuffer.drop (gb.readPointer + 1).toNat)

/-- Embeds `GCodeBuffer::GetFValue` (GCodes.cpp 699-709); `strtod` is the C library
function, `zero` is the literal `0.0`. -/
def GetFValue {F : Type} (strtod : List Nat → F) (zero : F) (gb : GCodeBuffer) :
    F × GCodeBuffer × List Msg :=
  if gb.readPointer < 0 then
    (zero, gb, [Msg.str "GCodes: Attempt to read a GCode float before a search.\n"])
  else
    (strtod (valueText gb), { gb with readPointer := -1 }, [])

/-- Embeds `GCodeBuffer::GetLValue` (GCodes.cpp 714-724); `strtol` is the C library
function called with base 0. -/
def GetLValue (strtol : List Nat → Int) (gb : GCodeBuffer) : Int × GCodeBuffer × List Msg :=
  if gb.readPointer < 0 then
    (0, gb, [Msg.str "GCodes: Attempt to read a GCode int before a search.\n"])
  else
    (strtol (valueText gb), { gb with readPointer := -1 }, [])

/-- Feeding a sequence of bytes to `Put`, one at a time: the results of the
calls in order, and the buffer afterwards. -/
def putAll (GCODE_LENGTH : Nat) (debug : Bool) : GCodeBuffer → List Nat → List Bool × GCodeBuffer
  | gb, [] => ([], gb)
  | gb, c :: cs =>
    let r := Put GCODE_LENGTH debug gb c
    let rest := putAll GCODE_LENGTH debug r.2.1 cs
    (r.1 :: rest.1, rest.2)

end GCodeBuffer

/-! ## The environment of the interpreter -/

/-- The arithmetic of C `float` values used by `GCodes.cpp`.  Nothing is
assumed about the operations. -/
class FloatOps (F : Type) extends Add F, Sub F, Mul F, Neg F, OfScientific F where
  /-- The cast `(float)` of a `long`. -/
  ofLong : Int → F
  /-- The conversion of a floating value to `unsigned long`. -/
  toUnsignedLong : F → Nat
  /-- The conversion of an `unsigned long` to `float`. -/
  ofUnsignedLong : Nat → F
  /-- The test `x >= 0.0`. -/
  geZero : F → Bool

/-- Constants defined outside the source files at hand (`GCodes.h`), the
configuration tables of `Platform`, and the C library's number parsers. -/
structure Config (F : Type) where
  GCODE_LENGTH : Nat
  STACK : Nat
  GCODE_LETTERS : Nat → Nat
  INCH_TO_MM : F
  MaxFeedrate : Nat → F
  AxisLength : Nat → F
  HomeFeedRate : Nat → F
  strtod : List Nat → F
  strtol : List Nat → Int

/-- What the other subsystems answer during one control-loop tick.  Every
query below is made at most once per call of `Spin`. -/
structure Env (F : Type) where
  /-- Answer of `reprap.debug()`. -/
  debug : Bool
  /-- Outcome of `webserver->GCodeAvailable()`, with the byte `ReadGCode()` returns. -/
  web : Option Nat
  /-- Outcome of `platform->SerialAvailable()`, with the byte `SerialRead` stores. -/
  serial : Option Nat
  /-- Outcome of `platform->Read(fileBeingPrinted, b)`: the byte read, or `none` at end of file. -/
  fileRead : Option Nat
  /-- Answer of `reprap.GetMove()->AllMovesAreFinished()`. -/
  allMovesAreFinished : Bool
  /-- Effect of `reprap.GetMove()->GetCurrentState(moveBuffer)`: its result and
  the array it leaves, from the array it is given. -/
  getCurrentState : (Nat → F) → Bool × (Nat → F)
  /-- Answer of `platform->Time()`. -/
  time : F

/-- The three command buffers of `GCodes`. -/
inductive Source where
  | web
  | serial
  | file
  deriving DecidableEq, Repr

/-- Calls made by the interpreter, in the order they are made.  `put` and
`actOn` record the calls of `GCodeBuffer::Put` and `GCodes::ActOnGcode` that
`Spin` makes; the others are calls to the other subsystems. -/
inductive Event (F : Type) where
  | message (m : Msg)
  | webRead (c : Nat)
  | serialRead (c : Nat)
  | fileRead (file : Int) (c : Option Nat)
  | fileClose (file : Int)
  | put (src : Source) (c : Nat)
  | actOn (src : Source)
  | resumeMoving
  | setStandbyTemperature (head : Int) (t : F)
  | setActiveTemperature (head : Int) (t : F)
  | activate (head : Int)
  | standby (head : Int)
  | setDebug (level : Int)
  | diagnostics
  deriving DecidableEq

/-! ## `GCodes` -/

/-- The members of `class GCodes`, and `log`, the calls made so far. -/
structure GCodes (F : Type) where
  active : Bool
  webGCode : GCodeBuffer
  fileGCode : GCodeBuffer
  serialGCode : GCodeBuffer
  moveAvailable : Bool
  heatAvailable : Bool
  drivesRelative : Bool
  axesRelative : Bool
  checkEndStops : Bool
  gCodeLetters : Nat → Nat
  distanceScale : F
  lastPos : Nat → F
  moveBuffer : Nat → F
  fileBeingPrinted : Int
  fileToPrint : Int
  homeX : Bool
  homeY : Bool
  homeZ : Bool
  homeXQueued : Bool
  homeYQueued : Bool
  homeZQueued : Bool
  dwellWaiting : Bool
  dwellTime : F
  stackPointer : Int
  drivesRelativeStack : Int → Bool
  axesRelativeStack : Int → Bool
  feedrateStack : Int → F
  selectedHead : Int
  gFeedRate : F
  log : List (Event F)

/-- Conversion to `int8_t`. -/
def toInt8 (x : Int) : Int := (x + 128) % 256 - 128

namespace GCodes

variable {F : Type} [FloatOps F]

/-- Record a call. -/
def emit (e : Event F) (s : GCodes F) : GCodes F :=
  { s with log := s.log ++ [e] }

/-- Embeds the call `platform->Message(HOST_MESSAGE, m)`. -/
def message (m : Msg) (s : GCodes F) : GCodes F :=
  emit (Event.message m) s

/-- Several messages in a row. -/
def messages (ms : List Msg) (s : GCodes F) : GCodes F :=
  { s with log := s.log ++ ms.map Event.message }

/-- The buffer a `GCodeBuffer*` designates. -/
def buf (s : GCodes F) : Source → GCodeBuffer
  | Source.web => s.webGCode
  | Source.serial => s.serialGCode
  | Source.file => s.fileGCode

/-- Assignment through a `GCodeBuffer*`. -/
def setBuf (s : GCodes F) (src : Source) (gb : GCodeBuffer) : GCodes F :=
  match src with
  | Source.web => { s with webGCode := gb }
  | Source.serial => { s with serialGCode := gb }
  | Source.file => { s with fileGCode := gb }

/-- Modelled from the spec: `GCodeBuffer::Finished` and `SetFinished` are defined
in `GCodes.h`, which is not among the sources; they read and write the
`finished` flag of the buffer. -/
def SetFinished (src : Source) (f : Bool) (s : GCodes F) : GCodes F :=
  s.setBuf src { s.buf src with finished := f }

/-- Embeds `gb->Seen(c)`. -/
def Seen (src : Source) (c : Nat) (s : GCodes F) : Bool × GCodes F :=
  let r := (s.buf src).Seen c
  (r.1, s.setBuf src r.2)

/-- Embeds `gb->GetFValue()`. -/
def GetFValue (cfg : Config F) (src : Source) (s : GCodes F) : F × GCodes F :=
  let r := (s.buf src).GetFValue cfg.strtod 0.0
  (r.1, (s.setBuf src r.2.1).messages r.2.2)

/-- Embeds `gb->GetLValue()`. -/
def GetLValue (cfg : Config F) (src : Source) (s : GCodes F) : Int × GCodes F :=
  let r := (s.buf src).GetLValue cfg.strtol
  (r.1, (s.setBuf src r.2.1).messages r.2.2)

/-- Modelled from the spec: `GCodeBuffer::GetIValue` is defined in `GCodes.h`,
which is not among the sources; it is the integer read (`readInt`) of the
field the read cursor designates, taken here as `GetLValue` converted to `int`
(`int` and `long` have the same width on the target). -/
def GetIValue (cfg : Config F) (src : Source) (s : GCodes F) : Int × GCodes F :=
  GetLValue cfg src s

/-- Modelled from the spec: `GCodes::NoHome` is defined in `GCodes.h`, which is
not among the sources; it tells that no axis is requested for homing. -/
def NoHome (s : GCodes F) : Bool :=
  !(s.homeX || s.homeY || s.homeZ)

/-- Embeds `GCodes::Exit` (GCodes.cpp 34-37). -/
def Exit (s : GCodes F) : GCodes F :=
  { s with active := false }

/-- Embeds `GCodes::Init` (GCodes.cpp 39-70), on the object as it is before the call. -/
def Init (cfg : Config F) (env : Env F) (s : GCodes F) : GCodes F :=
  { s with
    webGCode := { s.webGCode.Init with finished := true }
    fileGCode := { s.fileGCode.Init with finished := true }
    serialGCode := { s.serialGCode.Init with finished := true }
    moveAvailable := false
    heatAvailable := false
    drivesRelative := true
    axesRelative := false
    checkEndStops := false
    gCodeLetters := cfg.GCODE_LETTERS
    distanceScale := 1.0
    lastPos := fun i => if i < DRIVES - AXES then 0.0 else s.lastPos i
    fileBeingPrinted := -1
    fileToPrint := -1
    homeX := false
    homeY := false
    homeZ := false
    homeXQueued := false
    homeYQueued := false
    homeZQueued := false
    dwellWaiting := false
    stackPointer := 0
    selectedHead := -1
    gFeedRate := cfg.MaxFeedrate Z_AXIS
    active := true
    dwellTime := env.time }

/-- Embeds `GCodes::AllMovesAreFinishedAndMoveBufferIsLoaded` (GCodes.cpp 133-152). -/
def AllMovesAreFinishedAndMoveBufferIsLoaded (env : Env F) (s : GCodes F) : Bool × GCodes F :=
  if s.moveAvailable then (false, s)
  else if !env.allMovesAreFinished then (false, s)
  else
    let s1 := emit Event.resumeMoving s
    let r := env.getCurrentState s1.moveBuffer
    let s2 := { s1 with moveBuffer := r.2 }
    if !r.1 then (false, s2) else (true, s2)

/-- Embeds `GCodes::Push` (GCodes.cpp 154-171). -/
def Push (cfg : Config F) (env : Env F) (s : GCodes F) : Bool × GCodes F :=
  if s.stackPointer ≥ (cfg.STACK : Int) then
    (true, message (Msg.str "Push(): stack overflow!\n") s)
  else
    let r := AllMovesAreFinishedAndMoveBufferIsLoaded env s
    if !r.1 then (false, r.2)
    else
      let s1 := r.2
      (true, { s1 with
        drivesRelativeStack := Function.update s1.drivesRelativeStack s1.stackPointer s1.drivesRelative
        axesRelativeStack := Function.update s1.axesRelativeStack s1.stackPointer s1.axesRelative
        feedrateStack := Function.update s1.feedrateStack s1.stackPointer s1.gFeedRate
        stackPointer := s1.stackPointer + 1 })

/-- The loop `for(i = AXES; i < DRIVES; i++) lastPos[i - AXES] = moveBuffer[i];`. -/
def rememberLastPos (s : GCodes F) : GCodes F :=
  (List.range' AXES (DRIVES - AXES)).foldl
    (fun t i => { t with lastPos := Function.update t.lastPos (i - AXES) (t.moveBuffer i) }) s

/-- Embeds `GCodes::Pop` (GCodes.cpp 173-202). -/
def Pop (env : Env F) (s : GCodes F) : Bool × GCodes F :=
  if s.stackPointer ≤ 0 then
    (true, message (Msg.str "Push(): stack underflow!\n") s)
  else
    let r := AllMovesAreFinishedAndMoveBufferIsLoaded env s
    if !r.1 then (false, r.2)
    else
      let s1 := r.2
      let s2 := { s1 with stackPointer := s1.stackPointer - 1 }
      let s3 := { s2 with
        drivesRelative := s2.drivesRelativeStack s2.stackPointer
        axesRelative := s2.axesRelativeStack s2.stackPointer }
      let s4 := rememberLastPos s3
      let s5 := { s4 with gFeedRate := s4.feedrateStack s4.stackPointer }
      let s6 := { s5 with moveBuffer := Function.update s5.moveBuffer DRIVES s5.gFeedRate }
      (true, { s6 with checkEndStops := false, moveAvailable := true })

/-- The body of the first loop of `SetUpMove`, for drive `i` (GCodes.cpp 225-243). -/
def setUpMoveDrive (cfg : Config F) (src : Source) (s : GCodes F) (i : Nat) : GCodes F :=
  if i < AXES then
    let r := Seen src (s.gCodeLetters i) s
    if r.1 then
      let v := GetFValue cfg src r.2
      if v.2.axesRelative then
        { v.2 with moveBuffer := Function.update v.2.moveBuffer i (v.2.moveBuffer i + v.1 * v.2.distanceScale) }
      else
        { v.2 with moveBuffer := Function.update v.2.moveBuffer i (v.1 * v.2.distanceScale) }
    else r.2
  else
    let r := Seen src (s.gCodeLetters i) s
    if r.1 then
      let v := GetFValue cfg src r.2
      if v.2.drivesRelative then
        { v.2 with moveBuffer := Function.update v.2.moveBuffer i (v.1 * v.2.distanceScale) }
      else
        { v.2 with moveBuffer :=
            Function.update v.2.moveBuffer i (v.1 * v.2.distanceScale - v.2.lastPos (i - AXES)) }
    else r.2

/-- The feed-rate step of `SetUpMove` (GCodes.cpp 248-251). -/
def setUpMoveFeedrate (cfg : Config F) (src : Source) (s : GCodes F) : GCodes F :=
  let r := Seen src (s.gCodeLetters DRIVES) s
  let s1 :=
    if r.1 then
      let v := GetFValue cfg src r.2
      { v.2 with gFeedRate := v.1 * v.2.distanceScale * 0.016666667 }
    else r.2
  { s1 with moveBuffer := Function.update s1.moveBuffer DRIVES s1.gFeedRate }

/-- Embeds `GCodes::SetUpMove` (GCodes.cpp 209-262). -/
def SetUpMove (cfg : Config F) (env : Env F) (src : Source) (s : GCodes F) : Bool × GCodes F :=
  if s.moveAvailable then (false, s)
  else
    let r := env.getCurrentState s.moveBuffer
    let s1 := { s with moveBuffer := r.2 }
    if !r.1 then (false, s1)
    else
      let s2 := (List.range DRIVES).foldl (setUpMoveDrive cfg src) s1
      let s3 := setUpMoveFeedrate cfg src s2
      let s4 := rememberLastPos s3
      (true, { s4 with checkEndStops := false, moveAvailable := true })

/-- Embeds `GCodes::ReadMove` (GCodes.cpp 266-276).  `m` and `ce` are the caller's
array and flag; the result carries them as the call leaves them. -/
def ReadMove (m : Nat → F) (ce : Bool) (s : GCodes F) : Bool × (Nat → F) × Bool × GCodes F :=
  if !s.moveAvailable then (false, m, ce, s)
  else
    let m1 := (List.range (DRIVES + 1)).foldl (fun a i => Function.update a i (s.moveBuffer i)) m
    (true, m1, s.checkEndStops, { s with moveAvailable := false, checkEndStops := false })

/-- One of the three blocks of `GCodes::DoHome` (GCodes.cpp 289-311, 313-333,
335-355), entered when the axis is requested: `queued` is the axis's Queued
flag, `clear` resets its two flags, `setQueued` sets the Queued flag. -/
def doHomeAxis (cfg : Config F) (env : Env F) (axis : Nat) (queued : Bool)
    (clear setQueued : GCodes F → GCodes F) (s : GCodes F) : Bool × GCodes F :=
  if queued then
    let r := Pop env s
    if !r.1 then (false, r.2)
    else
      let s1 := clear r.2
      (NoHome s1, s1)
  else
    let r := Push cfg env s
    if !r.1 then (false, r.2)
    else
      let s1 := r.2
      let s2 := { s1 with moveBuffer := Function.update s1.moveBuffer axis (-2.0 * cfg.AxisLength axis) }
      let s3 := { s2 with
        moveBuffer := Function.update s2.moveBuffer DRIVES (cfg.HomeFeedRate axis * 0.016666667) }
      (false, setQueued { s3 with checkEndStops := true, moveAvailable := true })

/-- Embeds `GCodes::DoHome` (GCodes.cpp 284-363). -/
def DoHome (cfg : Config F) (env : Env F) (s : GCodes F) : Bool × GCodes F :=
  if s.homeX then
    doHomeAxis cfg env X_AXIS s.homeXQueued
      (fun t => { t with homeX := false, homeXQueued := false })
      (fun t => { t with homeXQueued := true }) s
  else if s.homeY then
    doHomeAxis cfg env Y_AXIS s.homeYQueued
      (fun t => { t with homeY := false, homeYQueued := false })
      (fun t => { t with homeYQueued := true }) s
  else if s.homeZ then
    doHomeAxis cfg env Z_AXIS s.homeZQueued
      (fun t => { t with homeZ := false, homeZQueued := false })
      (fun t => { t with homeZQueued := true }) s
  else
    (true, { s with checkEndStops := false, moveAvailable := false })

/-- Embeds `GCodes::DoDwell` (GCodes.cpp 374-406). -/
def DoDwell (cfg : Config F) (env : Env F) (src : Source) (s : GCodes F) : Bool × GCodes F :=
  let r := Seen src 80 s
  if !r.1 then (true, r.2)
  else
    let v := GetLValue cfg src r.2
    let dwell : Nat := FloatOps.toUnsignedLong ((0.001 : F) * FloatOps.ofLong v.1)
    let s1 := v.2
    if !env.allMovesAreFinished then (false, s1)
    else if s1.dwellWaiting then
      if FloatOps.geZero (env.time - s1.dwellTime) then
        (true, emit Event.resumeMoving { s1 with dwellWaiting := false })
      else (false, s1)
    else
      (false, { s1 with dwellWaiting := true, dwellTime := env.time + FloatOps.ofUnsignedLong dwell })

/-- Embeds `GCodes::SetOffsets` (GCodes.cpp 408-422). -/
def SetOffsets (cfg : Config F) (src : Source) (s : GCodes F) : Bool × GCodes F :=
  let r := Seen src 80 s
  if r.1 then
    let v := GetIValue cfg src r.2
    let head : Int := toInt8 (v.1 + 1)
    let rR := Seen src 82 v.2
    let s1 :=
      if rR.1 then
        let t := GetFValue cfg src rR.2
        emit (Event.setStandbyTemperature head t.1) t.2
      else rR.2
    let rS := Seen src 83 s1
    let s2 :=
      if rS.1 then
        let t := GetFValue cfg src rS.2
        emit (Event.setActiveTemperature head t.1) t.2
      else rS.2
    (true, s2)
  else (true, r.2)

/-- The three `Message` calls that report an invalid code. -/
def invalidCode (text : String) (src : Source) (s : GCodes F) : GCodes F :=
  message (Msg.str "\n") (message (Msg.buf (cstr (s.buf src).gcodeBuffer)) (message (Msg.str text) s))

/-- The request part of `case 28` of `ActOnGcode` (GCodes.cpp 461-472). -/
def homeRequest (src : Source) (s : GCodes F) : GCodes F :=
  if NoHome s then
    let rx := Seen src (s.gCodeLetters X_AXIS) s
    let sx := { rx.2 with homeX := rx.1 }
    let ry := Seen src (sx.gCodeLetters Y_AXIS) sx
    let sy := { ry.2 with homeY := ry.1 }
    let rz := Seen src (sy.gCodeLetters Z_AXIS) sy
    let sz := { rz.2 with homeZ := rz.1 }
    if NoHome sz then { sz with homeX := true, homeY := true, homeZ := true } else sz
  else s

/-- The `switch` on a G code (GCodes.cpp 437-494). -/
def actOnG (cfg : Config F) (env : Env F) (src : Source) (code : Int) (s : GCodes F) :
    Bool × GCodes F :=
  if code = 0 ∨ code = 1 then SetUpMove cfg env src s
  else if code = 4 then DoDwell cfg env src s
  else if code = 10 then SetOffsets cfg src s
  else if code = 20 then (true, { s with distanceScale := cfg.INCH_TO_MM })
  else if code = 21 then (true, { s with distanceScale := 1.0 })
  else if code = 28 then DoHome cfg env (homeRequest src s)
  else if code = 90 then (true, { s with drivesRelative := false, axesRelative := false })
  else if code = 91 then (true, { s with drivesRelative := true, axesRelative := true })
  else if code = 92 then (true, message (Msg.str "Set position received\n") s)
  else (true, invalidCode "GCodes - invalid G Code: " src s)

/-- The `switch` on an M code (GCodes.cpp 501-587). -/
def actOnM (cfg : Config F) (env : Env F) (src : Source) (code : Int) (s : GCodes F) :
    Bool × GCodes F :=
  if code = 0 ∨ code = 1 then (true, message (Msg.str "Stop/sleep received\n") s)
  else if code = 18 then (true, message (Msg.str "Motors off received\n") s)
  else if code = 24 then (true, { s with fileBeingPrinted := s.fileToPrint, fileToPrint := -1 })
  else if code = 25 then (true, { s with fileToPrint := s.fileBeingPrinted, fileBeingPrinted := -1 })
  else if code = 82 then (true, { s with drivesRelative := false })
  else if code = 83 then (true, { s with drivesRelative := true })
  else if code = 106 then (true, message (Msg.str "Fan on received\n") s)
  else if code = 107 then (true, message (Msg.str "Fan off received\n") s)
  else if code = 116 then (true, message (Msg.str "Wait for all temperatures received\n") s)
  else if code = 111 then
    let r := Seen src 83 s
    if r.1 then
      let v := GetIValue cfg src r.2
      (true, emit (Event.setDebug v.1) v.2)
    else (true, r.2)
  else if code = 120 then Push cfg env s
  else if code = 121 then Pop env s
  else if code = 122 then (true, emit Event.diagnostics s)
  else if code = 126 then (true, message (Msg.str "M126 - valves not yet implemented\n") s)
  else if code = 127 then (true, message (Msg.str "M127 - valves not yet implemented\n") s)
  else if code = 140 then
    let r := Seen src 83 s
    if r.1 then
      let v := GetFValue cfg src r.2
      (true, emit (Event.activate 0) (emit (Event.setActiveTemperature 0 v.1) v.2))
    else (true, r.2)
  else if code = 141 then (true, message (Msg.str "M141 - heated chamber not yet implemented\n") s)
  else (true, invalidCode "GCodes - invalid M Code: " src s)

/-- The body of the first loop of the T branch (GCodes.cpp 600-601). -/
def standbyStep (t : GCodes F) (i : Nat) : GCodes F :=
  if t.selectedHead = (i : Int) - (AXES : Int) then emit (Event.standby (t.selectedHead + 1)) t
  else t

/-- The body of the second loop of the T branch (GCodes.cpp 605-610); the
first component is the local `ok`. -/
def activateStep (code : Int) (a : Bool × GCodes F) (i : Nat) : Bool × GCodes F :=
  if code = (i : Int) - (AXES : Int) then
    let s1 := { a.2 with selectedHead := code }
    (true, emit (Event.activate (s1.selectedHead + 1)) s1)
  else a

/-- The T branch of `ActOnGcode` (GCodes.cpp 593-620). -/
def actOnT (src : Source) (code : Int) (s : GCodes F) : Bool × GCodes F :=
  if code = s.selectedHead then (true, s)
  else
    let s1 := (List.range' AXES (DRIVES - AXES)).foldl standbyStep s
    let r := (List.range' AXES (DRIVES - AXES)).foldl (activateStep code) (false, s1)
    if !r.1 then (true, invalidCode "GCodes - invalid T Code: " src r.2)
    else (true, r.2)

/-- Embeds `GCodes::ActOnGcode` (GCodes.cpp 428-626), called on the buffer `src`. -/
def ActOnGcode (cfg : Config F) (env : Env F) (src : Source) (s : GCodes F) : Bool × GCodes F :=
  let g := Seen src 71 s
  if g.1 then
    let c := GetIValue cfg src g.2
    actOnG cfg env src c.1 c.2
  else
    let m := Seen src 77 g.2
    if m.1 then
      let c := GetIValue cfg src m.2
      actOnM cfg env src c.1 c.2
    else
      let t := Seen src 84 m.2
      if t.1 then
        let c := GetIValue cfg src t.2
        actOnT src c.1 c.2
      else (true, t.2)

/-- The statement `gb->SetFinished(ActOnGcode(gb))` of `Spin`. -/
def actAndStore (cfg : Config F) (env : Env F) (src : Source) (s : GCodes F) : GCodes F :=
  let r := ActOnGcode cfg env src (emit (Event.actOn src) s)
  SetFinished src r.1 r.2

/-- The statement `if(gb->Put(c)) gb->SetFinished(ActOnGcode(gb))` of `Spin`. -/
def putAndAct (cfg : Config F) (env : Env F) (src : Source) (c : Nat) (s : GCodes F) : GCodes F :=
  let r := (s.buf src).Put cfg.GCODE_LENGTH env.debug c
  let s1 := ((emit (Event.put src c) s).setBuf src r.2.1).messages r.2.2
  if r.1 then actAndStore cfg env src s1 else s1

/-- Embeds `GCodes::Spin` (GCodes.cpp 72-126). -/
def Spin (cfg : Config F) (env : Env F) (s : GCodes F) : GCodes F :=
  if !s.active then s
  else if !s.webGCode.finished then actAndStore cfg env Source.web s
  else if !s.serialGCode.finished then actAndStore cfg env Source.serial s
  else if !s.fileGCode.finished then actAndStore cfg env Source.file s
  else
    match env.web with
    | some c => putAndAct cfg env Source.web c (emit (Event.webRead c) s)
    | none =>
      match env.serial with
      | some b => putAndAct cfg env Source.serial b (emit (Event.serialRead b) s)
      | none =>
        if s.fileBeingPrinted ≥ 0 then
          match env.fileRead with
          | some b =>
            putAndAct cfg env Source.file b (emit (Event.fileRead s.fileBeingPrinted (some b)) s)
          | none =>
            let s1 := putAndAct cfg env Source.file 10
              (emit (Event.fileRead s.fileBeingPrinted none) s)
            { emit (Event.fileClose s1.fileBeingPrinted) s1 with fileBeingPrinted := -1 }
        else s

end GCodes

/-! ## Notions used to state the properties -/

/-- Events a command handler may produce: messages and calls to `Move`, `Heat`
and `reprap`; not the reading of a source, the feeding of a buffer or the
dispatch of a command, which only `Spin` does. -/
def Event.isHandlerEvent {F : Type} : Event F → Bool
  | Event.message _ => true
  | Event.resumeMoving => true
  | Event.setStandbyTemperature _ _ => true
  | Event.setActiveTemperature _ _ => true
  | Event.activate _ => true
  | Event.standby _ => true
  | Event.setDebug _ => true
  | Event.diagnostics => true
  | _ => false

/-- Events that take a byte from a source. -/
def Event.readsByte {F : Type} : Event F → Bool
  | Event.webRead _ => true
  | Event.serialRead _ => true
  | Event.fileRead _ (some _) => true
  | _ => false

/-- Events that feed a byte to a buffer. -/
def Event.isPut {F : Type} : Event F → Bool
  | Event.put _ _ => true
  | _ => false

/-- Events that dispatch a command. -/
def Event.isActOn {F : Type} : Event F → Bool
  | Event.actOn _ => true
  | _ => false

/-- Every buffer of `t` holds the text, the write cursor and the flags it has
in `s`; only the read cursors may differ. -/
def SameText {F : Type} (s t : GCodes F) : Prop :=
  ∀ src, (t.buf src).gcodeBuffer = (s.buf src).gcodeBuffer ∧
    (t.buf src).gcodePointer = (s.buf src).gcodePointer ∧
    (t.buf src).inComment = (s.buf src).inComment ∧
    (t.buf src).finished = (s.buf src).finished ∧
    (t.buf src).identity = (s.buf src).identity

/-- The calls `t` has made beyond those of `s` are handler events only, and no
byte was fed to a buffer. -/
def Quiet {F : Type} (s t : GCodes F) : Prop :=
  (∃ evs : List (Event F), t.log = s.log ++ evs ∧ ∀ e ∈ evs, e.isHandlerEvent = true) ∧
    SameText s t

/-- The handler made only handler calls and left the stack depth alone. -/
def Keeps {F : Type} (s t : GCodes F) : Prop :=
  Quiet s t ∧ t.stackPointer = s.stackPointer

/-- The stack depth is within its bounds. -/
def StackInv {F : Type} (cfg : Config F) (s : GCodes F) : Prop :=
  0 ≤ s.stackPointer ∧ s.stackPointer ≤ (cfg.STACK : Int)

/-- The handler made only handler calls and kept the stack depth within its
bounds. -/
def Bounded {F : Type} (cfg : Config F) (s t : GCodes F) : Prop :=
  Quiet s t ∧ (StackInv cfg s → StackInv cfg t)

/-- A change of state that leaves the operation stack (its depth and its
saved frames) alone; it may change everything else, as the commands and the
`ReadMove` calls between two stack operations do. -/
def StackPreserving {F : Type} (f : GCodes F → GCodes F) : Prop :=
  ∀ s, (f s).stackPointer = s.stackPointer ∧
    (f s).drivesRelativeStack = s.drivesRelativeStack ∧
    (f s).axesRelativeStack = s.axesRelativeStack ∧
    (f s).feedrateStack = s.feedrateStack

/-- A run of `Push` calls that each return true, each followed by a change of
state; `none` if some call returns false. -/
def pushes {F : Type} [FloatOps F] (cfg : Config F) :
    List (Env F × (GCodes F → GCodes F)) → GCodes F → Option (GCodes F)
  | [], s => some s
  | (env, f) :: rest, s =>
    if (GCodes.Push cfg env s).1 then pushes cfg rest (f (GCodes.Push cfg env s).2) else none

/-- A run of `Pop` calls that each return true, each preceded by a change of
state; `none` if some call returns false. -/
def pops {F : Type} [FloatOps F] :
    List ((GCodes F → GCodes F) × Env F) → GCodes F → Option (GCodes F)
  | [], s => some s
  | (f, env) :: rest, s =>
    if (GCodes.Pop env (f s)).1 then pops rest (GCodes.Pop env (f s)).2 else none

/-- The mode change of `G91`, as a change of state. -/
def setRelative {F : Type} (s : GCodes F) : GCodes F :=
  { s with drivesRelative := true, axesRelative := true }

/-- The consumer taking the pending request, as a change of state. -/
def takeMove {F : Type} [FloatOps F] (s : GCodes F) : GCodes F :=
  (GCodes.ReadMove (fun _ => s.gFeedRate) false s).2.2.2

/-- The members a gated stack operation must leave alone: `t` has the
`stackPointer`, the saved frames, `drivesRelative`, `axesRelative`, `gFeedRate`,
`lastPos`, `moveAvailable` and `checkEndStops` of `s`. -/
def Untouched {F : Type} (s t : GCodes F) : Prop :=
  t.stackPointer = s.stackPointer ∧
  t.drivesRelativeStack = s.drivesRelativeStack ∧
  t.axesRelativeStack = s.axesRelativeStack ∧
  t.feedrateStack = s.feedrateStack ∧
  t.drivesRelative = s.drivesRelative ∧
  t.axesRelative = s.axesRelative ∧
  t.gFeedRate = s.gFeedRate ∧
  t.lastPos = s.lastPos ∧
  t.moveAvailable = s.moveAvailable ∧
  t.checkEndStops = s.checkEndStops

/-- The completed line a buffer holds. -/
def GCodeBuffer.line (gb : GCodeBuffer) : List Nat :=
  cstr gb.gcodeBuffer

/-- The text that follows the first occurrence of the letter `c` in a line. -/
def textAfter (c : Nat) (line : List Nat) : List Nat :=
  (line.dropWhile (fun x => x != c)).tail

/-- What a field lookup or a value read leaves alone: `u` has the lines, the
letters, the modes, the scale, the feed rate, `lastPos` and `moveBuffer` of `t`. -/
def SameFields {F : Type} [FloatOps F] (t u : GCodes F) : Prop :=
  u.moveBuffer = t.moveBuffer ∧ u.gCodeLetters = t.gCodeLetters ∧
  u.axesRelative = t.axesRelative ∧ u.drivesRelative = t.drivesRelative ∧
  u.distanceScale = t.distanceScale ∧ u.lastPos = t.lastPos ∧ u.gFeedRate = t.gFeedRate ∧
  ∀ src, (u.buf src).line = (t.buf src).line

/-- The first unfinished buffer in the order web, serial, file. -/
def firstUnfinished {F : Type} (s : GCodes F) : Option Source :=
  if !s.webGCode.finished then some Source.web
  else if !s.serialGCode.finished then some Source.serial
  else if !s.fileGCode.finished then some Source.file
  else none

/-- The calls `t` has made beyond those of `s`. -/
def newEvents {F : Type} (s t : GCodes F) : List (Event F) :=
  t.log.drop s.log.length

/-- The byte-taking call `Spin` is due to make when every buffer is finished:
the web byte if there is one, else the serial byte if there is one, else the
next byte of the open job file if there is one. -/
def expectedRead {F : Type} (env : Env F) (s : GCodes F) : List (Event F) :=
  match env.web with
  | some c => [Event.webRead c]
  | none =>
    match env.serial with
    | some b => [Event.serialRead b]
    | none =>
      if s.fileBeingPrinted ≥ 0 then
        match env.fileRead with
        | some b => [Event.fileRead s.fileBeingPrinted (some b)]
        | none => []
      else []

/-- States reachable from `Init` by calls of the interpreter's operations, with
any answers of the other subsystems. -/
inductive Reachable {F : Type} [FloatOps F] (cfg : Config F) : GCodes F → Prop
  | init (env : Env F) (s : GCodes F) : Reachable cfg (GCodes.Init cfg env s)
  | push (env : Env F) (s : GCodes F) : Reachable cfg s → Reachable cfg (GCodes.Push cfg env s).2
  | pop (env : Env F) (s : GCodes F) : Reachable cfg s → Reachable cfg (GCodes.Pop env s).2
  | actOn (env : Env F) (src : Source) (s : GCodes F) :
      Reachable cfg s → Reachable cfg (GCodes.ActOnGcode cfg env src s).2
  | spin (env : Env F) (s : GCodes F) : Reachable cfg s → Reachable cfg (GCodes.Spin cfg env s)
  | readMove (m : Nat → F) (ce : Bool) (s : GCodes F) :
      Reachable cfg s → Reachable cfg (GCodes.ReadMove m ce s).2.2.2
  | exit (s : GCodes F) : Reachable cfg s → Reachable cfg (GCodes.Exit s)

/-! ## Concrete instances, for evaluating the definitions -/

/-- Exact rational arithmetic as an interpretation of the `float` operations;
the conversion to `unsigned long` truncates. -/
instance : FloatOps Rat where
  ofLong := fun z => (z : Rat)
  toUnsignedLong := fun q => (q.num / (q.den : Int)).toNat
  ofUnsignedLong := fun n => (n : Rat)
  geZero := fun q => decide (0 ≤ q.num)

/-- The C library's `isspace` in the C locale. -/
def isSpace (c : Nat) : Bool := c == 32 || (9 ≤ c && c ≤ 13)

/-- The value of a byte as a digit, letters counting from ten. -/
def digitVal (c : Nat) : Option Nat :=
  if 48 ≤ c ∧ c ≤ 57 then some (c - 48)
  else if 97 ≤ c ∧ c ≤ 122 then some (c - 87)
  else if 65 ≤ c ∧ c ≤ 90 then some (c - 55)
  else none

/-- The value of the longest run of digits of the given base at the head of
the text, continuing the accumulator. -/
def digitsValue (base : Nat) : List Nat → Nat → Nat
  | [], acc => acc
  | c :: cs, acc =>
    match digitVal c with
    | some d => if d < base then digitsValue base cs (acc * base + d) else acc
    | none => acc

/-- The digits accepted by `strtol` with base 0 after the sign: hexadecimal
after `0x`, octal after a leading `0`, decimal otherwise. -/
def strtolDigits : List Nat → Nat
  | 48 :: x :: h :: rest =>
    if (x = 120 ∨ x = 88) ∧ (digitVal h).any (fun d => d < 16) then digitsValue 16 (h :: rest) 0
    else digitsValue 8 (x :: h :: rest) 0
  | 48 :: rest => digitsValue 8 rest 0
  | t => digitsValue 10 t 0

/-- The number the text denotes for `strtol(text, NULL, 0)`, after the C
standard (7.22.1.4): white space, an optional sign and the digits of
`strtolDigits`. -/
def strtolNumber (t : List Nat) : Int :=
  match t.dropWhile isSpace with
  | 45 :: r => -(strtolDigits r : Int)
  | 43 :: r => (strtolDigits r : Int)
  | r => (strtolDigits r : Int)

/-- The C library's `strtol(text, NULL, 0)` where the largest `long` is
`longMax` and the smallest is `-longMax - 1`: the number the text denotes if a
`long` holds it, and otherwise `LONG_MAX` or `LONG_MIN`, according to its sign
(C standard 7.22.1.4, paragraph 8). -/
def strtolLong (longMax : Nat) (t : List Nat) : Int :=
  if (longMax : Int) < strtolNumber t then (longMax : Int)
  else if strtolNumber t < -(longMax : Int) - 1 then -(longMax : Int) - 1
  else strtolNumber t

/-- The largest `long` of the firmware's target, the Arduino Due of
`Platform.h`, an ARM whose `long` has 32 bits. -/
def LONG_MAX : Nat := 2147483647

/-- The C library's `strtol(text, NULL, 0)` on the firmware's target. -/
def strtol (t : List Nat) : Int := strtolLong LONG_MAX t

/-- The digits of the fraction of a decimal literal, given the text that
follows the digits before the point. -/
def fractionDigits : List Nat → List Nat
  | 46 :: r2 => r2.takeWhile (fun c => 48 ≤ c && c ≤ 57)
  | _ => []

/-- The value of an unsigned decimal literal at the head of the text. -/
def decimalBody (r : List Nat) : Rat :=
  let ip := r.takeWhile (fun c => 48 ≤ c && c ≤ 57)
  let fp := fractionDigits (r.dropWhile (fun c => 48 ≤ c && c ≤ 57))
  (digitsValue 10 (ip ++ fp) 0 : Rat) / (10 : Rat) ^ fp.length

/-- The number a plain decimal literal (optional sign, digits, optional
fraction) at the head of the text denotes, as an exact rational. It stands for
`strtod` where concrete runs are evaluated: `(float)strtod(text, 0)` is this
number when a `float` holds it exactly (12.5, 300), and the `float` nearest to
it otherwise. The general statements take `strtod` as a parameter. -/
def strtodDecimal (t : List Nat) : Rat :=
  match t.dropWhile isSpace with
  | 45 :: r => -(decimalBody r)
  | 43 :: r => decimalBody r
  | r => decimalBody r

/-- A configuration: the tables of `Platform.h`, with a line capacity of 100
bytes, a stack of 5 frames and the letters `XYZEF`. -/
def exampleConfig : Config Rat where
  GCODE_LENGTH := 100
  STACK := 5
  GCODE_LETTERS := fun i => [88, 89, 90, 69, 70].getD i 0
  INCH_TO_MM := 25.4
  MaxFeedrate := fun i => [300.0, 300.0, 3.0, 45.0].getD i 0
  AxisLength := fun i => [210, 200, 120].getD i 0
  HomeFeedRate := fun i => [50.0 * 60.0, 50.0 * 60.0, 1.0 * 60.0].getD i 0
  strtod := strtodDecimal
  strtol := strtol

/-- A tick on which no source has a byte, all moves are finished and `Move`
reports every position as zero. -/
def idleEnv : Env Rat where
  debug := false
  web := none
  serial := none
  fileRead := none
  allMovesAreFinished := true
  getCurrentState := fun _ => (true, fun _ => 0)
  time := 0

/-- A tick on which the web server delivers the byte `c`. -/
def webEnv (c : Nat) : Env Rat :=
  { idleEnv with web := some c }

/-- A tick on which `Move` still has moves queued. -/
def busyEnv : Env Rat :=
  { idleEnv with allMovesAreFinished := false }

/-- A command buffer as the constructor leaves it, the array zeroed. -/
def newBuffer (identity : String) (GCODE_LENGTH : Nat) : GCodeBuffer where
  identity := identity
  gcodeBuffer := List.replicate GCODE_LENGTH 0
  gcodePointer := 0
  readPointer := -1
  inComment := false
  finished := true

/-- The object the constructor `GCodes::GCodes` (GCodes.cpp 24-32) leaves,
the members it does not set zeroed. -/
def newGCodes : GCodes Rat where
  active := false
  webGCode := newBuffer "web: " 100
  fileGCode := newBuffer "file: " 100
  serialGCode := newBuffer "serial: " 100
  moveAvailable := false
  heatAvailable := false
  drivesRelative := false
  axesRelative := false
  checkEndStops := false
  gCodeLetters := fun _ => 0
  distanceScale := 0
  lastPos := fun _ => 0
  moveBuffer := fun _ => 0
  fileBeingPrinted := 0
  fileToPrint := 0
  homeX := false
  homeY := false
  homeZ := false
  homeXQueued := false
  homeYQueued := false
  homeZQueued := false
  dwellWaiting := false
  dwellTime := 0
  stackPointer := 0
  drivesRelativeStack := fun _ => false
  axesRelativeStack := fun _ => false
  feedrateStack := fun _ => 0
  selectedHead := 0
  gFeedRate := 0
  log := []

/-- The interpreter right after `Init`. -/
def initial : GCodes Rat :=
  GCodes.Init exampleConfig idleEnv newGCodes

/-- The interpreter after the web server has delivered the given bytes, one
per tick, all moves finished at each tick. -/
def afterWeb (bytes : List Nat) : GCodes Rat :=
  bytes.foldl (fun s c => GCodes.Spin exampleConfig (webEnv c) s) initial



/-! ## Further notions and instances, for the later properties -/

/-- The interpreter state without its transient parts: the read cursors of the
buffers are cleared and the record of calls is emptied. -/
def forget {F : Type} (s : GCodes F) : GCodes F :=
  { s with
    log := []
    webGCode := { s.webGCode with readPointer := -1 }
    serialGCode := { s.serialGCode with readPointer := -1 }
    fileGCode := { s.fileGCode with readPointer := -1 } }

/-- A tick at time `t` on which no source has a byte, all moves are finished
and `Move` reports every position as zero. -/
def timeEnv (t : Rat) : Env Rat :=
  { idleEnv with time := t }

/-- The interpreter together with a motion subsystem that takes every posted
request at the end of the tick that posts it and reports the target of the
last request it took as its last resolved state: `pos` is that state, `taken`
the requests handed over so far. -/
structure Machine where
  g : GCodes Rat
  pos : Nat → Rat
  taken : List (Nat → Rat)

/-- What the subsystems answer on a tick of the machine: the web server
delivers `web`, all moves are finished, `Move` reports `pos`. -/
def machineEnv (web : Option Nat) (pos : Nat → Rat) : Env Rat :=
  { idleEnv with web := web, getCurrentState := fun _ => (true, pos) }

/-- One tick of the machine: `Spin`, then `Move` calls `ReadMove`. -/
def Machine.tick (web : Option Nat) (w : Machine) : Machine :=
  let g1 := GCodes.Spin exampleConfig (machineEnv web w.pos) w.g
  let r := GCodes.ReadMove w.pos false g1
  if r.1 then { g := r.2.2.2, pos := r.2.1, taken := w.taken ++ [r.2.1] }
  else { w with g := g1 }

/-- The machine right after `Init`, `Move` at the origin. -/
def Machine.start : Machine :=
  { g := initial, pos := fun _ => 0, taken := [] }

/-- The web server delivers the given bytes, one per tick. -/
def Machine.feed (bytes : List Nat) (w : Machine) : Machine :=
  bytes.foldl (fun w c => w.tick (some c)) w

/-- The homing flags of the three axes: the requested flags `homeX`, `homeY`,
`homeZ`, then the queued flags `homeXQueued`, `homeYQueued`, `homeZQueued`. -/
def homeFlags {F : Type} (s : GCodes F) : (Bool × Bool × Bool) × (Bool × Bool × Bool) :=
  ((s.homeX, s.homeY, s.homeZ), (s.homeXQueued, s.homeYQueued, s.homeZQueued))

/-- The interpreter state a frame of the operation stack holds: `drivesRelative`,
`axesRelative` and `gFeedRate`. -/
def modes {F : Type} (s : GCodes F) : Bool × Bool × F :=
  (s.drivesRelative, s.axesRelative, s.gFeedRate)

/-- The frame saved at depth `k` of the operation stack. -/
def frameAt {F : Type} (s : GCodes F) (k : Int) : Bool × Bool × F :=
  (s.drivesRelativeStack k, s.axesRelativeStack k, s.feedrateStack k)

/-- The saved frames of the operation stack. -/
def frames {F : Type} (s : GCodes F) : (Int → Bool) × (Int → Bool) × (Int → F) :=
  (s.drivesRelativeStack, s.axesRelativeStack, s.feedrateStack)

/-- One command driven by repeated calls of `ActOnGcode`, as `Spin` does with an
unfinished command: before each call the consumer may take the pending move
(`true` in the first component), each call gets the answers of its own tick,
and the calls stop with the first one that returns true. The result lists, for
every call made, what it returned and the state it left. -/
def drive {F : Type} [FloatOps F] (cfg : Config F) (src : Source) :
    List (Bool × Env F) → GCodes F → List (Bool × GCodes F)
  | [], _ => []
  | (take, env) :: rest, s =>
    let r := GCodes.ActOnGcode cfg env src (if take then takeMove s else s)
    r :: (if r.1 then [] else drive cfg src rest r.2)

/-- The buffer of `src` holds a `G28` command: the line has a `G`, and the
number that follows the first `G` reads as 28. -/
def HomeCommand {F : Type} (cfg : Config F) (src : Source) (s : GCodes F) : Prop :=
  71 ∈ (s.buf src).line ∧ cfg.strtol (textAfter 71 (s.buf src).line) = 28

/-- The axes a `G28` line asks for: the axes whose letter is on the line, or all
three if none is. -/
def requestedAxes {F : Type} (src : Source) (s : GCodes F) : Bool × Bool × Bool :=
  let x := decide (s.gCodeLetters X_AXIS ∈ (s.buf src).line)
  let y := decide (s.gCodeLetters Y_AXIS ∈ (s.buf src).line)
  let z := decide (s.gCodeLetters Z_AXIS ∈ (s.buf src).line)
  if x || y || z then (x, y, z) else (true, true, true)

/-- The operation stack and the modes of `t` are those of `s`. -/
def SameView {F : Type} (s t : GCodes F) : Prop :=
  modes t = modes s ∧ t.stackPointer = s.stackPointer ∧ frames t = frames s

/-- What a `Push` that returned true has done to the stack of `s`: the modes are
kept, and either the modes of `s` were saved at depth `s.stackPointer` and the
depth is one more, or the stack was full and is left as it was. -/
def Pushed {F : Type} (cfg : Config F) (s t : GCodes F) : Prop :=
  modes t = modes s ∧
  ((s.stackPointer < (cfg.STACK : Int) ∧ t.stackPointer = s.stackPointer + 1 ∧
      frameAt t s.stackPointer = modes s) ∨
    (s.stackPointer ≥ (cfg.STACK : Int) ∧ t.stackPointer = s.stackPointer ∧ frames t = frames s))

/-- What a `Pop` that returned true has done to the stack of `s`: the frames are
kept, and either the depth is one less and the modes are those of the frame at
the new depth, or the stack was empty and depth and modes are left as they were. -/
def Popped {F : Type} (s t : GCodes F) : Prop :=
  frames t = frames s ∧
  ((0 < s.stackPointer ∧ t.stackPointer = s.stackPointer - 1 ∧
      modes t = frameAt s (s.stackPointer - 1)) ∨
    (s.stackPointer ≤ 0 ∧ t.stackPointer = s.stackPointer ∧ modes t = modes s))

/-- The state `case 28` of `ActOnGcode` hands to `DoHome`: the code number has
been read, then the request part has run. -/
def homeRequested {F : Type} [FloatOps F] (cfg : Config F) (src : Source) (s : GCodes F) :
    GCodes F :=
  GCodes.homeRequest src (GCodes.GetIValue cfg src (GCodes.Seen src 71 s).2).2

/-- The state after `Init` with the bytes of a line received in the web buffer,
not yet dispatched. -/
def withLine (bytes : List Nat) : GCodes Rat :=
  initial.setBuf Source.web (GCodeBuffer.putAll 100 false initial.webGCode bytes).2

/-- The homing flags in the successive phases of a homing of X and Z: X
requested (0), X queued (1), X done and Z requested (2), Z queued (3), nothing
requested (4 and beyond). -/
def xzPhase : Nat → (Bool × Bool × Bool) × (Bool × Bool × Bool)
  | 0 => ((true, false, true), (false, false, false))
  | 1 => ((true, false, true), (true, false, false))
  | 2 => ((false, false, true), (false, false, false))
  | 3 => ((false, false, true), (false, false, true))
  | _ => ((false, false, false), (false, false, false))

/-- Four ticks with all moves finished; the consumer takes the pending move
before the second, third and fourth call. -/
def homingTicks : List (Bool × Env Rat) :=
  [(false, idleEnv), (true, idleEnv), (true, idleEnv), (true, idleEnv)]

/-- The line `G28 X Z` received after `Init` and driven over `homingTicks`. -/
def homingRun : List (Bool × GCodes Rat) :=
  drive exampleConfig Source.web homingTicks (withLine [71, 50, 56, 32, 88, 32, 90, 10])

/-- Between two homing moves: no axis is queued, the stack has depth `k` and
the modes are `m`. -/
def HomingIdle {F : Type} (k : Int) (m : Bool × Bool × F) (t : GCodes F) : Prop :=
  (homeFlags t).2 = (false, false, false) ∧ t.stackPointer = k ∧ modes t = m

/-- During a homing move: the first requested axis, in the order X, Y, Z, is
the one axis queued, the stack has depth `k + 1` and its frame at depth `k`
holds the modes `m`. -/
def HomingBusy {F : Type} (k : Int) (m : Bool × Bool × F) (t : GCodes F) : Prop :=
  t.stackPointer = k + 1 ∧ frameAt t k = m ∧
  ((t.homeX = true ∧ (homeFlags t).2 = (true, false, false)) ∨
    (t.homeX = false ∧ t.homeY = true ∧ (homeFlags t).2 = (false, true, false)) ∨
    (t.homeX = false ∧ t.homeY = false ∧ t.homeZ = true ∧
      (homeFlags t).2 = (false, false, true)))

/-- The state `s` with the bytes of a line received in the web buffer, not yet
dispatched. -/
def lineOn (s : GCodes Rat) (bytes : List Nat) : GCodes Rat :=
  s.setBuf Source.web (GCodeBuffer.putAll 100 false s.webGCode bytes).2

/-- The state after five `M120` commands and `G91`, with the line `G28 X`
received. -/
def fullStackHome : GCodes Rat :=
  lineOn (afterWeb [77, 49, 50, 48, 10, 77, 49, 50, 48, 10, 77, 49, 50, 48, 10,
    77, 49, 50, 48, 10, 77, 49, 50, 48, 10, 71, 57, 49, 10]) [71, 50, 56, 32, 88, 10]

/-- The state after five `M120` commands and `G91`, with the bytes `G28 X`
received and the end of the line still to come. -/
def relativeAtFullStack : GCodes Rat :=
  afterWeb [77, 49, 50, 48, 10, 77, 49, 50, 48, 10, 77, 49, 50, 48, 10,
    77, 49, 50, 48, 10, 77, 49, 50, 48, 10, 71, 57, 49, 10, 71, 50, 56, 32, 88]

/-- The state after five `M120` commands and `G1 Z-240`, whose move nobody has
taken yet, with the bytes `G28 X Z` received and the end of the line still to
come. -/
def pendingZAtFullStack : GCodes Rat :=
  afterWeb [77, 49, 50, 48, 10, 77, 49, 50, 48, 10, 77, 49, 50, 48, 10,
    77, 49, 50, 48, 10, 77, 49, 50, 48, 10,
    71, 49, 32, 90, 45, 50, 52, 48, 10,
    71, 50, 56, 32, 88, 32, 90]

/-- The line of `fullStackHome` driven over two ticks with all moves finished,
the consumer taking the homing move before the second call. -/
def fullStackRun : List (Bool × GCodes Rat) :=
  drive exampleConfig Source.web [(false, idleEnv), (true, idleEnv)] fullStackHome

/-! ## Lines of fields, for the round trip of field values -/

/-- A decimal number as it is written on a line: a minus sign or none, the
digits before the point and the digits after it, most significant first. -/
structure Decimal where
  negative : Bool
  whole : List Nat
  fraction : List Nat

/-- The number a run of decimal digits denotes. -/
def digitsNat (l : List Nat) : Nat :=
  l.foldl (fun a d => a * 10 + d) 0

/-- The bytes of a decimal number; the point is written only if digits follow it. -/
def Decimal.text (d : Decimal) : List Nat :=
  (if d.negative then [45] else []) ++ d.whole.map (fun x => x + 48) ++
    (if d.fraction = [] then [] else 46 :: d.fraction.map (fun x => x + 48))

/-- The number a written decimal denotes. -/
def Decimal.value (d : Decimal) : Rat :=
  if d.negative then
    -((digitsNat (d.whole ++ d.fraction) : Rat) / (10 : Rat) ^ d.fraction.length)
  else (digitsNat (d.whole ++ d.fraction) : Rat) / (10 : Rat) ^ d.fraction.length

/-- A written decimal has a digit before the point, and its digits are digits. -/
def Decimal.WellFormed (d : Decimal) : Prop :=
  d.whole ≠ [] ∧ (∀ x ∈ d.whole, x < 10) ∧ (∀ x ∈ d.fraction, x < 10)

/-- A field of a line: the whitespace written before it, its letter and its
number. -/
structure Field where
  gap : List Nat
  letter : Nat
  number : Decimal

/-- The bytes of a field. -/
def Field.text (f : Field) : List Nat :=
  f.gap ++ f.letter :: f.number.text

/-- The bytes of a line of fields. -/
def lineText : List Field → List Nat
  | [] => []
  | f :: fs => f.text ++ lineText fs

/-- An ASCII letter. -/
def isLetter (c : Nat) : Bool := (65 ≤ c && c ≤ 90) || (97 ≤ c && c ≤ 122)

/-- A line of whitespace-separated fields with distinct letters: the letters
are letters and differ from one another, the numbers are written decimals, the
gaps are whitespace, and every field but the first has whitespace before it. -/
def WellFormedLine (fields : List Field) : Prop :=
  (fields.map Field.letter).Nodup ∧
  (∀ f ∈ fields, isLetter f.letter = true ∧ f.number.WellFormed ∧
    ∀ c ∈ f.gap, isSpace c = true) ∧
  (∀ f ∈ fields.tail, f.gap ≠ [])

/-- The line `G1 X12.5 F300` as fields. -/
def exampleLine : List Field :=
  [{ gap := [], letter := 71, number := { negative := false, whole := [1], fraction := [] } },
   { gap := [32], letter := 88, number := { negative := false, whole := [1, 2], fraction := [5] } },
   { gap := [32], letter := 70,
     number := { negative := false, whole := [3, 0, 0], fraction := [] } }]

/-- A buffer that has received the bytes of `G1 X12.5 F300` and the newline. -/
def exampleBuffer : GCodeBuffer :=
  (GCodeBuffer.putAll 100 false (newBuffer "web: " 100)
    [71, 49, 32, 88, 49, 50, 46, 53, 32, 70, 51, 48, 48, 10]).2

/-! ## Integer literals, for the reading of integer fields -/

/-- The number a run of digit values denotes in the given base, most
significant digit first. -/
def baseValue (base : Nat) (vs : List Nat) : Nat :=
  vs.foldl (fun a d => a * base + d) 0

/-- The digit values of a run of digit bytes. -/
def digitValues (bs : List Nat) : List Nat :=
  bs.filterMap digitVal

/-- A run of bytes that are digits of the given base. -/
def DigitsOf (base : Nat) (bs : List Nat) : Prop :=
  ∀ c ∈ bs, ∃ d, digitVal c = some d ∧ d < base

/-- The text that follows a number: empty, or starting with a byte that is not
a digit of the given base. -/
def EndsNumber (base : Nat) (suf : List Nat) : Prop :=
  ∀ c ∈ suf.head?, ∀ d, digitVal c = some d → base ≤ d

/-- A buffer holding the completed line `M08`. -/
def bufferM08 : GCodeBuffer :=
  (GCodeBuffer.putAll 100 false (newBuffer "web: " 100) [77, 48, 56, 10]).2

/-- A buffer holding the completed line `P99999999999999999999` (twenty
digits). -/
def bufferLongDigits : GCodeBuffer :=
  (GCodeBuffer.putAll 100 false (newBuffer "web: " 100)
    [80, 57, 57, 57, 57, 57, 57, 57, 57, 57, 57, 57, 57, 57, 57, 57, 57, 57, 57, 57, 57, 10]).2

/-- A buffer holding the completed line `G010 P0500 S0x1F T42`. -/
def bufferIntegers : GCodeBuffer :=
  (GCodeBuffer.putAll 100 false (newBuffer "web: " 100)
    [71, 48, 49, 48, 32, 80, 48, 53, 48, 48, 32, 83, 48, 120, 49, 70, 32, 84, 52, 50, 10]).2

/-- The state with the read cursor of the buffer `src` clear. -/
def cleared {F : Type} [FloatOps F] (src : Source) (s : GCodes F) : GCodes F :=
  s.setBuf src { s.buf src with readPointer := -1 }

/-- The G codes `ActOnGcode` handles. -/
def handledG : List Int := [0, 1, 4, 10, 20, 21, 28, 90, 91, 92]

/-- The M codes `ActOnGcode` handles. -/
def handledM : List Int :=
  [0, 1, 18, 24, 25, 82, 83, 106, 107, 116, 111, 120, 121, 122, 126, 127, 140, 141]

/-- The `Standby` call the T branch makes for the head selected so far: one
call, for heater `selectedHead + 1`, when `selectedHead` is the index of an
extruder drive, none otherwise. -/
def standbyCalls {F : Type} (s : GCodes F) : List (Event F) :=
  if 0 ≤ s.selectedHead ∧ s.selectedHead < (DRIVES : Int) - (AXES : Int) then
    [Event.standby (s.selectedHead + 1)]
  else []

/-- Embeds `GCodes::QueueFileToPrint` (GCodes.cpp 365-368); `handle` is what
`platform->OpenFile` returns. -/
def GCodes.QueueFileToPrint {F : Type} (handle : Int) (s : GCodes F) : GCodes F :=
  { s with fileToPrint := handle }

/-- A tick on which neither the web server nor the serial line has a byte and
the read of the job file gives the byte `c`, or reports the end of the file. -/
def fileEnv (c : Option Nat) : Env Rat :=
  { idleEnv with fileRead := c }

/-- The interpreter printing a job file whose bytes are `bytes` and that is at
its end: after `Init` the file with handle `first` is queued and started by
`M24` from the web server, then the file with handle `second` is queued, and
the bytes of the job file have been read, one per tick. -/
def atEndOfFile (first second : Int) (bytes : List Nat) : GCodes Rat :=
  bytes.foldl (fun s c => GCodes.Spin exampleConfig (fileEnv (some c)) s)
    (GCodes.QueueFileToPrint second
      ([77, 50, 52, 10].foldl (fun s c => GCodes.Spin exampleConfig (webEnv c) s)
        (GCodes.QueueFileToPrint first initial)))

/-! ## `Platform`: files and messages (`Platform.cpp`)

`Platform::Message` opens the message file through `OpenFile`, and `OpenFile`,
`GoToEnd` and `Write` report their failures through `Message`. The calls are
embedded with the nesting depth of `Message` as fuel: `Message` at depth 0
does not return a result. The name `CombineName` makes of a directory and a file
name is represented by the two; the constant `MESSAGE_FILE`, defined outside the
sources at hand, is a parameter. -/

/-- The number of file slots, `#define MAX_FILES 7`. -/
def MAX_FILES : Nat := 7

/-- The size of a file buffer, `#define FILE_BUF_LEN 256`. -/
def FILE_BUF_LEN : Nat := 256

/-- The message type `#define FLASH_LED 'F'`. -/
def FLASH_LED : Nat := 70

/-- The message type `#define HOST_MESSAGE 'H'`. -/
def HOST_MESSAGE : Nat := 72

/-- The bytes of a string literal. -/
def text (s : String) : List Nat :=
  s.toList.map Char.toNat

/-- How a call that may call `Platform::Message` ends: it returns, or the
calls of `Message` nest deeper than the fuel allows, or it indexes an array
outside its bounds. -/
inductive Outcome (α : Type) where
  | returns (a : α)
  | tooDeep
  | outOfBounds

/-- Sequencing of calls. -/
def Outcome.andThen {α β : Type} (r : Outcome α) (f : α → Outcome β) : Outcome β :=
  match r with
  | Outcome.returns a => f a
  | Outcome.tooDeep => Outcome.tooDeep
  | Outcome.outOfBounds => Outcome.outOfBounds

/-- Whether the call returned. -/
def Outcome.isReturn {α : Type} : Outcome α → Bool
  | Outcome.returns _ => true
  | _ => false

/-- Calls `Platform` makes on the SD card, on its files and on the serial line. -/
inductive FileCall where
  | sdOpen (slot : Nat) (directory fileName : List Nat) (write : Bool)
  | seekEnd (slot : Int)
  | fileWrite (slot : Int) (bytes : List Nat)
  | fileClose (slot : Int)
  | lineWrite (message : List Nat)
  deriving DecidableEq

/-- The members of `class Platform` that the file functions use: `inUse`, the
bytes held in each file buffer (`buf[file]` up to `bPointer[file]`), `webDir`,
the answer of `SD.exists`, and `calls`, the calls made so far. -/
structure Platform where
  inUse : Nat → Bool
  pending : Nat → List Nat
  webDir : List Nat
  sdExists : List Nat → List Nat → Bool
  calls : List FileCall

namespace Platform

/-- The read `inUse[file]`, inside the array only for `0 ≤ file < MAX_FILES`. -/
def inUseAt (p : Platform) (file : Int) : Outcome Bool :=
  if 0 ≤ file ∧ file < (MAX_FILES : Int) then Outcome.returns (p.inUse file.toNat)
  else Outcome.outOfBounds

/-- The first free slot, the loop of `OpenFile` (Platform.cpp 334-339). -/
def firstFree (p : Platform) : Option Nat :=
  (List.range MAX_FILES).find? (fun i => !p.inUse i)

/-- Embeds `Platform::OpenFile` (Platform.cpp 330-369); `message` is the call
`Message(HOST_MESSAGE, ...)`. -/
def OpenFile (message : Platform → List Nat → Outcome Platform) (p : Platform)
    (directory fileName : List Nat) (write : Bool) : Outcome (Int × Platform) :=
  match p.firstFree with
  | none =>
    (message p (text "Max open file count exceeded.\n")).andThen fun p1 =>
      Outcome.returns (-1, p1)
  | some r =>
    if !p.sdExists directory fileName && !write then
      (message p (text "File: ")).andThen fun p1 =>
      (message p1 fileName).andThen fun p2 =>
      (message p2 (text " not found for reading.\n")).andThen fun p3 =>
        Outcome.returns (-1, p3)
    else
      let p1 : Platform :=
        if write then
          { p with
            calls := p.calls ++ [FileCall.sdOpen r directory fileName true]
            pending := Function.update p.pending r []
            sdExists := fun d f => (d = directory ∧ f = fileName) || p.sdExists d f }
        else { p with calls := p.calls ++ [FileCall.sdOpen r directory fileName false] }
      Outcome.returns ((r : Int), { p1 with inUse := Function.update p1.inUse r true })

/-- Embeds `Platform::GoToEnd` (Platform.cpp 371-380). -/
def GoToEnd (message : Platform → List Nat → Outcome Platform) (p : Platform) (file : Int) :
    Outcome Platform :=
  (p.inUseAt file).andThen fun u =>
    if !u then message p (text "Attempt to seek on a non-open file.\n")
    else Outcome.returns { p with calls := p.calls ++ [FileCall.seekEnd file] }

/-- Embeds `Platform::Close` (Platform.cpp 392-399). -/
def Close (p : Platform) (file : Int) : Outcome Platform :=
  if 0 ≤ file ∧ file < (MAX_FILES : Int) then
    let p1 : Platform :=
      if (p.pending file.toNat).length ≠ 0 then
        { p with calls := p.calls ++ [FileCall.fileWrite file (p.pending file.toNat)] }
      else p
    Outcome.returns { p1 with
      pending := Function.update p1.pending file.toNat []
      calls := p1.calls ++ [FileCall.fileClose file]
      inUse := Function.update p1.inUse file.toNat false }
  else Outcome.outOfBounds

/-- Embeds `Platform::Write(int file, char b)` (Platform.cpp 415-430). -/
def WriteByte (message : Platform → List Nat → Outcome Platform) (p : Platform) (file : Int)
    (b : Nat) : Outcome Platform :=
  (p.inUseAt file).andThen fun u =>
    if !u then message p (text "Attempt to write byte to a non-open file.\n")
    else
      let q := p.pending file.toNat ++ [b]
      if q.length ≥ FILE_BUF_LEN then
        Outcome.returns { p with
          calls := p.calls ++ [FileCall.fileWrite file q]
          pending := Function.update p.pending file.toNat [] }
      else Outcome.returns { p with pending := Function.update p.pending file.toNat q }

/-- Embeds `Platform::Write(int file, char* b)` (Platform.cpp 432-444). -/
def WriteString (message : Platform → List Nat → Outcome Platform) (p : Platform) (file : Int)
    (b : List Nat) : Outcome Platform :=
  (p.inUseAt file).andThen fun u =>
    if !u then message p (text "Attempt to write string to a non-open file.\n")
    else
      (cstr b).foldl (fun r c => r.andThen fun q => WriteByte message q file c)
        (Outcome.returns p)

/-- The `default` branch of `Platform::Message` (Platform.cpp 464-468). -/
def messageBody (message : Platform → List Nat → Outcome Platform) (messageFile : List Nat)
    (p : Platform) (m : List Nat) : Outcome Platform :=
  (OpenFile message p p.webDir messageFile true).andThen fun r =>
  (GoToEnd message r.2 r.1).andThen fun p2 =>
  (WriteString message p2 r.1 m).andThen fun p3 =>
    Close { p3 with calls := p3.calls ++ [FileCall.lineWrite (cstr m)] } r.1

/-- Embeds `Platform::Message` (Platform.cpp 448-471), with the depth to which
its calls may nest as fuel. -/
def Message (messageFile : List Nat) : Nat → Platform → Nat → List Nat → Outcome Platform
  | 0, _, _, _ => Outcome.tooDeep
  | n + 1, p, type, m =>
    if type = FLASH_LED then Outcome.returns p
    else messageBody (fun q t => Message messageFile n q HOST_MESSAGE t) messageFile p m

end Platform

/-- A platform with all its file slots in use. -/
def fullPlatform : Platform where
  inUse := fun _ => true
  pending := fun _ => []
  webDir := text "www/"
  sdExists := fun _ _ => true
  calls := []

/-- A platform with no file open, as `Platform::Init` leaves it. -/
def freshPlatform : Platform where
  inUse := fun _ => false
  pending := fun _ => []
  webDir := text "www/"
  sdExists := fun _ _ => false
  calls := []

/-- Opens the named files of the web directory for writing, one after the other. -/
def openFiles (messageFile : List Nat) (p : Platform) (names : List (List Nat)) :
    Outcome Platform :=
  names.foldl
    (fun r f => r.andThen fun q =>
      (Platform.OpenFile (fun q1 t => Platform.Message messageFile 1 q1 HOST_MESSAGE t)
        q q.webDir f true).andThen fun x => Outcome.returns x.2)
    (Outcome.returns p)

/-- Seven file names, `"1"` to `"7"`. -/
def sevenNames : List (List Nat) := [[49], [50], [51], [52], [53], [54], [55]]

/-- The state after five `M120` commands and `G1 X10 Y5`, whose move nobody has
taken yet, with the bytes `G28 X` received and the end of the line still to come. -/
def pendingAtFullStack : GCodes Rat :=
  afterWeb [77, 49, 50, 48, 10, 77, 49, 50, 48, 10, 77, 49, 50, 48, 10,
    77, 49, 50, 48, 10, 77, 49, 50, 48, 10,
    71, 49, 32, 88, 49, 48, 32, 89, 53, 10,
    71, 50, 56, 32, 88]

/-- The first requested axis in the order X, Y, Z, the one `DoHome` works on. -/
def firstRequested {F : Type} (s : GCodes F) : Option Nat :=
  if s.homeX then some X_AXIS
  else if s.homeY then some Y_AXIS
  else if s.homeZ then some Z_AXIS
  else none

/-- The Queued flag of an axis. -/
def queuedAt {F : Type} (s : GCodes F) (a : Nat) : Bool :=
  if a = X_AXIS then s.homeXQueued
  else if a = Y_AXIS then s.homeYQueued
  else if a = Z_AXIS then s.homeZQueued
  else false

/-- The state in which `case 28` calls `DoHome` for the line `G28 Y`, after the
move of `G1 X10 Y5` has been taken by the consumer: Y is requested, the stack
is empty and `moveBuffer` still holds the fields of the move taken. -/
def homeYRequest : GCodes Rat :=
  GCodes.homeRequest Source.web
    (lineOn (takeMove (afterWeb [71, 49, 32, 88, 49, 48, 32, 89, 53, 10]))
      [71, 50, 56, 32, 89, 10])

/-- The state in which `case 28` calls `DoHome` for the line `G28 X`, after
five `M120` commands and `G1 X10 Y5`, whose move nobody has taken yet: X is
requested and the stack is full. -/
def homeXRequestAtFullStack : GCodes Rat :=
  GCodes.homeRequest Source.web
    (lineOn (afterWeb [77, 49, 50, 48, 10, 77, 49, 50, 48, 10, 77, 49, 50, 48, 10,
      77, 49, 50, 48, 10, 77, 49, 50, 48, 10,
      71, 49, 32, 88, 49, 48, 32, 89, 53, 10]) [71, 50, 56, 32, 88, 10])

/-- The homing flags agree with the discipline of `DoHome`: no axis is Queued,
or the one Queued axis is the first requested one in the order X, Y, Z. -/
def homingOK : (Bool × Bool × Bool) × (Bool × Bool × Bool) → Bool
  | ((x, y, z), (xq, yq, zq)) =>
    (!xq && !yq && !zq) || (x && xq && !yq && !zq) || (!x && y && !xq && yq && !zq) ||
      (!x && !y && z && !xq && !yq && zq)

/-- The homing flags of the state agree with the discipline of `DoHome`. -/
def HomingInv {F : Type} (s : GCodes F) : Prop :=
  homingOK (homeFlags s) = true

/-- The homing flags of `t` are those of `s`. -/
@[reducible] def SameHome {F : Type} (s t : GCodes F) : Prop :=
  homeFlags t = homeFlags s

/-- The state after `M120` and `G91`: one frame on the stack, holding the modes
and the feed rate of before `G91`. -/
def oneFrame : GCodes Rat :=
  afterWeb [77, 49, 50, 48, 10, 71, 57, 49, 10]

/-- A tick on which no source has a byte, all moves are finished and `Move`
reports the positions 7, 8, 9 and the drive entry 2. -/
def reportEnv : Env Rat :=
  machineEnv none (fun i => [7, 8, 9, 2].getD i 0)

/-- Bytes that neither end a line nor start a comment: no newline, no NUL and
no `;`. -/
def Plain (bs : List Nat) : Prop :=
  ∀ c ∈ bs, c ≠ 10 ∧ c ≠ 0 ∧ c ≠ 59

/-- A run of 103 bytes for a buffer of 100: a hundred times `A`, then `G91`. -/
def overlongLine : List Nat :=
  List.replicate 100 65 ++ [71, 57, 49]

/-- The interpreter after the web server has delivered the given bytes to the
state `s`, one per tick, all moves finished at each tick. -/
def webFrom (s : GCodes Rat) (bytes : List Nat) : GCodes Rat :=
  bytes.foldl (fun t c => GCodes.Spin exampleConfig (webEnv c) t) s

/-- The state after `Init` with the open file of handle 3 queued for printing. -/
def printQueued : GCodes Rat :=
  GCodes.QueueFileToPrint 3 initial

/-- The state `printQueued` with the line `M24` received, not yet dispatched. -/
def printStart : GCodes Rat :=
  lineOn printQueued [77, 50, 52, 10]

/-- The state the dispatch of `M24` leaves from `printStart`, with the line
`M25` received, not yet dispatched. -/
def printPause : GCodes Rat :=
  lineOn (GCodes.ActOnGcode exampleConfig idleEnv Source.web printStart).2 [77, 50, 53, 10]

/-- At most one command in flight: of two different buffers, one at least is
finished. -/
def OneInFlight {F : Type} (s : GCodes F) : Prop :=
  ∀ a b : Source, a ≠ b → (s.buf a).finished = false → (s.buf b).finished = true

/-- Every buffer other than `src` is finished. -/
def OthersFinished {F : Type} (src : Source) (s : GCodes F) : Prop :=
  ∀ b : Source, b ≠ src → (s.buf b).finished = true

/-- The unfinished buffers. -/
def unfinished {F : Type} (s : GCodes F) : List Source :=
  [Source.web, Source.serial, Source.file].filter (fun a => !(s.buf a).finished)

/-- The block of `GCodes::DoHome` for the axis `a` (GCodes.cpp 289-311 for X,
313-333 for Y, 335-355 for Z). -/
def homeAxisBlock {F : Type} [FloatOps F] (cfg : Config F) (env : Env F) (a : Nat)
    (s : GCodes F) : Bool × GCodes F :=
  if a = X_AXIS then
    GCodes.doHomeAxis cfg env X_AXIS s.homeXQueued
      (fun t => { t with homeX := false, homeXQueued := false })
      (fun t => { t with homeXQueued := true }) s
  else if a = Y_AXIS then
    GCodes.doHomeAxis cfg env Y_AXIS s.homeYQueued
      (fun t => { t with homeY := false, homeYQueued := false })
      (fun t => { t with homeYQueued := true }) s
  else
    GCodes.doHomeAxis cfg env Z_AXIS s.homeZQueued
      (fun t => { t with homeZ := false, homeZQueued := false })
      (fun t => { t with homeZQueued := true }) s

/-- The state in which the homing move of `G28 X` has been taken by the
consumer, the line `G28 X` still unfinished in the web buffer. -/
def homingXTaken : GCodes Rat :=
  takeMove (afterWeb [71, 50, 56, 32, 88, 10])

/-- States reachable from `Init` by calls of `Spin`, the consumer calling
`ReadMove` in between, with any answers of the other subsystems. -/
inductive SpinReachable {F : Type} [FloatOps F] (cfg : Config F) : GCodes F → Prop
  | init (env : Env F) (s : GCodes F) : SpinReachable cfg (GCodes.Init cfg env s)
  | spin (env : Env F) (s : GCodes F) :
      SpinReachable cfg s → SpinReachable cfg (GCodes.Spin cfg env s)
  | readMove (m : Nat → F) (ce : Bool) (s : GCodes F) :
      SpinReachable cfg s → SpinReachable cfg (GCodes.ReadMove m ce s).2.2.2

/-- Some axis is Queued. -/
def anyQueued {F : Type} (s : GCodes F) : Bool :=
  s.homeXQueued || s.homeYQueued || s.homeZQueued

/-- A homing under way belongs to a command in flight: while an axis is
requested, a buffer is unfinished and holds a `G28` command, and while an axis
is Queued the operation stack is not empty. -/
def HomingInFlight {F : Type} (cfg : Config F) (s : GCodes F) : Prop :=
  (GCodes.NoHome s = false → ∃ src, (s.buf src).finished = false ∧ HomeCommand cfg src s) ∧
  (anyQueued s = true → 0 < s.stackPointer)

/-- The discipline of the homing flags, the bounds of the stack, one command
in flight, and a homing under way belonging to the command in flight. -/
def Discipline {F : Type} (cfg : Config F) (s : GCodes F) : Prop :=
  HomingInv s ∧ StackInv cfg s ∧ OneInFlight s ∧ HomingInFlight cfg s

namespace GCodeBuffer

theorem cstr_set_zero (l : List Nat) (p : Nat) (hp : p < l.length)
    (hnz : ∀ x ∈ l.take p, x ≠ 0) : cstr (l.set p 0) = l.take p := by
  induction l generalizing p with
  | nil => simp at hp
  | cons a t ih =>
    cases p with
    | zero => simp [cstr]
    | succ q =>
      have ha : a ≠ 0 := hnz a (by simp)
      have hq : q < t.length := by simpa using hp
      have ht : ∀ x ∈ t.take q, x ≠ 0 := fun x hx => hnz x (by simp [hx])
      have := ih q hq ht
      simp only [cstr] at this ⊢
      simp [List.takeWhile_cons, ha, this]

theorem putAll_append (L : Nat) (d : Bool) (gb : GCodeBuffer) (a b : List Nat) :
    putAll L d gb (a ++ b) =
      ((putAll L d gb a).1 ++ (putAll L d (putAll L d gb a).2 b).1,
        (putAll L d (putAll L d gb a).2 b).2) := by
  induction a generalizing gb with
  | nil => simp [putAll]
  | cons c cs ih => simp [putAll, ih]

theorem put_in_comment (L : Nat) (d : Bool) (gb : GCodeBuffer) (c : Nat)
    (hc : gb.inComment = true) (hp : gb.gcodePointer < L) (h10 : c ≠ 10) (h0 : c ≠ 0) :
    Put L d gb c = (false, { gb with gcodeBuffer := gb.gcodeBuffer.set gb.gcodePointer c }, []) := by
  cases gb with
  | mk idn b p rp ic fin =>
    simp only at hc hp
    subst hc
    by_cases h59 : c = 59
    · subst h59
      simp [Put, Nat.not_le.mpr hp]
    · simp [Put, h59, h10, h0, Nat.not_le.mpr hp]

theorem put_plain (L : Nat) (d : Bool) (gb : GCodeBuffer) (c : Nat)
    (hc : gb.inComment = false) (hp : gb.gcodePointer + 1 < L)
    (h10 : c ≠ 10) (h0 : c ≠ 0) (h59 : c ≠ 59) :
    Put L d gb c = (false, { gb with gcodeBuffer := gb.gcodeBuffer.set gb.gcodePointer c,
                                     gcodePointer := gb.gcodePointer + 1 }, []) := by
  cases gb with
  | mk idn b p rp ic fin =>
    simp only at hc hp
    subst hc
    simp [Put, h59, h10, h0, Nat.not_le.mpr hp]

theorem put_semicolon (L : Nat) (d : Bool) (gb : GCodeBuffer)
    (hp : gb.gcodePointer < L) :
    Put L d gb 59 = (false, { gb with gcodeBuffer := gb.gcodeBuffer.set gb.gcodePointer 59,
                                      inComment := true }, []) := by
  cases gb with
  | mk idn b p rp ic fin =>
    simp only at hp
    simp [Put, Nat.not_le.mpr hp]


theorem take_set_self (l : List Nat) (p c : Nat) : (l.set p c).take p = l.take p := by
  induction l generalizing p with
  | nil => simp
  | cons a t ih =>
    cases p with
    | zero => simp
    | succ q => simp [ih]

theorem take_succ_set (l : List Nat) (p c : Nat) (h : p < l.length) :
    (l.set p c).take (p + 1) = l.take p ++ [c] := by
  induction l generalizing p with
  | nil => simp at h
  | cons a t ih =>
    cases p with
    | zero => simp
    | succ q =>
      have hq : q < t.length := by simpa using h
      simp [ih q hq]

theorem comment_run (L : Nat) (d : Bool) (s : List Nat) :
    ∀ gb : GCodeBuffer, gb.inComment = true → gb.gcodePointer < L →
      (∀ c ∈ s, c ≠ 10) → (∀ c ∈ s, c ≠ 0) →
      (putAll L d gb s).1 = List.replicate s.length false ∧
      (putAll L d gb s).2.gcodePointer = gb.gcodePointer ∧
      (putAll L d gb s).2.gcodeBuffer.length = gb.gcodeBuffer.length ∧
      (putAll L d gb s).2.gcodeBuffer.take gb.gcodePointer = gb.gcodeBuffer.take gb.gcodePointer := by
  induction s with
  | nil => intro gb _ _ _ _; simp [putAll]
  | cons c cs ih =>
    intro gb hc hp h10 h0
    have hput := put_in_comment L d gb c hc hp (h10 c (by simp)) (h0 c (by simp))
    have := ih { gb with gcodeBuffer := gb.gcodeBuffer.set gb.gcodePointer c } hc hp
      (fun x hx => h10 x (by simp [hx])) (fun x hx => h0 x (by simp [hx]))
    simp only [putAll, hput]
    obtain ⟨h1, h2, h3, h4⟩ := this
    refine ⟨?_, ?_, ?_, ?_⟩
    · simp [h1, List.replicate_succ]
    · simpa using h2
    · simpa using h3
    · simpa [take_set_self] using h4

theorem plain_run (L : Nat) (d : Bool) (s : List Nat) :
    ∀ gb : GCodeBuffer, gb.inComment = false →
      gb.gcodePointer + (s.takeWhile (fun x => x != 59)).length < L →
      gb.gcodeBuffer.length = L →
      (∀ c ∈ s, c ≠ 10) → (∀ c ∈ s, c ≠ 0) →
      (putAll L d gb s).1 = List.replicate s.length false ∧
      (putAll L d gb s).2.gcodePointer
        = gb.gcodePointer + (s.takeWhile (fun x => x != 59)).length ∧
      (putAll L d gb s).2.gcodeBuffer.length = L ∧
      (putAll L d gb s).2.gcodeBuffer.take
          (gb.gcodePointer + (s.takeWhile (fun x => x != 59)).length)
        = gb.gcodeBuffer.take gb.gcodePointer ++ s.takeWhile (fun x => x != 59) := by
  induction s with
  | nil => intro gb _ _ hl _ _; simp [putAll, hl]
  | cons c cs ih =>
    intro gb hc hp hl h10 h0
    have c10 := h10 c (by simp)
    have c0 := h0 c (by simp)
    have t10 : ∀ x ∈ cs, x ≠ 10 := fun x hx => h10 x (by simp [hx])
    have t0 : ∀ x ∈ cs, x ≠ 0 := fun x hx => h0 x (by simp [hx])
    by_cases h59 : c = 59
    · subst h59
      have hp' : gb.gcodePointer < L := by simpa using hp
      have hput := put_semicolon L d gb hp'
      have := comment_run L d cs
        { gb with gcodeBuffer := gb.gcodeBuffer.set gb.gcodePointer 59, inComment := true }
        rfl hp' t10 t0
      obtain ⟨h1, h2, h3, h4⟩ := this
      simp only [putAll, hput]
      refine ⟨?_, ?_, ?_, ?_⟩
      · simp [h1, List.replicate_succ]
      · simpa using h2
      · simpa [hl] using h3
      · simpa [take_set_self] using h4
    · have htw : (c :: cs).takeWhile (fun x => x != 59)
          = c :: cs.takeWhile (fun x => x != 59) := by
        simp [List.takeWhile_cons, h59]
      rw [htw] at hp ⊢
      simp only [List.length_cons] at hp ⊢
      have hput := put_plain L d gb c hc (by omega) c10 c0 h59
      have := ih { gb with gcodeBuffer := gb.gcodeBuffer.set gb.gcodePointer c,
                           gcodePointer := gb.gcodePointer + 1 }
        hc (by simp only; omega) (by simpa using hl) t10 t0
      obtain ⟨h1, h2, h3, h4⟩ := this
      simp only [putAll, hput]
      refine ⟨?_, ?_, ?_, ?_⟩
      · simp [h1, List.replicate_succ]
      · simp only at h2; rw [h2]; omega
      · simpa using h3
      · simp only at h4
        have e : gb.gcodePointer + ((cs.takeWhile (fun x => x != 59)).length + 1)
            = gb.gcodePointer + 1 + (cs.takeWhile (fun x => x != 59)).length := by omega
        rw [e, h4]
        have hlt : gb.gcodePointer < gb.gcodeBuffer.length := by omega
        simp only [take_succ_set _ _ _ hlt, List.append_assoc, List.singleton_append]
end GCodeBuffer

/-- C1 (as amended): for every byte sequence `s` with no newline and no NUL
whose non-comment prefix (the bytes before its first `;`) is shorter than
`GCODE_LENGTH`, feeding `s` and then a newline to `Put` on a freshly
initialised buffer makes `Put` return true exactly once, on the newline, and
the line then held in the buffer is the non-comment prefix of `s`. -/
theorem C1_put_completes_line (GCODE_LENGTH : Nat) (debug : Bool)
    (gb : GCodeBuffer) (s : List Nat)
    (hlen : gb.gcodeBuffer.length = GCODE_LENGTH)
    (hnl : ∀ c ∈ s, c ≠ 10) (hnul : ∀ c ∈ s, c ≠ 0)
    (hfit : (s.takeWhile (fun x => x != 59)).length < GCODE_LENGTH) :
    (GCodeBuffer.putAll GCODE_LENGTH debug gb.Init (s ++ [10])).1
        = List.replicate s.length false ++ [true] ∧
      cstr (GCodeBuffer.putAll GCODE_LENGTH debug gb.Init (s ++ [10])).2.gcodeBuffer
        = s.takeWhile (fun x => x != 59) := by
  have key := GCodeBuffer.plain_run GCODE_LENGTH debug s gb.Init rfl
    (by simpa [GCodeBuffer.Init] using hfit) (by simpa [GCodeBuffer.Init] using hlen) hnl hnul
  rw [GCodeBuffer.putAll_append]
  generalize GCodeBuffer.putAll GCODE_LENGTH debug gb.Init s = r at key ⊢
  obtain ⟨res, g⟩ := r
  obtain ⟨idn, b, p, rp, ic, fin⟩ := g
  simp only [GCodeBuffer.Init, Nat.zero_add, List.take_zero, List.nil_append] at key
  obtain ⟨h1, h2, h3, h4⟩ := key
  subst h1 h2
  have hpos : 0 < GCODE_LENGTH := by omega
  have hnz : ∀ x ∈ b.take (s.takeWhile (fun x => x != 59)).length, x ≠ 0 := by
    intro x hx
    rw [h4] at hx
    exact hnul x ((List.takeWhile_sublist _).subset hx)
  have hlt : (s.takeWhile (fun x => x != 59)).length < b.length := by omega
  have hc := GCodeBuffer.cstr_set_zero b _ hlt hnz
  constructor
  · simp [GCodeBuffer.putAll, GCodeBuffer.Put, GCodeBuffer.Init, Nat.not_le.mpr hpos]
  · simp [GCodeBuffer.putAll, GCodeBuffer.Put, GCodeBuffer.Init, Nat.not_le.mpr hpos, hc, h4]

/-- C1, witness: the line `G1 X1;ab` fed to a buffer of capacity 8. -/
theorem C1_put_completes_line_witness :
    (GCodeBuffer.putAll 8 false
        (GCodeBuffer.Init ⟨"serial: ", [0, 0, 0, 0, 0, 0, 0, 0], 0, -1, false, true⟩)
        ([71, 49, 32, 88, 49, 59, 97, 98] ++ [10])).1
        = List.replicate 8 false ++ [true] ∧
      cstr (GCodeBuffer.putAll 8 false
        (GCodeBuffer.Init ⟨"serial: ", [0, 0, 0, 0, 0, 0, 0, 0], 0, -1, false, true⟩)
        ([71, 49, 32, 88, 49, 59, 97, 98] ++ [10])).2.gcodeBuffer
        = [71, 49, 32, 88, 49] :=
  C1_put_completes_line 8 false
    ⟨"serial: ", [0, 0, 0, 0, 0, 0, 0, 0], 0, -1, false, true⟩
    [71, 49, 32, 88, 49, 59, 97, 98] (by decide) (by decide) (by decide) (by decide)

/-- C1, counterexample: with capacity 4, the four bytes `G1X1` contain no
newline and are not longer than the capacity, yet the line completed by the
newline is empty; and the single byte NUL, which is no newline, already makes
`Put` return true, so that `Put` returns true twice. -/
theorem C1_capacity_counterexample :
    (∀ c ∈ [71, 49, 88, 49], c ≠ 10) ∧ [71, 49, 88, 49].length ≤ 4 ∧
      cstr (GCodeBuffer.putAll 4 false
        (GCodeBuffer.Init ⟨"serial: ", [0, 0, 0, 0], 0, -1, false, true⟩)
        ([71, 49, 88, 49] ++ [10])).2.gcodeBuffer = [] ∧
      [71, 49, 88, 49].takeWhile (fun x => x != 59) ≠ [] ∧
      (∀ c ∈ [0], c ≠ 10) ∧ [0].length ≤ 4 ∧
      (GCodeBuffer.putAll 4 false
        (GCodeBuffer.Init ⟨"serial: ", [0, 0, 0, 0], 0, -1, false, true⟩)
        ([0] ++ [10])).1 = [true, true] := by
  decide


/-- C2: while a move request is pending (`moveAvailable` true), `SetUpMove` on
any command returns false and leaves `moveBuffer`, `checkEndStops`,
`gFeedRate` and `lastPos` (indeed the whole state) as they were. -/
theorem C2_setUpMove_rejected_while_pending {F : Type} [FloatOps F] (cfg : Config F) (env : Env F) (src : Source)
    (s : GCodes F) (h : s.moveAvailable = true) :
    (GCodes.SetUpMove cfg env src s).1 = false ∧
      (GCodes.SetUpMove cfg env src s).2.moveBuffer = s.moveBuffer ∧
      (GCodes.SetUpMove cfg env src s).2.checkEndStops = s.checkEndStops ∧
      (GCodes.SetUpMove cfg env src s).2.gFeedRate = s.gFeedRate ∧
      (GCodes.SetUpMove cfg env src s).2.lastPos = s.lastPos ∧
      (GCodes.SetUpMove cfg env src s).2 = s := by
  simp [GCodes.SetUpMove, h]

/-- C2, witness: the state right after the move `G1 X10` was set up. -/
theorem C2_setUpMove_rejected_while_pending_witness :
    (afterWeb [71, 49, 32, 88, 49, 48, 10]).moveAvailable = true ∧
      ((GCodes.SetUpMove exampleConfig idleEnv Source.web
          (afterWeb [71, 49, 32, 88, 49, 48, 10])).1 = false ∧
        (GCodes.SetUpMove exampleConfig idleEnv Source.web
          (afterWeb [71, 49, 32, 88, 49, 48, 10])).2.moveBuffer
          = (afterWeb [71, 49, 32, 88, 49, 48, 10]).moveBuffer ∧
        (GCodes.SetUpMove exampleConfig idleEnv Source.web
          (afterWeb [71, 49, 32, 88, 49, 48, 10])).2.checkEndStops
          = (afterWeb [71, 49, 32, 88, 49, 48, 10]).checkEndStops ∧
        (GCodes.SetUpMove exampleConfig idleEnv Source.web
          (afterWeb [71, 49, 32, 88, 49, 48, 10])).2.gFeedRate
          = (afterWeb [71, 49, 32, 88, 49, 48, 10]).gFeedRate ∧
        (GCodes.SetUpMove exampleConfig idleEnv Source.web
          (afterWeb [71, 49, 32, 88, 49, 48, 10])).2.lastPos
          = (afterWeb [71, 49, 32, 88, 49, 48, 10]).lastPos ∧
        (GCodes.SetUpMove exampleConfig idleEnv Source.web
          (afterWeb [71, 49, 32, 88, 49, 48, 10])).2
          = afterWeb [71, 49, 32, 88, 49, 48, 10]) :=
  ⟨by decide, C2_setUpMove_rejected_while_pending exampleConfig idleEnv Source.web
    (afterWeb [71, 49, 32, 88, 49, 48, 10]) (by decide)⟩

theorem readMove_copy {F : Type} (m b : Nat → F) (n i : Nat) :
    (List.range n).foldl (fun a k => Function.update a k (b k)) m i
      = if i < n then b i else m i := by
  induction n with
  | zero => simp
  | succ k ih =>
    rw [List.range_succ, List.foldl_append]
    simp only [List.foldl_cons, List.foldl_nil]
    by_cases hik : i = k
    · subst hik; simp
    · rw [Function.update_noteq hik, ih]
      by_cases hlt : i < k
      · simp [hlt, Nat.lt_succ_of_lt hlt]
      · have : ¬ i < k + 1 := by omega
        simp [hlt, this]

/-- C3: `ReadMove` hands the pending request over exactly once.  With
`moveAvailable` true it returns true, the caller's array holds the `DRIVES+1`
values of `moveBuffer` (its other entries untouched), the caller's flag holds
`checkEndStops`, and both `moveAvailable` and `checkEndStops` are cleared, so
that a `ReadMove` right after it returns false; with `moveAvailable` false it
returns false and changes nothing. -/
theorem C3_readMove_hands_over_once {F : Type} [FloatOps F] (m : Nat → F) (ce : Bool) (s : GCodes F) :
    (s.moveAvailable = true →
      (GCodes.ReadMove m ce s).1 = true ∧
      (∀ i, i ≤ DRIVES → (GCodes.ReadMove m ce s).2.1 i = s.moveBuffer i) ∧
      (∀ i, DRIVES < i → (GCodes.ReadMove m ce s).2.1 i = m i) ∧
      (GCodes.ReadMove m ce s).2.2.1 = s.checkEndStops ∧
      (GCodes.ReadMove m ce s).2.2.2
        = { s with moveAvailable := false, checkEndStops := false } ∧
      ∀ (m2 : Nat → F) (ce2 : Bool),
        GCodes.ReadMove m2 ce2 (GCodes.ReadMove m ce s).2.2.2
          = (false, m2, ce2, (GCodes.ReadMove m ce s).2.2.2)) ∧
    (s.moveAvailable = false → GCodes.ReadMove m ce s = (false, m, ce, s)) := by
  constructor
  · intro h
    refine ⟨by simp [GCodes.ReadMove, h], ?_, ?_, by simp [GCodes.ReadMove, h],
      by simp [GCodes.ReadMove, h], ?_⟩
    · intro i hi
      simp only [GCodes.ReadMove, h, Bool.not_true, Bool.false_eq_true, if_false]
      rw [readMove_copy]
      simp [Nat.lt_succ_of_le hi]
    · intro i hi
      simp only [GCodes.ReadMove, h, Bool.not_true, Bool.false_eq_true, if_false]
      rw [readMove_copy]
      have : ¬ i < DRIVES + 1 := by omega
      simp [this]
    · intro m2 ce2
      simp [GCodes.ReadMove, h]
  · intro h
    simp [GCodes.ReadMove, h]


/-- C3, witness: the request pending after `G1 X10` is handed over, and right
after `Init`, with nothing pending, `ReadMove` returns false. -/
theorem C3_readMove_hands_over_once_witness :
    ((afterWeb [71, 49, 32, 88, 49, 48, 10]).moveAvailable = true ∧
      (GCodes.ReadMove (fun _ => 0) false (afterWeb [71, 49, 32, 88, 49, 48, 10])).1 = true ∧
      (GCodes.ReadMove (fun _ => 0) false (afterWeb [71, 49, 32, 88, 49, 48, 10])).2.1 0 = 10) ∧
    (initial.moveAvailable = false ∧
      GCodes.ReadMove (fun _ => 0) true initial = (false, fun _ => 0, true, initial)) :=
  ⟨⟨by decide,
      ((C3_readMove_hands_over_once (fun _ => 0) false
        (afterWeb [71, 49, 32, 88, 49, 48, 10])).1 (by decide)).1,
      by decide!⟩,
    by decide,
    (C3_readMove_hands_over_once (fun _ => 0) true initial).2 (by decide)⟩

/-! ## Frame lemmas for the command handlers -/

theorem sameText_refl {F : Type} (s : GCodes F) : SameText s s :=
  fun _ => ⟨rfl, rfl, rfl, rfl, rfl⟩

theorem sameText_trans {F : Type} {s t u : GCodes F} (h1 : SameText s t) (h2 : SameText t u) :
    SameText s u := by
  intro src
  obtain ⟨a1, a2, a3, a4, a5⟩ := h1 src
  obtain ⟨b1, b2, b3, b4, b5⟩ := h2 src
  exact ⟨b1.trans a1, b2.trans a2, b3.trans a3, b4.trans a4, b5.trans a5⟩

theorem quiet_refl {F : Type} (s : GCodes F) : Quiet s s :=
  ⟨⟨[], by simp, by simp⟩, sameText_refl s⟩

theorem Quiet.qtrans {F : Type} {s t u : GCodes F} (h1 : Quiet s t) (h2 : Quiet t u) :
    Quiet s u := by
  obtain ⟨⟨e1, h1, q1⟩, t1⟩ := h1
  obtain ⟨⟨e2, h2, q2⟩, t2⟩ := h2
  refine ⟨⟨e1 ++ e2, by rw [h2, h1, List.append_assoc], ?_⟩, sameText_trans t1 t2⟩
  intro e he
  rcases List.mem_append.mp he with h | h
  · exact q1 e h
  · exact q2 e h

theorem quiet_of_log_eq {F : Type} {s t : GCodes F} (h : t.log = s.log)
    (ht : SameText s t) : Quiet s t :=
  ⟨⟨[], by simp [h], by simp⟩, ht⟩

theorem quiet_emit {F : Type} [FloatOps F] (e : Event F) (h : e.isHandlerEvent = true)
    (s : GCodes F) : Quiet s (GCodes.emit e s) :=
  ⟨⟨[e], rfl, by simpa using h⟩, fun _ => ⟨rfl, rfl, rfl, rfl, rfl⟩⟩

theorem quiet_messages {F : Type} [FloatOps F] (ms : List Msg) (s : GCodes F) :
    Quiet s (GCodes.messages ms s) := by
  refine ⟨⟨ms.map Event.message, rfl, ?_⟩, fun _ => ⟨rfl, rfl, rfl, rfl, rfl⟩⟩
  intro e he
  obtain ⟨m, _, rfl⟩ := List.mem_map.mp he
  rfl

theorem keeps_refl {F : Type} (s : GCodes F) : Keeps s s := ⟨quiet_refl s, rfl⟩

theorem Keeps.ktrans {F : Type} {s t u : GCodes F} (h1 : Keeps s t) (h2 : Keeps t u) :
    Keeps s u := ⟨h1.1.qtrans h2.1, h2.2.trans h1.2⟩

theorem keeps_of_eq {F : Type} {s t : GCodes F} (h : t.log = s.log)
    (h2 : t.stackPointer = s.stackPointer) (ht : SameText s t) : Keeps s t :=
  ⟨quiet_of_log_eq h ht, h2⟩

theorem keeps_emit {F : Type} [FloatOps F] (e : Event F) (h : e.isHandlerEvent = true)
    (s : GCodes F) : Keeps s (GCodes.emit e s) := ⟨quiet_emit e h s, rfl⟩

theorem keeps_message {F : Type} [FloatOps F] (m : Msg) (s : GCodes F) :
    Keeps s (GCodes.message m s) := keeps_emit (Event.message m) rfl s

theorem keeps_messages {F : Type} [FloatOps F] (ms : List Msg) (s : GCodes F) :
    Keeps s (GCodes.messages ms s) := ⟨quiet_messages ms s, rfl⟩

theorem keeps_setBuf {F : Type} [FloatOps F] (src : Source) (gb : GCodeBuffer) (s : GCodes F)
    (h : gb.gcodeBuffer = (s.buf src).gcodeBuffer ∧ gb.gcodePointer = (s.buf src).gcodePointer ∧
      gb.inComment = (s.buf src).inComment ∧ gb.finished = (s.buf src).finished ∧
      gb.identity = (s.buf src).identity) :
    Keeps s (s.setBuf src gb) := by
  have ht : SameText s (s.setBuf src gb) := by
    intro src2
    cases src <;> cases src2 <;> first | exact h | exact ⟨rfl, rfl, rfl, rfl, rfl⟩
  cases src <;> exact keeps_of_eq rfl rfl ht

theorem keeps_Seen {F : Type} [FloatOps F] (src : Source) (c : Nat) (s : GCodes F) :
    Keeps s (GCodes.Seen src c s).2 := by
  apply keeps_setBuf
  unfold GCodeBuffer.Seen
  split <;> exact ⟨rfl, rfl, rfl, rfl, rfl⟩

theorem keeps_GetFValue {F : Type} [FloatOps F] (cfg : Config F) (src : Source) (s : GCodes F) :
    Keeps s (GCodes.GetFValue cfg src s).2 := by
  have h : Keeps s (s.setBuf src ((s.buf src).GetFValue cfg.strtod 0.0).2.1) := by
    apply keeps_setBuf
    unfold GCodeBuffer.GetFValue
    split_ifs <;> exact ⟨rfl, rfl, rfl, rfl, rfl⟩
  exact h.ktrans (keeps_messages _ _)

theorem keeps_GetLValue {F : Type} [FloatOps F] (cfg : Config F) (src : Source) (s : GCodes F) :
    Keeps s (GCodes.GetLValue cfg src s).2 := by
  have h : Keeps s (s.setBuf src ((s.buf src).GetLValue cfg.strtol).2.1) := by
    apply keeps_setBuf
    unfold GCodeBuffer.GetLValue
    split_ifs <;> exact ⟨rfl, rfl, rfl, rfl, rfl⟩
  exact h.ktrans (keeps_messages _ _)

theorem keeps_GetIValue {F : Type} [FloatOps F] (cfg : Config F) (src : Source) (s : GCodes F) :
    Keeps s (GCodes.GetIValue cfg src s).2 :=
  keeps_GetLValue cfg src s

theorem keeps_invalidCode {F : Type} [FloatOps F] (text : String) (src : Source) (s : GCodes F) :
    Keeps s (GCodes.invalidCode text src s) :=
  ((keeps_message _ s).ktrans (keeps_message _ _)).ktrans (keeps_message _ _)

theorem keeps_rememberLastPos {F : Type} [FloatOps F] (s : GCodes F) :
    Keeps s (GCodes.rememberLastPos s) :=
  keeps_of_eq rfl rfl (fun _ => ⟨rfl, rfl, rfl, rfl, rfl⟩)

theorem keeps_setUpMoveDrive {F : Type} [FloatOps F] (cfg : Config F) (src : Source)
    (s : GCodes F) (i : Nat) : Keeps s (GCodes.setUpMoveDrive cfg src s i) := by
  have hS := keeps_Seen src (s.gCodeLetters i) s
  have hG := keeps_GetFValue cfg src (GCodes.Seen src (s.gCodeLetters i) s).2
  dsimp only [GCodes.setUpMoveDrive]
  split_ifs <;> first
    | exact hS
    | exact hS.ktrans (hG.ktrans (keeps_of_eq rfl rfl (fun _ => ⟨rfl, rfl, rfl, rfl, rfl⟩)))

theorem keeps_setUpMoveLoop {F : Type} [FloatOps F] (cfg : Config F) (src : Source)
    (l : List Nat) (s : GCodes F) : Keeps s (l.foldl (GCodes.setUpMoveDrive cfg src) s) := by
  induction l generalizing s with
  | nil => exact keeps_refl s
  | cons i t ih => exact (keeps_setUpMoveDrive cfg src s i).ktrans (ih _)

theorem keeps_setUpMoveFeedrate {F : Type} [FloatOps F] (cfg : Config F) (src : Source)
    (s : GCodes F) : Keeps s (GCodes.setUpMoveFeedrate cfg src s) := by
  have hS := keeps_Seen src (s.gCodeLetters DRIVES) s
  have hG := keeps_GetFValue cfg src (GCodes.Seen src (s.gCodeLetters DRIVES) s).2
  dsimp only [GCodes.setUpMoveFeedrate]
  split_ifs <;> first
    | exact hS.ktrans (keeps_of_eq rfl rfl (fun _ => ⟨rfl, rfl, rfl, rfl, rfl⟩))
    | exact hS.ktrans (hG.ktrans (keeps_of_eq rfl rfl (fun _ => ⟨rfl, rfl, rfl, rfl, rfl⟩)))

theorem keeps_SetUpMove {F : Type} [FloatOps F] (cfg : Config F) (env : Env F) (src : Source)
    (s : GCodes F) : Keeps s (GCodes.SetUpMove cfg env src s).2 := by
  dsimp only [GCodes.SetUpMove]
  split_ifs
  · exact keeps_refl s
  · exact keeps_of_eq rfl rfl (fun _ => ⟨rfl, rfl, rfl, rfl, rfl⟩)
  · have h1 : Keeps s { s with moveBuffer := (env.getCurrentState s.moveBuffer).2 } :=
      keeps_of_eq rfl rfl (fun _ => ⟨rfl, rfl, rfl, rfl, rfl⟩)
    exact h1.ktrans ((keeps_setUpMoveLoop cfg src _ _).ktrans
      ((keeps_setUpMoveFeedrate cfg src _).ktrans (keeps_of_eq rfl rfl (fun _ => ⟨rfl, rfl, rfl, rfl, rfl⟩))))

theorem keeps_DoDwell {F : Type} [FloatOps F] (cfg : Config F) (env : Env F) (src : Source)
    (s : GCodes F) : Keeps s (GCodes.DoDwell cfg env src s).2 := by
  have hS := keeps_Seen src 80 s
  have hG := keeps_GetLValue cfg src (GCodes.Seen src 80 s).2
  dsimp only [GCodes.DoDwell]
  split_ifs <;> first
    | exact hS
    | exact hS.ktrans hG
    | exact hS.ktrans (hG.ktrans (keeps_of_eq rfl rfl (fun _ => ⟨rfl, rfl, rfl, rfl, rfl⟩)))
    | exact hS.ktrans (hG.ktrans ((keeps_of_eq rfl rfl (fun _ => ⟨rfl, rfl, rfl, rfl, rfl⟩)).ktrans (keeps_emit Event.resumeMoving rfl _)))

theorem keeps_setTemperature {F : Type} [FloatOps F] (cfg : Config F) (src : Source)
    (c : Nat) (ev : F → Event F) (hev : ∀ x, (ev x).isHandlerEvent = true) (s : GCodes F) :
    Keeps s (if (GCodes.Seen src c s).1 = true then
        GCodes.emit (ev (GCodes.GetFValue cfg src (GCodes.Seen src c s).2).1)
          (GCodes.GetFValue cfg src (GCodes.Seen src c s).2).2
      else (GCodes.Seen src c s).2) := by
  split_ifs
  · exact (keeps_Seen src c s).ktrans ((keeps_GetFValue cfg src _).ktrans (keeps_emit _ (hev _) _))
  · exact keeps_Seen src c s

theorem keeps_SetOffsets {F : Type} [FloatOps F] (cfg : Config F) (src : Source)
    (s : GCodes F) : Keeps s (GCodes.SetOffsets cfg src s).2 := by
  have hS := keeps_Seen src 80 s
  dsimp only [GCodes.SetOffsets]
  by_cases hP : (GCodes.Seen src 80 s).1 = true
  · rw [if_pos hP]
    have hI := keeps_GetIValue cfg src (GCodes.Seen src 80 s).2
    refine hS.ktrans (hI.ktrans ?_)
    exact (keeps_setTemperature cfg src 82 (Event.setStandbyTemperature _) (fun _ => rfl) _).ktrans
      (keeps_setTemperature cfg src 83 (Event.setActiveTemperature _) (fun _ => rfl) _)
  · rw [if_neg hP]
    exact hS

theorem keeps_standbyLoop {F : Type} [FloatOps F] (l : List Nat) (s : GCodes F) :
    Keeps s (l.foldl GCodes.standbyStep s) := by
  induction l generalizing s with
  | nil => exact keeps_refl s
  | cons i t ih =>
    refine Keeps.ktrans ?_ (ih _)
    dsimp only [GCodes.standbyStep]
    split_ifs
    · exact keeps_emit _ (by rfl) s
    · exact keeps_refl s

theorem keeps_activateLoop {F : Type} [FloatOps F] (code : Int) (l : List Nat)
    (a : Bool × GCodes F) : Keeps a.2 (l.foldl (GCodes.activateStep code) a).2 := by
  induction l generalizing a with
  | nil => exact keeps_refl _
  | cons i t ih =>
    refine Keeps.ktrans ?_ (ih _)
    dsimp only [GCodes.activateStep]
    split_ifs
    · exact keeps_emit _ (by rfl) _
    · exact keeps_refl _

theorem keeps_actOnT {F : Type} [FloatOps F] (src : Source) (code : Int) (s : GCodes F) :
    Keeps s (GCodes.actOnT src code s).2 := by
  have h1 := keeps_standbyLoop (List.range' AXES (DRIVES - AXES)) s
  have h2 := keeps_activateLoop code (List.range' AXES (DRIVES - AXES))
    (false, (List.range' AXES (DRIVES - AXES)).foldl GCodes.standbyStep s)
  dsimp only [GCodes.actOnT]
  split_ifs
  · exact keeps_refl s
  · exact h1.ktrans (h2.ktrans (keeps_invalidCode _ _ _))
  · exact h1.ktrans h2

theorem keeps_AllMoves {F : Type} [FloatOps F] (env : Env F) (s : GCodes F) :
    Keeps s (GCodes.AllMovesAreFinishedAndMoveBufferIsLoaded env s).2 := by
  have h : Keeps s (GCodes.emit Event.resumeMoving s) := keeps_emit _ (by rfl) s
  dsimp only [GCodes.AllMovesAreFinishedAndMoveBufferIsLoaded]
  split_ifs <;> first
    | exact keeps_refl s
    | exact h

theorem bounded_of_keeps {F : Type} {cfg : Config F} {s t : GCodes F} (h : Keeps s t) :
    Bounded cfg s t :=
  ⟨h.1, fun hs => by unfold StackInv at hs ⊢; rw [h.2]; exact hs⟩

theorem bounded_refl {F : Type} (cfg : Config F) (s : GCodes F) : Bounded cfg s s :=
  ⟨quiet_refl s, id⟩

theorem Bounded.btrans {F : Type} {cfg : Config F} {s t u : GCodes F}
    (h1 : Bounded cfg s t) (h2 : Bounded cfg t u) : Bounded cfg s u :=
  ⟨h1.1.qtrans h2.1, fun hs => h2.2 (h1.2 hs)⟩

theorem bounded_Push {F : Type} [FloatOps F] (cfg : Config F) (env : Env F) (s : GCodes F) :
    Bounded cfg s (GCodes.Push cfg env s).2 := by
  have hA := keeps_AllMoves env s
  dsimp only [GCodes.Push]
  split_ifs with h1 h2
  · exact bounded_of_keeps (keeps_message _ s)
  · exact bounded_of_keeps hA
  · refine ⟨hA.1, ?_⟩
    intro hs
    unfold StackInv at hs ⊢
    have := hA.2
    simp only [this]
    omega

theorem bounded_Pop {F : Type} [FloatOps F] (cfg : Config F) (env : Env F) (s : GCodes F) :
    Bounded cfg s (GCodes.Pop env s).2 := by
  have hA := keeps_AllMoves env s
  dsimp only [GCodes.Pop]
  split_ifs with h1 h2
  · exact bounded_of_keeps (keeps_message _ s)
  · exact bounded_of_keeps hA
  · refine ⟨hA.1, ?_⟩
    intro hs
    unfold StackInv at hs ⊢
    have := hA.2
    show 0 ≤ (GCodes.AllMovesAreFinishedAndMoveBufferIsLoaded env s).2.stackPointer - 1 ∧
      (GCodes.AllMovesAreFinishedAndMoveBufferIsLoaded env s).2.stackPointer - 1 ≤ (cfg.STACK : Int)
    omega

theorem bounded_doHomeAxis {F : Type} [FloatOps F] (cfg : Config F) (env : Env F) (axis : Nat)
    (queued : Bool) (clear setQueued : GCodes F → GCodes F)
    (hc : ∀ t, Keeps t (clear t)) (hq : ∀ t, Keeps t (setQueued t)) (s : GCodes F) :
    Bounded cfg s (GCodes.doHomeAxis cfg env axis queued clear setQueued s).2 := by
  have hPush := bounded_Push cfg env s
  have hPop := bounded_Pop cfg env s
  dsimp only [GCodes.doHomeAxis]
  split_ifs
  · exact hPop
  · exact hPop.btrans (bounded_of_keeps (hc _))
  · exact hPush
  · exact hPush.btrans (bounded_of_keeps (Keeps.ktrans (keeps_of_eq rfl rfl (fun _ => ⟨rfl, rfl, rfl, rfl, rfl⟩)) (hq _)))

theorem bounded_DoHome {F : Type} [FloatOps F] (cfg : Config F) (env : Env F) (s : GCodes F) :
    Bounded cfg s (GCodes.DoHome cfg env s).2 := by
  unfold GCodes.DoHome
  by_cases hx : s.homeX = true
  · rw [if_pos hx]
    exact bounded_doHomeAxis cfg env X_AXIS s.homeXQueued
      (fun t => { t with homeX := false, homeXQueued := false })
      (fun t => { t with homeXQueued := true })
      (fun t => keeps_of_eq rfl rfl (fun _ => ⟨rfl, rfl, rfl, rfl, rfl⟩)) (fun t => keeps_of_eq rfl rfl (fun _ => ⟨rfl, rfl, rfl, rfl, rfl⟩)) s
  rw [if_neg hx]
  by_cases hy : s.homeY = true
  · rw [if_pos hy]
    exact bounded_doHomeAxis cfg env Y_AXIS s.homeYQueued
      (fun t => { t with homeY := false, homeYQueued := false })
      (fun t => { t with homeYQueued := true })
      (fun t => keeps_of_eq rfl rfl (fun _ => ⟨rfl, rfl, rfl, rfl, rfl⟩)) (fun t => keeps_of_eq rfl rfl (fun _ => ⟨rfl, rfl, rfl, rfl, rfl⟩)) s
  rw [if_neg hy]
  by_cases hz : s.homeZ = true
  · rw [if_pos hz]
    exact bounded_doHomeAxis cfg env Z_AXIS s.homeZQueued
      (fun t => { t with homeZ := false, homeZQueued := false })
      (fun t => { t with homeZQueued := true })
      (fun t => keeps_of_eq rfl rfl (fun _ => ⟨rfl, rfl, rfl, rfl, rfl⟩)) (fun t => keeps_of_eq rfl rfl (fun _ => ⟨rfl, rfl, rfl, rfl, rfl⟩)) s
  rw [if_neg hz]
  exact bounded_of_keeps (keeps_of_eq rfl rfl (fun _ => ⟨rfl, rfl, rfl, rfl, rfl⟩))

theorem keeps_homeRequest {F : Type} [FloatOps F] (src : Source) (s : GCodes F) :
    Keeps s (GCodes.homeRequest src s) := by
  unfold GCodes.homeRequest
  by_cases h : GCodes.NoHome s = true
  · rw [if_pos h]
    have h1 := keeps_Seen src (s.gCodeLetters X_AXIS) s
    have h2 := keeps_Seen src
      (({ (GCodes.Seen src (s.gCodeLetters X_AXIS) s).2 with
          homeX := (GCodes.Seen src (s.gCodeLetters X_AXIS) s).1 } : GCodes F).gCodeLetters Y_AXIS)
      { (GCodes.Seen src (s.gCodeLetters X_AXIS) s).2 with
          homeX := (GCodes.Seen src (s.gCodeLetters X_AXIS) s).1 }
    have h12 : Keeps s _ := h1.ktrans h2
    dsimp only
    split_ifs
    · exact h12.ktrans (keeps_Seen src _ _)
    · exact h12.ktrans (keeps_Seen src _ _)
  · rw [if_neg h]
    exact keeps_refl s

theorem bounded_actOnG {F : Type} [FloatOps F] (cfg : Config F) (env : Env F) (src : Source)
    (code : Int) (s : GCodes F) : Bounded cfg s (GCodes.actOnG cfg env src code s).2 := by
  unfold GCodes.actOnG
  split_ifs
  · exact bounded_of_keeps (keeps_SetUpMove cfg env src s)
  · exact bounded_of_keeps (keeps_DoDwell cfg env src s)
  · exact bounded_of_keeps (keeps_SetOffsets cfg src s)
  · exact bounded_of_keeps (keeps_of_eq rfl rfl (fun _ => ⟨rfl, rfl, rfl, rfl, rfl⟩))
  · exact bounded_of_keeps (keeps_of_eq rfl rfl (fun _ => ⟨rfl, rfl, rfl, rfl, rfl⟩))
  · exact (bounded_of_keeps (keeps_homeRequest src s)).btrans (bounded_DoHome cfg env _)
  · exact bounded_of_keeps (keeps_of_eq rfl rfl (fun _ => ⟨rfl, rfl, rfl, rfl, rfl⟩))
  · exact bounded_of_keeps (keeps_of_eq rfl rfl (fun _ => ⟨rfl, rfl, rfl, rfl, rfl⟩))
  · exact bounded_of_keeps (keeps_message _ s)
  · exact bounded_of_keeps (keeps_invalidCode _ src s)

theorem keeps_debugLevel {F : Type} [FloatOps F] (cfg : Config F) (src : Source) (s : GCodes F) :
    Keeps s (if (GCodes.Seen src 83 s).1 = true then
        (true, GCodes.emit (Event.setDebug (GCodes.GetIValue cfg src (GCodes.Seen src 83 s).2).1)
          (GCodes.GetIValue cfg src (GCodes.Seen src 83 s).2).2)
      else (true, (GCodes.Seen src 83 s).2)).2 := by
  split_ifs
  · exact (keeps_Seen src 83 s).ktrans ((keeps_GetIValue cfg src _).ktrans (keeps_emit _ (by rfl) _))
  · exact keeps_Seen src 83 s

theorem keeps_bedTemperature {F : Type} [FloatOps F] (cfg : Config F) (src : Source)
    (s : GCodes F) :
    Keeps s (if (GCodes.Seen src 83 s).1 = true then
        (true, GCodes.emit (Event.activate 0)
          (GCodes.emit (Event.setActiveTemperature 0 (GCodes.GetFValue cfg src (GCodes.Seen src 83 s).2).1)
            (GCodes.GetFValue cfg src (GCodes.Seen src 83 s).2).2))
      else (true, (GCodes.Seen src 83 s).2)).2 := by
  split_ifs
  · exact (keeps_Seen src 83 s).ktrans ((keeps_GetFValue cfg src _).ktrans
      ((keeps_emit _ (by rfl) _).ktrans (keeps_emit _ (by rfl) _)))
  · exact keeps_Seen src 83 s

theorem bounded_actOnM {F : Type} [FloatOps F] (cfg : Config F) (env : Env F) (src : Source)
    (code : Int) (s : GCodes F) : Bounded cfg s (GCodes.actOnM cfg env src code s).2 := by
  unfold GCodes.actOnM
  by_cases h0 : code = 0 ∨ code = 1
  · rw [if_pos h0]
    exact bounded_of_keeps (keeps_message _ s)
  rw [if_neg h0]
  by_cases h1 : code = 18
  · rw [if_pos h1]
    exact bounded_of_keeps (keeps_message _ s)
  rw [if_neg h1]
  by_cases h2 : code = 24
  · rw [if_pos h2]
    exact bounded_of_keeps (keeps_of_eq rfl rfl (fun _ => ⟨rfl, rfl, rfl, rfl, rfl⟩))
  rw [if_neg h2]
  by_cases h3 : code = 25
  · rw [if_pos h3]
    exact bounded_of_keeps (keeps_of_eq rfl rfl (fun _ => ⟨rfl, rfl, rfl, rfl, rfl⟩))
  rw [if_neg h3]
  by_cases h4 : code = 82
  · rw [if_pos h4]
    exact bounded_of_keeps (keeps_of_eq rfl rfl (fun _ => ⟨rfl, rfl, rfl, rfl, rfl⟩))
  rw [if_neg h4]
  by_cases h5 : code = 83
  · rw [if_pos h5]
    exact bounded_of_keeps (keeps_of_eq rfl rfl (fun _ => ⟨rfl, rfl, rfl, rfl, rfl⟩))
  rw [if_neg h5]
  by_cases h6 : code = 106
  · rw [if_pos h6]
    exact bounded_of_keeps (keeps_message _ s)
  rw [if_neg h6]
  by_cases h7 : code = 107
  · rw [if_pos h7]
    exact bounded_of_keeps (keeps_message _ s)
  rw [if_neg h7]
  by_cases h8 : code = 116
  · rw [if_pos h8]
    exact bounded_of_keeps (keeps_message _ s)
  rw [if_neg h8]
  by_cases h9 : code = 111
  · rw [if_pos h9]
    exact bounded_of_keeps (keeps_debugLevel cfg src s)
  rw [if_neg h9]
  by_cases h10 : code = 120
  · rw [if_pos h10]
    exact bounded_Push cfg env s
  rw [if_neg h10]
  by_cases h11 : code = 121
  · rw [if_pos h11]
    exact bounded_Pop cfg env s
  rw [if_neg h11]
  by_cases h12 : code = 122
  · rw [if_pos h12]
    exact bounded_of_keeps (keeps_emit Event.diagnostics (by rfl) s)
  rw [if_neg h12]
  by_cases h13 : code = 126
  · rw [if_pos h13]
    exact bounded_of_keeps (keeps_message _ s)
  rw [if_neg h13]
  by_cases h14 : code = 127
  · rw [if_pos h14]
    exact bounded_of_keeps (keeps_message _ s)
  rw [if_neg h14]
  by_cases h15 : code = 140
  · rw [if_pos h15]
    exact bounded_of_keeps (keeps_bedTemperature cfg src s)
  rw [if_neg h15]
  by_cases h16 : code = 141
  · rw [if_pos h16]
    exact bounded_of_keeps (keeps_message _ s)
  rw [if_neg h16]
  exact bounded_of_keeps (keeps_invalidCode _ src s)

theorem bounded_ActOnGcode {F : Type} [FloatOps F] (cfg : Config F) (env : Env F) (src : Source)
    (s : GCodes F) : Bounded cfg s (GCodes.ActOnGcode cfg env src s).2 := by
  have hG := keeps_Seen src 71 s
  have hM := keeps_Seen src 77 (GCodes.Seen src 71 s).2
  have hT := keeps_Seen src 84 (GCodes.Seen src 77 (GCodes.Seen src 71 s).2).2
  unfold GCodes.ActOnGcode
  dsimp only
  split_ifs
  · exact (bounded_of_keeps (hG.ktrans (keeps_GetIValue cfg src _))).btrans
      (bounded_actOnG cfg env src _ _)
  · exact (bounded_of_keeps ((hG.ktrans hM).ktrans (keeps_GetIValue cfg src _))).btrans
      (bounded_actOnM cfg env src _ _)
  · exact bounded_of_keeps ((((hG.ktrans hM).ktrans hT).ktrans (keeps_GetIValue cfg src _)).ktrans
      (keeps_actOnT src _ _))
  · exact bounded_of_keeps ((hG.ktrans hM).ktrans hT)

/-! ## The stack depth under `Spin` -/

theorem stackPointer_setBuf {F : Type} [FloatOps F] (src : Source) (gb : GCodeBuffer)
    (s : GCodes F) : (s.setBuf src gb).stackPointer = s.stackPointer := by
  cases src <;> rfl

theorem stackInv_actAndStore {F : Type} [FloatOps F] (cfg : Config F) (env : Env F)
    (src : Source) (s : GCodes F) (h : StackInv cfg s) :
    StackInv cfg (GCodes.actAndStore cfg env src s) := by
  have h1 : StackInv cfg (GCodes.emit (Event.actOn src) s) := h
  have h2 := (bounded_ActOnGcode cfg env src (GCodes.emit (Event.actOn src) s)).2 h1
  unfold StackInv at h2 ⊢
  unfold GCodes.actAndStore GCodes.SetFinished
  dsimp only
  rw [stackPointer_setBuf]
  exact h2

theorem stackInv_putAndAct {F : Type} [FloatOps F] (cfg : Config F) (env : Env F)
    (src : Source) (c : Nat) (s : GCodes F) (h : StackInv cfg s) :
    StackInv cfg (GCodes.putAndAct cfg env src c s) := by
  have h1 : StackInv cfg
      ((((GCodes.emit (Event.put src c) s).setBuf src
        ((s.buf src).Put cfg.GCODE_LENGTH env.debug c).2.1).messages
        ((s.buf src).Put cfg.GCODE_LENGTH env.debug c).2.2)) := by
    unfold StackInv at h ⊢
    show 0 ≤ ((GCodes.emit (Event.put src c) s).setBuf src _).stackPointer ∧
      ((GCodes.emit (Event.put src c) s).setBuf src _).stackPointer ≤ (cfg.STACK : Int)
    rw [stackPointer_setBuf]
    exact h
  unfold GCodes.putAndAct
  dsimp only
  split_ifs
  · exact stackInv_actAndStore cfg env src _ h1
  · exact h1

theorem stackInv_Spin {F : Type} [FloatOps F] (cfg : Config F) (env : Env F)
    (s : GCodes F) (h : StackInv cfg s) : StackInv cfg (GCodes.Spin cfg env s) := by
  unfold GCodes.Spin
  by_cases ha : (!s.active) = true
  · rw [if_pos ha]; exact h
  rw [if_neg ha]
  by_cases hw : (!s.webGCode.finished) = true
  · rw [if_pos hw]; exact stackInv_actAndStore cfg env _ s h
  rw [if_neg hw]
  by_cases hs : (!s.serialGCode.finished) = true
  · rw [if_pos hs]; exact stackInv_actAndStore cfg env _ s h
  rw [if_neg hs]
  by_cases hf : (!s.fileGCode.finished) = true
  · rw [if_pos hf]; exact stackInv_actAndStore cfg env _ s h
  rw [if_neg hf]
  cases env.web with
  | some c => exact stackInv_putAndAct cfg env _ c _ h
  | none =>
    cases env.serial with
    | some b => exact stackInv_putAndAct cfg env _ b _ h
    | none =>
      dsimp only
      by_cases hp : s.fileBeingPrinted ≥ 0
      · rw [if_pos hp]
        cases env.fileRead with
        | some b => exact stackInv_putAndAct cfg env _ b _ h
        | none => exact stackInv_putAndAct cfg env Source.file 10 _ h
      · rw [if_neg hp]; exact h

theorem stackInv_of_reachable {F : Type} [FloatOps F] (cfg : Config F) (s : GCodes F)
    (h : Reachable cfg s) : StackInv cfg s := by
  induction h with
  | init env s => exact ⟨le_refl _, Int.ofNat_nonneg _⟩
  | push env s _ ih => exact (bounded_Push cfg env s).2 ih
  | pop env s _ ih => exact (bounded_Pop cfg env s).2 ih
  | actOn env src s _ ih => exact (bounded_ActOnGcode cfg env src s).2 ih
  | spin env s _ ih => exact stackInv_Spin cfg env s ih
  | readMove m ce s _ ih =>
    unfold GCodes.ReadMove
    split_ifs
    · exact ih
    · exact ih
  | exit s _ ih => exact ih

/-! ## The operation stack -/

/-- C6 (as amended): on a full stack (`stackPointer >= STACK` on entry) `Push`
returns true, and does nothing but emit the overflow diagnostic. -/
theorem C6_push_on_full_stack_returns_true {F : Type} [FloatOps F] (cfg : Config F)
    (env : Env F) (s : GCodes F) (h : s.stackPointer ≥ (cfg.STACK : Int)) :
    GCodes.Push cfg env s
      = (true, { s with log := s.log ++ [Event.message (Msg.str "Push(): stack overflow!\n")] }) := by
  simp [GCodes.Push, h, GCodes.message, GCodes.emit]

/-- C6, counterexample: after five `M120` commands with a stack of five
frames the stack is full, and `Push` returns true, not false. -/
theorem C6_push_on_full_stack_counterexample :
    (afterWeb [77, 49, 50, 48, 10, 77, 49, 50, 48, 10, 77, 49, 50, 48, 10,
        77, 49, 50, 48, 10, 77, 49, 50, 48, 10]).stackPointer ≥ (exampleConfig.STACK : Int) ∧
      (GCodes.Push exampleConfig idleEnv
        (afterWeb [77, 49, 50, 48, 10, 77, 49, 50, 48, 10, 77, 49, 50, 48, 10,
          77, 49, 50, 48, 10, 77, 49, 50, 48, 10])).1 ≠ false := by
  decide

/-- C6, witness: the full stack reached by five `M120` commands. -/
theorem C6_push_on_full_stack_returns_true_witness :
    (afterWeb [77, 49, 50, 48, 10, 77, 49, 50, 48, 10, 77, 49, 50, 48, 10,
        77, 49, 50, 48, 10, 77, 49, 50, 48, 10]).stackPointer ≥ (exampleConfig.STACK : Int) ∧
      GCodes.Push exampleConfig idleEnv
        (afterWeb [77, 49, 50, 48, 10, 77, 49, 50, 48, 10, 77, 49, 50, 48, 10,
          77, 49, 50, 48, 10, 77, 49, 50, 48, 10])
      = (true, { afterWeb [77, 49, 50, 48, 10, 77, 49, 50, 48, 10, 77, 49, 50, 48, 10,
          77, 49, 50, 48, 10, 77, 49, 50, 48, 10] with
          log := (afterWeb [77, 49, 50, 48, 10, 77, 49, 50, 48, 10, 77, 49, 50, 48, 10,
            77, 49, 50, 48, 10, 77, 49, 50, 48, 10]).log
            ++ [Event.message (Msg.str "Push(): stack overflow!\n")] }) :=
  ⟨by decide, C6_push_on_full_stack_returns_true exampleConfig idleEnv _ (by decide)⟩


theorem reachable_afterWeb (bytes : List Nat) : Reachable exampleConfig (afterWeb bytes) := by
  have h : ∀ (l : List Nat) (s : GCodes Rat), Reachable exampleConfig s →
      Reachable exampleConfig
        (l.foldl (fun s c => GCodes.Spin exampleConfig (webEnv c) s) s) := by
    intro l
    induction l with
    | nil => intro s hs; exact hs
    | cons c cs ih => intro s hs; exact ih _ (Reachable.spin (webEnv c) s hs)
  exact h bytes initial (Reachable.init idleEnv newGCodes)

/-- C7: in every state reachable from `Init` the stack depth satisfies
`0 <= stackPointer <= STACK`; a `Push` on a full stack and a `Pop` on an empty
stack only emit a diagnostic, leaving `stackPointer`, the saved frames,
`drivesRelative`, `axesRelative`, `gFeedRate` and the handoff slot (every member)
unchanged, and `Pop` on an empty stack returns true. -/
theorem C7_stack_depth_bounded {F : Type} [FloatOps F] (cfg : Config F) (env : Env F)
    (s : GCodes F) (h : Reachable cfg s) :
    (0 ≤ s.stackPointer ∧ s.stackPointer ≤ (cfg.STACK : Int)) ∧
      (s.stackPointer ≥ (cfg.STACK : Int) →
        (GCodes.Push cfg env s).2
          = { s with log := s.log ++ [Event.message (Msg.str "Push(): stack overflow!\n")] }) ∧
      (s.stackPointer ≤ 0 →
        GCodes.Pop env s
          = (true, { s with
              log := s.log ++ [Event.message (Msg.str "Push(): stack underflow!\n")] })) := by
  refine ⟨stackInv_of_reachable cfg s h, ?_, ?_⟩
  · intro hfull
    simp [GCodes.Push, hfull, GCodes.message, GCodes.emit]
  · intro hempty
    simp [GCodes.Pop, hempty, GCodes.message, GCodes.emit]

/-- C7, witness: the empty stack right after `Init`, where `Pop` is rejected,
and the full stack after five `M120` commands, where `Push` is rejected. -/
theorem C7_stack_depth_bounded_witness :
    (Reachable exampleConfig initial ∧ initial.stackPointer ≤ 0 ∧
      GCodes.Pop idleEnv initial
        = (true, { initial with
            log := initial.log ++ [Event.message (Msg.str "Push(): stack underflow!\n")] })) ∧
    (Reachable exampleConfig
        (afterWeb [77, 49, 50, 48, 10, 77, 49, 50, 48, 10, 77, 49, 50, 48, 10,
          77, 49, 50, 48, 10, 77, 49, 50, 48, 10]) ∧
      (afterWeb [77, 49, 50, 48, 10, 77, 49, 50, 48, 10, 77, 49, 50, 48, 10,
          77, 49, 50, 48, 10, 77, 49, 50, 48, 10]).stackPointer ≥ (exampleConfig.STACK : Int) ∧
      (GCodes.Push exampleConfig idleEnv
          (afterWeb [77, 49, 50, 48, 10, 77, 49, 50, 48, 10, 77, 49, 50, 48, 10,
            77, 49, 50, 48, 10, 77, 49, 50, 48, 10])).2
        = { afterWeb [77, 49, 50, 48, 10, 77, 49, 50, 48, 10, 77, 49, 50, 48, 10,
              77, 49, 50, 48, 10, 77, 49, 50, 48, 10] with
            log := (afterWeb [77, 49, 50, 48, 10, 77, 49, 50, 48, 10, 77, 49, 50, 48, 10,
              77, 49, 50, 48, 10, 77, 49, 50, 48, 10]).log
              ++ [Event.message (Msg.str "Push(): stack overflow!\n")] }) :=
  ⟨⟨Reachable.init idleEnv newGCodes, by decide,
      (C7_stack_depth_bounded exampleConfig idleEnv initial
        (Reachable.init idleEnv newGCodes)).2.2 (by decide)⟩,
    reachable_afterWeb _, by decide,
    (C7_stack_depth_bounded exampleConfig idleEnv _ (reachable_afterWeb _)).2.1 (by decide)⟩

/-- C9: while the handoff slot is occupied, or `Move` reports that not all
moves are finished, or `Move` cannot return its current state, `Push` on a
non-full stack and `Pop` on a non-empty stack return false and leave
`stackPointer`, the saved frames, `drivesRelative`, `axesRelative`,
`gFeedRate`, `lastPos`, `moveAvailable` and `checkEndStops` unchanged. -/
theorem C9_drain_gating {F : Type} [FloatOps F] (cfg : Config F) (env : Env F) (s : GCodes F)
    (hbusy : s.moveAvailable = true ∨ env.allMovesAreFinished = false ∨
      (env.getCurrentState s.moveBuffer).1 = false) :
    (s.stackPointer < (cfg.STACK : Int) →
      (GCodes.Push cfg env s).1 = false ∧ Untouched s (GCodes.Push cfg env s).2) ∧
    (0 < s.stackPointer →
      (GCodes.Pop env s).1 = false ∧ Untouched s (GCodes.Pop env s).2) := by
  unfold Untouched
  have key : (GCodes.AllMovesAreFinishedAndMoveBufferIsLoaded env s).1 = false ∧
      ∀ t, t = (GCodes.AllMovesAreFinishedAndMoveBufferIsLoaded env s).2 →
        t.stackPointer = s.stackPointer ∧
        t.drivesRelativeStack = s.drivesRelativeStack ∧
        t.axesRelativeStack = s.axesRelativeStack ∧
        t.feedrateStack = s.feedrateStack ∧
        t.drivesRelative = s.drivesRelative ∧
        t.axesRelative = s.axesRelative ∧
        t.gFeedRate = s.gFeedRate ∧
        t.lastPos = s.lastPos ∧
        t.moveAvailable = s.moveAvailable ∧
        t.checkEndStops = s.checkEndStops := by
    unfold GCodes.AllMovesAreFinishedAndMoveBufferIsLoaded
    rcases hbusy with h | h | h
    · simp [h]
    · by_cases hm : s.moveAvailable = true
      · simp [hm]
      · simp [hm, h, GCodes.emit]
    · by_cases hm : s.moveAvailable = true
      · simp [hm]
      · by_cases hf : env.allMovesAreFinished = true
        · simp [hm, hf, h, GCodes.emit]
        · simp [hm, hf, GCodes.emit]
  obtain ⟨k1, k2⟩ := key
  constructor
  · intro hlt
    have h1 : ¬ s.stackPointer ≥ (cfg.STACK : Int) := by omega
    have e : GCodes.Push cfg env s
        = (false, (GCodes.AllMovesAreFinishedAndMoveBufferIsLoaded env s).2) := by
      simp [GCodes.Push, h1, k1]
    rw [e]
    exact ⟨rfl, k2 _ rfl⟩
  · intro hgt
    have h1 : ¬ s.stackPointer ≤ 0 := by omega
    have e : GCodes.Pop env s
        = (false, (GCodes.AllMovesAreFinishedAndMoveBufferIsLoaded env s).2) := by
      simp [GCodes.Pop, h1, k1]
    rw [e]
    exact ⟨rfl, k2 _ rfl⟩


/-- C9, witness: the state after one `M120` (one frame on a stack of five),
with `Move` still busy; both the `Push` and the `Pop` part apply. -/
theorem C9_drain_gating_witness :
    (busyEnv.allMovesAreFinished = false ∧
      (afterWeb [77, 49, 50, 48, 10]).stackPointer < (exampleConfig.STACK : Int) ∧
      0 < (afterWeb [77, 49, 50, 48, 10]).stackPointer) ∧
    ((GCodes.Push exampleConfig busyEnv (afterWeb [77, 49, 50, 48, 10])).1 = false ∧
      Untouched (afterWeb [77, 49, 50, 48, 10])
        (GCodes.Push exampleConfig busyEnv (afterWeb [77, 49, 50, 48, 10])).2) ∧
    ((GCodes.Pop busyEnv (afterWeb [77, 49, 50, 48, 10])).1 = false ∧
      Untouched (afterWeb [77, 49, 50, 48, 10])
        (GCodes.Pop busyEnv (afterWeb [77, 49, 50, 48, 10])).2) :=
  ⟨⟨rfl, by decide, by decide⟩,
    (C9_drain_gating exampleConfig busyEnv (afterWeb [77, 49, 50, 48, 10])
      (Or.inr (Or.inl rfl))).1 (by decide),
    (C9_drain_gating exampleConfig busyEnv (afterWeb [77, 49, 50, 48, 10])
      (Or.inr (Or.inl rfl))).2 (by decide)⟩

/-! ### Stack balance -/

theorem push_effect {F : Type} [FloatOps F] (cfg : Config F) (env : Env F) (s : GCodes F)
    (hlt : s.stackPointer < (cfg.STACK : Int)) (hok : (GCodes.Push cfg env s).1 = true) :
    (GCodes.Push cfg env s).2.stackPointer = s.stackPointer + 1 ∧
    (GCodes.Push cfg env s).2.drivesRelativeStack
      = Function.update s.drivesRelativeStack s.stackPointer s.drivesRelative ∧
    (GCodes.Push cfg env s).2.axesRelativeStack
      = Function.update s.axesRelativeStack s.stackPointer s.axesRelative ∧
    (GCodes.Push cfg env s).2.feedrateStack
      = Function.update s.feedrateStack s.stackPointer s.gFeedRate := by
  have h1 : ¬ s.stackPointer ≥ (cfg.STACK : Int) := by omega
  unfold GCodes.Push at hok ⊢
  rw [if_neg h1] at hok ⊢
  unfold GCodes.AllMovesAreFinishedAndMoveBufferIsLoaded at hok ⊢
  by_cases hm : s.moveAvailable = true
  · simp [hm] at hok
  by_cases hf : env.allMovesAreFinished = true
  · by_cases hg : (env.getCurrentState s.moveBuffer).1 = true
    · simp [hm, hf, hg, GCodes.emit]
    · simp [hm, hf, hg, GCodes.emit] at hok
  · simp [hm, hf] at hok

theorem pop_effect {F : Type} [FloatOps F] (env : Env F) (s : GCodes F)
    (hgt : 0 < s.stackPointer) (hok : (GCodes.Pop env s).1 = true) :
    (GCodes.Pop env s).2.stackPointer = s.stackPointer - 1 ∧
    (GCodes.Pop env s).2.drivesRelativeStack = s.drivesRelativeStack ∧
    (GCodes.Pop env s).2.axesRelativeStack = s.axesRelativeStack ∧
    (GCodes.Pop env s).2.feedrateStack = s.feedrateStack ∧
    (GCodes.Pop env s).2.drivesRelative = s.drivesRelativeStack (s.stackPointer - 1) ∧
    (GCodes.Pop env s).2.axesRelative = s.axesRelativeStack (s.stackPointer - 1) ∧
    (GCodes.Pop env s).2.gFeedRate = s.feedrateStack (s.stackPointer - 1) := by
  have h1 : ¬ s.stackPointer ≤ 0 := by omega
  unfold GCodes.Pop at hok ⊢
  rw [if_neg h1] at hok ⊢
  unfold GCodes.AllMovesAreFinishedAndMoveBufferIsLoaded at hok ⊢
  by_cases hm : s.moveAvailable = true
  · simp [hm] at hok
  by_cases hf : env.allMovesAreFinished = true
  · by_cases hg : (env.getCurrentState s.moveBuffer).1 = true
    · simp [hm, hf, hg, GCodes.emit, GCodes.rememberLastPos, DRIVES, AXES, List.range']
    · simp [hm, hf, hg, GCodes.emit] at hok
  · simp [hm, hf] at hok

theorem pushes_effect {F : Type} [FloatOps F] (cfg : Config F)
    (ps : List (Env F × (GCodes F → GCodes F))) :
    ∀ (s m : GCodes F), (∀ p ∈ ps, StackPreserving p.2) →
      s.stackPointer + (ps.length : Int) ≤ (cfg.STACK : Int) →
      pushes cfg ps s = some m →
      m.stackPointer = s.stackPointer + (ps.length : Int) ∧
      (∀ i, i < s.stackPointer →
        m.drivesRelativeStack i = s.drivesRelativeStack i ∧
        m.axesRelativeStack i = s.axesRelativeStack i ∧
        m.feedrateStack i = s.feedrateStack i) ∧
      (ps ≠ [] →
        m.drivesRelativeStack s.stackPointer = s.drivesRelative ∧
        m.axesRelativeStack s.stackPointer = s.axesRelative ∧
        m.feedrateStack s.stackPointer = s.gFeedRate) := by
  induction ps with
  | nil =>
    intro s m _ _ h
    simp only [pushes, Option.some.injEq] at h
    subst h
    simp
  | cons p rest ih =>
    intro s m hpres hfit h
    obtain ⟨env, f⟩ := p
    simp only [List.length_cons, Nat.cast_add, Nat.cast_one] at hfit
    have hlen : (0 : Int) ≤ (rest.length : Int) := Int.ofNat_nonneg _
    have hlt : s.stackPointer < (cfg.STACK : Int) := by omega
    simp only [pushes] at h
    by_cases hok : (GCodes.Push cfg env s).1 = true
    · rw [if_pos hok] at h
      obtain ⟨e1, e2, e3, e4⟩ := push_effect cfg env s hlt hok
      obtain ⟨f1, f2, f3, f4⟩ := hpres (env, f) (by simp) (GCodes.Push cfg env s).2
      simp only at f1 f2 f3 f4
      have hsp : (f (GCodes.Push cfg env s).2).stackPointer = s.stackPointer + 1 := by
        rw [f1, e1]
      obtain ⟨g1, g2, _⟩ := ih (f (GCodes.Push cfg env s).2) m
        (fun q hq => hpres q (by simp [hq])) (by rw [hsp]; omega) h
      rw [hsp] at g1 g2
      refine ⟨?_, ?_, ?_⟩
      · simp only [List.length_cons, Nat.cast_add, Nat.cast_one]
        omega
      · intro i hi
        obtain ⟨a1, a2, a3⟩ := g2 i (by omega)
        have hne : i ≠ s.stackPointer := by omega
        rw [a1, a2, a3, f2, f3, f4, e2, e3, e4]
        simp [Function.update_noteq hne]
      · intro _
        obtain ⟨a1, a2, a3⟩ := g2 s.stackPointer (by omega)
        rw [a1, a2, a3, f2, f3, f4, e2, e3, e4]
        simp
    · rw [if_neg hok] at h
      exact absurd h (by simp)

theorem pops_effect {F : Type} [FloatOps F]
    (qs : List ((GCodes F → GCodes F) × Env F)) :
    ∀ (m t : GCodes F), (∀ q ∈ qs, StackPreserving q.1) →
      (qs.length : Int) ≤ m.stackPointer →
      pops qs m = some t →
      t.stackPointer = m.stackPointer - (qs.length : Int) ∧
      t.drivesRelativeStack = m.drivesRelativeStack ∧
      t.axesRelativeStack = m.axesRelativeStack ∧
      t.feedrateStack = m.feedrateStack ∧
      (qs ≠ [] →
        t.drivesRelative = m.drivesRelativeStack (m.stackPointer - (qs.length : Int)) ∧
        t.axesRelative = m.axesRelativeStack (m.stackPointer - (qs.length : Int)) ∧
        t.gFeedRate = m.feedrateStack (m.stackPointer - (qs.length : Int))) := by
  induction qs with
  | nil =>
    intro m t _ _ h
    simp only [pops, Option.some.injEq] at h
    subst h
    simp
  | cons q rest ih =>
    intro m t hpres hfit h
    obtain ⟨f, env⟩ := q
    simp only [List.length_cons, Nat.cast_add, Nat.cast_one] at hfit ⊢
    have hlen : (0 : Int) ≤ (rest.length : Int) := Int.ofNat_nonneg _
    obtain ⟨f1, f2, f3, f4⟩ := hpres (f, env) (by simp) m
    simp only at f1 f2 f3 f4
    have hgt : 0 < (f m).stackPointer := by rw [f1]; omega
    simp only [pops] at h
    by_cases hok : (GCodes.Pop env (f m)).1 = true
    · rw [if_pos hok] at h
      obtain ⟨e1, e2, e3, e4, e5, e6, e7⟩ := pop_effect env (f m) hgt hok
      rw [f1] at e1 e5 e6 e7
      rw [f2] at e2 e5
      rw [f3] at e3 e6
      rw [f4] at e4 e7
      obtain ⟨g1, g2, g3, g4, g5⟩ := ih (GCodes.Pop env (f m)).2 t
        (fun q hq => hpres q (by simp [hq])) (by rw [e1]; omega) h
      rw [e1] at g1 g5
      rw [e2] at g2 g5
      rw [e3] at g3 g5
      rw [e4] at g4 g5
      refine ⟨by omega, g2, g3, g4, ?_⟩
      intro _
      by_cases hr : rest = []
      · subst hr
        simp only [pops, Option.some.injEq] at h
        subst h
        simp only [List.length_nil, Nat.cast_zero, zero_add]
        exact ⟨e5, e6, e7⟩
      · have e : m.stackPointer - 1 - (rest.length : Int)
            = m.stackPointer - ((rest.length : Int) + 1) := by omega
        rw [e] at g5
        exact g5 hr
    · rw [if_neg hok] at h
      exact absurd h (by simp)

/-- C8 (as amended): when `N` `Push` calls that each return true and none of
which finds the stack full (`0 <= stackPointer` and `stackPointer + N <= STACK`
before the first) are followed by `N` `Pop` calls that each return true, the
values of `drivesRelative`, `axesRelative` and `gFeedRate` after the last `Pop`
equal their values immediately before the first `Push`, whatever changes that
leave the stack alone were made between the calls. -/
theorem C8_stack_balance {F : Type} [FloatOps F] (cfg : Config F)
    (ps : List (Env F × (GCodes F → GCodes F)))
    (qs : List ((GCodes F → GCodes F) × Env F)) (s m t : GCodes F)
    (hN : ps.length = qs.length)
    (hps : ∀ p ∈ ps, StackPreserving p.2) (hqs : ∀ q ∈ qs, StackPreserving q.1)
    (h0 : 0 ≤ s.stackPointer)
    (hfit : s.stackPointer + (ps.length : Int) ≤ (cfg.STACK : Int))
    (hpush : pushes cfg ps s = some m) (hpop : pops qs m = some t) :
    t.drivesRelative = s.drivesRelative ∧ t.axesRelative = s.axesRelative ∧
      t.gFeedRate = s.gFeedRate := by
  obtain ⟨a1, _, a3⟩ := pushes_effect cfg ps s m hps hfit hpush
  have hlen : (qs.length : Int) ≤ m.stackPointer := by rw [a1, hN]; omega
  obtain ⟨_, _, _, _, b5⟩ := pops_effect qs m t hqs hlen hpop
  by_cases hnil : ps = []
  · subst hnil
    have hq : qs = [] := List.length_eq_zero.mp hN.symm
    subst hq
    simp only [pushes, pops, Option.some.injEq] at hpush hpop
    subst hpush hpop
    exact ⟨rfl, rfl, rfl⟩
  · have hq : qs ≠ [] := by
      intro hq
      subst hq
      exact hnil (List.length_eq_zero.mp hN)
    obtain ⟨c1, c2, c3⟩ := b5 hq
    obtain ⟨d1, d2, d3⟩ := a3 hnil
    have e : m.stackPointer - (qs.length : Int) = s.stackPointer := by rw [a1, hN]; omega
    rw [e] at c1 c2 c3
    exact ⟨c1.trans d1, c2.trans d2, c3.trans d3⟩

theorem stackPreserving_id {F : Type} : StackPreserving (fun s : GCodes F => s) :=
  fun _ => ⟨rfl, rfl, rfl, rfl⟩

theorem stackPreserving_setRelative {F : Type} : StackPreserving (setRelative (F := F)) :=
  fun _ => ⟨rfl, rfl, rfl, rfl⟩

theorem stackPreserving_takeMove {F : Type} [FloatOps F] :
    StackPreserving (takeMove (F := F)) := by
  intro s
  unfold takeMove GCodes.ReadMove
  split_ifs <;> exact ⟨rfl, rfl, rfl, rfl⟩

/-- C8, witness: from the state after `Init`, two pushes with a switch to
relative mode in between, then two pops with the consumer taking the null move
in between. -/
theorem C8_stack_balance_witness :
    ([(idleEnv, setRelative), (idleEnv, fun s => s)] :
        List (Env Rat × (GCodes Rat → GCodes Rat))).length
      = ([(fun s => s, idleEnv), (takeMove, idleEnv)] :
        List ((GCodes Rat → GCodes Rat) × Env Rat)).length ∧
    0 ≤ initial.stackPointer ∧
    initial.stackPointer + 2 ≤ (exampleConfig.STACK : Int) ∧
    pushes exampleConfig [(idleEnv, setRelative), (idleEnv, fun s => s)] initial
      = some (GCodes.Push exampleConfig idleEnv
          (setRelative (GCodes.Push exampleConfig idleEnv initial).2)).2 ∧
    pops [(fun s => s, idleEnv), (takeMove, idleEnv)]
        (GCodes.Push exampleConfig idleEnv
          (setRelative (GCodes.Push exampleConfig idleEnv initial).2)).2
      = some (GCodes.Pop idleEnv (takeMove (GCodes.Pop idleEnv
          (GCodes.Push exampleConfig idleEnv
            (setRelative (GCodes.Push exampleConfig idleEnv initial).2)).2).2)).2 ∧
    ((GCodes.Pop idleEnv (takeMove (GCodes.Pop idleEnv
          (GCodes.Push exampleConfig idleEnv
            (setRelative (GCodes.Push exampleConfig idleEnv initial).2)).2).2)).2.drivesRelative
        = initial.drivesRelative ∧
      (GCodes.Pop idleEnv (takeMove (GCodes.Pop idleEnv
          (GCodes.Push exampleConfig idleEnv
            (setRelative (GCodes.Push exampleConfig idleEnv initial).2)).2).2)).2.axesRelative
        = initial.axesRelative ∧
      (GCodes.Pop idleEnv (takeMove (GCodes.Pop idleEnv
          (GCodes.Push exampleConfig idleEnv
            (setRelative (GCodes.Push exampleConfig idleEnv initial).2)).2).2)).2.gFeedRate
        = initial.gFeedRate) :=
  ⟨rfl, by decide, by decide, rfl, rfl,
    C8_stack_balance exampleConfig [(idleEnv, setRelative), (idleEnv, fun s => s)]
      [(fun s => s, idleEnv), (takeMove, idleEnv)] initial _ _ rfl
      (by
        intro p hp
        simp only [List.mem_cons, List.mem_singleton, List.mem_nil_iff, or_false] at hp
        rcases hp with h | h
        · subst h; exact stackPreserving_setRelative
        · subst h; exact stackPreserving_id)
      (by
        intro q hq
        simp only [List.mem_cons, List.mem_singleton, List.mem_nil_iff, or_false] at hq
        rcases hq with h | h
        · subst h; exact stackPreserving_id
        · subst h; exact stackPreserving_takeMove)
      (by decide) (by decide) rfl rfl⟩

/-- C8, counterexample: after four `M120` commands and `G90` the stack of five
holds four frames saved in the initial mode and `drivesRelative` is false.
Two `Push` calls then both return true (the second finds the stack full and
saves nothing), two `Pop` calls both return true (motion drained, the consumer
taking the null move in between), and `drivesRelative` ends up true. -/
theorem C8_stack_balance_counterexample :
    (afterWeb [77, 49, 50, 48, 10, 77, 49, 50, 48, 10, 77, 49, 50, 48, 10,
        77, 49, 50, 48, 10, 71, 57, 48, 10]).drivesRelative = false ∧
    (((pushes exampleConfig [(idleEnv, fun s => s), (idleEnv, fun s => s)]
        (afterWeb [77, 49, 50, 48, 10, 77, 49, 50, 48, 10, 77, 49, 50, 48, 10,
          77, 49, 50, 48, 10, 71, 57, 48, 10])).bind
        (pops [(fun s => s, idleEnv), (takeMove, idleEnv)])).map
        (fun t => t.drivesRelative)) = some true := by
  decide!

/-! ## Field lookup -/

theorem seenLoop_absent (c : Nat) (l : List Nat) :
    ∀ k, c ∉ cstr l → GCodeBuffer.seenLoop c l k = none := by
  induction l with
  | nil => intro k _; rfl
  | cons b bs ih =>
    intro k h
    by_cases hb : b = 0
    · simp [GCodeBuffer.seenLoop, hb]
    · have hcs : cstr (b :: bs) = b :: cstr bs := by simp [cstr, List.takeWhile_cons, hb]
      rw [hcs] at h
      have hne : b ≠ c := fun e => h (by simp [e])
      have hrest : c ∉ cstr bs := fun e => h (by simp [e])
      simp [GCodeBuffer.seenLoop, hb, hne, ih (k + 1) hrest]

theorem seenLoop_present (c : Nat) (l : List Nat) :
    ∀ k, c ∈ cstr l →
      GCodeBuffer.seenLoop c l k = some (k + ((cstr l).takeWhile (fun x => x != c)).length) ∧
      cstr (l.drop (((cstr l).takeWhile (fun x => x != c)).length + 1)) = textAfter c (cstr l) := by
  induction l with
  | nil => intro k h; simp [cstr] at h
  | cons b bs ih =>
    intro k h
    by_cases hb : b = 0
    · simp [cstr, hb] at h
    · have hcs : cstr (b :: bs) = b :: cstr bs := by simp [cstr, List.takeWhile_cons, hb]
      rw [hcs] at h ⊢
      by_cases hbc : b = c
      · subst hbc
        simp [GCodeBuffer.seenLoop, hb, textAfter, List.takeWhile_cons, List.dropWhile_cons]
      · have hrest : c ∈ cstr bs := by
          rcases List.mem_cons.mp h with e | e
          · exact absurd e.symm hbc
          · exact e
        obtain ⟨h1, h2⟩ := ih (k + 1) hrest
        constructor
        · simp [GCodeBuffer.seenLoop, hb, hbc, h1, List.takeWhile_cons]
          omega
        · simp only [textAfter] at h2 ⊢
          simp [List.takeWhile_cons, List.dropWhile_cons, hbc, h2]

theorem Seen_iff_mem (gb : GCodeBuffer) (c : Nat) :
    (gb.Seen c).1 = true ↔ c ∈ gb.line := by
  unfold GCodeBuffer.Seen GCodeBuffer.line
  by_cases h : c ∈ cstr gb.gcodeBuffer
  · rw [(seenLoop_present c gb.gcodeBuffer 0 h).1]
    simp [h]
  · rw [seenLoop_absent c gb.gcodeBuffer 0 h]
    simp [h]

theorem Seen_valueText (gb : GCodeBuffer) (c : Nat) (h : c ∈ gb.line) :
    0 ≤ (gb.Seen c).2.readPointer ∧ (gb.Seen c).2.valueText = textAfter c gb.line := by
  unfold GCodeBuffer.line at h ⊢
  obtain ⟨h1, h2⟩ := seenLoop_present c gb.gcodeBuffer 0 h
  unfold GCodeBuffer.Seen GCodeBuffer.valueText
  rw [h1]
  simp only [Nat.zero_add]
  constructor
  · exact Int.ofNat_nonneg _
  · have e : (((((cstr gb.gcodeBuffer).takeWhile (fun x => x != c)).length : Nat) : Int) + 1).toNat
        = ((cstr gb.gcodeBuffer).takeWhile (fun x => x != c)).length + 1 := by
      omega
    rw [e]
    exact h2

theorem Seen_gcodeBuffer (gb : GCodeBuffer) (c : Nat) :
    (gb.Seen c).2.gcodeBuffer = gb.gcodeBuffer := by
  unfold GCodeBuffer.Seen
  split <;> rfl

theorem buf_setBuf {F : Type} [FloatOps F] (s : GCodes F) (src : Source) (gb : GCodeBuffer) :
    (s.setBuf src gb).buf src = gb := by
  cases src <;> rfl

theorem sameFields_setBuf {F : Type} [FloatOps F] (s : GCodes F) (src : Source)
    (gb : GCodeBuffer) (h : gb.line = (s.buf src).line) : SameFields s (s.setBuf src gb) := by
  have h8 : ∀ src2, ((s.setBuf src gb).buf src2).line = (s.buf src2).line := by
    intro src2
    cases src <;> cases src2 <;> first | exact h | rfl
  cases src <;> exact ⟨rfl, rfl, rfl, rfl, rfl, rfl, rfl, h8⟩

theorem SameFields.strans {F : Type} [FloatOps F] {s t u : GCodes F}
    (h1 : SameFields s t) (h2 : SameFields t u) : SameFields s u := by
  obtain ⟨a1, a2, a3, a4, a5, a6, a7, a8⟩ := h1
  obtain ⟨b1, b2, b3, b4, b5, b6, b7, b8⟩ := h2
  exact ⟨b1.trans a1, b2.trans a2, b3.trans a3, b4.trans a4, b5.trans a5, b6.trans a6,
    b7.trans a7, fun src => (b8 src).trans (a8 src)⟩

theorem sameFields_Seen {F : Type} [FloatOps F] (src : Source) (c : Nat) (s : GCodes F) :
    SameFields s (GCodes.Seen src c s).2 := by
  unfold GCodes.Seen
  apply sameFields_setBuf
  unfold GCodeBuffer.line
  rw [Seen_gcodeBuffer]

theorem sameFields_GetFValue {F : Type} [FloatOps F] (cfg : Config F) (src : Source)
    (s : GCodes F) : SameFields s (GCodes.GetFValue cfg src s).2 := by
  have h : SameFields s (s.setBuf src ((s.buf src).GetFValue cfg.strtod 0.0).2.1) := by
    apply sameFields_setBuf
    unfold GCodeBuffer.GetFValue GCodeBuffer.line
    split_ifs <;> rfl
  exact h

theorem Seen_fst {F : Type} [FloatOps F] (src : Source) (c : Nat) (s : GCodes F) :
    (GCodes.Seen src c s).1 = true ↔ c ∈ (s.buf src).line :=
  Seen_iff_mem (s.buf src) c

theorem GetFValue_after_Seen {F : Type} [FloatOps F] (cfg : Config F) (src : Source) (c : Nat)
    (s : GCodes F) (h : c ∈ (s.buf src).line) :
    (GCodes.GetFValue cfg src (GCodes.Seen src c s).2).1
      = cfg.strtod (textAfter c (s.buf src).line) := by
  obtain ⟨h1, h2⟩ := Seen_valueText (s.buf src) c h
  unfold GCodes.GetFValue GCodes.Seen
  dsimp only
  rw [buf_setBuf]
  unfold GCodeBuffer.GetFValue
  rw [if_neg (by omega), h2]

theorem setUpMoveDrive_sameFields {F : Type} [FloatOps F] (cfg : Config F) (src : Source)
    (t : GCodes F) (i : Nat) :
    (∀ k, k ≠ i → (GCodes.setUpMoveDrive cfg src t i).moveBuffer k = t.moveBuffer k) ∧
    (GCodes.setUpMoveDrive cfg src t i).gCodeLetters = t.gCodeLetters ∧
    (GCodes.setUpMoveDrive cfg src t i).axesRelative = t.axesRelative ∧
    (GCodes.setUpMoveDrive cfg src t i).distanceScale = t.distanceScale ∧
    ∀ src2, ((GCodes.setUpMoveDrive cfg src t i).buf src2).line = (t.buf src2).line := by
  have hS := sameFields_Seen src (t.gCodeLetters i) t
  have hG := hS.strans (sameFields_GetFValue cfg src (GCodes.Seen src (t.gCodeLetters i) t).2)
  obtain ⟨a1, a2, a3, _, a5, _, _, a8⟩ := hS
  obtain ⟨b1, b2, b3, _, b5, _, _, b8⟩ := hG
  unfold GCodes.setUpMoveDrive
  dsimp only
  split_ifs
  all_goals first
    | exact ⟨fun k _ => by rw [a1], a2, a3, a5, a8⟩
    | exact ⟨fun k hk => by
        show Function.update _ i _ k = _
        rw [Function.update_noteq hk, b1], b2, b3, b5, b8⟩

theorem setUpMoveDrive_axis {F : Type} [FloatOps F] (cfg : Config F) (src : Source)
    (t : GCodes F) (i : Nat) (hi : i < AXES) :
    (GCodes.setUpMoveDrive cfg src t i).moveBuffer i
      = if t.gCodeLetters i ∈ (t.buf src).line then
          (if t.axesRelative = true then
            t.moveBuffer i
              + cfg.strtod (textAfter (t.gCodeLetters i) (t.buf src).line) * t.distanceScale
          else cfg.strtod (textAfter (t.gCodeLetters i) (t.buf src).line) * t.distanceScale)
        else t.moveBuffer i := by
  have hS := sameFields_Seen src (t.gCodeLetters i) t
  have hG := hS.strans (sameFields_GetFValue cfg src (GCodes.Seen src (t.gCodeLetters i) t).2)
  obtain ⟨a1, _⟩ := hS
  obtain ⟨b1, _, b3, _, b5, _⟩ := hG
  unfold GCodes.setUpMoveDrive
  rw [if_pos hi]
  dsimp only
  by_cases hp : t.gCodeLetters i ∈ (t.buf src).line
  · have hs : (GCodes.Seen src (t.gCodeLetters i) t).1 = true := (Seen_fst src _ t).mpr hp
    have hv := GetFValue_after_Seen cfg src (t.gCodeLetters i) t hp
    rw [if_pos hs, if_pos hp, b3]
    by_cases hr : t.axesRelative = true
    · rw [if_pos hr, if_pos hr]
      show Function.update _ i _ i = _
      rw [Function.update_same, b1, hv, b5]
    · rw [if_neg hr, if_neg hr]
      show Function.update _ i _ i = _
      rw [Function.update_same, hv, b5]
  · have hs : ¬ (GCodes.Seen src (t.gCodeLetters i) t).1 = true :=
      fun h => hp ((Seen_fst src _ t).mp h)
    rw [if_neg hs, if_neg hp, a1]

theorem setUpMoveLoop_frame {F : Type} [FloatOps F] (cfg : Config F) (src : Source)
    (l : List Nat) :
    ∀ t : GCodes F,
      (∀ k, k ∉ l → (l.foldl (GCodes.setUpMoveDrive cfg src) t).moveBuffer k = t.moveBuffer k) ∧
      (l.foldl (GCodes.setUpMoveDrive cfg src) t).gCodeLetters = t.gCodeLetters ∧
      (l.foldl (GCodes.setUpMoveDrive cfg src) t).axesRelative = t.axesRelative ∧
      (l.foldl (GCodes.setUpMoveDrive cfg src) t).distanceScale = t.distanceScale ∧
      ∀ src2, ((l.foldl (GCodes.setUpMoveDrive cfg src) t).buf src2).line = (t.buf src2).line := by
  induction l with
  | nil => intro t; exact ⟨fun _ _ => rfl, rfl, rfl, rfl, fun _ => rfl⟩
  | cons j rest ih =>
    intro t
    obtain ⟨a1, a2, a3, a4, a5⟩ := setUpMoveDrive_sameFields cfg src t j
    obtain ⟨b1, b2, b3, b4, b5⟩ := ih (GCodes.setUpMoveDrive cfg src t j)
    simp only [List.foldl_cons]
    refine ⟨?_, b2.trans a2, b3.trans a3, b4.trans a4, fun src2 => (b5 src2).trans (a5 src2)⟩
    intro k hk
    have hkj : k ≠ j := fun e => hk (by simp [e])
    have hkr : k ∉ rest := fun e => hk (by simp [e])
    rw [b1 k hkr, a1 k hkj]

theorem setUpMoveLoop_axis {F : Type} [FloatOps F] (cfg : Config F) (src : Source)
    (pre post : List Nat) (i : Nat) (hi : i < AXES) (hpre : i ∉ pre) (hpost : i ∉ post)
    (t : GCodes F) :
    ((pre ++ i :: post).foldl (GCodes.setUpMoveDrive cfg src) t).moveBuffer i
      = if t.gCodeLetters i ∈ (t.buf src).line then
          (if t.axesRelative = true then
            t.moveBuffer i
              + cfg.strtod (textAfter (t.gCodeLetters i) (t.buf src).line) * t.distanceScale
          else cfg.strtod (textAfter (t.gCodeLetters i) (t.buf src).line) * t.distanceScale)
        else t.moveBuffer i := by
  obtain ⟨a1, a2, a3, a4, a5⟩ := setUpMoveLoop_frame cfg src pre t
  rw [List.foldl_append, List.foldl_cons]
  rw [(setUpMoveLoop_frame cfg src post _).1 i hpost, setUpMoveDrive_axis cfg src _ i hi,
    a1 i hpre, a2, a3, a4, a5 src]

theorem setUpMoveFeedrate_moveBuffer {F : Type} [FloatOps F] (cfg : Config F) (src : Source)
    (t : GCodes F) (k : Nat) (hk : k ≠ DRIVES) :
    (GCodes.setUpMoveFeedrate cfg src t).moveBuffer k = t.moveBuffer k := by
  have hS := sameFields_Seen src (t.gCodeLetters DRIVES) t
  have hG := hS.strans (sameFields_GetFValue cfg src (GCodes.Seen src (t.gCodeLetters DRIVES) t).2)
  unfold GCodes.setUpMoveFeedrate
  dsimp only
  split_ifs
  · show Function.update _ DRIVES _ k = _
    rw [Function.update_noteq hk]
    exact congrFun hG.1 k
  · show Function.update _ DRIVES _ k = _
    rw [Function.update_noteq hk]
    exact congrFun hS.1 k

theorem SetUpMove_succeeds_iff {F : Type} [FloatOps F] (cfg : Config F) (env : Env F)
    (src : Source) (s : GCodes F) :
    (GCodes.SetUpMove cfg env src s).1 = true ↔
      s.moveAvailable = false ∧ (env.getCurrentState s.moveBuffer).1 = true := by
  unfold GCodes.SetUpMove
  by_cases hm : s.moveAvailable = true
  · simp [hm]
  · by_cases hg : (env.getCurrentState s.moveBuffer).1 = true
    · simp [hm, hg]
    · simp [hm, hg]

/-- C10: when `SetUpMove` succeeds, for every axis `i < AXES` the request
field `moveBuffer[i]` is `v * distanceScale` if the axis letter is present in
the line and `axesRelative` is false, `p_i + v * distanceScale` if it is present
and `axesRelative` is true, and `p_i` if it is absent, where `p` is the state
`Move` reported and `v` is the value `strtod` reads after the first occurrence
of the letter. -/
theorem C10_axis_overlay {F : Type} [FloatOps F] (cfg : Config F) (env : Env F)
    (src : Source) (s : GCodes F) (i : Nat) (hi : i < AXES)
    (hok : (GCodes.SetUpMove cfg env src s).1 = true) :
    (GCodes.SetUpMove cfg env src s).2.moveBuffer i
      = if s.gCodeLetters i ∈ (s.buf src).line then
          (if s.axesRelative = true then
            (env.getCurrentState s.moveBuffer).2 i
              + cfg.strtod (textAfter (s.gCodeLetters i) (s.buf src).line) * s.distanceScale
          else cfg.strtod (textAfter (s.gCodeLetters i) (s.buf src).line) * s.distanceScale)
        else (env.getCurrentState s.moveBuffer).2 i := by
  obtain ⟨hm, hg⟩ := (SetUpMove_succeeds_iff cfg env src s).mp hok
  have hm2 : ¬ s.moveAvailable = true := by simp [hm]
  have hg2 : ¬ (!(env.getCurrentState s.moveBuffer).1) = true := by simp [hg]
  have hd : i ≠ DRIVES := by unfold AXES at hi; unfold DRIVES; omega
  have e : (GCodes.SetUpMove cfg env src s).2.moveBuffer i
      = ((List.range DRIVES).foldl (GCodes.setUpMoveDrive cfg src)
          { s with moveBuffer := (env.getCurrentState s.moveBuffer).2 }).moveBuffer i := by
    unfold GCodes.SetUpMove
    rw [if_neg hm2]
    dsimp only
    rw [if_neg hg2]
    exact setUpMoveFeedrate_moveBuffer cfg src _ i hd
  rw [e]
  have hrange : List.range DRIVES = [0, 1, 2, 3] := by decide
  rw [hrange]
  have hcases : i = 0 ∨ i = 1 ∨ i = 2 := by unfold AXES at hi; omega
  rcases hcases with h | h | h
  · subst h
    exact setUpMoveLoop_axis cfg src [] [1, 2, 3] 0 hi (by simp) (by simp) _
  · subst h
    exact setUpMoveLoop_axis cfg src [0] [2, 3] 1 hi (by simp) (by simp) _
  · subst h
    exact setUpMoveLoop_axis cfg src [0, 1] [3] 2 hi (by simp) (by simp) _

/-- C10, witness: the line `G1 X12.5` in the web buffer, the handoff slot
free; the X field of the request is 12.5. -/
theorem C10_axis_overlay_witness :
    (0 < AXES ∧
      (GCodes.SetUpMove exampleConfig idleEnv Source.web
        (takeMove (afterWeb [71, 49, 32, 88, 49, 50, 46, 53, 10]))).1 = true) ∧
    (GCodes.SetUpMove exampleConfig idleEnv Source.web
        (takeMove (afterWeb [71, 49, 32, 88, 49, 50, 46, 53, 10]))).2.moveBuffer 0 = 12.5 ∧
    (GCodes.SetUpMove exampleConfig idleEnv Source.web
        (takeMove (afterWeb [71, 49, 32, 88, 49, 50, 46, 53, 10]))).2.moveBuffer 0
      = if (takeMove (afterWeb [71, 49, 32, 88, 49, 50, 46, 53, 10])).gCodeLetters 0
            ∈ ((takeMove (afterWeb [71, 49, 32, 88, 49, 50, 46, 53, 10])).buf Source.web).line then
          (if (takeMove (afterWeb [71, 49, 32, 88, 49, 50, 46, 53, 10])).axesRelative = true then
            (idleEnv.getCurrentState
                (takeMove (afterWeb [71, 49, 32, 88, 49, 50, 46, 53, 10])).moveBuffer).2 0
              + exampleConfig.strtod
                  (textAfter ((takeMove (afterWeb [71, 49, 32, 88, 49, 50, 46, 53, 10])).gCodeLetters 0)
                    ((takeMove (afterWeb [71, 49, 32, 88, 49, 50, 46, 53, 10])).buf Source.web).line)
                * (takeMove (afterWeb [71, 49, 32, 88, 49, 50, 46, 53, 10])).distanceScale
          else exampleConfig.strtod
                  (textAfter ((takeMove (afterWeb [71, 49, 32, 88, 49, 50, 46, 53, 10])).gCodeLetters 0)
                    ((takeMove (afterWeb [71, 49, 32, 88, 49, 50, 46, 53, 10])).buf Source.web).line)
                * (takeMove (afterWeb [71, 49, 32, 88, 49, 50, 46, 53, 10])).distanceScale)
        else (idleEnv.getCurrentState
                (takeMove (afterWeb [71, 49, 32, 88, 49, 50, 46, 53, 10])).moveBuffer).2 0 :=
  ⟨⟨by decide, by decide!⟩, by decide!,
    C10_axis_overlay exampleConfig idleEnv Source.web
      (takeMove (afterWeb [71, 49, 32, 88, 49, 50, 46, 53, 10])) 0 (by decide) (by decide!)⟩

/-! ## The scheduler -/

theorem filter_handler_events {F : Type} (p : Event F → Bool)
    (hp : ∀ e : Event F, e.isHandlerEvent = true → p e = false) (l : List (Event F))
    (hl : ∀ e ∈ l, e.isHandlerEvent = true) : l.filter p = [] := by
  induction l with
  | nil => rfl
  | cons a t ih =>
    have ha : p a = false := hp a (hl a (by simp))
    rw [List.filter_cons, ha]
    exact ih (fun e he => hl e (by simp [he]))

theorem handler_not_actOn {F : Type} (e : Event F) (h : e.isHandlerEvent = true) :
    e.isActOn = false := by
  cases e <;> first | rfl | exact absurd h (by simp [Event.isHandlerEvent])

theorem handler_not_read {F : Type} (e : Event F) (h : e.isHandlerEvent = true) :
    e.readsByte = false := by
  cases e <;> first | rfl | exact absurd h (by simp [Event.isHandlerEvent])

theorem handler_not_put {F : Type} (e : Event F) (h : e.isHandlerEvent = true) :
    e.isPut = false := by
  cases e <;> first | rfl | exact absurd h (by simp [Event.isHandlerEvent])

theorem log_setBuf {F : Type} [FloatOps F] (src : Source) (gb : GCodeBuffer) (s : GCodes F) :
    (s.setBuf src gb).log = s.log := by
  cases src <;> rfl

theorem actAndStore_log {F : Type} [FloatOps F] (cfg : Config F) (env : Env F) (src : Source)
    (s : GCodes F) :
    ∃ rest : List (Event F),
      (GCodes.actAndStore cfg env src s).log = s.log ++ Event.actOn src :: rest ∧
      ∀ e ∈ rest, e.isHandlerEvent = true := by
  obtain ⟨evs, h1, h2⟩ := (bounded_ActOnGcode cfg env src (GCodes.emit (Event.actOn src) s)).1.1
  refine ⟨evs, ?_, h2⟩
  unfold GCodes.actAndStore GCodes.SetFinished
  dsimp only
  rw [log_setBuf, h1]
  simp [GCodes.emit]

theorem actAndStore_text {F : Type} [FloatOps F] (cfg : Config F) (env : Env F) (src : Source)
    (s : GCodes F) (b : Source) :
    ((GCodes.actAndStore cfg env src s).buf b).gcodeBuffer = (s.buf b).gcodeBuffer ∧
    ((GCodes.actAndStore cfg env src s).buf b).gcodePointer = (s.buf b).gcodePointer ∧
    ((GCodes.actAndStore cfg env src s).buf b).inComment = (s.buf b).inComment := by
  obtain ⟨h1, h2, h3, _, _⟩ :=
    (bounded_ActOnGcode cfg env src (GCodes.emit (Event.actOn src) s)).1.2 b
  have e : ∀ (t : GCodes F) (f : Bool),
      ((GCodes.SetFinished src f t).buf b).gcodeBuffer = (t.buf b).gcodeBuffer ∧
      ((GCodes.SetFinished src f t).buf b).gcodePointer = (t.buf b).gcodePointer ∧
      ((GCodes.SetFinished src f t).buf b).inComment = (t.buf b).inComment := by
    intro t f
    cases src <;> cases b <;> exact ⟨rfl, rfl, rfl⟩
  obtain ⟨e1, e2, e3⟩ := e (GCodes.ActOnGcode cfg env src (GCodes.emit (Event.actOn src) s)).2
    (GCodes.ActOnGcode cfg env src (GCodes.emit (Event.actOn src) s)).1
  exact ⟨e1.trans h1, e2.trans h2, e3.trans h3⟩

theorem newEvents_of_log {F : Type} (s t : GCodes F) (evs : List (Event F))
    (h : t.log = s.log ++ evs) : newEvents s t = evs := by
  unfold newEvents
  rw [h]
  simp

/-- C4 (as amended): for every state in which the interpreter is active and
at least one command buffer is unfinished, one call of `Spin` calls
`ActOnGcode` exactly once, on the first unfinished buffer in the order web,
serial, file, and stores the returned value as that buffer's finished flag; it
reads no byte from any source and feeds no byte to any buffer (the calls it
makes are that one dispatch followed by calls the handler makes, and the text,
write cursor and comment flag of every buffer are as before). -/
theorem C4_unfinished_first {F : Type} [FloatOps F] (cfg : Config F) (env : Env F)
    (s : GCodes F) (src : Source) (hact : s.active = true)
    (hsrc : firstUnfinished s = some src) :
    GCodes.Spin cfg env s
        = GCodes.SetFinished src
            (GCodes.ActOnGcode cfg env src (GCodes.emit (Event.actOn src) s)).1
            (GCodes.ActOnGcode cfg env src (GCodes.emit (Event.actOn src) s)).2 ∧
      (∃ rest : List (Event F),
        (GCodes.Spin cfg env s).log = s.log ++ Event.actOn src :: rest ∧
        ∀ e ∈ rest, e.isActOn = false ∧ e.readsByte = false ∧ e.isPut = false) ∧
      ∀ b : Source,
        ((GCodes.Spin cfg env s).buf b).gcodeBuffer = (s.buf b).gcodeBuffer ∧
        ((GCodes.Spin cfg env s).buf b).gcodePointer = (s.buf b).gcodePointer ∧
        ((GCodes.Spin cfg env s).buf b).inComment = (s.buf b).inComment := by
  have hspin : GCodes.Spin cfg env s = GCodes.actAndStore cfg env src s := by
    unfold firstUnfinished at hsrc
    unfold GCodes.Spin
    have ha : ¬ (!s.active) = true := by simp [hact]
    rw [if_neg ha]
    by_cases hw : (!s.webGCode.finished) = true
    · rw [if_pos hw] at hsrc ⊢
      cases hsrc
      rfl
    rw [if_neg hw] at hsrc ⊢
    by_cases hs : (!s.serialGCode.finished) = true
    · rw [if_pos hs] at hsrc ⊢
      cases hsrc
      rfl
    rw [if_neg hs] at hsrc ⊢
    by_cases hf : (!s.fileGCode.finished) = true
    · rw [if_pos hf] at hsrc ⊢
      cases hsrc
      rfl
    rw [if_neg hf] at hsrc
    cases hsrc
  refine ⟨?_, ?_, ?_⟩
  · rw [hspin]
    rfl
  · obtain ⟨rest, h1, h2⟩ := actAndStore_log cfg env src s
    refine ⟨rest, by rw [hspin, h1], ?_⟩
    intro e he
    exact ⟨handler_not_actOn e (h2 e he), handler_not_read e (h2 e he),
      handler_not_put e (h2 e he)⟩
  · intro b
    rw [hspin]
    exact actAndStore_text cfg env src s b

/-- C4, witness: a `G28` in progress on the web buffer. -/
theorem C4_unfinished_first_witness :
    ((afterWeb [71, 50, 56, 10]).active = true ∧
      firstUnfinished (afterWeb [71, 50, 56, 10]) = some Source.web) ∧
    (GCodes.Spin exampleConfig idleEnv (afterWeb [71, 50, 56, 10])
        = GCodes.SetFinished Source.web
            (GCodes.ActOnGcode exampleConfig idleEnv Source.web
              (GCodes.emit (Event.actOn Source.web) (afterWeb [71, 50, 56, 10]))).1
            (GCodes.ActOnGcode exampleConfig idleEnv Source.web
              (GCodes.emit (Event.actOn Source.web) (afterWeb [71, 50, 56, 10]))).2 ∧
      (∃ rest : List (Event Rat),
        (GCodes.Spin exampleConfig idleEnv (afterWeb [71, 50, 56, 10])).log
          = (afterWeb [71, 50, 56, 10]).log ++ Event.actOn Source.web :: rest ∧
        ∀ e ∈ rest, e.isActOn = false ∧ e.readsByte = false ∧ e.isPut = false) ∧
      ∀ b : Source,
        ((GCodes.Spin exampleConfig idleEnv (afterWeb [71, 50, 56, 10])).buf b).gcodeBuffer
          = ((afterWeb [71, 50, 56, 10]).buf b).gcodeBuffer ∧
        ((GCodes.Spin exampleConfig idleEnv (afterWeb [71, 50, 56, 10])).buf b).gcodePointer
          = ((afterWeb [71, 50, 56, 10]).buf b).gcodePointer ∧
        ((GCodes.Spin exampleConfig idleEnv (afterWeb [71, 50, 56, 10])).buf b).inComment
          = ((afterWeb [71, 50, 56, 10]).buf b).inComment) :=
  ⟨⟨by decide, by decide⟩,
    C4_unfinished_first exampleConfig idleEnv (afterWeb [71, 50, 56, 10]) Source.web
      (by decide) (by decide)⟩

/-- C4, counterexample: `Exit` called while a `G28` is in progress leaves the
web buffer unfinished; `Spin` then returns at once: it dispatches nothing and
the buffer stays unfinished. -/
theorem C4_inactive_counterexample :
    (GCodes.Exit (afterWeb [71, 50, 56, 10])).webGCode.finished = false ∧
      newEvents (GCodes.Exit (afterWeb [71, 50, 56, 10]))
        (GCodes.Spin exampleConfig idleEnv (GCodes.Exit (afterWeb [71, 50, 56, 10]))) = [] := by
  decide!

theorem putAndAct_log {F : Type} [FloatOps F] (cfg : Config F) (env : Env F) (src : Source)
    (c : Nat) (s : GCodes F) :
    ∃ evs : List (Event F),
      (GCodes.putAndAct cfg env src c s).log = s.log ++ Event.put src c :: evs ∧
      (evs.filter Event.isActOn).length ≤ 1 ∧ evs.filter Event.readsByte = [] := by
  have hm : ∀ ms : List Msg, ∀ e ∈ ms.map (Event.message (F := F)), e.isHandlerEvent = true := by
    intro ms e he
    obtain ⟨m, _, rfl⟩ := List.mem_map.mp he
    rfl
  have hlog : ((((GCodes.emit (Event.put src c) s).setBuf src
        ((s.buf src).Put cfg.GCODE_LENGTH env.debug c).2.1).messages
        ((s.buf src).Put cfg.GCODE_LENGTH env.debug c).2.2)).log
      = s.log ++ Event.put src c
          :: (((s.buf src).Put cfg.GCODE_LENGTH env.debug c).2.2).map Event.message := by
    show ((GCodes.emit (Event.put src c) s).setBuf src _).log ++ _ = _
    rw [log_setBuf]
    simp [GCodes.emit]
  unfold GCodes.putAndAct
  dsimp only
  split_ifs
  · obtain ⟨rest, h1, h2⟩ := actAndStore_log cfg env src
      ((((GCodes.emit (Event.put src c) s).setBuf src
        ((s.buf src).Put cfg.GCODE_LENGTH env.debug c).2.1).messages
        ((s.buf src).Put cfg.GCODE_LENGTH env.debug c).2.2))
    refine ⟨(((s.buf src).Put cfg.GCODE_LENGTH env.debug c).2.2).map Event.message
      ++ Event.actOn src :: rest, ?_, ?_, ?_⟩
    · rw [h1, hlog]
      simp
    · rw [List.filter_append, List.filter_cons,
        filter_handler_events _ handler_not_actOn _ (hm _),
        filter_handler_events _ handler_not_actOn _ h2]
      simp [Event.isActOn]
    · rw [List.filter_append, List.filter_cons,
        filter_handler_events _ handler_not_read _ (hm _),
        filter_handler_events _ handler_not_read _ h2]
      simp [Event.readsByte]
  · refine ⟨_, hlog, ?_, ?_⟩
    · rw [filter_handler_events _ handler_not_actOn _ (hm _)]
      simp
    · exact filter_handler_events _ handler_not_read _ (hm _)

/-- C5: every call of `Spin` performs at most one action: among the calls it
makes there is at most one dispatch (`ActOnGcode`) and at most one that takes a
byte from a source; when the interpreter is active and all buffers are
finished the byte is taken from the first source that has one in the order
web, serial, open job file (a job-file byte only when neither web nor serial
has one); when the interpreter is inactive `Spin` does nothing. -/
theorem C5_spin_at_most_one_action {F : Type} [FloatOps F] (cfg : Config F) (env : Env F)
    (s : GCodes F) :
    (GCodes.Spin cfg env s).log = s.log ++ newEvents s (GCodes.Spin cfg env s) ∧
    ((newEvents s (GCodes.Spin cfg env s)).filter Event.isActOn).length ≤ 1 ∧
    ((newEvents s (GCodes.Spin cfg env s)).filter Event.readsByte).length ≤ 1 ∧
    (s.active = true → firstUnfinished s = none →
      (newEvents s (GCodes.Spin cfg env s)).filter Event.readsByte = expectedRead env s) ∧
    (s.active = false → GCodes.Spin cfg env s = s) := by
  have hnil : newEvents s s = [] := by simp [newEvents]
  have hact : ∀ src, GCodes.Spin cfg env s = GCodes.actAndStore cfg env src s →
      (GCodes.Spin cfg env s).log = s.log ++ newEvents s (GCodes.Spin cfg env s) ∧
      ((newEvents s (GCodes.Spin cfg env s)).filter Event.isActOn).length ≤ 1 ∧
      (newEvents s (GCodes.Spin cfg env s)).filter Event.readsByte = [] := by
    intro src e
    obtain ⟨rest, h1, h2⟩ := actAndStore_log cfg env src s
    rw [← e] at h1
    rw [newEvents_of_log s _ _ h1]
    refine ⟨h1, ?_, ?_⟩
    · rw [List.filter_cons, filter_handler_events _ handler_not_actOn _ h2]
      simp [Event.isActOn]
    · rw [List.filter_cons, filter_handler_events _ handler_not_read _ h2]
      simp [Event.readsByte]
  have hread : ∀ (src : Source) (c : Nat) (r : Event F) (tail : List (Event F)),
      tail.filter Event.isActOn = [] → tail.filter Event.readsByte = [] → r.isActOn = false →
      (GCodes.Spin cfg env s).log
        = (GCodes.putAndAct cfg env src c (GCodes.emit r s)).log ++ tail →
      (GCodes.Spin cfg env s).log = s.log ++ newEvents s (GCodes.Spin cfg env s) ∧
      ((newEvents s (GCodes.Spin cfg env s)).filter Event.isActOn).length ≤ 1 ∧
      (newEvents s (GCodes.Spin cfg env s)).filter Event.readsByte
        = (if r.readsByte then [r] else []) := by
    intro src c r tail ht1 ht2 hr e
    obtain ⟨evs, h1, h2, h3⟩ := putAndAct_log cfg env src c (GCodes.emit r s)
    have hl : (GCodes.Spin cfg env s).log = s.log ++ (r :: Event.put src c :: evs ++ tail) := by
      rw [e, h1]
      simp [GCodes.emit]
    rw [newEvents_of_log s _ _ hl]
    have hp1 : (Event.put src c : Event F).isActOn = false := rfl
    have hp2 : (Event.put src c : Event F).readsByte = false := rfl
    refine ⟨hl, ?_, ?_⟩
    · rw [List.cons_append, List.cons_append, List.filter_cons, List.filter_cons,
        List.filter_append, hr, hp1, ht1]
      simpa using h2
    · rw [List.cons_append, List.cons_append, List.filter_cons, List.filter_cons,
        List.filter_append, hp2, ht2, h3]
      cases hrb : r.readsByte <;> simp
  have hone : ∀ r : Event F, ((if r.readsByte then [r] else []) : List (Event F)).length ≤ 1 := by
    intro r
    cases r.readsByte <;> simp
  unfold firstUnfinished
  by_cases ha : s.active = true
  case neg =>
    have e : GCodes.Spin cfg env s = s := by
      unfold GCodes.Spin
      simp [ha]
    rw [e, hnil]
    simp [ha]
  have hna : ¬ (!s.active) = true := by simp [ha]
  by_cases hw : (!s.webGCode.finished) = true
  · have e : GCodes.Spin cfg env s = GCodes.actAndStore cfg env Source.web s := by
      unfold GCodes.Spin
      rw [if_neg hna, if_pos hw]
    obtain ⟨h1, h2, h3⟩ := hact _ e
    rw [h3]
    exact ⟨h1, h2, by simp, by simp [hw], by simp [ha]⟩
  by_cases hs : (!s.serialGCode.finished) = true
  · have e : GCodes.Spin cfg env s = GCodes.actAndStore cfg env Source.serial s := by
      unfold GCodes.Spin
      rw [if_neg hna, if_neg hw, if_pos hs]
    obtain ⟨h1, h2, h3⟩ := hact _ e
    rw [h3]
    exact ⟨h1, h2, by simp, by simp [hw, hs], by simp [ha]⟩
  by_cases hf : (!s.fileGCode.finished) = true
  · have e : GCodes.Spin cfg env s = GCodes.actAndStore cfg env Source.file s := by
      unfold GCodes.Spin
      rw [if_neg hna, if_neg hw, if_neg hs, if_pos hf]
    obtain ⟨h1, h2, h3⟩ := hact _ e
    rw [h3]
    exact ⟨h1, h2, by simp, by simp [hw, hs, hf], by simp [ha]⟩
  have hspin : GCodes.Spin cfg env s =
      match env.web with
      | some c => GCodes.putAndAct cfg env Source.web c (GCodes.emit (Event.webRead c) s)
      | none =>
        match env.serial with
        | some b => GCodes.putAndAct cfg env Source.serial b (GCodes.emit (Event.serialRead b) s)
        | none =>
          if s.fileBeingPrinted ≥ 0 then
            match env.fileRead with
            | some b =>
              GCodes.putAndAct cfg env Source.file b
                (GCodes.emit (Event.fileRead s.fileBeingPrinted (some b)) s)
            | none =>
              { GCodes.emit (Event.fileClose (GCodes.putAndAct cfg env Source.file 10
                    (GCodes.emit (Event.fileRead s.fileBeingPrinted none) s)).fileBeingPrinted)
                  (GCodes.putAndAct cfg env Source.file 10
                    (GCodes.emit (Event.fileRead s.fileBeingPrinted none) s)) with
                fileBeingPrinted := -1 }
          else s := by
    unfold GCodes.Spin
    rw [if_neg hna, if_neg hw, if_neg hs, if_neg hf]
  unfold expectedRead
  cases hweb : env.web with
  | some c =>
    rw [hweb] at hspin
    obtain ⟨h1, h2, h3⟩ := hread Source.web c (Event.webRead c) [] rfl rfl rfl
      (by rw [hspin]; simp)
    rw [h3]
    exact ⟨h1, h2, hone _, fun _ _ => rfl, by simp [ha]⟩
  | none =>
    rw [hweb] at hspin
    cases hser : env.serial with
    | some b =>
      rw [hser] at hspin
      obtain ⟨h1, h2, h3⟩ := hread Source.serial b (Event.serialRead b) [] rfl rfl rfl
        (by rw [hspin]; simp)
      rw [h3]
      exact ⟨h1, h2, hone _, fun _ _ => rfl, by simp [ha]⟩
    | none =>
      rw [hser] at hspin
      dsimp only at hspin ⊢
      by_cases hp : s.fileBeingPrinted ≥ 0
      · rw [if_pos hp] at hspin ⊢
        cases hfr : env.fileRead with
        | some b =>
          rw [hfr] at hspin
          obtain ⟨h1, h2, h3⟩ := hread Source.file b
            (Event.fileRead s.fileBeingPrinted (some b)) [] rfl rfl rfl (by rw [hspin]; simp)
          rw [h3]
          exact ⟨h1, h2, hone _, fun _ _ => rfl, by simp [ha]⟩
        | none =>
          rw [hfr] at hspin
          obtain ⟨h1, h2, h3⟩ := hread Source.file 10
            (Event.fileRead s.fileBeingPrinted none)
            [Event.fileClose (GCodes.putAndAct cfg env Source.file 10
              (GCodes.emit (Event.fileRead s.fileBeingPrinted none) s)).fileBeingPrinted]
            rfl rfl rfl (by rw [hspin]; rfl)
          rw [h3]
          exact ⟨h1, h2, hone _, fun _ _ => rfl, by simp [ha]⟩
      · rw [if_neg hp] at hspin ⊢
        rw [hspin, hnil]
        simp [ha]

/-- C5, witness: right after `Init`, with a web byte and a serial byte both
available, the web byte is the one taken; and an inactive interpreter does
nothing. -/
theorem C5_spin_at_most_one_action_witness :
    (initial.active = true ∧ firstUnfinished initial = none ∧
      (newEvents initial (GCodes.Spin exampleConfig { webEnv 71 with serial := some 77 } initial)).filter
          Event.readsByte = [Event.webRead 71]) ∧
    ((GCodes.Exit initial).active = false ∧
      GCodes.Spin exampleConfig (webEnv 71) (GCodes.Exit initial) = GCodes.Exit initial) :=
  ⟨⟨by decide, by decide,
      (C5_spin_at_most_one_action exampleConfig { webEnv 71 with serial := some 77 } initial).2.2.2.1
        (by decide) (by decide)⟩,
    by decide,
    (C5_spin_at_most_one_action exampleConfig (webEnv 71) (GCodes.Exit initial)).2.2.2.2
      (by decide)⟩

/-! ## Feed rate and extruder drives in `SetUpMove` -/

theorem setUpMoveDrive_gFeedRate {F : Type} [FloatOps F] (cfg : Config F) (src : Source)
    (t : GCodes F) (i : Nat) :
    (GCodes.setUpMoveDrive cfg src t i).gFeedRate = t.gFeedRate := by
  have hS := sameFields_Seen src (t.gCodeLetters i) t
  have hG := hS.strans (sameFields_GetFValue cfg src (GCodes.Seen src (t.gCodeLetters i) t).2)
  obtain ⟨_, _, _, _, _, _, a7, _⟩ := hS
  obtain ⟨_, _, _, _, _, _, b7, _⟩ := hG
  unfold GCodes.setUpMoveDrive
  dsimp only
  split_ifs <;> first | exact a7 | exact b7

theorem setUpMoveLoop_gFeedRate {F : Type} [FloatOps F] (cfg : Config F) (src : Source)
    (l : List Nat) :
    ∀ t : GCodes F, (l.foldl (GCodes.setUpMoveDrive cfg src) t).gFeedRate = t.gFeedRate := by
  induction l with
  | nil => intro t; rfl
  | cons j rest ih =>
    intro t
    simp only [List.foldl_cons]
    rw [ih, setUpMoveDrive_gFeedRate]

theorem setUpMoveFeedrate_effect {F : Type} [FloatOps F] (cfg : Config F) (src : Source)
    (t : GCodes F) :
    (GCodes.setUpMoveFeedrate cfg src t).moveBuffer DRIVES
        = (GCodes.setUpMoveFeedrate cfg src t).gFeedRate ∧
    (GCodes.setUpMoveFeedrate cfg src t).gFeedRate
        = if t.gCodeLetters DRIVES ∈ (t.buf src).line then
            cfg.strtod (textAfter (t.gCodeLetters DRIVES) (t.buf src).line) * t.distanceScale
              * 0.016666667
          else t.gFeedRate := by
  have hS := sameFields_Seen src (t.gCodeLetters DRIVES) t
  have hG := hS.strans (sameFields_GetFValue cfg src (GCodes.Seen src (t.gCodeLetters DRIVES) t).2)
  obtain ⟨_, _, _, _, _, _, a7, _⟩ := hS
  obtain ⟨_, _, _, _, b5, _, _, _⟩ := hG
  unfold GCodes.setUpMoveFeedrate
  dsimp only
  by_cases hp : t.gCodeLetters DRIVES ∈ (t.buf src).line
  · have hs : (GCodes.Seen src (t.gCodeLetters DRIVES) t).1 = true := (Seen_fst src _ t).mpr hp
    have hv := GetFValue_after_Seen cfg src (t.gCodeLetters DRIVES) t hp
    rw [if_pos hs, if_pos hp]
    refine ⟨?_, ?_⟩
    · show Function.update _ DRIVES _ DRIVES = _
      rw [Function.update_same]
    · show _ * _ * _ = _
      rw [hv, b5]
  · have hs : ¬ (GCodes.Seen src (t.gCodeLetters DRIVES) t).1 = true :=
      fun h => hp ((Seen_fst src _ t).mp h)
    rw [if_neg hs, if_neg hp]
    refine ⟨?_, a7⟩
    show Function.update _ DRIVES _ DRIVES = _
    rw [Function.update_same]

/-- C12: when `SetUpMove` succeeds, the feed field `moveBuffer[DRIVES]` of the
request equals `gFeedRate` after the call; `gFeedRate` is the value `strtod`
reads after the feed-rate letter times `distanceScale` times 0.016666667 if the
letter is present in the line, and is unchanged if it is absent, whatever state
`Move` reported. -/
theorem C12_feedrate_carry_over {F : Type} [FloatOps F] (cfg : Config F) (env : Env F)
    (src : Source) (s : GCodes F) (hok : (GCodes.SetUpMove cfg env src s).1 = true) :
    (GCodes.SetUpMove cfg env src s).2.moveBuffer DRIVES
        = (GCodes.SetUpMove cfg env src s).2.gFeedRate ∧
    (GCodes.SetUpMove cfg env src s).2.gFeedRate
        = if s.gCodeLetters DRIVES ∈ (s.buf src).line then
            cfg.strtod (textAfter (s.gCodeLetters DRIVES) (s.buf src).line) * s.distanceScale
              * 0.016666667
          else s.gFeedRate := by
  obtain ⟨hm, hg⟩ := (SetUpMove_succeeds_iff cfg env src s).mp hok
  have hm2 : ¬ s.moveAvailable = true := by simp [hm]
  have hg2 : ¬ (!(env.getCurrentState s.moveBuffer).1) = true := by simp [hg]
  have e : (GCodes.SetUpMove cfg env src s).2.moveBuffer DRIVES
        = (GCodes.setUpMoveFeedrate cfg src ((List.range DRIVES).foldl
            (GCodes.setUpMoveDrive cfg src)
            { s with moveBuffer := (env.getCurrentState s.moveBuffer).2 })).moveBuffer DRIVES ∧
      (GCodes.SetUpMove cfg env src s).2.gFeedRate
        = (GCodes.setUpMoveFeedrate cfg src ((List.range DRIVES).foldl
            (GCodes.setUpMoveDrive cfg src)
            { s with moveBuffer := (env.getCurrentState s.moveBuffer).2 })).gFeedRate := by
    unfold GCodes.SetUpMove
    rw [if_neg hm2]
    dsimp only
    rw [if_neg hg2]
    exact ⟨rfl, rfl⟩
  obtain ⟨f1, f2, _, f4, f5⟩ := setUpMoveLoop_frame cfg src (List.range DRIVES)
    { s with moveBuffer := (env.getCurrentState s.moveBuffer).2 }
  have f6 := setUpMoveLoop_gFeedRate cfg src (List.range DRIVES)
    { s with moveBuffer := (env.getCurrentState s.moveBuffer).2 }
  obtain ⟨g1, g2⟩ := setUpMoveFeedrate_effect cfg src ((List.range DRIVES).foldl
    (GCodes.setUpMoveDrive cfg src) { s with moveBuffer := (env.getCurrentState s.moveBuffer).2 })
  rw [f2, f4, f5 src, f6] at g2
  rw [e.1, e.2]
  exact ⟨g1, g2⟩

/-- C12, witness: the line `G1 X10 F300` right after `Init`; the feed field is
300 mm/min in mm/s as the literal factor gives it. -/
theorem C12_feedrate_carry_over_witness :
    (GCodes.SetUpMove exampleConfig idleEnv Source.web
        (takeMove (afterWeb [71, 49, 32, 88, 49, 48, 32, 70, 51, 48, 48, 10]))).1 = true ∧
    (GCodes.SetUpMove exampleConfig idleEnv Source.web
        (takeMove (afterWeb [71, 49, 32, 88, 49, 48, 32, 70, 51, 48, 48, 10]))).2.gFeedRate
      = 300 * 1.0 * 0.016666667 ∧
    ((GCodes.SetUpMove exampleConfig idleEnv Source.web
        (takeMove (afterWeb [71, 49, 32, 88, 49, 48, 32, 70, 51, 48, 48, 10]))).2.moveBuffer DRIVES
        = (GCodes.SetUpMove exampleConfig idleEnv Source.web
          (takeMove (afterWeb [71, 49, 32, 88, 49, 48, 32, 70, 51, 48, 48, 10]))).2.gFeedRate ∧
      (GCodes.SetUpMove exampleConfig idleEnv Source.web
        (takeMove (afterWeb [71, 49, 32, 88, 49, 48, 32, 70, 51, 48, 48, 10]))).2.gFeedRate
        = if (takeMove (afterWeb [71, 49, 32, 88, 49, 48, 32, 70, 51, 48, 48, 10])).gCodeLetters DRIVES
              ∈ ((takeMove (afterWeb [71, 49, 32, 88, 49, 48, 32, 70, 51, 48, 48, 10])).buf
                  Source.web).line then
            exampleConfig.strtod
                (textAfter
                  ((takeMove (afterWeb [71, 49, 32, 88, 49, 48, 32, 70, 51, 48, 48, 10])).gCodeLetters
                    DRIVES)
                  ((takeMove (afterWeb [71, 49, 32, 88, 49, 48, 32, 70, 51, 48, 48, 10])).buf
                    Source.web).line)
              * (takeMove (afterWeb [71, 49, 32, 88, 49, 48, 32, 70, 51, 48, 48, 10])).distanceScale
              * 0.016666667
          else (takeMove (afterWeb [71, 49, 32, 88, 49, 48, 32, 70, 51, 48, 48, 10])).gFeedRate) :=
  ⟨by decide!, by decide!,
    C12_feedrate_carry_over exampleConfig idleEnv Source.web
      (takeMove (afterWeb [71, 49, 32, 88, 49, 48, 32, 70, 51, 48, 48, 10])) (by decide!)⟩

/-! ## The field lookup `Seen` -/

theorem cstr_append_nul (l rest : List Nat) (hl : ∀ x ∈ l, x ≠ 0) :
    cstr (l ++ 0 :: rest) = l := by
  induction l with
  | nil => simp [cstr]
  | cons a t ih =>
    have ha : a ≠ 0 := hl a (by simp)
    have ht := ih (fun x hx => hl x (by simp [hx]))
    simp only [cstr] at ht ⊢
    simp [List.takeWhile_cons, ha, ht]

theorem dropWhile_eq_drop (p : Nat → Bool) (l : List Nat) :
    l.dropWhile p = l.drop (l.takeWhile p).length := by
  induction l with
  | nil => rfl
  | cons a t ih =>
    by_cases h : p a = true
    · simp [List.takeWhile_cons, List.dropWhile_cons, h, ih]
    · simp [List.takeWhile_cons, List.dropWhile_cons, h]

theorem textAfter_eq_drop (c : Nat) (l : List Nat) :
    textAfter c l = l.drop ((l.takeWhile (fun x => x != c)).length + 1) := by
  unfold textAfter
  rw [dropWhile_eq_drop, List.tail_drop]

theorem first_occurrence (c : Nat) (l : List Nat) (h : c ∈ l) :
    l[(l.takeWhile (fun x => x != c)).length]? = some c ∧
    ∀ x ∈ l.take (l.takeWhile (fun x => x != c)).length, x ≠ c := by
  induction l with
  | nil => simp at h
  | cons a t ih =>
    by_cases hac : a = c
    · subst hac
      simp [List.takeWhile_cons]
    · have ht : c ∈ t := by
        rcases List.mem_cons.mp h with e | e
        · exact absurd e.symm hac
        · exact e
      obtain ⟨h1, h2⟩ := ih ht
      have e : (a :: t).takeWhile (fun x => x != c) = a :: t.takeWhile (fun x => x != c) := by
        simp [List.takeWhile_cons, hac]
      rw [e]
      refine ⟨by simpa using h1, ?_⟩
      intro x hx
      simp only [List.length_cons, List.take_succ_cons, List.mem_cons] at hx
      rcases hx with rfl | hx
      · exact hac
      · exact h2 x hx

/-- C19: for every completed line `l` (bytes without NUL, followed in the
buffer by the terminating NUL) and every byte `c`, `Seen(c)` returns true if
and only if `c` occurs in `l`; when it does, `readPointer` is the index of the
first occurrence of `c`, so that the text the next value read parses
(`&gcodeBuffer[readPointer + 1]`) is what follows that occurrence in the line;
when it does not, `readPointer` is -1; nothing else in the buffer changes. -/
theorem C19_field_lookup (gb : GCodeBuffer) (l rest : List Nat) (c : Nat)
    (hl : ∀ x ∈ l, x ≠ 0) (hbuf : gb.gcodeBuffer = l ++ 0 :: rest) :
    ((gb.Seen c).1 = true ↔ c ∈ l) ∧
    (c ∈ l →
      (gb.Seen c).2.readPointer = ((l.takeWhile (fun x => x != c)).length : Int) ∧
      l[(l.takeWhile (fun x => x != c)).length]? = some c ∧
      (∀ x ∈ l.take (l.takeWhile (fun x => x != c)).length, x ≠ c) ∧
      (gb.Seen c).2.valueText = l.drop ((l.takeWhile (fun x => x != c)).length + 1)) ∧
    (c ∉ l → (gb.Seen c).2.readPointer = -1) ∧
    (gb.Seen c).2 = { gb with readPointer := (gb.Seen c).2.readPointer } := by
  have hline : gb.line = l := by
    unfold GCodeBuffer.line
    rw [hbuf]
    exact cstr_append_nul l rest hl
  refine ⟨?_, ?_, ?_, ?_⟩
  · rw [Seen_iff_mem, hline]
  · intro hc
    have hc2 : c ∈ cstr gb.gcodeBuffer := by
      have := hline
      unfold GCodeBuffer.line at this
      rw [this]
      exact hc
    obtain ⟨h1, _⟩ := seenLoop_present c gb.gcodeBuffer 0 hc2
    obtain ⟨_, h3⟩ := Seen_valueText gb c (by rw [hline]; exact hc)
    obtain ⟨h4, h5⟩ := first_occurrence c l hc
    have hline2 : cstr gb.gcodeBuffer = l := hline
    rw [hline2] at h1
    refine ⟨?_, h4, h5, ?_⟩
    · unfold GCodeBuffer.Seen
      rw [h1]
      simp
    · rw [h3, hline, textAfter_eq_drop]
  · intro hc
    have hc2 : c ∉ cstr gb.gcodeBuffer := by
      have := hline
      unfold GCodeBuffer.line at this
      rw [this]
      exact hc
    unfold GCodeBuffer.Seen
    rw [seenLoop_absent c gb.gcodeBuffer 0 hc2]
  · unfold GCodeBuffer.Seen
    split <;> rfl

/-- C19, witness: the line `G1 X12.5 F300` in a buffer of 16 bytes, looked up
for `X`: the read cursor is at index 3 and the text read next is `12.5 F300`. -/
theorem C19_field_lookup_witness :
    ((∀ x ∈ [71, 49, 32, 88, 49, 50, 46, 53, 32, 70, 51, 48, 48], x ≠ 0) ∧
      (⟨"web: ", [71, 49, 32, 88, 49, 50, 46, 53, 32, 70, 51, 48, 48, 0, 7, 7], 0, -1,
          false, true⟩ : GCodeBuffer).gcodeBuffer
        = [71, 49, 32, 88, 49, 50, 46, 53, 32, 70, 51, 48, 48] ++ 0 :: [7, 7]) ∧
    ((⟨"web: ", [71, 49, 32, 88, 49, 50, 46, 53, 32, 70, 51, 48, 48, 0, 7, 7], 0, -1,
          false, true⟩ : GCodeBuffer).Seen 88).1 = true ∧
    ((⟨"web: ", [71, 49, 32, 88, 49, 50, 46, 53, 32, 70, 51, 48, 48, 0, 7, 7], 0, -1,
          false, true⟩ : GCodeBuffer).Seen 88).2.readPointer = 3 ∧
    ((⟨"web: ", [71, 49, 32, 88, 49, 50, 46, 53, 32, 70, 51, 48, 48, 0, 7, 7], 0, -1,
          false, true⟩ : GCodeBuffer).Seen 88).2.valueText
      = [49, 50, 46, 53, 32, 70, 51, 48, 48] ∧
    ((⟨"web: ", [71, 49, 32, 88, 49, 50, 46, 53, 32, 70, 51, 48, 48, 0, 7, 7], 0, -1,
          false, true⟩ : GCodeBuffer).Seen 89).2.readPointer = -1 :=
  ⟨⟨by decide, rfl⟩,
    (C19_field_lookup _ [71, 49, 32, 88, 49, 50, 46, 53, 32, 70, 51, 48, 48] [7, 7] 88
      (by decide) rfl).1.mpr (by decide),
    ((C19_field_lookup _ [71, 49, 32, 88, 49, 50, 46, 53, 32, 70, 51, 48, 48] [7, 7] 88
      (by decide) rfl).2.1 (by decide)).1,
    ((C19_field_lookup _ [71, 49, 32, 88, 49, 50, 46, 53, 32, 70, 51, 48, 48] [7, 7] 88
      (by decide) rfl).2.1 (by decide)).2.2.2,
    (C19_field_lookup _ [71, 49, 32, 88, 49, 50, 46, 53, 32, 70, 51, 48, 48] [7, 7] 89
      (by decide) rfl).2.2.1 (by decide)⟩

/-! ## Lookups and value reads change only the read cursor -/

theorem forget_setBuf {F : Type} [FloatOps F] (s : GCodes F) (src : Source) (gb : GCodeBuffer)
    (h : { gb with readPointer := -1 } = { s.buf src with readPointer := -1 }) :
    forget (s.setBuf src gb) = forget s := by
  cases src
  · show ({ forget s with webGCode := { gb with readPointer := -1 } } : GCodes F) = forget s
    rw [h]
    rfl
  · show ({ forget s with serialGCode := { gb with readPointer := -1 } } : GCodes F) = forget s
    rw [h]
    rfl
  · show ({ forget s with fileGCode := { gb with readPointer := -1 } } : GCodes F) = forget s
    rw [h]
    rfl

theorem forget_messages {F : Type} [FloatOps F] (ms : List Msg) (s : GCodes F) :
    forget (GCodes.messages ms s) = forget s := rfl

theorem forget_emit {F : Type} [FloatOps F] (e : Event F) (s : GCodes F) :
    forget (GCodes.emit e s) = forget s := rfl

theorem forget_Seen {F : Type} [FloatOps F] (src : Source) (c : Nat) (s : GCodes F) :
    forget (GCodes.Seen src c s).2 = forget s := by
  unfold GCodes.Seen
  apply forget_setBuf
  unfold GCodeBuffer.Seen
  split <;> rfl

theorem forget_GetLValue {F : Type} [FloatOps F] (cfg : Config F) (src : Source) (s : GCodes F) :
    forget (GCodes.GetLValue cfg src s).2 = forget s := by
  unfold GCodes.GetLValue
  dsimp only
  rw [forget_messages]
  apply forget_setBuf
  unfold GCodeBuffer.GetLValue
  split_ifs with h
  · rfl
  · rfl

theorem forget_GetIValue {F : Type} [FloatOps F] (cfg : Config F) (src : Source) (s : GCodes F) :
    forget (GCodes.GetIValue cfg src s).2 = forget s :=
  forget_GetLValue cfg src s

theorem forget_GetFValue {F : Type} [FloatOps F] (cfg : Config F) (src : Source) (s : GCodes F) :
    forget (GCodes.GetFValue cfg src s).2 = forget s := by
  unfold GCodes.GetFValue
  dsimp only
  rw [forget_messages]
  apply forget_setBuf
  unfold GCodeBuffer.GetFValue
  split_ifs with h
  · rfl
  · rfl

/-! ## The dwell -/

theorem GetLValue_after_Seen {F : Type} [FloatOps F] (cfg : Config F) (src : Source) (c : Nat)
    (s : GCodes F) (h : c ∈ (s.buf src).line) :
    (GCodes.GetLValue cfg src (GCodes.Seen src c s).2).1
      = cfg.strtol (textAfter c (s.buf src).line) := by
  obtain ⟨h1, h2⟩ := Seen_valueText (s.buf src) c h
  unfold GCodes.GetLValue GCodes.Seen
  dsimp only
  rw [buf_setBuf]
  unfold GCodeBuffer.GetLValue
  rw [if_neg (by omega), h2]

theorem Seen_absent_state {F : Type} [FloatOps F] (src : Source) (c : Nat) (s : GCodes F)
    (h : c ∉ (s.buf src).line) :
    GCodes.Seen src c s = (false, s.setBuf src { s.buf src with readPointer := -1 }) := by
  have hc : c ∉ cstr (s.buf src).gcodeBuffer := h
  unfold GCodes.Seen GCodeBuffer.Seen
  rw [seenLoop_absent c _ 0 hc]

theorem setBuf_self {F : Type} [FloatOps F] (src : Source) (s : GCodes F)
    (h : (s.buf src).readPointer = -1) :
    s.setBuf src { s.buf src with readPointer := -1 } = s := by
  cases src
  · show ({ s with webGCode := { s.webGCode with readPointer := -1 } } : GCodes F) = s
    have e : ({ s.webGCode with readPointer := -1 } : GCodeBuffer) = s.webGCode := by
      have h2 : s.webGCode.readPointer = -1 := h
      rw [← h2]
    rw [e]
  · show ({ s with serialGCode := { s.serialGCode with readPointer := -1 } } : GCodes F) = s
    have e : ({ s.serialGCode with readPointer := -1 } : GCodeBuffer) = s.serialGCode := by
      have h2 : s.serialGCode.readPointer = -1 := h
      rw [← h2]
    rw [e]
  · show ({ s with fileGCode := { s.fileGCode with readPointer := -1 } } : GCodes F) = s
    have e : ({ s.fileGCode with readPointer := -1 } : GCodeBuffer) = s.fileGCode := by
      have h2 : s.fileGCode.readPointer = -1 := h
      rw [← h2]
    rw [e]

theorem DoDwell_absent {F : Type} [FloatOps F] (cfg : Config F) (env : Env F) (src : Source)
    (s : GCodes F) (h : 80 ∉ (s.buf src).line) :
    GCodes.DoDwell cfg env src s
      = (true, s.setBuf src { s.buf src with readPointer := -1 }) := by
  unfold GCodes.DoDwell
  rw [Seen_absent_state src 80 s h]
  simp

theorem DoDwell_present {F : Type} [FloatOps F] (cfg : Config F) (env : Env F) (src : Source)
    (s : GCodes F) (h : 80 ∈ (s.buf src).line) :
    GCodes.DoDwell cfg env src s
      = if env.allMovesAreFinished = false then
          (false, (GCodes.GetLValue cfg src (GCodes.Seen src 80 s).2).2)
        else if s.dwellWaiting = true then
          (if FloatOps.geZero (env.time - s.dwellTime) = true then
            (true, GCodes.emit Event.resumeMoving
              { (GCodes.GetLValue cfg src (GCodes.Seen src 80 s).2).2 with dwellWaiting := false })
          else (false, (GCodes.GetLValue cfg src (GCodes.Seen src 80 s).2).2))
        else
          (false, { (GCodes.GetLValue cfg src (GCodes.Seen src 80 s).2).2 with
            dwellWaiting := true
            dwellTime := env.time + FloatOps.ofUnsignedLong
              (FloatOps.toUnsignedLong
                ((0.001 : F) * FloatOps.ofLong (cfg.strtol (textAfter 80 (s.buf src).line)))) }) := by
  have hs : (GCodes.Seen src 80 s).1 = true := (Seen_fst src 80 s).mpr h
  have hv := GetLValue_after_Seen cfg src 80 s h
  have hf : forget (GCodes.GetLValue cfg src (GCodes.Seen src 80 s).2).2 = forget s :=
    (forget_GetLValue cfg src _).trans (forget_Seen src 80 s)
  have hw : (GCodes.GetLValue cfg src (GCodes.Seen src 80 s).2).2.dwellWaiting = s.dwellWaiting := by
    have := congrArg GCodes.dwellWaiting hf
    exact this
  have ht : (GCodes.GetLValue cfg src (GCodes.Seen src 80 s).2).2.dwellTime = s.dwellTime := by
    have := congrArg GCodes.dwellTime hf
    exact this
  unfold GCodes.DoDwell
  dsimp only
  rw [hs, hv, hw, ht]
  by_cases hd : env.allMovesAreFinished = true
  · simp [hd]
  · simp [hd]

theorem dwell_fields_after_lookup {F : Type} [FloatOps F] (cfg : Config F) (src : Source)
    (s : GCodes F) :
    (GCodes.GetLValue cfg src (GCodes.Seen src 80 s).2).2.dwellWaiting = s.dwellWaiting ∧
    (GCodes.GetLValue cfg src (GCodes.Seen src 80 s).2).2.dwellTime = s.dwellTime := by
  have hf : forget (GCodes.GetLValue cfg src (GCodes.Seen src 80 s).2).2 = forget s :=
    (forget_GetLValue cfg src _).trans (forget_Seen src 80 s)
  exact ⟨by have := congrArg GCodes.dwellWaiting hf; exact this,
    by have := congrArg GCodes.dwellTime hf; exact this⟩

/-- C18: the dwell state machine.  (a) When the line has no `P` field `DoDwell`
returns true and changes nothing but the read cursor, which it clears (nothing
at all when the cursor is already clear, as it is when `ActOnGcode` dispatches).
(b) With a `P` field it returns true only on a tick where `dwellWaiting` was
set, `Move` reports all moves finished and the time has reached the deadline,
and it then clears `dwellWaiting`.  (c) With a `P` field, on a tick where
motion is not drained it returns false and changes neither `dwellWaiting` nor
the deadline.  (d) A dwell with a `P` field enters the waiting state only on a
tick where motion is drained, and returns false on that tick. -/
theorem C18_dwell_state_machine {F : Type} [FloatOps F] (cfg : Config F) (env : Env F)
    (src : Source) (s : GCodes F) :
    (80 ∉ (s.buf src).line →
      (GCodes.DoDwell cfg env src s).1 = true ∧
      forget (GCodes.DoDwell cfg env src s).2 = forget s ∧
      ((s.buf src).readPointer = -1 → (GCodes.DoDwell cfg env src s).2 = s)) ∧
    (80 ∈ (s.buf src).line → (GCodes.DoDwell cfg env src s).1 = true →
      s.dwellWaiting = true ∧ env.allMovesAreFinished = true ∧
      FloatOps.geZero (env.time - s.dwellTime) = true ∧
      (GCodes.DoDwell cfg env src s).2.dwellWaiting = false) ∧
    (80 ∈ (s.buf src).line → env.allMovesAreFinished = false →
      (GCodes.DoDwell cfg env src s).1 = false ∧
      (GCodes.DoDwell cfg env src s).2.dwellWaiting = s.dwellWaiting ∧
      (GCodes.DoDwell cfg env src s).2.dwellTime = s.dwellTime) ∧
    (80 ∈ (s.buf src).line → s.dwellWaiting = false →
      (GCodes.DoDwell cfg env src s).2.dwellWaiting = true →
      env.allMovesAreFinished = true ∧ (GCodes.DoDwell cfg env src s).1 = false) := by
  obtain ⟨hw, ht⟩ := dwell_fields_after_lookup cfg src s
  refine ⟨?_, ?_, ?_, ?_⟩
  · intro h
    rw [DoDwell_absent cfg env src s h]
    refine ⟨rfl, forget_setBuf s src _ rfl, ?_⟩
    intro hr
    exact setBuf_self src s hr
  · intro h
    rw [DoDwell_present cfg env src s h]
    by_cases hd : env.allMovesAreFinished = false
    · simp [hd]
    · by_cases hwt : s.dwellWaiting = true
      · by_cases hg : FloatOps.geZero (env.time - s.dwellTime) = true
        · simp [hd, hwt, hg, GCodes.emit]
        · simp [hd, hwt, hg]
      · simp [hd, hwt]
  · intro h hd
    rw [DoDwell_present cfg env src s h]
    simp [hd, hw, ht]
  · intro h hwt
    rw [DoDwell_present cfg env src s h]
    by_cases hd : env.allMovesAreFinished = false
    · simp [hd, hw, hwt]
    · simp [hd, hwt]

/-- C18, witness: the dwell `G4 P1500` started at time 0 with motion drained:
the tick that starts it returns false and sets `dwellWaiting`; a tick at time 2
returns true and clears it; with motion not drained the tick returns false;
and a `G4` without `P` returns true at once. -/
theorem C18_dwell_state_machine_witness :
    (80 ∈ ((afterWeb [71, 52, 32, 80, 49, 53, 48, 48, 10]).buf Source.web).line ∧
      (afterWeb [71, 52, 32, 80, 49, 53, 48, 48, 10]).dwellWaiting = true ∧
      (GCodes.DoDwell exampleConfig (timeEnv 2) Source.web
        (afterWeb [71, 52, 32, 80, 49, 53, 48, 48, 10])).1 = true ∧
      (GCodes.DoDwell exampleConfig (timeEnv 2) Source.web
        (afterWeb [71, 52, 32, 80, 49, 53, 48, 48, 10])).2.dwellWaiting = false) ∧
    (busyEnv.allMovesAreFinished = false ∧
      (GCodes.DoDwell exampleConfig busyEnv Source.web
        (afterWeb [71, 52, 32, 80, 49, 53, 48, 48, 10])).1 = false) ∧
    (80 ∉ ((afterWeb [71, 52, 10]).buf Source.web).line ∧
      (GCodes.DoDwell exampleConfig idleEnv Source.web (afterWeb [71, 52, 10])).1 = true) :=
  ⟨⟨by decide!, by decide!, by decide!,
      ((C18_dwell_state_machine exampleConfig (timeEnv 2) Source.web
        (afterWeb [71, 52, 32, 80, 49, 53, 48, 48, 10])).2.1 (by decide!) (by decide!)).2.2.2⟩,
    ⟨rfl, ((C18_dwell_state_machine exampleConfig busyEnv Source.web
        (afterWeb [71, 52, 32, 80, 49, 53, 48, 48, 10])).2.2.1 (by decide!) rfl).1⟩,
    by decide!,
    ((C18_dwell_state_machine exampleConfig idleEnv Source.web (afterWeb [71, 52, 10])).1
      (by decide!)).1⟩

/-- C17, the code at the failing input: the dwell `G4 P1500` dispatched at
time 0 with all motion drained is left waiting with its deadline at time 1,
a whole second ahead and not 1.5, and the tick at time 1 completes it. -/
theorem C17_dwell_deadline_is_truncated :
    (afterWeb [71, 52, 32, 80, 49, 53, 48, 48, 10]).dwellWaiting = true ∧
    (afterWeb [71, 52, 32, 80, 49, 53, 48, 48, 10]).webGCode.finished = false ∧
    (afterWeb [71, 52, 32, 80, 49, 53, 48, 48, 10]).dwellTime = 1 ∧
    (GCodes.Spin exampleConfig (timeEnv 1)
      (afterWeb [71, 52, 32, 80, 49, 53, 48, 48, 10])).webGCode.finished = true := by
  decide!

/-! ## Scenarios against a motion subsystem -/

/-- C13: from the initial state with `Move` at X = 0, `Move` taking every
posted request and reporting its target as its last resolved state, the lines
`G91`, `G1 X10`, `G1 X10`, `G90` hand `Move` the X targets 10 and 20 (two
requests in all); both modes are relative after `G91`, and after `G90` both
`axesRelative` and `drivesRelative` are false. -/
theorem C13_relative_move_scenario :
    (Machine.feed [71, 57, 49, 10] Machine.start).g.axesRelative = true ∧
    (Machine.feed [71, 57, 49, 10] Machine.start).g.drivesRelative = true ∧
    (Machine.feed [71, 57, 49, 10, 71, 49, 32, 88, 49, 48, 10] Machine.start).taken.map
        (fun m => m X_AXIS) = [10] ∧
    (Machine.feed [71, 57, 49, 10, 71, 49, 32, 88, 49, 48, 10, 71, 49, 32, 88, 49, 48, 10,
        71, 57, 48, 10] Machine.start).taken.map (fun m => m X_AXIS) = [10, 20] ∧
    (Machine.feed [71, 57, 49, 10, 71, 49, 32, 88, 49, 48, 10, 71, 49, 32, 88, 49, 48, 10,
        71, 57, 48, 10] Machine.start).g.axesRelative = false ∧
    (Machine.feed [71, 57, 49, 10, 71, 49, 32, 88, 49, 48, 10, 71, 49, 32, 88, 49, 48, 10,
        71, 57, 48, 10] Machine.start).g.drivesRelative = false := by
  decide!

theorem SetUpMove_remembers_delta {F : Type} [FloatOps F] (cfg : Config F) (env : Env F)
    (src : Source) (s : GCodes F) (hok : (GCodes.SetUpMove cfg env src s).1 = true) :
    (GCodes.SetUpMove cfg env src s).2.lastPos 0
      = (GCodes.SetUpMove cfg env src s).2.moveBuffer 3 := by
  obtain ⟨hm, hg⟩ := (SetUpMove_succeeds_iff cfg env src s).mp hok
  unfold GCodes.SetUpMove
  simp [hm, hg, GCodes.rememberLastPos, DRIVES, AXES, List.range']

/-- C11, the code at the failing input: after `M82` (absolute drives) the lines
`G1 E1`, `G1 E2`, `G1 E3` hand `Move` the drive fields 1, 1 and 2, not 1, 1
and 1; after the second command the remembered last drive position is 1 (the
delta just handed over), not 2 (the absolute position just commanded). -/
theorem C11_absolute_drive_deltas_code :
    (Machine.feed [77, 56, 50, 10] Machine.start).g.drivesRelative = false ∧
    (Machine.feed [77, 56, 50, 10, 71, 49, 32, 69, 49, 10, 71, 49, 32, 69, 50, 10,
        71, 49, 32, 69, 51, 10] Machine.start).taken.map (fun m => m 3) = [1, 1, 2] ∧
    (Machine.feed [77, 56, 50, 10, 71, 49, 32, 69, 49, 10, 71, 49, 32, 69, 50, 10]
        Machine.start).g.lastPos 0 = 1 := by
  decide!

/-! ## Homing -/

theorem line_after_lookup {F : Type} [FloatOps F] (cfg : Config F) (src : Source) (c : Nat)
    (s : GCodes F) (b : Source) :
    ((GCodes.GetIValue cfg src (GCodes.Seen src c s).2).2.buf b).line = (s.buf b).line := by
  have h1 := (keeps_Seen src c s).1.2 b
  have h2 := (keeps_GetIValue cfg src (GCodes.Seen src c s).2).1.2 b
  unfold GCodeBuffer.line
  rw [h2.1, h1.1]

theorem ActOnGcode_G {F : Type} [FloatOps F] (cfg : Config F) (env : Env F) (src : Source)
    (s : GCodes F) (hG : 71 ∈ (s.buf src).line) :
    GCodes.ActOnGcode cfg env src s
      = GCodes.actOnG cfg env src (cfg.strtol (textAfter 71 (s.buf src).line))
          (GCodes.GetIValue cfg src (GCodes.Seen src 71 s).2).2 := by
  have hs : (GCodes.Seen src 71 s).1 = true := (Seen_fst src 71 s).mpr hG
  have hv : (GCodes.GetIValue cfg src (GCodes.Seen src 71 s).2).1
      = cfg.strtol (textAfter 71 (s.buf src).line) := GetLValue_after_Seen cfg src 71 s hG
  unfold GCodes.ActOnGcode
  dsimp only
  rw [if_pos hs, hv]

theorem actOnG_28 {F : Type} [FloatOps F] (cfg : Config F) (env : Env F) (src : Source)
    (u : GCodes F) :
    GCodes.actOnG cfg env src 28 u = GCodes.DoHome cfg env (GCodes.homeRequest src u) := by
  unfold GCodes.actOnG
  rw [if_neg (by decide), if_neg (by decide), if_neg (by decide), if_neg (by decide),
    if_neg (by decide), if_pos rfl]

theorem ActOnGcode_G28 {F : Type} [FloatOps F] (cfg : Config F) (env : Env F) (src : Source)
    (s : GCodes F) (hG : 71 ∈ (s.buf src).line)
    (h28 : cfg.strtol (textAfter 71 (s.buf src).line) = 28) :
    GCodes.ActOnGcode cfg env src s
      = GCodes.DoHome cfg env
          (GCodes.homeRequest src (GCodes.GetIValue cfg src (GCodes.Seen src 71 s).2).2) := by
  rw [ActOnGcode_G cfg env src s hG, h28, actOnG_28]

theorem homeRequest_busy {F : Type} [FloatOps F] (src : Source) (u : GCodes F)
    (h : GCodes.NoHome u = false) : GCodes.homeRequest src u = u := by
  unfold GCodes.homeRequest
  simp [h]

theorem push_view {F : Type} [FloatOps F] (cfg : Config F) (env : Env F) (s : GCodes F) :
    homeFlags (GCodes.Push cfg env s).2 = homeFlags s ∧
    modes (GCodes.Push cfg env s).2 = modes s ∧
    (((GCodes.Push cfg env s).2.stackPointer = s.stackPointer ∧
        frames (GCodes.Push cfg env s).2 = frames s ∧
        ((GCodes.Push cfg env s).1 = true → s.stackPointer ≥ (cfg.STACK : Int))) ∨
      ((GCodes.Push cfg env s).1 = true ∧ s.stackPointer < (cfg.STACK : Int) ∧
        (GCodes.Push cfg env s).2.stackPointer = s.stackPointer + 1 ∧
        frameAt (GCodes.Push cfg env s).2 s.stackPointer = modes s)) := by
  unfold GCodes.Push
  by_cases h1 : s.stackPointer ≥ (cfg.STACK : Int)
  · rw [if_pos h1]
    refine ⟨rfl, rfl, Or.inl ⟨rfl, rfl, fun _ => h1⟩⟩
  rw [if_neg h1]
  unfold GCodes.AllMovesAreFinishedAndMoveBufferIsLoaded
  by_cases hm : s.moveAvailable = true
  · simp [hm, homeFlags, modes, frames]
  by_cases hf : env.allMovesAreFinished = true
  · by_cases hg : (env.getCurrentState s.moveBuffer).1 = true
    · refine ⟨?_, ?_, Or.inr ⟨?_, by omega, ?_, ?_⟩⟩ <;>
        simp [hm, hf, hg, GCodes.emit, homeFlags, modes, frameAt]
    · simp [hm, hf, hg, GCodes.emit, homeFlags, modes, frames]
  · simp [hm, hf, homeFlags, modes, frames]

theorem pop_view {F : Type} [FloatOps F] (env : Env F) (s : GCodes F) :
    homeFlags (GCodes.Pop env s).2 = homeFlags s ∧
    frames (GCodes.Pop env s).2 = frames s ∧
    (((GCodes.Pop env s).2.stackPointer = s.stackPointer ∧
        modes (GCodes.Pop env s).2 = modes s ∧
        ((GCodes.Pop env s).1 = true → s.stackPointer ≤ 0)) ∨
      ((GCodes.Pop env s).1 = true ∧ 0 < s.stackPointer ∧
        (GCodes.Pop env s).2.stackPointer = s.stackPointer - 1 ∧
        modes (GCodes.Pop env s).2 = frameAt s (s.stackPointer - 1))) := by
  unfold GCodes.Pop
  by_cases h1 : s.stackPointer ≤ 0
  · rw [if_pos h1]
    refine ⟨rfl, rfl, Or.inl ⟨rfl, rfl, fun _ => h1⟩⟩
  rw [if_neg h1]
  unfold GCodes.AllMovesAreFinishedAndMoveBufferIsLoaded
  by_cases hm : s.moveAvailable = true
  · simp [hm, homeFlags, modes, frames]
  by_cases hf : env.allMovesAreFinished = true
  · by_cases hg : (env.getCurrentState s.moveBuffer).1 = true
    · refine ⟨?_, ?_, Or.inr ⟨?_, by omega, ?_, ?_⟩⟩ <;>
        simp [hm, hf, hg, GCodes.emit, GCodes.rememberLastPos, DRIVES, AXES, List.range',
          homeFlags, modes, frameAt, frames]
    · simp [hm, hf, hg, GCodes.emit, homeFlags, modes, frames]
  · simp [hm, hf, homeFlags, modes, frames]

theorem lookup_view {F : Type} [FloatOps F] (src : Source) (c : Nat) (t : GCodes F) :
    (GCodes.Seen src c t).1 = decide (c ∈ (t.buf src).line) ∧
    forget (GCodes.Seen src c t).2 = forget t ∧
    ((GCodes.Seen src c t).2.buf src).line = (t.buf src).line := by
  refine ⟨?_, forget_Seen src c t, ?_⟩
  · rw [Bool.eq_iff_iff, decide_eq_true_iff]
    exact Seen_fst src c t
  · have h := (keeps_Seen src c t).1.2 src
    unfold GCodeBuffer.line
    rw [h.1]

theorem homeRequest_idle {F : Type} [FloatOps F] (src : Source) (u : GCodes F)
    (h : GCodes.NoHome u = true) :
    forget (GCodes.homeRequest src u)
      = { forget u with
          homeX := (requestedAxes src u).1
          homeY := (requestedAxes src u).2.1
          homeZ := (requestedAxes src u).2.2 } := by
  unfold GCodes.homeRequest
  rw [if_pos h]
  obtain ⟨bx, fx, lx⟩ := lookup_view src (u.gCodeLetters X_AXIS) u
  generalize GCodes.Seen src (u.gCodeLetters X_AXIS) u = rx at bx fx lx
  have gx : rx.2.gCodeLetters = u.gCodeLetters := by
    have := congrArg GCodes.gCodeLetters fx
    exact this
  have lsx : ((({ rx.2 with homeX := rx.1 } : GCodes F)).buf src).line = (u.buf src).line := by
    rw [← lx]; cases src <;> rfl
  obtain ⟨by_, fy, ly⟩ := lookup_view src (rx.2.gCodeLetters Y_AXIS)
    ({ rx.2 with homeX := rx.1 } : GCodes F)
  rw [lsx] at by_ ly
  dsimp only
  generalize GCodes.Seen src (rx.2.gCodeLetters Y_AXIS) ({ rx.2 with homeX := rx.1 } : GCodes F)
    = ry at by_ fy ly
  have gy : ry.2.gCodeLetters = u.gCodeLetters := by
    have := congrArg GCodes.gCodeLetters fy
    exact this.trans gx
  have lsy : ((({ ry.2 with homeY := ry.1 } : GCodes F)).buf src).line = (u.buf src).line := by
    rw [← ly]; cases src <;> rfl
  obtain ⟨bz, fz, lz⟩ := lookup_view src (ry.2.gCodeLetters Z_AXIS)
    ({ ry.2 with homeY := ry.1 } : GCodes F)
  rw [lsy] at bz lz
  generalize GCodes.Seen src (ry.2.gCodeLetters Z_AXIS) ({ ry.2 with homeY := ry.1 } : GCodes F)
    = rz at bz fz lz
  have e1 : forget rz.2 = { forget u with homeX := rx.1, homeY := ry.1 } := by
    rw [fz]
    show ({ forget ry.2 with homeY := ry.1 } : GCodes F) = _
    rw [fy]
    show ({ forget rx.2 with homeX := rx.1, homeY := ry.1 } : GCodes F) = _
    rw [fx]
  have hn : GCodes.NoHome ({ rz.2 with homeZ := rz.1 } : GCodes F) = !(rx.1 || ry.1 || rz.1) := by
    have h1 : rz.2.homeX = rx.1 := by
      have := congrArg GCodes.homeX e1
      exact this
    have h2 : rz.2.homeY = ry.1 := by
      have := congrArg GCodes.homeY e1
      exact this
    simp [GCodes.NoHome, h1, h2]
  rw [hn]
  rw [gx] at by_
  rw [gy] at bz
  unfold requestedAxes
  rw [← bx, ← by_, ← bz]
  by_cases hany : (rx.1 || ry.1 || rz.1) = true
  · rw [hany]
    simp only [Bool.not_true, if_true]
    show ({ forget rz.2 with homeZ := rz.1 } : GCodes F) = _
    rw [e1]
    have hany3 := hany
    simp only [Bool.or_eq_true] at hany3
    simp [hany3]
  · have hany2 : (rx.1 || ry.1 || rz.1) = false := by simpa using hany
    rw [hany2]
    simp only [Bool.not_false, if_true]
    show ({ forget rz.2 with homeX := true, homeY := true, homeZ := true } : GCodes F) = _
    rw [e1]
    have hany3 := hany2
    simp only [Bool.or_eq_false_iff] at hany3
    simp [hany3]

theorem view_of_forget {F : Type} {a b : GCodes F} (h : forget a = forget b) :
    homeFlags a = homeFlags b ∧ modes a = modes b ∧ frames a = frames b ∧
    a.stackPointer = b.stackPointer ∧ a.gCodeLetters = b.gCodeLetters ∧
    GCodes.NoHome a = GCodes.NoHome b := by
  refine ⟨?_, ?_, ?_, ?_, ?_, ?_⟩
  · have := congrArg homeFlags h
    exact this
  · have := congrArg modes h
    exact this
  · have := congrArg frames h
    exact this
  · have := congrArg GCodes.stackPointer h
    exact this
  · have := congrArg GCodes.gCodeLetters h
    exact this
  · have := congrArg GCodes.NoHome h
    exact this

theorem takeMove_view {F : Type} [FloatOps F] (s : GCodes F) :
    homeFlags (takeMove s) = homeFlags s ∧ modes (takeMove s) = modes s ∧
    frames (takeMove s) = frames s ∧ (takeMove s).stackPointer = s.stackPointer ∧
    (∀ b, (takeMove s).buf b = s.buf b) := by
  unfold takeMove GCodes.ReadMove
  split_ifs
  · exact ⟨rfl, rfl, rfl, rfl, fun _ => rfl⟩
  · exact ⟨rfl, rfl, rfl, rfl, fun b => by cases b <;> rfl⟩

theorem homeCommand_takeMove {F : Type} [FloatOps F] (cfg : Config F) (src : Source)
    (s : GCodes F) (h : HomeCommand cfg src s) : HomeCommand cfg src (takeMove s) := by
  unfold HomeCommand at h ⊢
  rw [(takeMove_view s).2.2.2.2 src]
  exact h

theorem homeCommand_ActOnGcode {F : Type} [FloatOps F] (cfg : Config F) (env : Env F)
    (src : Source) (s : GCodes F) (h : HomeCommand cfg src s) :
    HomeCommand cfg src (GCodes.ActOnGcode cfg env src s).2 := by
  have hl : ((GCodes.ActOnGcode cfg env src s).2.buf src).line = (s.buf src).line := by
    have := ((bounded_ActOnGcode cfg env src s).1.2 src).1
    unfold GCodeBuffer.line
    rw [this]
  unfold HomeCommand at h ⊢
  rw [hl]
  exact h

theorem home_dispatch {F : Type} [FloatOps F] (cfg : Config F) (env : Env F) (src : Source)
    (s : GCodes F) (h : HomeCommand cfg src s) :
    GCodes.ActOnGcode cfg env src s = GCodes.DoHome cfg env (homeRequested cfg src s) ∧
      modes (homeRequested cfg src s) = modes s ∧ frames (homeRequested cfg src s) = frames s ∧
      (homeRequested cfg src s).stackPointer = s.stackPointer ∧
      (homeFlags (homeRequested cfg src s)).2 = (homeFlags s).2 ∧
      (homeFlags (homeRequested cfg src s)).1
        = if GCodes.NoHome s then requestedAxes src s else (homeFlags s).1 := by
  unfold homeRequested
  have hu : forget (GCodes.GetIValue cfg src (GCodes.Seen src 71 s).2).2 = forget s :=
    (forget_GetIValue cfg src _).trans (forget_Seen src 71 s)
  have hline := line_after_lookup cfg src 71 s src
  refine ⟨ActOnGcode_G28 cfg env src s h.1 h.2, ?_⟩
  generalize (GCodes.GetIValue cfg src (GCodes.Seen src 71 s).2).2 = u at hu hline
  obtain ⟨v1, v2, v3, v4, v5, v6⟩ := view_of_forget hu
  have hreq : requestedAxes src u = requestedAxes src s := by
    unfold requestedAxes
    rw [v5, hline]
  by_cases hn : GCodes.NoHome s = true
  · have hnu : GCodes.NoHome u = true := v6.trans hn
    have hw : forget (GCodes.homeRequest src u)
        = forget ({ u with
            homeX := (requestedAxes src u).1
            homeY := (requestedAxes src u).2.1
            homeZ := (requestedAxes src u).2.2 } : GCodes F) := homeRequest_idle src u hnu
    obtain ⟨w1, w2, w3, w4, _, _⟩ := view_of_forget hw
    rw [if_pos hn, w2, w3, w4, w1, ← hreq, ← v2, ← v3, ← v4]
    refine ⟨rfl, rfl, rfl, ?_, rfl⟩
    rw [← v1]
    rfl
  · have hnu : GCodes.NoHome u = false := by
      rw [v6]
      simpa using hn
    rw [homeRequest_busy src u hnu, if_neg hn, v1]
    exact ⟨v2, v3, v4, rfl, rfl⟩

theorem push_outcome {F : Type} [FloatOps F] (cfg : Config F) (env : Env F) (s : GCodes F) :
    homeFlags (GCodes.Push cfg env s).2 = homeFlags s ∧
    (((GCodes.Push cfg env s).1 = false ∧ SameView s (GCodes.Push cfg env s).2) ∨
      ((GCodes.Push cfg env s).1 = true ∧ Pushed cfg s (GCodes.Push cfg env s).2)) := by
  obtain ⟨h1, h2, h3⟩ := push_view cfg env s
  refine ⟨h1, ?_⟩
  cases hp : (GCodes.Push cfg env s).1
  · left
    refine ⟨rfl, h2, ?_⟩
    rcases h3 with ⟨a, b, _⟩ | ⟨a, _⟩
    · exact ⟨a, b⟩
    · rw [hp] at a; exact absurd a (by decide)
  · right
    refine ⟨rfl, h2, ?_⟩
    rcases h3 with ⟨a, b, c⟩ | ⟨_, a, b, c⟩
    · exact Or.inr ⟨c hp, a, b⟩
    · exact Or.inl ⟨a, b, c⟩

theorem pop_outcome {F : Type} [FloatOps F] (env : Env F) (s : GCodes F) :
    homeFlags (GCodes.Pop env s).2 = homeFlags s ∧
    (((GCodes.Pop env s).1 = false ∧ SameView s (GCodes.Pop env s).2) ∨
      ((GCodes.Pop env s).1 = true ∧ Popped s (GCodes.Pop env s).2)) := by
  obtain ⟨h1, h2, h3⟩ := pop_view env s
  refine ⟨h1, ?_⟩
  cases hp : (GCodes.Pop env s).1
  · left
    refine ⟨rfl, ?_⟩
    rcases h3 with ⟨a, b, _⟩ | ⟨a, _⟩
    · exact ⟨b, a, h2⟩
    · rw [hp] at a; exact absurd a (by decide)
  · right
    refine ⟨rfl, h2, ?_⟩
    rcases h3 with ⟨a, b, c⟩ | ⟨_, a, b, c⟩
    · exact Or.inr ⟨c hp, a, b⟩
    · exact Or.inl ⟨a, b, c⟩

theorem DoHome_view {F : Type} [FloatOps F] (cfg : Config F) (env : Env F) (w : GCodes F) :
    ((GCodes.DoHome cfg env w).1 = false ∧
        homeFlags (GCodes.DoHome cfg env w).2 = homeFlags w ∧
        SameView w (GCodes.DoHome cfg env w).2) ∨
    (w.homeX = true ∧ w.homeXQueued = false ∧ (GCodes.DoHome cfg env w).1 = false ∧
        homeFlags (GCodes.DoHome cfg env w).2
          = ((true, w.homeY, w.homeZ), (true, w.homeYQueued, w.homeZQueued)) ∧
        Pushed cfg w (GCodes.DoHome cfg env w).2) ∨
    (w.homeX = true ∧ w.homeXQueued = true ∧
        (GCodes.DoHome cfg env w).1 = !(w.homeY || w.homeZ) ∧
        homeFlags (GCodes.DoHome cfg env w).2
          = ((false, w.homeY, w.homeZ), (false, w.homeYQueued, w.homeZQueued)) ∧
        Popped w (GCodes.DoHome cfg env w).2) ∨
    (w.homeX = false ∧ w.homeY = true ∧ w.homeYQueued = false ∧
        (GCodes.DoHome cfg env w).1 = false ∧
        homeFlags (GCodes.DoHome cfg env w).2
          = ((false, true, w.homeZ), (w.homeXQueued, true, w.homeZQueued)) ∧
        Pushed cfg w (GCodes.DoHome cfg env w).2) ∨
    (w.homeX = false ∧ w.homeY = true ∧ w.homeYQueued = true ∧
        (GCodes.DoHome cfg env w).1 = !w.homeZ ∧
        homeFlags (GCodes.DoHome cfg env w).2
          = ((false, false, w.homeZ), (w.homeXQueued, false, w.homeZQueued)) ∧
        Popped w (GCodes.DoHome cfg env w).2) ∨
    (w.homeX = false ∧ w.homeY = false ∧ w.homeZ = true ∧ w.homeZQueued = false ∧
        (GCodes.DoHome cfg env w).1 = false ∧
        homeFlags (GCodes.DoHome cfg env w).2
          = ((false, false, true), (w.homeXQueued, w.homeYQueued, true)) ∧
        Pushed cfg w (GCodes.DoHome cfg env w).2) ∨
    (w.homeX = false ∧ w.homeY = false ∧ w.homeZ = true ∧ w.homeZQueued = true ∧
        (GCodes.DoHome cfg env w).1 = true ∧
        homeFlags (GCodes.DoHome cfg env w).2
          = ((false, false, false), (w.homeXQueued, w.homeYQueued, false)) ∧
        Popped w (GCodes.DoHome cfg env w).2) ∨
    (w.homeX = false ∧ w.homeY = false ∧ w.homeZ = false ∧
        (GCodes.DoHome cfg env w).1 = true ∧
        homeFlags (GCodes.DoHome cfg env w).2 = homeFlags w ∧
        SameView w (GCodes.DoHome cfg env w).2) := by
  obtain ⟨pf, pc⟩ := push_outcome cfg env w
  obtain ⟨qf, qc⟩ := pop_outcome env w
  simp only [homeFlags, Prod.mk.injEq] at pf qf
  obtain ⟨⟨pf1, pf2, pf3⟩, pf4, pf5, pf6⟩ := pf
  obtain ⟨⟨qf1, qf2, qf3⟩, qf4, qf5, qf6⟩ := qf
  generalize hD : GCodes.DoHome cfg env w = d
  unfold GCodes.DoHome at hD
  cases hx : w.homeX
  · rw [hx] at hD
    simp only [Bool.false_eq_true, if_false] at hD
    cases hy : w.homeY
    · rw [hy] at hD
      simp only [Bool.false_eq_true, if_false] at hD
      cases hz : w.homeZ
      · rw [hz] at hD
        simp only [Bool.false_eq_true, if_false] at hD
        subst hD
        refine Or.inr (Or.inr (Or.inr (Or.inr (Or.inr (Or.inr (Or.inr ?_))))))
        refine ⟨rfl, rfl, rfl, rfl, ?_, rfl, rfl, rfl⟩
        simp [homeFlags, hx, hy, hz]
      · rw [hz] at hD
        simp only [if_true] at hD
        unfold GCodes.doHomeAxis at hD
        cases hq : w.homeZQueued
        · rw [hq] at hD
          simp only [Bool.false_eq_true, if_false] at hD
          rcases pc with ⟨hp, hv⟩ | ⟨hp, hv⟩
          · rw [hp] at hD
            simp only [Bool.not_false, if_true] at hD
            subst hD
            exact Or.inl ⟨rfl, by simp [homeFlags, pf1, pf2, pf3, pf4, pf5, pf6], hv⟩
          · rw [hp] at hD
            simp only [Bool.not_true, Bool.false_eq_true, if_false] at hD
            subst hD
            refine Or.inr (Or.inr (Or.inr (Or.inr (Or.inr (Or.inl ?_)))))
            refine ⟨rfl, rfl, rfl, rfl, rfl, ?_, hv⟩
            simp [homeFlags, pf1, pf2, pf3, pf4, pf5, pf6, hx, hy, hz]
        · rw [hq] at hD
          simp only [if_true] at hD
          rcases qc with ⟨hp, hv⟩ | ⟨hp, hv⟩
          · rw [hp] at hD
            simp only [Bool.not_false, if_true] at hD
            subst hD
            exact Or.inl ⟨rfl, by simp [homeFlags, qf1, qf2, qf3, qf4, qf5, qf6], hv⟩
          · rw [hp] at hD
            simp only [Bool.not_true, Bool.false_eq_true, if_false] at hD
            subst hD
            refine Or.inr (Or.inr (Or.inr (Or.inr (Or.inr (Or.inr (Or.inl ?_))))))
            refine ⟨rfl, rfl, rfl, rfl, ?_, ?_, hv⟩
            · simp [GCodes.NoHome, qf1, qf2, qf3, hx, hy, hz]
            · simp [homeFlags, qf1, qf2, qf3, qf4, qf5, qf6, hx, hy, hz]
    · rw [hy] at hD
      simp only [if_true] at hD
      unfold GCodes.doHomeAxis at hD
      cases hq : w.homeYQueued
      · rw [hq] at hD
        simp only [Bool.false_eq_true, if_false] at hD
        rcases pc with ⟨hp, hv⟩ | ⟨hp, hv⟩
        · rw [hp] at hD
          simp only [Bool.not_false, if_true] at hD
          subst hD
          exact Or.inl ⟨rfl, by simp [homeFlags, pf1, pf2, pf3, pf4, pf5, pf6], hv⟩
        · rw [hp] at hD
          simp only [Bool.not_true, Bool.false_eq_true, if_false] at hD
          subst hD
          refine Or.inr (Or.inr (Or.inr (Or.inl ?_)))
          refine ⟨rfl, rfl, rfl, rfl, ?_, hv⟩
          simp [homeFlags, pf1, pf2, pf3, pf4, pf5, pf6, hx, hy]
      · rw [hq] at hD
        simp only [if_true] at hD
        rcases qc with ⟨hp, hv⟩ | ⟨hp, hv⟩
        · rw [hp] at hD
          simp only [Bool.not_false, if_true] at hD
          subst hD
          exact Or.inl ⟨rfl, by simp [homeFlags, qf1, qf2, qf3, qf4, qf5, qf6], hv⟩
        · rw [hp] at hD
          simp only [Bool.not_true, Bool.false_eq_true, if_false] at hD
          subst hD
          refine Or.inr (Or.inr (Or.inr (Or.inr (Or.inl ?_))))
          refine ⟨rfl, rfl, rfl, ?_, ?_, hv⟩
          · simp [GCodes.NoHome, qf1, qf2, qf3, hx, hy]
          · simp [homeFlags, qf1, qf2, qf3, qf4, qf5, qf6, hx, hy]
  · rw [hx] at hD
    simp only [if_true] at hD
    unfold GCodes.doHomeAxis at hD
    cases hq : w.homeXQueued
    · rw [hq] at hD
      simp only [Bool.false_eq_true, if_false] at hD
      rcases pc with ⟨hp, hv⟩ | ⟨hp, hv⟩
      · rw [hp] at hD
        simp only [Bool.not_false, if_true] at hD
        subst hD
        exact Or.inl ⟨rfl, by simp [homeFlags, pf1, pf2, pf3, pf4, pf5, pf6], hv⟩
      · rw [hp] at hD
        simp only [Bool.not_true, Bool.false_eq_true, if_false] at hD
        subst hD
        refine Or.inr (Or.inl ?_)
        refine ⟨rfl, rfl, rfl, ?_, hv⟩
        simp [homeFlags, pf1, pf2, pf3, pf4, pf5, pf6, hx]
    · rw [hq] at hD
      simp only [if_true] at hD
      rcases qc with ⟨hp, hv⟩ | ⟨hp, hv⟩
      · rw [hp] at hD
        simp only [Bool.not_false, if_true] at hD
        subst hD
        exact Or.inl ⟨rfl, by simp [homeFlags, qf1, qf2, qf3, qf4, qf5, qf6], hv⟩
      · rw [hp] at hD
        simp only [Bool.not_true, Bool.false_eq_true, if_false] at hD
        subst hD
        refine Or.inr (Or.inr (Or.inl ?_))
        refine ⟨rfl, rfl, ?_, ?_, hv⟩
        · simp [GCodes.NoHome, qf1, qf2, qf3, hx]
        · simp [homeFlags, qf1, qf2, qf3, qf4, qf5, qf6, hx]

/-- C15: when a `G28` line is dispatched, `ActOnGcode` is `DoHome` run on the
state the request part leaves. If no axis was requested, the requested axes of
that state are exactly the axes whose letter is on the line, or all three if
none is, and (no axis being queued) they are still the requested axes when
`ActOnGcode` returns. If some axis was still requested, the request part leaves
all six homing flags as they were, whatever the line holds, and `ActOnGcode`
requests no axis that was not requested before. -/
theorem C15_homing_axis_selection {F : Type} [FloatOps F] (cfg : Config F) (env : Env F)
    (src : Source) (s : GCodes F) (h : HomeCommand cfg src s) :
    GCodes.ActOnGcode cfg env src s = GCodes.DoHome cfg env (homeRequested cfg src s) ∧
    (GCodes.NoHome s = true →
      ((homeRequested cfg src s).homeX, (homeRequested cfg src s).homeY,
          (homeRequested cfg src s).homeZ) = requestedAxes src s ∧
      (s.homeXQueued = false → s.homeYQueued = false → s.homeZQueued = false →
        ((GCodes.ActOnGcode cfg env src s).2.homeX, (GCodes.ActOnGcode cfg env src s).2.homeY,
          (GCodes.ActOnGcode cfg env src s).2.homeZ) = requestedAxes src s)) ∧
    (GCodes.NoHome s = false →
      homeFlags (homeRequested cfg src s) = homeFlags s ∧
      ((GCodes.ActOnGcode cfg env src s).2.homeX = true → s.homeX = true) ∧
      ((GCodes.ActOnGcode cfg env src s).2.homeY = true → s.homeY = true) ∧
      ((GCodes.ActOnGcode cfg env src s).2.homeZ = true → s.homeZ = true)) := by
  obtain ⟨hA, _, _, _, hq, hr⟩ := home_dispatch cfg env src s h
  have hD := DoHome_view cfg env (homeRequested cfg src s)
  rw [← hA] at hD
  generalize GCodes.ActOnGcode cfg env src s = r at hA hD
  generalize homeRequested cfg src s = w at hA hD hq hr
  simp only [homeFlags, Prod.mk.injEq] at hq hr hD
  refine ⟨hA, ?_, ?_⟩
  · intro hn
    rw [if_pos hn] at hr
    refine ⟨hr, ?_⟩
    intro q1 q2 q3
    rw [← hr]
    rw [q1, q2, q3] at hq
    obtain ⟨hq1, hq2, hq3⟩ := hq
    rcases hD with ⟨_, ⟨⟨a, b, c⟩, _⟩, _⟩ | ⟨_, _, _, ⟨⟨a, b, c⟩, _⟩, _⟩ | ⟨_, k, _⟩ |
      ⟨_, _, _, _, ⟨⟨a, b, c⟩, _⟩, _⟩ | ⟨_, _, k, _⟩ | ⟨_, _, _, _, _, ⟨⟨a, b, c⟩, _⟩, _⟩ |
      ⟨_, _, _, k, _⟩ | ⟨_, _, _, _, ⟨⟨a, b, c⟩, _⟩, _⟩
    all_goals first
      | (rw [a, b, c]; simp [*])
      | rw [a, b, c]
      | (rw [k] at hq1; exact absurd hq1 (by decide))
      | (rw [k] at hq2; exact absurd hq2 (by decide))
      | (rw [k] at hq3; exact absurd hq3 (by decide))
  · intro hn
    have hn2 : ¬ GCodes.NoHome s = true := by rw [hn]; decide
    rw [if_neg hn2] at hr
    simp only [Prod.mk.injEq] at hr
    obtain ⟨hr1, hr2, hr3⟩ := hr
    refine ⟨by simp only [homeFlags, Prod.mk.injEq]; exact ⟨⟨hr1, hr2, hr3⟩, hq⟩, ?_⟩
    rw [← hr1, ← hr2, ← hr3]
    rcases hD with ⟨_, ⟨⟨a, b, c⟩, _⟩, _⟩ | ⟨_, _, _, ⟨⟨a, b, c⟩, _⟩, _⟩ |
      ⟨_, _, _, ⟨⟨a, b, c⟩, _⟩, _⟩ | ⟨_, _, _, _, ⟨⟨a, b, c⟩, _⟩, _⟩ |
      ⟨_, _, _, _, ⟨⟨a, b, c⟩, _⟩, _⟩ | ⟨_, _, _, _, _, ⟨⟨a, b, c⟩, _⟩, _⟩ |
      ⟨_, _, _, _, _, ⟨⟨a, b, c⟩, _⟩, _⟩ | ⟨_, _, _, _, ⟨⟨a, b, c⟩, _⟩, _⟩
    all_goals
      rw [a, b, c]
      simp_all

/-- C15, witness: the line `G28 X Z` dispatched after `Init`. -/
theorem C15_homing_axis_selection_witness :
    HomeCommand exampleConfig Source.web (withLine [71, 50, 56, 32, 88, 32, 90, 10]) ∧
    requestedAxes Source.web (withLine [71, 50, 56, 32, 88, 32, 90, 10]) = (true, false, true) ∧
    ((GCodes.ActOnGcode exampleConfig idleEnv Source.web
          (withLine [71, 50, 56, 32, 88, 32, 90, 10])).2.homeX,
      (GCodes.ActOnGcode exampleConfig idleEnv Source.web
          (withLine [71, 50, 56, 32, 88, 32, 90, 10])).2.homeY,
      (GCodes.ActOnGcode exampleConfig idleEnv Source.web
          (withLine [71, 50, 56, 32, 88, 32, 90, 10])).2.homeZ)
      = requestedAxes Source.web (withLine [71, 50, 56, 32, 88, 32, 90, 10]) :=
  ⟨⟨by decide!, by decide!⟩, by decide!,
    ((C15_homing_axis_selection exampleConfig idleEnv Source.web
      (withLine [71, 50, 56, 32, 88, 32, 90, 10]) ⟨by decide!, by decide!⟩).2.1 (by decide!)).2
      (by decide!) (by decide!) (by decide!)⟩

theorem requestedAxes_takeMove {F : Type} [FloatOps F] (src : Source) (s : GCodes F) :
    requestedAxes src (takeMove s) = requestedAxes src s := by
  have hb := (takeMove_view s).2.2.2.2 src
  have hg : (takeMove s).gCodeLetters = s.gCodeLetters := by
    unfold takeMove GCodes.ReadMove
    split_ifs <;> rfl
  unfold requestedAxes
  rw [hb, hg]

theorem home_step {F : Type} [FloatOps F] (cfg : Config F) (env : Env F) (src : Source)
    (take : Bool) (s : GCodes F) (h : HomeCommand cfg src s) :
    HomeCommand cfg src (GCodes.ActOnGcode cfg env src (if take then takeMove s else s)).2 ∧
    ∃ w, GCodes.ActOnGcode cfg env src (if take then takeMove s else s)
        = GCodes.DoHome cfg env w ∧
      modes w = modes s ∧ frames w = frames s ∧ w.stackPointer = s.stackPointer ∧
      (homeFlags w).2 = (homeFlags s).2 ∧
      (homeFlags w).1
        = if (homeFlags s).1 = (false, false, false) then requestedAxes src s
          else (homeFlags s).1 := by
  have key : ∀ t : GCodes F, HomeCommand cfg src t → homeFlags t = homeFlags s →
      modes t = modes s → frames t = frames s → t.stackPointer = s.stackPointer →
      requestedAxes src t = requestedAxes src s →
      HomeCommand cfg src (GCodes.ActOnGcode cfg env src t).2 ∧
      ∃ w, GCodes.ActOnGcode cfg env src t = GCodes.DoHome cfg env w ∧
        modes w = modes s ∧ frames w = frames s ∧ w.stackPointer = s.stackPointer ∧
        (homeFlags w).2 = (homeFlags s).2 ∧
        (homeFlags w).1
          = if (homeFlags s).1 = (false, false, false) then requestedAxes src s
            else (homeFlags s).1 := by
    intro t ht t1 t2 t3 t4 t5
    refine ⟨homeCommand_ActOnGcode cfg env src t ht, homeRequested cfg src t, ?_⟩
    obtain ⟨d1, d2, d3, d4, d5, d6⟩ := home_dispatch cfg env src t ht
    refine ⟨d1, d2.trans t2, d3.trans t3, d4.trans t4, by rw [d5, t1], ?_⟩
    rw [d6, t5, t1]
    have hn : (GCodes.NoHome t = true) ↔ (homeFlags s).1 = (false, false, false) := by
      rw [← t1]
      simp only [GCodes.NoHome, homeFlags, Prod.mk.injEq]
      cases t.homeX <;> cases t.homeY <;> cases t.homeZ <;> simp
    by_cases hc : (homeFlags s).1 = (false, false, false)
    · rw [if_pos hc, if_pos (hn.mpr hc)]
    · rw [if_neg hc, if_neg (fun x => hc (hn.mp x))]
  cases take
  · exact key s h rfl rfl rfl rfl rfl
  · obtain ⟨v1, v2, v3, v4, _⟩ := takeMove_view s
    exact key (takeMove s) (homeCommand_takeMove cfg src s h) v1 v2 v3 v4
      (requestedAxes_takeMove src s)

theorem phase_step {F : Type} [FloatOps F] (cfg : Config F) (env : Env F) (src : Source)
    (take : Bool) (s : GCodes F) (h : HomeCommand cfg src s) (n : Nat) (hn : n < 4)
    (hf : homeFlags s = xzPhase n) :
    HomeCommand cfg src (GCodes.ActOnGcode cfg env src (if take then takeMove s else s)).2 ∧
    (((GCodes.ActOnGcode cfg env src (if take then takeMove s else s)).1 = false ∧
        homeFlags (GCodes.ActOnGcode cfg env src (if take then takeMove s else s)).2
          = xzPhase n) ∨
      (homeFlags (GCodes.ActOnGcode cfg env src (if take then takeMove s else s)).2
          = xzPhase (n + 1) ∧
        (GCodes.ActOnGcode cfg env src (if take then takeMove s else s)).1 = decide (n = 3))) := by
  obtain ⟨hc, w, hA, _, _, _, hq, hr⟩ := home_step cfg env src take s h
  refine ⟨hc, ?_⟩
  rw [hA]
  have hne : (homeFlags s).1 ≠ (false, false, false) := by
    rw [hf]
    interval_cases n <;> decide
  rw [if_neg hne] at hr
  have hw : homeFlags w = xzPhase n := by
    rw [← hf]
    exact Prod.ext hr hq
  have hD := DoHome_view cfg env w
  generalize GCodes.DoHome cfg env w = r at hD
  clear hA hq hr hne hf hc h
  simp only [homeFlags, Prod.mk.injEq] at hw hD ⊢
  interval_cases n <;> simp only [xzPhase, Prod.mk.injEq] at hw ⊢ <;>
    obtain ⟨⟨x1, x2, x3⟩, x4, x5, x6⟩ := hw <;>
    rw [x1, x2, x3, x4, x5, x6] at hD <;>
    simp at hD ⊢ <;>
    tauto

theorem phase_start {F : Type} [FloatOps F] (cfg : Config F) (env : Env F) (src : Source)
    (take : Bool) (s : GCodes F) (h : HomeCommand cfg src s)
    (hf : homeFlags s = xzPhase 4) (hreq : requestedAxes src s = (true, false, true)) :
    HomeCommand cfg src (GCodes.ActOnGcode cfg env src (if take then takeMove s else s)).2 ∧
    (GCodes.ActOnGcode cfg env src (if take then takeMove s else s)).1 = false ∧
    (homeFlags (GCodes.ActOnGcode cfg env src (if take then takeMove s else s)).2 = xzPhase 0 ∨
      homeFlags (GCodes.ActOnGcode cfg env src (if take then takeMove s else s)).2
        = xzPhase 1) := by
  obtain ⟨hc, w, hA, _, _, _, hq, hr⟩ := home_step cfg env src take s h
  refine ⟨hc, ?_⟩
  rw [hA]
  have he : (homeFlags s).1 = (false, false, false) := by rw [hf]; rfl
  rw [if_pos he, hreq] at hr
  have hw : homeFlags w = xzPhase 0 := by
    refine Prod.ext hr ?_
    rw [hq, hf]
    rfl
  have hD := DoHome_view cfg env w
  generalize GCodes.DoHome cfg env w = r at hD
  clear hA hq hr he hf hc h hreq
  simp only [homeFlags, Prod.mk.injEq] at hw hD ⊢
  simp only [xzPhase, Prod.mk.injEq] at hw ⊢
  obtain ⟨⟨x1, x2, x3⟩, x4, x5, x6⟩ := hw
  rw [x1, x2, x3, x4, x5, x6] at hD
  simp at hD ⊢
  tauto

theorem drive_cons {F : Type} [FloatOps F] (cfg : Config F) (src : Source) (take : Bool)
    (env : Env F) (rest : List (Bool × Env F)) (s : GCodes F) :
    drive cfg src ((take, env) :: rest) s
      = GCodes.ActOnGcode cfg env src (if take then takeMove s else s) ::
        (if (GCodes.ActOnGcode cfg env src (if take then takeMove s else s)).1 then []
          else drive cfg src rest
            (GCodes.ActOnGcode cfg env src (if take then takeMove s else s)).2) := rfl

theorem trace_from_z {F : Type} [FloatOps F] (cfg : Config F) (src : Source) :
    ∀ (steps : List (Bool × Env F)) (s : GCodes F) (n : Nat), HomeCommand cfg src s →
      2 ≤ n → n < 4 → homeFlags s = xzPhase n →
      ∀ e ∈ drive cfg src steps s, ∃ m, 2 ≤ m ∧ homeFlags e.2 = xzPhase m := by
  intro steps
  induction steps with
  | nil => intro s n _ _ _ _ e he; simp [drive] at he
  | cons st rest ih =>
    obtain ⟨take, env⟩ := st
    intro s n h h2 h4 hf e he
    rw [drive_cons] at he
    obtain ⟨hc, hstep⟩ := phase_step cfg env src take s h n h4 hf
    generalize GCodes.ActOnGcode cfg env src (if take then takeMove s else s) = r
      at he hc hstep
    rcases List.mem_cons.mp he with rfl | hin
    · rcases hstep with ⟨_, hs⟩ | ⟨hs, _⟩
      · exact ⟨n, h2, hs⟩
      · exact ⟨n + 1, by omega, hs⟩
    · cases hr : r.1
      · rw [hr] at hin hstep
        simp only [Bool.false_eq_true, if_false] at hin
        rcases hstep with ⟨_, hs⟩ | ⟨hs, h3⟩
        · exact ih r.2 n hc h2 h4 hs e hin
        · have h5 : n ≠ 3 := by
            intro h6
            rw [h6] at h3
            exact absurd h3 (by decide)
          exact ih r.2 (n + 1) hc (by omega) (by omega) hs e hin
      · rw [hr] at hin
        simp at hin

theorem xzPhase_zQueued {F : Type} (t : GCodes F) (m : Nat) (hm : m ≤ 2)
    (h : homeFlags t = xzPhase m) : t.homeZQueued = false := by
  have h1 : t.homeZQueued = (xzPhase m).2.2.2 := by rw [← h]; rfl
  rw [h1]
  interval_cases m <;> rfl

theorem trace_from_xq {F : Type} [FloatOps F] (cfg : Config F) (src : Source) :
    ∀ (steps : List (Bool × Env F)) (s : GCodes F), HomeCommand cfg src s →
      homeFlags s = xzPhase 1 →
      ∀ (k : Nat) (e : Bool × GCodes F), (drive cfg src steps s)[k]? = some e →
        (∃ m, homeFlags e.2 = xzPhase m) ∧
        (e.2.homeZQueued = true → ∃ (j : Nat) (ej : Bool × GCodes F), j < k ∧ (drive cfg src steps s)[j]? = some ej ∧
          homeFlags ej.2 = xzPhase 2) := by
  intro steps
  induction steps with
  | nil => intro s _ _ k e he; simp [drive] at he
  | cons st rest ih =>
    obtain ⟨take, env⟩ := st
    intro s h hf k e he
    rw [drive_cons] at he ⊢
    obtain ⟨hc, hstep⟩ := phase_step cfg env src take s h 1 (by decide) hf
    generalize GCodes.ActOnGcode cfg env src (if take then takeMove s else s) = r
      at he hc hstep
    cases k with
    | zero =>
      rw [List.getElem?_cons_zero, Option.some.injEq] at he
      subst he
      rcases hstep with ⟨_, hs⟩ | ⟨hs, _⟩
      · exact ⟨⟨1, hs⟩, fun hz => by rw [xzPhase_zQueued r.2 1 (by decide) hs] at hz; exact absurd hz (by decide)⟩
      · exact ⟨⟨2, hs⟩, fun hz => by rw [xzPhase_zQueued r.2 2 (by decide) hs] at hz; exact absurd hz (by decide)⟩
    | succ k =>
      rw [List.getElem?_cons_succ] at he
      cases hr : r.1
      · rw [hr] at he hstep
        simp only [Bool.false_eq_true, if_false] at he ⊢
        rcases hstep with ⟨_, hs⟩ | ⟨hs, _⟩
        · obtain ⟨h1, h2⟩ := ih r.2 hc hs k e he
          refine ⟨h1, fun hz => ?_⟩
          obtain ⟨j, ej, hj, hej, hp⟩ := h2 hz
          exact ⟨j + 1, ej, by omega, by rw [List.getElem?_cons_succ]; exact hej, hp⟩
        · obtain ⟨m, _, hm⟩ := trace_from_z cfg src rest r.2 2 hc (by decide) (by decide) hs e
            (List.getElem?_mem he)
          exact ⟨⟨m, hm⟩, fun _ => ⟨0, r, by omega, by rw [List.getElem?_cons_zero], hs⟩⟩
      · rw [hr] at he
        simp at he

theorem trace_from_x {F : Type} [FloatOps F] (cfg : Config F) (src : Source) :
    ∀ (steps : List (Bool × Env F)) (s : GCodes F), HomeCommand cfg src s →
      (homeFlags s = xzPhase 0 ∨
        (homeFlags s = xzPhase 4 ∧ requestedAxes src s = (true, false, true))) →
      ∀ (k : Nat) (e : Bool × GCodes F), (drive cfg src steps s)[k]? = some e →
        (∃ m, homeFlags e.2 = xzPhase m) ∧
        (e.2.homeZQueued = true → ∃ (i j : Nat) (ei ej : Bool × GCodes F), i < j ∧ j < k ∧
          (drive cfg src steps s)[i]? = some ei ∧ (drive cfg src steps s)[j]? = some ej ∧
          homeFlags ei.2 = xzPhase 1 ∧ homeFlags ej.2 = xzPhase 2) := by
  intro steps
  induction steps with
  | nil => intro s _ _ k e he; simp [drive] at he
  | cons st rest ih =>
    obtain ⟨take, env⟩ := st
    intro s h hf k e he
    rw [drive_cons] at he ⊢
    have hstep : HomeCommand cfg src
          (GCodes.ActOnGcode cfg env src (if take then takeMove s else s)).2 ∧
        (GCodes.ActOnGcode cfg env src (if take then takeMove s else s)).1 = false ∧
        (homeFlags (GCodes.ActOnGcode cfg env src (if take then takeMove s else s)).2
            = xzPhase 0 ∨
          homeFlags (GCodes.ActOnGcode cfg env src (if take then takeMove s else s)).2
            = xzPhase 1) := by
      rcases hf with hf | ⟨hf, hreq⟩
      · obtain ⟨hc, hs⟩ := phase_step cfg env src take s h 0 (by decide) hf
        refine ⟨hc, ?_⟩
        rcases hs with ⟨a, b⟩ | ⟨a, b⟩
        · exact ⟨a, Or.inl b⟩
        · exact ⟨b, Or.inr a⟩
      · exact phase_start cfg env src take s h hf hreq
    generalize GCodes.ActOnGcode cfg env src (if take then takeMove s else s) = r
      at he hstep
    obtain ⟨hc, hr, hs⟩ := hstep
    rw [hr] at he ⊢
    simp only [Bool.false_eq_true, if_false] at he ⊢
    cases k with
    | zero =>
      rw [List.getElem?_cons_zero, Option.some.injEq] at he
      subst he
      rcases hs with hs | hs
      · exact ⟨⟨0, hs⟩, fun hz => by rw [xzPhase_zQueued r.2 0 (by decide) hs] at hz; exact absurd hz (by decide)⟩
      · exact ⟨⟨1, hs⟩, fun hz => by rw [xzPhase_zQueued r.2 1 (by decide) hs] at hz; exact absurd hz (by decide)⟩
    | succ k =>
      rw [List.getElem?_cons_succ] at he
      rcases hs with hs | hs
      · obtain ⟨h1, h2⟩ := ih r.2 hc (Or.inl hs) k e he
        refine ⟨h1, fun hz => ?_⟩
        obtain ⟨i, j, ei, ej, hij, hjk, hei, hej, p1, p2⟩ := h2 hz
        exact ⟨i + 1, j + 1, ei, ej, by omega, by omega,
          by rw [List.getElem?_cons_succ]; exact hei,
          by rw [List.getElem?_cons_succ]; exact hej, p1, p2⟩
      · obtain ⟨h1, h2⟩ := trace_from_xq cfg src rest r.2 hc hs k e he
        refine ⟨h1, fun hz => ?_⟩
        obtain ⟨j, ej, hjk, hej, p2⟩ := h2 hz
        exact ⟨0, j + 1, r, ej, by omega, by omega, by rw [List.getElem?_cons_zero],
          by rw [List.getElem?_cons_succ]; exact hej, hs, p2⟩

theorem xzPhase_y (m : Nat) : (xzPhase m).1.2.1 = false ∧ (xzPhase m).2.2.1 = false := by
  rcases m with _ | _ | _ | _ | _ <;> exact ⟨rfl, rfl⟩

/-- The order of the homing flags: a `G28` line that has the letters of X and Z
and not that of Y is dispatched while no axis is requested or queued, and is
driven by repeated calls of `ActOnGcode`, with any answers of the motion
subsystem at each call and the consumer taking the pending move or not before
each call. Then after every call Y is neither requested nor queued, and whenever
Z is queued after call `k`, there are earlier calls `i < j < k` such that X is
requested and queued after call `i` with Z not queued, and X is neither
requested nor queued after call `j` with Z still not queued. This is about the
flags only; the content of the request posted is not covered. -/
theorem homing_flags_in_order {F : Type} [FloatOps F] (cfg : Config F) (src : Source)
    (steps : List (Bool × Env F)) (s : GCodes F)
    (h : HomeCommand cfg src s)
    (hX : s.gCodeLetters X_AXIS ∈ (s.buf src).line)
    (hY : s.gCodeLetters Y_AXIS ∉ (s.buf src).line)
    (hZ : s.gCodeLetters Z_AXIS ∈ (s.buf src).line)
    (hidle : homeFlags s = ((false, false, false), (false, false, false))) :
    ∀ (k : Nat) (e : Bool × GCodes F), (drive cfg src steps s)[k]? = some e →
      e.2.homeY = false ∧ e.2.homeYQueued = false ∧
      (e.2.homeZQueued = true →
        ∃ (i j : Nat) (ei ej : Bool × GCodes F), i < j ∧ j < k ∧
          (drive cfg src steps s)[i]? = some ei ∧ (drive cfg src steps s)[j]? = some ej ∧
          ei.2.homeX = true ∧ ei.2.homeXQueued = true ∧ ei.2.homeZQueued = false ∧
          ej.2.homeX = false ∧ ej.2.homeXQueued = false ∧ ej.2.homeZQueued = false) := by
  intro k e he
  have hreq : requestedAxes src s = (true, false, true) := by
    simp [requestedAxes, hX, hY, hZ]
  obtain ⟨⟨m, hm⟩, h2⟩ := trace_from_x cfg src steps s h (Or.inr ⟨hidle, hreq⟩) k e he
  have hy := xzPhase_y m
  rw [← hm] at hy
  refine ⟨hy.1, hy.2, fun hz => ?_⟩
  obtain ⟨i, j, ei, ej, hij, hjk, hei, hej, p1, p2⟩ := h2 hz
  simp only [homeFlags, xzPhase, Prod.mk.injEq] at p1 p2
  exact ⟨i, j, ei, ej, hij, hjk, hei, hej, p1.1.1, p1.2.1, p1.2.2.2, p2.1.1, p2.2.1, p2.2.2.2⟩

/-- The order of the homing flags on `G28 X Z` after `Init`, driven over four
ticks on which all moves are finished. Z is queued after the third call
(index 2). -/
theorem homing_flags_in_order_example :
    ∃ e : Bool × GCodes Rat, homingRun[2]? = some e ∧ e.2.homeZQueued = true ∧
      ∃ (i j : Nat) (ei ej : Bool × GCodes Rat), i < j ∧ j < 2 ∧
        homingRun[i]? = some ei ∧ homingRun[j]? = some ej ∧
        ei.2.homeX = true ∧ ei.2.homeXQueued = true ∧ ei.2.homeZQueued = false ∧
        ej.2.homeX = false ∧ ej.2.homeXQueued = false ∧ ej.2.homeZQueued = false := by
  have hs : (homingRun[2]?).isSome = true := by decide!
  obtain ⟨e, he⟩ := Option.isSome_iff_exists.mp hs
  have hz : (homingRun[2]?).map (fun e => e.2.homeZQueued) = some true := by decide!
  rw [he] at hz
  have hz2 : e.2.homeZQueued = true := by simpa using hz
  exact ⟨e, he, hz2,
    (homing_flags_in_order exampleConfig Source.web homingTicks
      (withLine [71, 50, 56, 32, 88, 32, 90, 10]) ⟨by decide!, by decide!⟩
      (by decide!) (by decide!) (by decide!) (by decide!) 2 e he).2.2 hz2⟩

/-- C14 (code defect): the state after five `M120` and `G1 Z-240` is reachable;
it holds a pending request (Z -240, feed 3, no endstop check) on a full stack,
and no axis is requested or queued. On the tick that completes the line
`G28 X Z`, `Push` reports the overflow and returns true, and `DoHome` marks X
Queued and leaves a request posted with endstop checking whose X field is -420
and whose Z field is -240, which is -2 times the length of Z, where `Move`
reports the Z position 0: a move that homes Z is posted, and `ReadMove` delivers
it, while X is only Queued and Z is still not Queued. -/
theorem C14_z_homing_move_posted_with_x :
    Reachable exampleConfig pendingZAtFullStack ∧
    (homeFlags pendingZAtFullStack = ((false, false, false), (false, false, false)) ∧
      pendingZAtFullStack.stackPointer = 5 ∧
      pendingZAtFullStack.moveAvailable = true ∧
      pendingZAtFullStack.checkEndStops = false ∧
      (List.range 5).map pendingZAtFullStack.moveBuffer = [0, 0, -240, 0, 3] ∧
      (GCodes.Push exampleConfig (webEnv 10) pendingZAtFullStack).1 = true ∧
      homeFlags (GCodes.Spin exampleConfig (webEnv 10) pendingZAtFullStack)
        = ((true, false, true), (true, false, false)) ∧
      (GCodes.Spin exampleConfig (webEnv 10) pendingZAtFullStack).webGCode.finished = false ∧
      (GCodes.Spin exampleConfig (webEnv 10) pendingZAtFullStack).moveAvailable = true ∧
      (GCodes.Spin exampleConfig (webEnv 10) pendingZAtFullStack).checkEndStops = true ∧
      (List.range 5).map (GCodes.Spin exampleConfig (webEnv 10) pendingZAtFullStack).moveBuffer
        = [-420, 0, -240, 0, (50000001 : Rat) / 1000000] ∧
      (GCodes.Spin exampleConfig (webEnv 10) pendingZAtFullStack).moveBuffer Z_AXIS
        = -2.0 * exampleConfig.AxisLength Z_AXIS ∧
      ((webEnv 10).getCurrentState pendingZAtFullStack.moveBuffer).2 Z_AXIS = 0 ∧
      (GCodes.ReadMove (fun _ => 0) false
          (GCodes.Spin exampleConfig (webEnv 10) pendingZAtFullStack)).1 = true ∧
      (GCodes.ReadMove (fun _ => 0) false
          (GCodes.Spin exampleConfig (webEnv 10) pendingZAtFullStack)).2.2.1 = true ∧
      (List.range 5).map (GCodes.ReadMove (fun _ => 0) false
          (GCodes.Spin exampleConfig (webEnv 10) pendingZAtFullStack)).2.1
        = [-420, 0, -240, 0, (50000001 : Rat) / 1000000]) :=
  ⟨reachable_afterWeb _, by decide!⟩

theorem frameAt_of_frames {F : Type} {a b : GCodes F} (h : frames a = frames b) (k : Int) :
    frameAt a k = frameAt b k := by
  simp only [frames, Prod.mk.injEq] at h
  obtain ⟨h1, h2, h3⟩ := h
  unfold frameAt
  rw [h1, h2, h3]

theorem DoHome_idle {F : Type} [FloatOps F] (cfg : Config F) (env : Env F) (w : GCodes F)
    (k : Int) (m : Bool × Bool × F) (hk : k < (cfg.STACK : Int)) (hw : HomingIdle k m w) :
    HomingIdle k m (GCodes.DoHome cfg env w).2 ∨
      (HomingBusy k m (GCodes.DoHome cfg env w).2 ∧ (GCodes.DoHome cfg env w).1 = false) := by
  have hD := DoHome_view cfg env w
  generalize GCodes.DoHome cfg env w = r at hD
  obtain ⟨hq, hsp, hm⟩ := hw
  unfold HomingIdle HomingBusy
  unfold SameView Pushed Popped at hD
  simp only [homeFlags, Prod.mk.injEq] at hq hD ⊢
  obtain ⟨q1, q2, q3⟩ := hq
  rw [q1, q2, q3, hsp, hm] at hD
  rcases hD with ⟨_, ⟨_, a4, a5, a6⟩, a7, a8, _⟩ | ⟨_, _, a0, ⟨⟨a1, _⟩, a4, a5, a6⟩, a7, a8⟩ |
    ⟨_, c, _⟩ | ⟨_, _, _, a0, ⟨⟨a1, a2, _⟩, a4, a5, a6⟩, a7, a8⟩ | ⟨_, _, c, _⟩ |
    ⟨_, _, _, _, a0, ⟨⟨a1, a2, a3⟩, a4, a5, a6⟩, a7, a8⟩ | ⟨_, _, _, c, _⟩ |
    ⟨_, _, _, _, ⟨_, a4, a5, a6⟩, a7, a8, _⟩
  · exact Or.inl ⟨⟨a4, a5, a6⟩, a8, a7⟩
  · rcases a8 with ⟨_, b1, b2⟩ | ⟨b0, _⟩
    · exact Or.inr ⟨⟨b1, b2, Or.inl ⟨a1, a4, a5, a6⟩⟩, a0⟩
    · omega
  · exact absurd c (by decide)
  · rcases a8 with ⟨_, b1, b2⟩ | ⟨b0, _⟩
    · exact Or.inr ⟨⟨b1, b2, Or.inr (Or.inl ⟨a1, a2, a4, a5, a6⟩)⟩, a0⟩
    · omega
  · exact absurd c (by decide)
  · rcases a8 with ⟨_, b1, b2⟩ | ⟨b0, _⟩
    · exact Or.inr ⟨⟨b1, b2, Or.inr (Or.inr ⟨a1, a2, a3, a4, a5, a6⟩)⟩, a0⟩
    · omega
  · exact absurd c (by decide)
  · exact Or.inl ⟨⟨a4, a5, a6⟩, a8, a7⟩

theorem DoHome_busy {F : Type} [FloatOps F] (cfg : Config F) (env : Env F) (w : GCodes F)
    (k : Int) (m : Bool × Bool × F) (hk : 0 ≤ k) (hw : HomingBusy k m w) :
    HomingIdle k m (GCodes.DoHome cfg env w).2 ∨
      (HomingBusy k m (GCodes.DoHome cfg env w).2 ∧ (GCodes.DoHome cfg env w).1 = false) := by
  have hD := DoHome_view cfg env w
  generalize GCodes.DoHome cfg env w = r at hD
  obtain ⟨hsp, hfr, hfl⟩ := hw
  unfold HomingIdle HomingBusy
  unfold SameView Pushed Popped at hD
  simp only [homeFlags, Prod.mk.injEq] at hfl hD ⊢
  rcases hfl with ⟨x1, q1, q2, q3⟩ | ⟨x1, x2, q1, q2, q3⟩ | ⟨x1, x2, x3, q1, q2, q3⟩
  · rw [x1, q1, q2, q3, hsp] at hD
    rcases hD with h | h | h | h | h | h | h | h
    · obtain ⟨a0, ⟨⟨a1, a2, a3⟩, a4, a5, a6⟩, _, a8, a9⟩ := h
      refine Or.inr ⟨⟨a8, (frameAt_of_frames a9 k).trans hfr, ?_⟩, a0⟩
      simp [a1, a2, a3, a4, a5, a6]
    · simp at h
    · obtain ⟨_, _, _, ⟨_, a4, a5, a6⟩, a7, a8⟩ := h
      rcases a8 with ⟨_, b1, b2⟩ | ⟨b0, _⟩
      · have hk1 : k + 1 - 1 = k := by omega
        rw [hk1] at b1 b2
        exact Or.inl ⟨⟨a4, a5, a6⟩, b1, b2.trans hfr⟩
      · omega
    · simp at h
    · simp at h
    · simp at h
    · simp at h
    · simp at h
  · rw [x1, x2, q1, q2, q3, hsp] at hD
    rcases hD with h | h | h | h | h | h | h | h
    · obtain ⟨a0, ⟨⟨a1, a2, a3⟩, a4, a5, a6⟩, _, a8, a9⟩ := h
      refine Or.inr ⟨⟨a8, (frameAt_of_frames a9 k).trans hfr, ?_⟩, a0⟩
      simp [a1, a2, a3, a4, a5, a6]
    · simp at h
    · simp at h
    · simp at h
    · obtain ⟨_, _, _, _, ⟨_, a4, a5, a6⟩, a7, a8⟩ := h
      rcases a8 with ⟨_, b1, b2⟩ | ⟨b0, _⟩
      · have hk1 : k + 1 - 1 = k := by omega
        rw [hk1] at b1 b2
        exact Or.inl ⟨⟨a4, a5, a6⟩, b1, b2.trans hfr⟩
      · omega
    · simp at h
    · simp at h
    · simp at h
  · rw [x1, x2, x3, q1, q2, q3, hsp] at hD
    rcases hD with h | h | h | h | h | h | h | h
    · obtain ⟨a0, ⟨⟨a1, a2, a3⟩, a4, a5, a6⟩, _, a8, a9⟩ := h
      refine Or.inr ⟨⟨a8, (frameAt_of_frames a9 k).trans hfr, ?_⟩, a0⟩
      simp [a1, a2, a3, a4, a5, a6]
    · simp at h
    · simp at h
    · simp at h
    · simp at h
    · simp at h
    · obtain ⟨_, _, _, _, _, ⟨_, a4, a5, a6⟩, a7, a8⟩ := h
      rcases a8 with ⟨_, b1, b2⟩ | ⟨b0, _⟩
      · have hk1 : k + 1 - 1 = k := by omega
        rw [hk1] at b1 b2
        exact Or.inl ⟨⟨a4, a5, a6⟩, b1, b2.trans hfr⟩
      · omega
    · simp at h

theorem homing_step {F : Type} [FloatOps F] (cfg : Config F) (env : Env F) (src : Source)
    (take : Bool) (s : GCodes F) (k : Int) (m : Bool × Bool × F)
    (h : HomeCommand cfg src s) (hk0 : 0 ≤ k) (hk : k < (cfg.STACK : Int))
    (hinv : HomingIdle k m s ∨ HomingBusy k m s) :
    HomeCommand cfg src (GCodes.ActOnGcode cfg env src (if take then takeMove s else s)).2 ∧
    (HomingIdle k m (GCodes.ActOnGcode cfg env src (if take then takeMove s else s)).2 ∨
      (HomingBusy k m (GCodes.ActOnGcode cfg env src (if take then takeMove s else s)).2 ∧
        (GCodes.ActOnGcode cfg env src (if take then takeMove s else s)).1 = false)) := by
  obtain ⟨hc, w, hA, hm, hfr, hsp, hq, hr⟩ := home_step cfg env src take s h
  refine ⟨hc, ?_⟩
  rw [hA]
  rcases hinv with ⟨i1, i2, i3⟩ | ⟨b1, b2, b3⟩
  · exact DoHome_idle cfg env w k m hk ⟨hq.trans i1, hsp.trans i2, hm.trans i3⟩
  · have hne : (homeFlags s).1 ≠ (false, false, false) := by
      intro hz
      simp only [homeFlags, Prod.mk.injEq] at hz b3
      obtain ⟨z1, z2, z3⟩ := hz
      rw [z1, z2, z3] at b3
      simp at b3
    rw [if_neg hne] at hr
    have hfl : homeFlags w = homeFlags s := Prod.ext hr hq
    refine DoHome_busy cfg env w k m hk0 ⟨hsp.trans b1, (frameAt_of_frames hfr k).trans b2, ?_⟩
    simp only [homeFlags, Prod.mk.injEq] at hfl b3 ⊢
    obtain ⟨⟨f1, f2, f3⟩, f4, f5, f6⟩ := hfl
    rw [f1, f2, f3, f4, f5, f6]
    exact b3

theorem homing_trace {F : Type} [FloatOps F] (cfg : Config F) (src : Source) (k : Int)
    (m : Bool × Bool × F) (hk0 : 0 ≤ k) (hk : k < (cfg.STACK : Int)) :
    ∀ (steps : List (Bool × Env F)) (s : GCodes F), HomeCommand cfg src s →
      (HomingIdle k m s ∨ HomingBusy k m s) →
      ∀ e ∈ drive cfg src steps s, HomingIdle k m e.2 ∨ (HomingBusy k m e.2 ∧ e.1 = false) := by
  intro steps
  induction steps with
  | nil => intro s _ _ e he; simp [drive] at he
  | cons st rest ih =>
    obtain ⟨take, env⟩ := st
    intro s h hinv e he
    rw [drive_cons] at he
    obtain ⟨hc, hstep⟩ := homing_step cfg env src take s k m h hk0 hk hinv
    generalize GCodes.ActOnGcode cfg env src (if take then takeMove s else s) = r
      at he hc hstep
    rcases List.mem_cons.mp he with rfl | hin
    · exact hstep
    · cases hr : r.1
      · rw [hr] at hin
        simp only [Bool.false_eq_true, if_false] at hin
        refine ih r.2 hc ?_ e hin
        rcases hstep with hs | ⟨hs, _⟩
        · exact Or.inl hs
        · exact Or.inr hs
      · rw [hr] at hin
        simp at hin

/-- Homing with room on the stack: a `G28` line is dispatched in a state whose
stack is not full (`0 ≤ stackPointer < STACK`) and in which no axis is queued,
and is driven by
repeated calls of `ActOnGcode`, with any answers of the motion subsystem at each
call and the consumer taking the pending move or not before each call. Then
after every call that returns true, `drivesRelative`, `axesRelative`, `gFeedRate`
and `stackPointer` have the values they had at the first dispatch. -/
theorem homing_with_room_restores_state {F : Type} [FloatOps F] (cfg : Config F) (src : Source)
    (steps : List (Bool × Env F)) (s : GCodes F)
    (h : HomeCommand cfg src s)
    (h0 : 0 ≤ s.stackPointer) (h1 : s.stackPointer < (cfg.STACK : Int))
    (hq : s.homeXQueued = false ∧ s.homeYQueued = false ∧ s.homeZQueued = false) :
    ∀ e ∈ drive cfg src steps s, e.1 = true →
      e.2.drivesRelative = s.drivesRelative ∧ e.2.axesRelative = s.axesRelative ∧
      e.2.gFeedRate = s.gFeedRate ∧ e.2.stackPointer = s.stackPointer := by
  intro e he htrue
  have hinv : HomingIdle s.stackPointer (modes s) s := by
    refine ⟨?_, rfl, rfl⟩
    simp only [homeFlags, Prod.mk.injEq]
    exact hq
  rcases homing_trace cfg src s.stackPointer (modes s) h0 h1 steps s h (Or.inl hinv) e he
    with ⟨_, i2, i3⟩ | ⟨_, hf⟩
  · simp only [modes, Prod.mk.injEq] at i3
    exact ⟨i3.1, i3.2.1, i3.2.2, i2⟩
  · rw [htrue] at hf
    exact absurd hf (by decide)

/-- Homing with room on the stack, on `G28 X Z` after `Init`, driven over four
ticks on which all moves are finished; the fourth call (index 3) returns true. -/
theorem homing_with_room_restores_state_example :
    ∃ e ∈ homingRun, e.1 = true ∧
      e.2.drivesRelative = (withLine [71, 50, 56, 32, 88, 32, 90, 10]).drivesRelative ∧
      e.2.axesRelative = (withLine [71, 50, 56, 32, 88, 32, 90, 10]).axesRelative ∧
      e.2.gFeedRate = (withLine [71, 50, 56, 32, 88, 32, 90, 10]).gFeedRate ∧
      e.2.stackPointer = (withLine [71, 50, 56, 32, 88, 32, 90, 10]).stackPointer := by
  have hs : (homingRun[3]?).isSome = true := by decide!
  obtain ⟨e, he⟩ := Option.isSome_iff_exists.mp hs
  have hz : (homingRun[3]?).map (fun e => e.1) = some true := by decide!
  rw [he] at hz
  have hz2 : e.1 = true := by simpa using hz
  exact ⟨e, List.getElem?_mem he, hz2,
    homing_with_room_restores_state exampleConfig Source.web homingTicks
      (withLine [71, 50, 56, 32, 88, 32, 90, 10]) ⟨by decide!, by decide!⟩
      (by decide!) (by decide!) ⟨by decide!, by decide!, by decide!⟩ e
      (List.getElem?_mem he) hz2⟩

/-- C16 (code defect): after five `M120` commands (a full stack of five) and
`G91`, the line `G28 X` is dispatched with `stackPointer = 5` and
`axesRelative = true` and no axis requested or queued. The first call of
`ActOnGcode` returns false: `Push` has reported the overflow and saved no frame,
and the homing move is posted. The second call returns true: its `Pop` has taken
the frame of the fifth `M120`, and the command completes with `stackPointer = 4`
and `axesRelative = false`. The same run through `Spin`, from a reachable state:
the tick that completes the line leaves the command unfinished, the consumer
takes the move, and the next tick finishes the command with `stackPointer = 4`
and `axesRelative = false`. -/
theorem C16_homing_on_full_stack_drops_frame :
    (HomeCommand exampleConfig Source.web fullStackHome ∧
      homeFlags fullStackHome = ((false, false, false), (false, false, false)) ∧
      fullStackHome.stackPointer = 5 ∧ fullStackHome.axesRelative = true ∧
      fullStackRun.map (fun e => (e.1, e.2.stackPointer, e.2.axesRelative))
        = [(false, 5, true), (true, 4, false)]) ∧
    Reachable exampleConfig relativeAtFullStack ∧
    (relativeAtFullStack.stackPointer = 5 ∧ relativeAtFullStack.axesRelative = true ∧
      (GCodes.Spin exampleConfig (webEnv 10) relativeAtFullStack).webGCode.finished = false ∧
      (GCodes.Spin exampleConfig (webEnv 10) relativeAtFullStack).stackPointer = 5 ∧
      (GCodes.ReadMove (fun _ => 0) false
        (GCodes.Spin exampleConfig (webEnv 10) relativeAtFullStack)).1 = true ∧
      (GCodes.Spin exampleConfig idleEnv (GCodes.ReadMove (fun _ => 0) false
        (GCodes.Spin exampleConfig (webEnv 10) relativeAtFullStack)).2.2.2).webGCode.finished
        = true ∧
      (GCodes.Spin exampleConfig idleEnv (GCodes.ReadMove (fun _ => 0) false
        (GCodes.Spin exampleConfig (webEnv 10) relativeAtFullStack)).2.2.2).stackPointer = 4 ∧
      (GCodes.Spin exampleConfig idleEnv (GCodes.ReadMove (fun _ => 0) false
        (GCodes.Spin exampleConfig (webEnv 10) relativeAtFullStack)).2.2.2).axesRelative
        = false) :=
  ⟨⟨⟨by decide!, by decide!⟩, by decide!, by decide!, by decide!, by decide!⟩,
    reachable_afterWeb _, by decide!⟩

/-! ## Round trip of field values -/

theorem digitsValue_digits (l : List Nat) (hl : ∀ x ∈ l, x < 10) :
    ∀ acc, digitsValue 10 (l.map (fun x => x + 48)) acc
      = l.foldl (fun a d => a * 10 + d) acc := by
  induction l with
  | nil => intro acc; rfl
  | cons a t ih =>
    intro acc
    have ha : a < 10 := hl a (by simp)
    have hd : digitVal (a + 48) = some a := by
      unfold digitVal
      rw [if_pos (by omega)]
      simp
    simp only [List.map_cons, digitsValue, hd, List.foldl_cons]
    rw [if_pos ha]
    exact ih (fun x hx => hl x (by simp [hx])) _

theorem takeWhile_digits (l tl : List Nat) (hl : ∀ x ∈ l, x < 10)
    (htl : ∀ c ∈ tl.head?, ¬ (48 ≤ c ∧ c ≤ 57)) :
    (l.map (fun x => x + 48) ++ tl).takeWhile (fun c => 48 ≤ c && c ≤ 57)
        = l.map (fun x => x + 48) ∧
      (l.map (fun x => x + 48) ++ tl).dropWhile (fun c => 48 ≤ c && c ≤ 57) = tl := by
  induction l with
  | nil =>
    cases tl with
    | nil => simp
    | cons c t =>
      have hc := htl c (by simp)
      have hc2 : (decide (48 ≤ c) && decide (c ≤ 57)) = false := by
        simpa using hc
      simp [List.takeWhile_cons, List.dropWhile_cons, hc2]
  | cons a t ih =>
    have ha : a < 10 := hl a (by simp)
    obtain ⟨i1, i2⟩ := ih (fun x hx => hl x (by simp [hx]))
    have hd : (decide (48 ≤ a + 48) && decide (a + 48 ≤ 57)) = true := by
      simp; omega
    simp only [List.map_cons, List.cons_append, List.takeWhile_cons, List.dropWhile_cons, hd,
      if_true]
    exact ⟨by rw [i1], i2⟩

theorem fractionDigits_text (d : Decimal) (hfd : ∀ x ∈ d.fraction, x < 10) (suf : List Nat)
    (hs : ∀ c ∈ suf.head?, isSpace c = true) :
    fractionDigits ((if d.fraction = [] then [] else 46 :: d.fraction.map (fun x => x + 48))
      ++ suf) = d.fraction.map (fun x => x + 48) := by
  have hsuf : ∀ c ∈ suf.head?, ¬ (48 ≤ c ∧ c ≤ 57) := by
    intro c hc
    have := hs c hc
    unfold isSpace at this
    intro h
    simp at this
    omega
  by_cases hf : d.fraction = []
  · rw [if_pos hf, hf, List.nil_append]
    cases suf with
    | nil => rfl
    | cons c t =>
      have := hs c (by simp)
      have hc : c ≠ 46 := by
        intro h; rw [h] at this; exact absurd this (by decide)
      unfold fractionDigits
      split
      · rename_i heq
        simp at heq
        exact absurd heq.1 hc
      · rfl
  · rw [if_neg hf]
    exact (takeWhile_digits d.fraction suf hfd hsuf).1

theorem decimalBody_text (d : Decimal) (hd : d.WellFormed) (suf : List Nat)
    (hs : ∀ c ∈ suf.head?, isSpace c = true) :
    decimalBody (d.whole.map (fun x => x + 48) ++
        ((if d.fraction = [] then [] else 46 :: d.fraction.map (fun x => x + 48)) ++ suf))
      = (digitsNat (d.whole ++ d.fraction) : Rat) / (10 : Rat) ^ d.fraction.length := by
  obtain ⟨_, hwd, hfd⟩ := hd
  have htail : ∀ c ∈ ((if d.fraction = [] then [] else 46 :: d.fraction.map (fun x => x + 48))
      ++ suf).head?, ¬ (48 ≤ c ∧ c ≤ 57) := by
    intro c hc
    by_cases hf : d.fraction = []
    · rw [if_pos hf, List.nil_append] at hc
      have := hs c hc
      unfold isSpace at this
      intro h
      simp at this
      omega
    · rw [if_neg hf] at hc
      simp at hc
      omega
  obtain ⟨t1, t2⟩ := takeWhile_digits d.whole _ hwd htail
  unfold decimalBody
  simp only []
  rw [t1, t2, fractionDigits_text d hfd suf hs, ← List.map_append, digitsValue_digits _ (by
      intro x hx
      rcases List.mem_append.mp hx with h | h
      · exact hwd x h
      · exact hfd x h) 0, List.length_map]
  rfl

theorem strtodDecimal_text (d : Decimal) (hd : d.WellFormed) (suf : List Nat)
    (hs : ∀ c ∈ suf.head?, isSpace c = true) :
    strtodDecimal (d.text ++ suf) = d.value := by
  have hb := decimalBody_text d hd suf hs
  obtain ⟨hw, hwd, _⟩ := hd
  obtain ⟨a, w, hwe⟩ := List.exists_cons_of_ne_nil hw
  have ha : a < 10 := hwd a (by rw [hwe]; simp)
  unfold Decimal.text Decimal.value strtodDecimal
  cases hn : d.negative
  · simp only [Bool.false_eq_true, if_false, List.nil_append, List.append_assoc]
    rw [← hb, hwe]
    have hsp : isSpace (a + 48) = false := by
      unfold isSpace
      simp
    simp only [List.map_cons, List.cons_append, List.dropWhile_cons, hsp, Bool.false_eq_true,
      if_false]
  · simp only [if_true, List.append_assoc, List.cons_append, List.nil_append]
    rw [← hb]
    have hsp : isSpace 45 = false := by decide
    simp only [List.dropWhile_cons, hsp, Bool.false_eq_true, if_false]

theorem textAfter_append (c : Nat) (p q : List Nat) (hp : c ∉ p) :
    textAfter c (p ++ c :: q) = q := by
  unfold textAfter
  induction p with
  | nil => simp [List.dropWhile_cons]
  | cons a t ih =>
    have ha : a ≠ c := fun e => hp (by simp [e])
    have ht : c ∉ t := fun e => hp (by simp [e])
    simp only [List.cons_append, List.dropWhile_cons]
    have hne : (a != c) = true := by simpa using ha
    rw [hne, if_pos rfl]
    exact ih ht

theorem decimal_text_chars (d : Decimal) (hd : d.WellFormed) :
    ∀ x ∈ d.text, isLetter x = false ∧ x ≠ 0 := by
  obtain ⟨_, hwd, hfd⟩ := hd
  intro x hx
  unfold Decimal.text at hx
  rcases List.mem_append.mp hx with h | h
  · rcases List.mem_append.mp h with h | h
    · by_cases hn : d.negative = true
      · rw [if_pos hn] at h
        simp at h
        subst h
        exact ⟨by decide, by decide⟩
      · rw [if_neg hn] at h
        simp at h
    · obtain ⟨y, hy, rfl⟩ := List.mem_map.mp h
      have := hwd y hy
      unfold isLetter
      refine ⟨?_, by omega⟩
      simp
      omega
  · by_cases hf : d.fraction = []
    · rw [if_pos hf] at h
      simp at h
    · rw [if_neg hf] at h
      rcases List.mem_cons.mp h with h | h
      · subst h
        exact ⟨by decide, by decide⟩
      · obtain ⟨y, hy, rfl⟩ := List.mem_map.mp h
        have := hfd y hy
        unfold isLetter
        refine ⟨?_, by omega⟩
        simp
        omega

theorem space_chars (c : Nat) (h : isSpace c = true) : isLetter c = false ∧ c ≠ 0 := by
  unfold isSpace at h
  unfold isLetter
  simp at h
  refine ⟨?_, by omega⟩
  simp
  omega

theorem letter_ne_zero (c : Nat) (h : isLetter c = true) : c ≠ 0 := by
  intro e
  rw [e] at h
  exact absurd h (by decide)

theorem lineText_chars (fs : List Field)
    (hwf : ∀ f ∈ fs, isLetter f.letter = true ∧ f.number.WellFormed ∧
      ∀ c ∈ f.gap, isSpace c = true) :
    ∀ x ∈ lineText fs, (x ∈ fs.map Field.letter ∨ isLetter x = false) ∧ x ≠ 0 := by
  induction fs with
  | nil => intro x hx; simp [lineText] at hx
  | cons f t ih =>
    intro x hx
    obtain ⟨hl, hd, hg⟩ := hwf f (by simp)
    have iht := ih (fun g hg2 => hwf g (by simp [hg2]))
    simp only [lineText, Field.text, List.mem_append, List.mem_cons] at hx
    rcases hx with (h | h | h) | h
    · exact ⟨Or.inr (space_chars x (hg x h)).1, (space_chars x (hg x h)).2⟩
    · subst h
      exact ⟨Or.inl (by simp), letter_ne_zero _ hl⟩
    · exact ⟨Or.inr (decimal_text_chars _ hd x h).1, (decimal_text_chars _ hd x h).2⟩
    · obtain ⟨h1, h2⟩ := iht x h
      refine ⟨?_, h2⟩
      rcases h1 with h1 | h1
      · exact Or.inl (by simp [h1])
      · exact Or.inr h1

theorem lineText_append (a b : List Field) : lineText (a ++ b) = lineText a ++ lineText b := by
  induction a with
  | nil => rfl
  | cons f t ih => simp [lineText, ih]

theorem lineText_head_space (b : List Field) (hgap : ∀ f ∈ b, f.gap ≠ [])
    (hsp : ∀ f ∈ b, ∀ c ∈ f.gap, isSpace c = true) :
    ∀ c ∈ (lineText b).head?, isSpace c = true := by
  cases b with
  | nil => intro c hc; simp [lineText] at hc
  | cons g t =>
    intro c hc
    obtain ⟨x, xs, hx⟩ := List.exists_cons_of_ne_nil (hgap g (by simp))
    simp only [lineText, Field.text, hx, List.cons_append, List.head?_cons,
      Option.mem_def, Option.some.injEq] at hc
    subst hc
    exact hsp g (by simp) x (by rw [hx]; simp)

theorem field_text_after (fields : List Field) (hwf : WellFormedLine fields) (f : Field)
    (hf : f ∈ fields) :
    f.letter ∈ lineText fields ∧ f.number.WellFormed ∧
    ∃ suf, textAfter f.letter (lineText fields) = f.number.text ++ suf ∧
      ∀ c ∈ suf.head?, isSpace c = true := by
  obtain ⟨hnd, hall, hgap⟩ := hwf
  obtain ⟨a, b, rfl⟩ := List.append_of_mem hf
  obtain ⟨hl, hd, hg⟩ := hall f hf
  have hsplit : lineText (a ++ f :: b)
      = (lineText a ++ f.gap) ++ f.letter :: (f.number.text ++ lineText b) := by
    rw [lineText_append]
    simp [lineText, Field.text]
  have hnotin : f.letter ∉ lineText a ++ f.gap := by
    intro hin
    rcases List.mem_append.mp hin with h | h
    · have ha := (lineText_chars a (fun g hg2 => hall g (by simp [hg2])) _ h).1
      rcases ha with ha | ha
      · rw [List.map_append, List.map_cons] at hnd
        have := (List.nodup_append.mp hnd).2.2
        exact this ha (by simp)
      · rw [hl] at ha
        exact absurd ha (by decide)
    · have := (space_chars _ (hg _ h)).1
      rw [hl] at this
      exact absurd this (by decide)
  have hb : ∀ g ∈ b, g ∈ (a ++ f :: b).tail := by
    intro g hg2
    cases a with
    | nil => simpa using hg2
    | cons x xs => simp [hg2]
  have hhead := lineText_head_space b (fun g hg2 => hgap g (hb g hg2))
    (fun g hg2 => (hall g (by simp [hg2])).2.2)
  refine ⟨by rw [hsplit]; simp, hd, lineText b, ?_, hhead⟩
  rw [hsplit, textAfter_append _ _ _ hnotin]

theorem strtodDecimal_literal (d : Decimal) (suf : List Nat) (hd : d.WellFormed)
    (hs : ∀ c ∈ suf.head?, isSpace c = true) :
    strtodDecimal (d.text ++ suf) = strtodDecimal d.text := by
  have h := strtodDecimal_text d hd [] (by simp)
  rw [List.append_nil] at h
  rw [strtodDecimal_text d hd suf hs, h]

theorem lookup_and_read {F : Type} (strtod : List Nat → F) (zero : F)
    (hstrtod : ∀ (d : Decimal) (suf : List Nat), d.WellFormed →
      (∀ c ∈ suf.head?, isSpace c = true) → strtod (d.text ++ suf) = strtod d.text)
    (gb : GCodeBuffer) (fields : List Field) (rest : List Nat)
    (hwf : WellFormedLine fields) (hbuf : gb.gcodeBuffer = lineText fields ++ 0 :: rest)
    (f : Field) (hf : f ∈ fields) :
    (gb.Seen f.letter).1 = true ∧
    (GCodeBuffer.GetFValue strtod zero (gb.Seen f.letter).2).1 = strtod f.number.text := by
  have hline : gb.line = lineText fields := by
    unfold GCodeBuffer.line
    rw [hbuf]
    exact cstr_append_nul _ _ (fun x hx => (lineText_chars fields hwf.2.1 x hx).2)
  obtain ⟨hin, hd, suf, htext, hsuf⟩ := field_text_after fields hwf f hf
  rw [← hline] at hin htext
  obtain ⟨hrp, hvt⟩ := Seen_valueText gb f.letter hin
  refine ⟨(Seen_iff_mem gb f.letter).mpr hin, ?_⟩
  unfold GCodeBuffer.GetFValue
  rw [if_neg (by omega), hvt, htext]
  exact hstrtod _ suf hd hsuf

/-- C20: a buffer holds a line of whitespace-separated fields, each a letter
followed by a decimal number, with distinct letters, and `strtod` converts a
decimal literal that is followed by white space or by the end of the text as it
converts the literal alone (C standard 7.22.1.3: the longest initial part of the
text that has the form of a number is converted). Then for every field, `Seen`
of its letter returns true and `GetFValue` after it yields the number written
after the letter: the value `strtod` gives the field's own literal, whatever
else is on the line. `Seen` of a byte that is not on the line returns false, and
after such a failed lookup the lookup and read of every field still yield the
field's number. -/
theorem C20_field_round_trip {F : Type} (strtod : List Nat → F) (zero : F)
    (hstrtod : ∀ (d : Decimal) (suf : List Nat), d.WellFormed →
      (∀ c ∈ suf.head?, isSpace c = true) → strtod (d.text ++ suf) = strtod d.text)
    (gb : GCodeBuffer) (fields : List Field) (rest : List Nat)
    (hwf : WellFormedLine fields) (hbuf : gb.gcodeBuffer = lineText fields ++ 0 :: rest) :
    (∀ f ∈ fields, (gb.Seen f.letter).1 = true ∧
        (GCodeBuffer.GetFValue strtod zero (gb.Seen f.letter).2).1 = strtod f.number.text) ∧
    (∀ c, c ∉ lineText fields → (gb.Seen c).1 = false ∧
        ∀ f ∈ fields, ((gb.Seen c).2.Seen f.letter).1 = true ∧
          (GCodeBuffer.GetFValue strtod zero ((gb.Seen c).2.Seen f.letter).2).1
            = strtod f.number.text) := by
  refine ⟨fun f hf => lookup_and_read strtod zero hstrtod gb fields rest hwf hbuf f hf, ?_⟩
  intro c hc
  have hline : gb.line = lineText fields := by
    unfold GCodeBuffer.line
    rw [hbuf]
    exact cstr_append_nul _ _ (fun x hx => (lineText_chars fields hwf.2.1 x hx).2)
  constructor
  · cases h : (gb.Seen c).1
    · rfl
    · exact absurd ((Seen_iff_mem gb c).mp h) (by rw [hline]; exact hc)
  · intro f hf
    exact lookup_and_read strtod zero hstrtod (gb.Seen c).2 fields rest hwf
      ((Seen_gcodeBuffer gb c).trans hbuf) f hf

/-- C20, witness: the line `G1 X12.5 F300`, the literals read as exact
rationals, a reading that converts a literal followed by white space as the
literal alone. The numbers of its fields are 1, 12.5 and 300, which a `float`
holds exactly, and `Y` is not on the line. -/
theorem C20_field_round_trip_witness :
    (∀ (d : Decimal) (suf : List Nat), d.WellFormed →
      (∀ c ∈ suf.head?, isSpace c = true) →
      strtodDecimal (d.text ++ suf) = strtodDecimal d.text) ∧
    WellFormedLine exampleLine ∧
    exampleBuffer.gcodeBuffer = lineText exampleLine ++ 0 :: List.replicate 86 0 ∧
    exampleLine.map (fun f => (f.letter, strtodDecimal f.number.text))
      = [(71, 1), (88, 25 / 2), (70, 300)] ∧
    89 ∉ lineText exampleLine ∧
    ((∀ f ∈ exampleLine, (exampleBuffer.Seen f.letter).1 = true ∧
        (GCodeBuffer.GetFValue strtodDecimal 0 (exampleBuffer.Seen f.letter).2).1
          = strtodDecimal f.number.text) ∧
      (∀ c, c ∉ lineText exampleLine → (exampleBuffer.Seen c).1 = false ∧
        ∀ f ∈ exampleLine, ((exampleBuffer.Seen c).2.Seen f.letter).1 = true ∧
          (GCodeBuffer.GetFValue strtodDecimal 0 ((exampleBuffer.Seen c).2.Seen f.letter).2).1
            = strtodDecimal f.number.text)) :=
  ⟨strtodDecimal_literal,
    by unfold WellFormedLine Decimal.WellFormed; decide, by decide!, by decide!, by decide!,
    C20_field_round_trip strtodDecimal 0 strtodDecimal_literal exampleBuffer exampleLine
      (List.replicate 86 0)
      (by unfold WellFormedLine Decimal.WellFormed; decide) (by decide!)⟩

/-! ## Value reads without a lookup -/

/-- C21: with the read cursor clear (`readPointer < 0`), `GetFValue` and
`GetLValue` emit their diagnostic, return zero and leave the buffer exactly as
it was, whatever `strtod` and `strtol` would read (no byte of the buffer is
parsed). With the cursor set, a value read leaves it clear
(`readPointer = -1`), changes nothing else and emits nothing. The cursor is
clear after `Init`, after a `Seen` that returns false and after a value read,
so a value read in each of these situations takes the diagnostic branch. -/
theorem C21_read_without_lookup {F : Type} (strtod : List Nat → F) (zero : F)
    (strtol : List Nat → Int) (gb : GCodeBuffer) :
    (gb.readPointer < 0 →
      gb.GetFValue strtod zero
        = (zero, gb, [Msg.str "GCodes: Attempt to read a GCode float before a search.\n"]) ∧
      gb.GetLValue strtol
        = (0, gb, [Msg.str "GCodes: Attempt to read a GCode int before a search.\n"])) ∧
    (0 ≤ gb.readPointer →
      (gb.GetFValue strtod zero).2 = ({ gb with readPointer := -1 }, []) ∧
      (gb.GetLValue strtol).2 = ({ gb with readPointer := -1 }, [])) ∧
    gb.Init.readPointer < 0 ∧
    (∀ c, (gb.Seen c).1 = false → (gb.Seen c).2.readPointer < 0) ∧
    (0 ≤ gb.readPointer →
      (gb.GetFValue strtod zero).2.1.readPointer < 0 ∧
      (gb.GetLValue strtol).2.1.readPointer < 0) := by
  have hneg : (-1 : Int) < 0 := by decide
  refine ⟨?_, ?_, hneg, ?_, ?_⟩
  · intro h
    unfold GCodeBuffer.GetFValue GCodeBuffer.GetLValue
    rw [if_pos h, if_pos h]
    exact ⟨rfl, rfl⟩
  · intro h
    have h2 : ¬ gb.readPointer < 0 := by omega
    unfold GCodeBuffer.GetFValue GCodeBuffer.GetLValue
    rw [if_neg h2, if_neg h2]
    exact ⟨rfl, rfl⟩
  · intro c hc
    unfold GCodeBuffer.Seen at hc ⊢
    split at hc
    · simp at hc
    · exact hneg
  · intro h
    have h2 : ¬ gb.readPointer < 0 := by omega
    unfold GCodeBuffer.GetFValue GCodeBuffer.GetLValue
    rw [if_neg h2, if_neg h2]
    exact ⟨hneg, hneg⟩

/-- C21, witness: the buffer holding `G1 X12.5 F300`: right after the line is
completed the cursor is clear; `Seen('X')` sets it, and `Seen('Y')` fails. -/
theorem C21_read_without_lookup_witness :
    (exampleBuffer.readPointer < 0 ∧
      exampleBuffer.GetFValue strtodDecimal 0
        = (0, exampleBuffer,
            [Msg.str "GCodes: Attempt to read a GCode float before a search.\n"])) ∧
    (0 ≤ (exampleBuffer.Seen 88).2.readPointer ∧
      ((exampleBuffer.Seen 88).2.GetLValue strtol).2
        = ({ (exampleBuffer.Seen 88).2 with readPointer := -1 }, [])) ∧
    ((exampleBuffer.Seen 89).1 = false ∧ (exampleBuffer.Seen 89).2.readPointer < 0) :=
  ⟨⟨by decide,
      ((C21_read_without_lookup strtodDecimal 0 strtol exampleBuffer).1 (by decide)).1⟩,
    ⟨by decide,
      ((C21_read_without_lookup strtodDecimal 0 strtol (exampleBuffer.Seen 88).2).2.1
        (by decide)).2⟩,
    ⟨by decide,
      (C21_read_without_lookup strtodDecimal 0 strtol exampleBuffer).2.2.2.1 89 (by decide)⟩⟩

/-! ## The write cursor -/

theorem put_pointer_lt (L : Nat) (hL : 0 < L) (debug : Bool) (gb : GCodeBuffer) (c : Nat) :
    (GCodeBuffer.Put L debug gb c).2.1.gcodePointer < L := by
  unfold GCodeBuffer.Put
  dsimp only
  split_ifs with h1 h2 <;> first
    | exact hL
    | (simp only [GCodeBuffer.Init] at h1 ⊢; omega)
    | omega

theorem put_length (L : Nat) (debug : Bool) (gb : GCodeBuffer) (c : Nat) :
    (GCodeBuffer.Put L debug gb c).2.1.gcodeBuffer.length = gb.gcodeBuffer.length := by
  unfold GCodeBuffer.Put
  dsimp only
  split_ifs <;> simp [GCodeBuffer.Init]

theorem putAll_in_bounds (L : Nat) (hL : 0 < L) (debug : Bool) :
    ∀ (bytes : List Nat) (gb : GCodeBuffer), gb.gcodePointer < L → gb.gcodeBuffer.length = L →
      (GCodeBuffer.putAll L debug gb bytes).2.gcodePointer < L ∧
      (GCodeBuffer.putAll L debug gb bytes).2.gcodeBuffer.length = L := by
  intro bytes
  induction bytes with
  | nil => intro gb h1 h2; exact ⟨h1, h2⟩
  | cons c cs ih =>
    intro gb _ h2
    simp only [GCodeBuffer.putAll]
    exact ih _ (put_pointer_lt L hL debug gb c) ((put_length L debug gb c).trans h2)

/-- C23: for a buffer of `GCODE_LENGTH > 0` bytes, after `Init` and after every
`Put` of a run of `Put` calls on any bytes, `gcodePointer < GCODE_LENGTH` and
the array still has `GCODE_LENGTH` bytes; so the index at which the next `Put`
stores (the byte, and the NUL of a terminator) is inside the array, as is
index 0 where the overflow branch stores. A single `Put` leaves
`gcodePointer < GCODE_LENGTH` whatever the buffer was. When a byte that is no
terminator and no `;`, outside a comment, would bring the cursor to
`GCODE_LENGTH`, `Put` returns false, emits the overflow diagnostic and leaves
the cursor at 0 with a NUL in the first byte. -/
theorem C23_write_cursor_in_bounds (L : Nat) (hL : 0 < L) (debug : Bool) (gb : GCodeBuffer)
    (hlen : gb.gcodeBuffer.length = L) :
    (gb.Init.gcodePointer < gb.Init.gcodeBuffer.length) ∧
    (∀ bytes : List Nat,
      (GCodeBuffer.putAll L debug gb.Init bytes).2.gcodePointer
        < (GCodeBuffer.putAll L debug gb.Init bytes).2.gcodeBuffer.length ∧
      (GCodeBuffer.putAll L debug gb.Init bytes).2.gcodeBuffer.length = L) ∧
    (∀ c, (GCodeBuffer.Put L debug gb c).2.1.gcodePointer < L) ∧
    (∀ c, c ≠ 10 → c ≠ 0 → c ≠ 59 → gb.inComment = false → L ≤ gb.gcodePointer + 1 →
      GCodeBuffer.Put L debug gb c
        = (false,
            { gb with
              gcodeBuffer := (gb.gcodeBuffer.set gb.gcodePointer c).set 0 0
              gcodePointer := 0 },
            [Msg.str "G Code buffer length overflow.\n"]) ∧
      (GCodeBuffer.Put L debug gb c).2.1.gcodeBuffer[0]? = some 0) := by
  have h0 : gb.Init.gcodePointer < L := hL
  have hl0 : gb.Init.gcodeBuffer.length = L := hlen
  refine ⟨by rw [hl0]; exact h0, ?_, fun c => put_pointer_lt L hL debug gb c, ?_⟩
  · intro bytes
    obtain ⟨a, b⟩ := putAll_in_bounds L hL debug bytes gb.Init h0 hl0
    exact ⟨by rw [b]; exact a, b⟩
  · intro c h10 hz h59 hcom hov
    have hput : GCodeBuffer.Put L debug gb c
        = (false,
            { gb with
              gcodeBuffer := (gb.gcodeBuffer.set gb.gcodePointer c).set 0 0
              gcodePointer := 0 },
            [Msg.str "G Code buffer length overflow.\n"]) := by
      unfold GCodeBuffer.Put
      simp [h10, hz, h59, hcom, hov]
    refine ⟨hput, ?_⟩
    rw [hput]
    simp [List.getElem?_set, hlen, hL]

/-- C23, witness: a buffer of four bytes holding `G1X` with the cursor at 3;
the byte `1` overflows it. -/
theorem C23_write_cursor_in_bounds_witness :
    (0 < 4 ∧
      (⟨"serial: ", [71, 49, 88, 0], 3, -1, false, true⟩ : GCodeBuffer).gcodeBuffer.length = 4) ∧
    (GCodeBuffer.putAll 4 false
        (GCodeBuffer.Init ⟨"serial: ", [71, 49, 88, 0], 3, -1, false, true⟩)
        [71, 49, 88, 49, 89, 50]).2.gcodePointer
      < (GCodeBuffer.putAll 4 false
          (GCodeBuffer.Init ⟨"serial: ", [71, 49, 88, 0], 3, -1, false, true⟩)
          [71, 49, 88, 49, 89, 50]).2.gcodeBuffer.length ∧
    GCodeBuffer.Put 4 false ⟨"serial: ", [71, 49, 88, 0], 3, -1, false, true⟩ 49
      = (false, ⟨"serial: ", [0, 49, 88, 49], 0, -1, false, true⟩,
          [Msg.str "G Code buffer length overflow.\n"]) :=
  ⟨⟨by decide, by decide⟩,
    ((C23_write_cursor_in_bounds 4 (by decide) false
      ⟨"serial: ", [71, 49, 88, 0], 3, -1, false, true⟩ (by decide)).2.1
      [71, 49, 88, 49, 89, 50]).1,
    ((C23_write_cursor_in_bounds 4 (by decide) false
      ⟨"serial: ", [71, 49, 88, 0], 3, -1, false, true⟩ (by decide)).2.2.2 49
      (by decide) (by decide) (by decide) (by decide) (by decide)).1⟩

/-! ## Integer fields -/

theorem digitsValue_run (base : Nat) (hs : List Nat) (suf : List Nat) (hd : DigitsOf base hs)
    (hsuf : EndsNumber base suf) :
    ∀ acc, digitsValue base (hs ++ suf) acc
      = (digitValues hs).foldl (fun a d => a * base + d) acc := by
  induction hs with
  | nil =>
    intro acc
    cases suf with
    | nil => rfl
    | cons c t =>
      simp only [List.nil_append, digitsValue, digitValues, List.filterMap_nil, List.foldl_nil]
      cases hdv : digitVal c with
      | none => rfl
      | some d =>
        have := hsuf c (by simp) d hdv
        simp only []
        rw [if_neg (by omega)]
  | cons c t ih =>
    intro acc
    obtain ⟨d, hdv, hlt⟩ := hd c (by simp)
    simp only [List.cons_append, digitsValue, hdv, digitValues, List.filterMap_cons,
      List.foldl_cons]
    rw [if_pos hlt]
    exact ih (fun x hx => hd x (by simp [hx])) _

theorem strtolNumber_digit_head (c : Nat) (r : List Nat) (h1 : 48 ≤ c) (h2 : c ≤ 57) :
    strtolNumber (c :: r) = (strtolDigits (c :: r) : Int) := by
  have hsp : isSpace c = false := by
    unfold isSpace
    simp
    omega
  unfold strtolNumber
  simp only [List.dropWhile_cons, hsp, Bool.false_eq_true, if_false]
  split
  · rename_i heq
    simp at heq
    omega
  · rename_i heq
    simp at heq
    omega
  · rfl

theorem strtolDigits_decimal (c : Nat) (r : List Nat) (h1 : 49 ≤ c) :
    strtolDigits (c :: r) = digitsValue 10 (c :: r) 0 := by
  unfold strtolDigits
  split
  · rename_i heq
    simp at heq
    omega
  · rename_i heq
    simp at heq
    omega
  · rfl

theorem strtolDigits_hex (x h : Nat) (rest : List Nat) (hx : x = 120 ∨ x = 88)
    (hh : (digitVal h).any (fun d => d < 16) = true) :
    strtolDigits (48 :: x :: h :: rest) = digitsValue 16 (h :: rest) 0 := by
  simp [strtolDigits, hx, hh]

theorem strtolDigits_octal (r : List Nat) (hr : ∀ c ∈ r.head?, c ≠ 120 ∧ c ≠ 88) :
    strtolDigits (48 :: r) = digitsValue 8 r 0 := by
  cases r with
  | nil => simp [strtolDigits]
  | cons x t =>
    have hx := hr x (by simp)
    cases t with
    | nil => simp [strtolDigits]
    | cons h rest => simp [strtolDigits, hx.1, hx.2]

theorem strtolLong_digit_head (longMax : Nat) (c : Nat) (r : List Nat) (h1 : 48 ≤ c)
    (h2 : c ≤ 57) :
    strtolLong longMax (c :: r) = ((min (strtolDigits (c :: r)) longMax : Nat) : Int) := by
  unfold strtolLong
  rw [strtolNumber_digit_head c r h1 h2]
  by_cases h : longMax < strtolDigits (c :: r)
  · rw [if_pos (by exact_mod_cast h), Nat.min_eq_right (le_of_lt h)]
  · rw [if_neg (by exact_mod_cast h), if_neg (by omega), Nat.min_eq_left (not_lt.mp h)]

theorem GetLValue_buffer_after_Seen (strtol : List Nat → Int) (gb : GCodeBuffer) (c : Nat)
    (hc : c ∈ gb.line) :
    ((gb.Seen c).2.GetLValue strtol).1 = strtol (textAfter c gb.line) := by
  obtain ⟨hrp, hvt⟩ := Seen_valueText gb c hc
  unfold GCodeBuffer.GetLValue
  rw [if_neg (by omega), hvt]

/-- C22 (amended): `GetLValue` after a successful `Seen(c)`, where the text after the
first `c` is a number followed by text that ends it, and `strtol` is the C
library's for a `long` whose largest value is `longMax`. A run of decimal digits
that does not start with `0` is read in base 10. A `0` followed by a run of
octal digits is read in base 8 (the run ends at the first byte that is no octal
digit, so `08` reads as 0). `0x` or `0X` followed by a run of hexadecimal digits
is read in base 16. In each case the result is the value read if it is at most
`longMax`, and `longMax` otherwise. -/
theorem C22_integer_parsing (longMax : Nat) (gb : GCodeBuffer) (c : Nat) (num suf : List Nat)
    (hc : c ∈ gb.line) (htext : textAfter c gb.line = num ++ suf) :
    (∀ b bs, num = b :: bs → 49 ≤ b → b ≤ 57 → DigitsOf 10 bs → EndsNumber 10 suf →
      ((gb.Seen c).2.GetLValue (strtolLong longMax)).1
        = ((min (baseValue 10 (digitValues num)) longMax : Nat) : Int)) ∧
    (∀ os, num = 48 :: os → DigitsOf 8 os → EndsNumber 8 suf →
      (os = [] → ∀ x ∈ suf.head?, x ≠ 120 ∧ x ≠ 88) →
      ((gb.Seen c).2.GetLValue (strtolLong longMax)).1
        = ((min (baseValue 8 (digitValues os)) longMax : Nat) : Int)) ∧
    (∀ x hs, num = 48 :: x :: hs → (x = 120 ∨ x = 88) → hs ≠ [] → DigitsOf 16 hs →
      EndsNumber 16 suf →
      ((gb.Seen c).2.GetLValue (strtolLong longMax)).1
        = ((min (baseValue 16 (digitValues hs)) longMax : Nat) : Int)) := by
  rw [GetLValue_buffer_after_Seen (strtolLong longMax) gb c hc, htext]
  refine ⟨?_, ?_, ?_⟩
  · intro b bs hnum h1 h2 hd hsuf
    subst hnum
    rw [List.cons_append, strtolLong_digit_head longMax b _ (by omega) h2,
      strtolDigits_decimal b _ h1, ← List.cons_append]
    have hdb : DigitsOf 10 (b :: bs) := by
      intro x hx
      rcases List.mem_cons.mp hx with rfl | hx
      · refine ⟨x - 48, ?_, by omega⟩
        unfold digitVal
        rw [if_pos ⟨by omega, h2⟩]
      · exact hd x hx
    rw [digitsValue_run 10 (b :: bs) suf hdb hsuf 0]
    rfl
  · intro os hnum hd hsuf hx
    subst hnum
    rw [List.cons_append, strtolLong_digit_head longMax 48 _ (by decide) (by decide)]
    have hhead : ∀ y ∈ (os ++ suf).head?, y ≠ 120 ∧ y ≠ 88 := by
      intro y hy
      cases os with
      | nil => exact hx rfl y (by simpa using hy)
      | cons o t =>
        simp only [List.cons_append, List.head?_cons, Option.mem_def, Option.some.injEq] at hy
        subst hy
        obtain ⟨d, hdv, hlt⟩ := hd o (by simp)
        constructor
        · intro e
          rw [e] at hdv
          have : d = 33 := by
            have h33 : digitVal 120 = some 33 := by decide
            rw [h33] at hdv
            exact (Option.some.inj hdv).symm
          omega
        · intro e
          rw [e] at hdv
          have : d = 33 := by
            have h33 : digitVal 88 = some 33 := by decide
            rw [h33] at hdv
            exact (Option.some.inj hdv).symm
          omega
    rw [strtolDigits_octal _ hhead, digitsValue_run 8 os suf hd hsuf 0]
    rfl
  · intro x hs hnum hx hne hd hsuf
    subst hnum
    obtain ⟨h, rest, rfl⟩ := List.exists_cons_of_ne_nil hne
    obtain ⟨d, hdv, hlt⟩ := hd h (by simp)
    rw [List.cons_append, List.cons_append, List.cons_append,
      strtolLong_digit_head longMax 48 _ (by decide) (by decide),
      strtolDigits_hex x h _ hx (by rw [hdv]; simpa using hlt), ← List.cons_append,
      digitsValue_run 16 (h :: rest) suf hd hsuf 0]
    rfl

theorem digitsOf_of_all (base : Nat) (bs : List Nat)
    (h : bs.all (fun c => (digitVal c).any (fun d => d < base)) = true) : DigitsOf base bs := by
  intro c hc
  have := List.all_eq_true.mp h c hc
  cases hd : digitVal c with
  | none => rw [hd] at this; simp at this
  | some d =>
    rw [hd] at this
    exact ⟨d, rfl, by simpa using this⟩

theorem endsNumber_of_head (base : Nat) (suf : List Nat)
    (h : suf.head?.all (fun c => (digitVal c).all (fun d => base ≤ d)) = true) :
    EndsNumber base suf := by
  intro c hc d hd
  rw [Option.mem_def] at hc
  rw [hc] at h
  simp only [Option.all_some, hd] at h
  simpa using h

/-- C22, witness: the line `G010 P0500 S0x1F T42` on the firmware's target:
`T` reads 42 (decimal), `P` reads 320 (octal 500), `S` reads 31 (hexadecimal
1F). The line `P99999999999999999999` reads as `LONG_MAX`. -/
theorem C22_integer_parsing_witness :
    ((84 ∈ bufferIntegers.line ∧ textAfter 84 bufferIntegers.line = [52, 50] ++ []) ∧
      ((bufferIntegers.Seen 84).2.GetLValue strtol).1
        = ((min (baseValue 10 (digitValues [52, 50])) LONG_MAX : Nat) : Int) ∧
      min (baseValue 10 (digitValues [52, 50])) LONG_MAX = 42) ∧
    ((80 ∈ bufferIntegers.line ∧
        textAfter 80 bufferIntegers.line
          = [48, 53, 48, 48] ++ [32, 83, 48, 120, 49, 70, 32, 84, 52, 50]) ∧
      ((bufferIntegers.Seen 80).2.GetLValue strtol).1
        = ((min (baseValue 8 (digitValues [53, 48, 48])) LONG_MAX : Nat) : Int) ∧
      min (baseValue 8 (digitValues [53, 48, 48])) LONG_MAX = 320) ∧
    ((83 ∈ bufferIntegers.line ∧
        textAfter 83 bufferIntegers.line = [48, 120, 49, 70] ++ [32, 84, 52, 50]) ∧
      ((bufferIntegers.Seen 83).2.GetLValue strtol).1
        = ((min (baseValue 16 (digitValues [49, 70])) LONG_MAX : Nat) : Int) ∧
      min (baseValue 16 (digitValues [49, 70])) LONG_MAX = 31) ∧
    ((80 ∈ bufferLongDigits.line ∧
        textAfter 80 bufferLongDigits.line = List.replicate 20 57 ++ []) ∧
      ((bufferLongDigits.Seen 80).2.GetLValue strtol).1
        = ((min (baseValue 10 (digitValues (List.replicate 20 57))) LONG_MAX : Nat) : Int) ∧
      baseValue 10 (digitValues (List.replicate 20 57)) = 99999999999999999999 ∧
      min (baseValue 10 (digitValues (List.replicate 20 57))) LONG_MAX = 2147483647) :=
  ⟨⟨⟨by decide, by decide⟩,
      (C22_integer_parsing LONG_MAX bufferIntegers 84 [52, 50] [] (by decide) (by decide)).1
        52 [50] rfl (by decide) (by decide) (digitsOf_of_all 10 [50] (by decide))
        (endsNumber_of_head 10 [] (by decide)),
      by decide⟩,
    ⟨⟨by decide, by decide⟩,
      (C22_integer_parsing LONG_MAX bufferIntegers 80 [48, 53, 48, 48]
        [32, 83, 48, 120, 49, 70, 32, 84, 52, 50] (by decide) (by decide)).2.1 [53, 48, 48] rfl
        (digitsOf_of_all 8 [53, 48, 48] (by decide)) (endsNumber_of_head 8 _ (by decide))
        (fun h => absurd h (by decide)),
      by decide⟩,
    ⟨⟨by decide, by decide⟩,
      (C22_integer_parsing LONG_MAX bufferIntegers 83 [48, 120, 49, 70] [32, 84, 52, 50]
        (by decide) (by decide)).2.2 120 [49, 70] rfl (Or.inl rfl) (by decide)
        (digitsOf_of_all 16 [49, 70] (by decide)) (endsNumber_of_head 16 _ (by decide)),
      by decide⟩,
    ⟨⟨by decide, by decide⟩,
      (C22_integer_parsing LONG_MAX bufferLongDigits 80 (List.replicate 20 57) []
        (by decide) (by decide)).1 57 (List.replicate 19 57) rfl (by decide) (by decide)
        (digitsOf_of_all 10 (List.replicate 19 57) (by decide))
        (endsNumber_of_head 10 [] (by decide)),
      by decide, by decide⟩⟩

/-- C22, counterexample: digit strings with a leading zero are not read in
base 10: on the line `M08` the value read after `M` is 0, not 8; on the line
`G010 P0500 S0x1F T42` the value read after `G` is 8, not 10, and the value
read after `P` is 320, not 500. A digit string whose value no `long` holds is
not read as its value: on the line `P99999999999999999999` the value read after
`P` is 2147483647 with a `long` of 32 bits and 9223372036854775807 with a
`long` of 64 bits. -/
theorem C22_integer_parsing_counterexample :
    (bufferM08.line = [77, 48, 56] ∧ (bufferM08.Seen 77).1 = true ∧
      ((bufferM08.Seen 77).2.GetLValue strtol).1 = 0) ∧
    ((bufferIntegers.Seen 71).1 = true ∧
      ((bufferIntegers.Seen 71).2.GetLValue strtol).1 = 8) ∧
    ((bufferIntegers.Seen 80).1 = true ∧
      ((bufferIntegers.Seen 80).2.GetLValue strtol).1 = 320) ∧
    (bufferLongDigits.line = 80 :: List.replicate 20 57 ∧
      (bufferLongDigits.Seen 80).1 = true ∧
      ((bufferLongDigits.Seen 80).2.GetLValue strtol).1 = 2147483647 ∧
      ((bufferLongDigits.Seen 80).2.GetLValue (strtolLong 9223372036854775807)).1
        = 9223372036854775807) := by
  decide

/-! ## The dispatch of a command, in closed form -/

theorem cleared_buf {F : Type} [FloatOps F] (src : Source) (s : GCodes F) :
    (cleared src s).buf src = { s.buf src with readPointer := -1 } :=
  buf_setBuf s src _

theorem cleared_line {F : Type} [FloatOps F] (src : Source) (s : GCodes F) :
    ((cleared src s).buf src).line = (s.buf src).line := by
  rw [cleared_buf]
  rfl

theorem cleared_cleared {F : Type} [FloatOps F] (src : Source) (s : GCodes F) :
    cleared src (cleared src s) = cleared src s := by
  unfold cleared
  cases src <;> rfl

theorem cleared_of_clear {F : Type} [FloatOps F] (src : Source) (s : GCodes F)
    (h : (s.buf src).readPointer = -1) : cleared src s = s :=
  setBuf_self src s h

theorem forget_cleared {F : Type} [FloatOps F] (src : Source) (s : GCodes F) :
    forget (cleared src s) = forget s :=
  forget_setBuf s src _ rfl

theorem Seen_absent {F : Type} [FloatOps F] (src : Source) (c : Nat) (s : GCodes F)
    (h : c ∉ (s.buf src).line) : GCodes.Seen src c s = (false, cleared src s) :=
  Seen_absent_state src c s h

theorem read_code {F : Type} [FloatOps F] (cfg : Config F) (src : Source) (c : Nat)
    (s : GCodes F) (h : c ∈ (s.buf src).line) :
    (GCodes.Seen src c s).1 = true ∧
    GCodes.GetIValue cfg src (GCodes.Seen src c s).2
      = (cfg.strtol (textAfter c (s.buf src).line), cleared src s) := by
  obtain ⟨h1, h2⟩ := Seen_valueText (s.buf src) c h
  refine ⟨(Seen_fst src c s).mpr h, ?_⟩
  have hg : ((s.buf src).Seen c).2 = { s.buf src with readPointer := ((s.buf src).Seen c).2.readPointer } := by
    unfold GCodeBuffer.Seen
    split <;> rfl
  unfold GCodes.GetIValue GCodes.GetLValue GCodes.Seen
  dsimp only
  rw [buf_setBuf]
  unfold GCodeBuffer.GetLValue
  rw [if_neg (by omega), h2]
  dsimp only
  rw [hg]
  unfold cleared GCodes.messages
  cases src <;> simp [GCodes.setBuf]

theorem ActOnGcode_gcode {F : Type} [FloatOps F] (cfg : Config F) (env : Env F) (src : Source)
    (s : GCodes F) (hG : 71 ∈ (s.buf src).line) :
    GCodes.ActOnGcode cfg env src s
      = GCodes.actOnG cfg env src (cfg.strtol (textAfter 71 (s.buf src).line))
          (cleared src s) := by
  obtain ⟨h1, h2⟩ := read_code cfg src 71 s hG
  unfold GCodes.ActOnGcode
  dsimp only
  rw [if_pos h1, h2]

theorem ActOnGcode_mcode {F : Type} [FloatOps F] (cfg : Config F) (env : Env F) (src : Source)
    (s : GCodes F) (hG : 71 ∉ (s.buf src).line) (hM : 77 ∈ (s.buf src).line) :
    GCodes.ActOnGcode cfg env src s
      = GCodes.actOnM cfg env src (cfg.strtol (textAfter 77 (s.buf src).line))
          (cleared src s) := by
  have hM2 : 77 ∈ ((cleared src s).buf src).line := by rw [cleared_line]; exact hM
  obtain ⟨h1, h2⟩ := read_code cfg src 77 (cleared src s) hM2
  unfold GCodes.ActOnGcode
  dsimp only
  rw [Seen_absent src 71 s hG]
  dsimp only
  rw [if_neg (by decide), if_pos h1, h2, cleared_line, cleared_cleared]

theorem ActOnGcode_tcode {F : Type} [FloatOps F] (cfg : Config F) (env : Env F) (src : Source)
    (s : GCodes F) (hG : 71 ∉ (s.buf src).line) (hM : 77 ∉ (s.buf src).line)
    (hT : 84 ∈ (s.buf src).line) :
    GCodes.ActOnGcode cfg env src s
      = GCodes.actOnT src (cfg.strtol (textAfter 84 (s.buf src).line)) (cleared src s) := by
  have hM2 : 77 ∉ ((cleared src s).buf src).line := by rw [cleared_line]; exact hM
  have hT2 : 84 ∈ ((cleared src s).buf src).line := by rw [cleared_line]; exact hT
  obtain ⟨h1, h2⟩ := read_code cfg src 84 (cleared src s) hT2
  unfold GCodes.ActOnGcode
  dsimp only
  rw [Seen_absent src 71 s hG]
  dsimp only
  rw [if_neg (by decide), Seen_absent src 77 _ hM2]
  dsimp only
  rw [if_neg (by decide), cleared_cleared, if_pos h1, h2, cleared_line, cleared_cleared]

theorem ActOnGcode_none {F : Type} [FloatOps F] (cfg : Config F) (env : Env F) (src : Source)
    (s : GCodes F) (hG : 71 ∉ (s.buf src).line) (hM : 77 ∉ (s.buf src).line)
    (hT : 84 ∉ (s.buf src).line) :
    GCodes.ActOnGcode cfg env src s = (true, cleared src s) := by
  have hM2 : 77 ∉ ((cleared src s).buf src).line := by rw [cleared_line]; exact hM
  have hT2 : 84 ∉ ((cleared src s).buf src).line := by rw [cleared_line]; exact hT
  unfold GCodes.ActOnGcode
  dsimp only
  rw [Seen_absent src 71 s hG]
  dsimp only
  rw [if_neg (by decide), Seen_absent src 77 _ hM2]
  dsimp only
  rw [if_neg (by decide), cleared_cleared, Seen_absent src 84 _ hT2]
  dsimp only
  rw [if_neg (by decide), cleared_cleared]

theorem invalidCode_eq {F : Type} [FloatOps F] (text : String) (src : Source) (s : GCodes F) :
    GCodes.invalidCode text src s
      = GCodes.messages [Msg.str text, Msg.buf (s.buf src).line, Msg.str "\n"] s := by
  unfold GCodes.invalidCode GCodes.message GCodes.emit GCodes.messages GCodeBuffer.line
  simp

theorem actOnG_unhandled {F : Type} [FloatOps F] (cfg : Config F) (env : Env F) (src : Source)
    (code : Int) (u : GCodes F) (h : code ∉ handledG) :
    GCodes.actOnG cfg env src code u
      = (true, GCodes.invalidCode "GCodes - invalid G Code: " src u) := by
  simp only [handledG, List.mem_cons, List.mem_singleton, List.not_mem_nil, or_false,
    not_or] at h
  obtain ⟨h0, h1, h4, h10, h20, h21, h28, h90, h91, h92⟩ := h
  unfold GCodes.actOnG
  rw [if_neg (by rintro (e | e) <;> contradiction), if_neg h4, if_neg h10, if_neg h20,
    if_neg h21, if_neg h28, if_neg h90, if_neg h91, if_neg h92]

theorem actOnM_unhandled {F : Type} [FloatOps F] (cfg : Config F) (env : Env F) (src : Source)
    (code : Int) (u : GCodes F) (h : code ∉ handledM) :
    GCodes.actOnM cfg env src code u
      = (true, GCodes.invalidCode "GCodes - invalid M Code: " src u) := by
  simp only [handledM, List.mem_cons, List.mem_singleton, List.not_mem_nil, or_false,
    not_or] at h
  obtain ⟨h0, h1, h18, h24, h25, h82, h83, h106, h107, h116, h111, h120, h121, h122, h126,
    h127, h140, h141⟩ := h
  unfold GCodes.actOnM
  rw [if_neg (by rintro (e | e) <;> contradiction), if_neg h18, if_neg h24, if_neg h25,
    if_neg h82, if_neg h83, if_neg h106, if_neg h107, if_neg h116, if_neg h111, if_neg h120,
    if_neg h121, if_neg h122, if_neg h126, if_neg h127, if_neg h140, if_neg h141]

/-- C25: `ActOnGcode` on a line with none of the letters `G`, `M`, `T` returns
true and leaves the state as it was but for the read cursor of the buffer,
which the failed lookups clear (the state is unchanged when the cursor was
already clear, as it is after a completed `Put`). On a line whose G code, or
(without a `G`) whose M code, is not one of the handled codes it returns true
and only appends three messages to the calls made: the text
`GCodes - invalid G Code: ` (or `M Code`), the line held in the buffer, and a
newline; but for the cleared read cursor nothing else changes. -/
theorem C25_discarded_and_unrecognized {F : Type} [FloatOps F] (cfg : Config F) (env : Env F)
    (src : Source) (s : GCodes F) :
    (71 ∉ (s.buf src).line → 77 ∉ (s.buf src).line → 84 ∉ (s.buf src).line →
      GCodes.ActOnGcode cfg env src s = (true, cleared src s) ∧
      forget (GCodes.ActOnGcode cfg env src s).2 = forget s ∧
      (GCodes.ActOnGcode cfg env src s).2.log = s.log ∧
      ((s.buf src).readPointer = -1 → GCodes.ActOnGcode cfg env src s = (true, s))) ∧
    (71 ∈ (s.buf src).line → cfg.strtol (textAfter 71 (s.buf src).line) ∉ handledG →
      GCodes.ActOnGcode cfg env src s
        = (true, GCodes.messages [Msg.str "GCodes - invalid G Code: ",
            Msg.buf (s.buf src).line, Msg.str "\n"] (cleared src s)) ∧
      forget (GCodes.ActOnGcode cfg env src s).2 = forget s) ∧
    (71 ∉ (s.buf src).line → 77 ∈ (s.buf src).line →
      cfg.strtol (textAfter 77 (s.buf src).line) ∉ handledM →
      GCodes.ActOnGcode cfg env src s
        = (true, GCodes.messages [Msg.str "GCodes - invalid M Code: ",
            Msg.buf (s.buf src).line, Msg.str "\n"] (cleared src s)) ∧
      forget (GCodes.ActOnGcode cfg env src s).2 = forget s) := by
  refine ⟨?_, ?_, ?_⟩
  · intro hG hM hT
    have e := ActOnGcode_none cfg env src s hG hM hT
    refine ⟨e, ?_, ?_, ?_⟩
    · rw [e]; exact forget_cleared src s
    · rw [e]; cases src <;> rfl
    · intro hr
      rw [e, cleared_of_clear src s hr]
  · intro hG hc
    have e : GCodes.ActOnGcode cfg env src s
        = (true, GCodes.messages [Msg.str "GCodes - invalid G Code: ",
            Msg.buf (s.buf src).line, Msg.str "\n"] (cleared src s)) := by
      rw [ActOnGcode_gcode cfg env src s hG, actOnG_unhandled cfg env src _ _ hc,
        invalidCode_eq, cleared_line]
    refine ⟨e, ?_⟩
    rw [e]
    exact (forget_messages _ _).trans (forget_cleared src s)
  · intro hG hM hc
    have e : GCodes.ActOnGcode cfg env src s
        = (true, GCodes.messages [Msg.str "GCodes - invalid M Code: ",
            Msg.buf (s.buf src).line, Msg.str "\n"] (cleared src s)) := by
      rw [ActOnGcode_mcode cfg env src s hG hM, actOnM_unhandled cfg env src _ _ hc,
        invalidCode_eq, cleared_line]
    refine ⟨e, ?_⟩
    rw [e]
    exact (forget_messages _ _).trans (forget_cleared src s)

/-- C25, witness: after `Init`, an empty line, the line `G5` and the line
`M999`. -/
theorem C25_discarded_and_unrecognized_witness :
    ((71 ∉ ((withLine [10]).buf Source.web).line ∧ 77 ∉ ((withLine [10]).buf Source.web).line ∧
        84 ∉ ((withLine [10]).buf Source.web).line ∧
        ((withLine [10]).buf Source.web).readPointer = -1) ∧
      GCodes.ActOnGcode exampleConfig idleEnv Source.web (withLine [10])
        = (true, withLine [10])) ∧
    ((71 ∈ ((withLine [71, 53, 10]).buf Source.web).line ∧
        exampleConfig.strtol (textAfter 71 ((withLine [71, 53, 10]).buf Source.web).line)
          ∉ handledG) ∧
      GCodes.ActOnGcode exampleConfig idleEnv Source.web (withLine [71, 53, 10])
        = (true, GCodes.messages [Msg.str "GCodes - invalid G Code: ",
            Msg.buf ((withLine [71, 53, 10]).buf Source.web).line, Msg.str "\n"]
            (cleared Source.web (withLine [71, 53, 10])))) ∧
    ((71 ∉ ((withLine [77, 57, 57, 57, 10]).buf Source.web).line ∧
        77 ∈ ((withLine [77, 57, 57, 57, 10]).buf Source.web).line ∧
        exampleConfig.strtol
          (textAfter 77 ((withLine [77, 57, 57, 57, 10]).buf Source.web).line) ∉ handledM) ∧
      forget (GCodes.ActOnGcode exampleConfig idleEnv Source.web
          (withLine [77, 57, 57, 57, 10])).2
        = forget (withLine [77, 57, 57, 57, 10])) :=
  ⟨⟨⟨by decide!, by decide!, by decide!, by decide!⟩,
      ((C25_discarded_and_unrecognized exampleConfig idleEnv Source.web (withLine [10])).1
        (by decide!) (by decide!) (by decide!)).2.2.2 (by decide!)⟩,
    ⟨⟨by decide!, by decide!⟩,
      ((C25_discarded_and_unrecognized exampleConfig idleEnv Source.web
        (withLine [71, 53, 10])).2.1 (by decide!) (by decide!)).1⟩,
    ⟨⟨by decide!, by decide!, by decide!⟩,
      ((C25_discarded_and_unrecognized exampleConfig idleEnv Source.web
        (withLine [77, 57, 57, 57, 10])).2.2 (by decide!) (by decide!) (by decide!)).2⟩⟩

/-! ## Tool selection -/

theorem actOnT_cases {F : Type} [FloatOps F] (src : Source) (k : Int) (u : GCodes F) :
    (k = u.selectedHead → GCodes.actOnT src k u = (true, u)) ∧
    (k ≠ u.selectedHead → 0 ≤ k → k < (DRIVES : Int) - (AXES : Int) →
      GCodes.actOnT src k u
        = (true, { u with
            selectedHead := k
            log := u.log ++ standbyCalls u ++ [Event.activate (k + 1)] })) ∧
    (k ≠ u.selectedHead → ¬ (0 ≤ k ∧ k < (DRIVES : Int) - (AXES : Int)) →
      GCodes.actOnT src k u
        = (true, GCodes.messages [Msg.str "GCodes - invalid T Code: ",
            Msg.buf (u.buf src).line, Msg.str "\n"]
            { u with log := u.log ++ standbyCalls u })) := by
  have hr : List.range' AXES (DRIVES - AXES) = [3] := by decide
  have hd : (DRIVES : Int) - (AXES : Int) = 1 := by decide
  have ha : ((3 : Nat) : Int) - (AXES : Int) = 0 := by decide
  refine ⟨?_, ?_, ?_⟩
  · intro h
    unfold GCodes.actOnT
    rw [if_pos h]
  · intro hne h0 h1
    have hk : k = 0 := by omega
    subst hk
    have hsel : ¬ u.selectedHead = 0 := fun e => hne e.symm
    have hst : standbyCalls u = [] := by
      unfold standbyCalls
      rw [if_neg (by omega)]
    unfold GCodes.actOnT
    rw [if_neg hne, hr, hst]
    simp only [List.foldl_cons, List.foldl_nil, GCodes.standbyStep, GCodes.activateStep, ha]
    rw [if_neg hsel]
    simp [GCodes.emit]
  · intro hne hk
    have hk0 : ¬ k = 0 := by omega
    unfold GCodes.actOnT
    rw [if_neg hne, hr]
    by_cases hsel : u.selectedHead = 0
    · have hst : standbyCalls u = [Event.standby (u.selectedHead + 1)] := by
        unfold standbyCalls
        rw [if_pos (by omega)]
      rw [hst]
      simp only [List.foldl_cons, List.foldl_nil, GCodes.standbyStep, GCodes.activateStep, ha]
      rw [if_pos hsel, if_neg hk0]
      simp only [Bool.not_false, if_true]
      have hb : (GCodes.emit (Event.standby (u.selectedHead + 1)) u).buf src = u.buf src := by
        cases src <;> rfl
      rw [invalidCode_eq, hb]
      rfl
    · have hst : standbyCalls u = [] := by
        unfold standbyCalls
        rw [if_neg (by omega)]
      rw [hst]
      simp only [List.foldl_cons, List.foldl_nil, GCodes.standbyStep, GCodes.activateStep, ha]
      rw [if_neg hsel, if_neg hk0]
      simp only [Bool.not_false, if_true, List.append_nil]
      rw [invalidCode_eq]

/-- C26: a `T` command (a line with a `T` and neither `G` nor `M`) whose number
reads as `k`. `ActOnGcode` returns true in every case. If `k` is
`selectedHead`, no call is made and nothing changes but the read cursor, which
is cleared. If `k` differs from `selectedHead` and is the index of an extruder
drive (`0 ≤ k < DRIVES - AXES`), the calls made are `Standby` for heater
`selectedHead + 1`, exactly when `selectedHead` is the index of an extruder
drive, then `Activate` for heater `k + 1`, and `selectedHead` becomes `k`. If
`k` differs from `selectedHead` and is no such index, the same `Standby` call
is followed by the three messages of an invalid T code, and `selectedHead`
stays as it was. -/
theorem C26_tool_selection {F : Type} [FloatOps F] (cfg : Config F) (env : Env F)
    (src : Source) (s : GCodes F) (hG : 71 ∉ (s.buf src).line) (hM : 77 ∉ (s.buf src).line)
    (hT : 84 ∈ (s.buf src).line) :
    (GCodes.ActOnGcode cfg env src s).1 = true ∧
    (cfg.strtol (textAfter 84 (s.buf src).line) = s.selectedHead →
      GCodes.ActOnGcode cfg env src s = (true, cleared src s)) ∧
    (cfg.strtol (textAfter 84 (s.buf src).line) ≠ s.selectedHead →
      0 ≤ cfg.strtol (textAfter 84 (s.buf src).line) →
      cfg.strtol (textAfter 84 (s.buf src).line) < (DRIVES : Int) - (AXES : Int) →
      GCodes.ActOnGcode cfg env src s
        = (true, { cleared src s with
            selectedHead := cfg.strtol (textAfter 84 (s.buf src).line)
            log := s.log ++ standbyCalls s
              ++ [Event.activate (cfg.strtol (textAfter 84 (s.buf src).line) + 1)] })) ∧
    (cfg.strtol (textAfter 84 (s.buf src).line) ≠ s.selectedHead →
      ¬ (0 ≤ cfg.strtol (textAfter 84 (s.buf src).line) ∧
        cfg.strtol (textAfter 84 (s.buf src).line) < (DRIVES : Int) - (AXES : Int)) →
      GCodes.ActOnGcode cfg env src s
        = (true, GCodes.messages [Msg.str "GCodes - invalid T Code: ",
            Msg.buf (s.buf src).line, Msg.str "\n"]
            { cleared src s with log := s.log ++ standbyCalls s })) := by
  have e := ActOnGcode_tcode cfg env src s hG hM hT
  obtain ⟨c1, c2, c3⟩ := actOnT_cases src (cfg.strtol (textAfter 84 (s.buf src).line))
    (cleared src s)
  have hsel : (cleared src s).selectedHead = s.selectedHead := by cases src <;> rfl
  have hlog : (cleared src s).log = s.log := by cases src <;> rfl
  have hst : standbyCalls (cleared src s) = standbyCalls s := by
    unfold standbyCalls
    rw [hsel]
  rw [e]
  refine ⟨?_, fun h => c1 (h.trans hsel.symm), fun h a b => ?_, fun h a => ?_⟩
  · by_cases h1 : cfg.strtol (textAfter 84 (s.buf src).line) = s.selectedHead
    · rw [c1 (h1.trans hsel.symm)]
    · by_cases h2 : 0 ≤ cfg.strtol (textAfter 84 (s.buf src).line) ∧
          cfg.strtol (textAfter 84 (s.buf src).line) < (DRIVES : Int) - (AXES : Int)
      · rw [c2 (by rw [hsel]; exact h1) h2.1 h2.2]
      · rw [c3 (by rw [hsel]; exact h1) h2]
  · have := c2 (by rw [hsel]; exact h) a b
    rw [hlog, hst] at this
    exact this
  · have := c3 (by rw [hsel]; exact h) a
    rw [hlog, hst, cleared_line] at this
    exact this

/-- C26, witness: `T0` after `Init` (no head selected) activates heater 1 and
selects head 0; `T0` again changes nothing; `T5` then puts heater 1 on standby
and reports an invalid T code. -/
theorem C26_tool_selection_witness :
    ((71 ∉ ((withLine [84, 48, 10]).buf Source.web).line ∧
        77 ∉ ((withLine [84, 48, 10]).buf Source.web).line ∧
        84 ∈ ((withLine [84, 48, 10]).buf Source.web).line) ∧
      (exampleConfig.strtol (textAfter 84 ((withLine [84, 48, 10]).buf Source.web).line) = 0 ∧
        (withLine [84, 48, 10]).selectedHead = -1 ∧
        standbyCalls (withLine [84, 48, 10]) = []) ∧
      GCodes.ActOnGcode exampleConfig idleEnv Source.web (withLine [84, 48, 10])
        = (true, { cleared Source.web (withLine [84, 48, 10]) with
            selectedHead := exampleConfig.strtol
              (textAfter 84 ((withLine [84, 48, 10]).buf Source.web).line)
            log := (withLine [84, 48, 10]).log ++ standbyCalls (withLine [84, 48, 10])
              ++ [Event.activate (exampleConfig.strtol
                (textAfter 84 ((withLine [84, 48, 10]).buf Source.web).line) + 1)] })) ∧
    ((lineOn (afterWeb [84, 48, 10]) [84, 48, 10]).selectedHead = 0 ∧
      GCodes.ActOnGcode exampleConfig idleEnv Source.web
          (lineOn (afterWeb [84, 48, 10]) [84, 48, 10])
        = (true, cleared Source.web (lineOn (afterWeb [84, 48, 10]) [84, 48, 10]))) ∧
    (standbyCalls (lineOn (afterWeb [84, 48, 10]) [84, 53, 10]) = [Event.standby 1] ∧
      GCodes.ActOnGcode exampleConfig idleEnv Source.web
          (lineOn (afterWeb [84, 48, 10]) [84, 53, 10])
        = (true, GCodes.messages [Msg.str "GCodes - invalid T Code: ",
            Msg.buf ((lineOn (afterWeb [84, 48, 10]) [84, 53, 10]).buf Source.web).line,
            Msg.str "\n"]
            { cleared Source.web (lineOn (afterWeb [84, 48, 10]) [84, 53, 10]) with
              log := (lineOn (afterWeb [84, 48, 10]) [84, 53, 10]).log
                ++ standbyCalls (lineOn (afterWeb [84, 48, 10]) [84, 53, 10]) })) :=
  ⟨⟨⟨by decide!, by decide!, by decide!⟩, ⟨by decide!, by decide!, by decide!⟩,
      (C26_tool_selection exampleConfig idleEnv Source.web (withLine [84, 48, 10])
        (by decide!) (by decide!) (by decide!)).2.2.1 (by decide!) (by decide!) (by decide!)⟩,
    ⟨by decide!,
      (C26_tool_selection exampleConfig idleEnv Source.web
        (lineOn (afterWeb [84, 48, 10]) [84, 48, 10])
        (by decide!) (by decide!) (by decide!)).2.1 (by decide!)⟩,
    ⟨by decide!,
      (C26_tool_selection exampleConfig idleEnv Source.web
        (lineOn (afterWeb [84, 48, 10]) [84, 53, 10])
        (by decide!) (by decide!) (by decide!)).2.2.2 (by decide!) (by decide!)⟩⟩

/-! ## The end of the job file -/

theorem put_newline (L : Nat) (debug : Bool) (gb : GCodeBuffer) :
    (GCodeBuffer.Put L debug gb 10).1 = true := by
  unfold GCodeBuffer.Put
  dsimp only
  split_ifs <;> first | rfl | simp_all

theorem Spin_end_of_file {F : Type} [FloatOps F] (cfg : Config F) (env : Env F) (s : GCodes F)
    (ha : s.active = true) (hw : s.webGCode.finished = true)
    (hs : s.serialGCode.finished = true) (hf : s.fileGCode.finished = true)
    (hweb : env.web = none) (hser : env.serial = none) (hfile : 0 ≤ s.fileBeingPrinted)
    (hread : env.fileRead = none) :
    GCodes.Spin cfg env s
      = { GCodes.emit (Event.fileClose
            (GCodes.putAndAct cfg env Source.file 10
              (GCodes.emit (Event.fileRead s.fileBeingPrinted none) s)).fileBeingPrinted)
            (GCodes.putAndAct cfg env Source.file 10
              (GCodes.emit (Event.fileRead s.fileBeingPrinted none) s)) with
          fileBeingPrinted := -1 } ∧
    GCodes.putAndAct cfg env Source.file 10
        (GCodes.emit (Event.fileRead s.fileBeingPrinted none) s)
      = GCodes.actAndStore cfg env Source.file
          (((GCodes.emit (Event.put Source.file 10)
              (GCodes.emit (Event.fileRead s.fileBeingPrinted none) s)).setBuf Source.file
            (s.fileGCode.Put cfg.GCODE_LENGTH env.debug 10).2.1).messages
            (s.fileGCode.Put cfg.GCODE_LENGTH env.debug 10).2.2) := by
  constructor
  · unfold GCodes.Spin
    rw [ha, hw, hs, hf, hweb, hser, hread]
    simp only [Bool.not_true, Bool.false_eq_true, if_false]
    rw [if_pos (by omega)]
  · unfold GCodes.putAndAct
    dsimp only
    have hb : (GCodes.emit (Event.fileRead s.fileBeingPrinted none) s).buf Source.file
        = s.fileGCode := rfl
    rw [hb, if_pos (put_newline _ _ _)]

/-- C24, the code at the failing input: the job file with handle 0 is being
printed, the file with handle 1 is queued, and the job file ends with the line
`M25` (or `M24`) without a final newline. On the tick that finds the end of the
file, `Spin` feeds the newline and dispatches the line once, then calls `Close`
with the handle that the dispatched command left in `fileBeingPrinted`: -1
after `M25`, 1 (the queued file) after `M24`. The file with handle 0, which
reached its end, is not closed; `fileBeingPrinted` ends as -1. With `G91` as
the last line the handle closed is 0. -/
theorem C24_end_of_file_closes_wrong_handle :
    ((atEndOfFile 0 1 [77, 50, 53]).fileBeingPrinted = 0 ∧
      newEvents (atEndOfFile 0 1 [77, 50, 53])
          (GCodes.Spin exampleConfig (fileEnv none) (atEndOfFile 0 1 [77, 50, 53]))
        = [Event.fileRead 0 none, Event.put Source.file 10, Event.actOn Source.file,
            Event.fileClose (-1)] ∧
      (GCodes.Spin exampleConfig (fileEnv none) (atEndOfFile 0 1 [77, 50, 53])).fileToPrint = 0 ∧
      (GCodes.Spin exampleConfig (fileEnv none)
        (atEndOfFile 0 1 [77, 50, 53])).fileBeingPrinted = -1) ∧
    ((atEndOfFile 0 1 [77, 50, 52]).fileBeingPrinted = 0 ∧
      newEvents (atEndOfFile 0 1 [77, 50, 52])
          (GCodes.Spin exampleConfig (fileEnv none) (atEndOfFile 0 1 [77, 50, 52]))
        = [Event.fileRead 0 none, Event.put Source.file 10, Event.actOn Source.file,
            Event.fileClose 1] ∧
      (GCodes.Spin exampleConfig (fileEnv none)
        (atEndOfFile 0 1 [77, 50, 52])).fileBeingPrinted = -1) ∧
    ((atEndOfFile 0 1 [71, 57, 49]).fileBeingPrinted = 0 ∧
      newEvents (atEndOfFile 0 1 [71, 57, 49])
          (GCodes.Spin exampleConfig (fileEnv none) (atEndOfFile 0 1 [71, 57, 49]))
        = [Event.fileRead 0 none, Event.put Source.file 10, Event.actOn Source.file,
            Event.fileClose 0]) := by
  decide!

/-! ## `Platform::Message` and the file slots -/

theorem firstFree_none (p : Platform) (h : ∀ i, i < MAX_FILES → p.inUse i = true) :
    p.firstFree = none := by
  unfold Platform.firstFree
  rw [List.find?_eq_none]
  intro i hi
  simp [h i (List.mem_range.mp hi)]

/-- With every file slot in use, `Message` of a type other than `FLASH_LED`
returns at no nesting depth: `OpenFile` reports the missing slot through
`Message`, which calls `OpenFile` again on the unchanged state. -/
theorem Message_slots_in_use (messageFile : List Nat) (p : Platform)
    (h : ∀ i, i < MAX_FILES → p.inUse i = true) :
    ∀ (fuel type : Nat) (m : List Nat), type ≠ FLASH_LED →
      Platform.Message messageFile fuel p type m = Outcome.tooDeep := by
  intro fuel
  induction fuel with
  | zero => intro type m _; rfl
  | succ n ih =>
    intro type m ht
    have hn := ih HOST_MESSAGE (text "Max open file count exceeded.\n") (by decide)
    simp only [Platform.Message, if_neg ht, Platform.messageBody, Platform.OpenFile,
      firstFree_none p h, hn, Outcome.andThen]

theorem firstFree_some (p : Platform) (h : ∃ i, i < MAX_FILES ∧ p.inUse i = false) :
    ∃ r, p.firstFree = some r ∧ r < MAX_FILES := by
  unfold Platform.firstFree
  cases hf : (List.range MAX_FILES).find? (fun i => !p.inUse i) with
  | none =>
    obtain ⟨i, hi, hu⟩ := h
    rw [List.find?_eq_none] at hf
    have := hf i (List.mem_range.mpr hi)
    simp [hu] at this
  | some r => exact ⟨r, rfl, List.mem_range.mp (List.mem_of_find?_eq_some hf)⟩

theorem WriteByte_open (message : Platform → List Nat → Outcome Platform) (p : Platform)
    (file : Int) (b : Nat) (hf : 0 ≤ file ∧ file < (MAX_FILES : Int))
    (hu : p.inUse file.toNat = true) :
    ∃ p', Platform.WriteByte message p file b = Outcome.returns p' ∧ p'.inUse = p.inUse := by
  unfold Platform.WriteByte Platform.inUseAt
  simp only [if_pos hf, Outcome.andThen, hu, Bool.not_true, Bool.false_eq_true, if_false]
  by_cases hq : (p.pending file.toNat ++ [b]).length ≥ FILE_BUF_LEN
  · rw [if_pos hq]; exact ⟨_, rfl, rfl⟩
  · rw [if_neg hq]; exact ⟨_, rfl, rfl⟩

theorem writeBytes_open (message : Platform → List Nat → Outcome Platform) (file : Int)
    (hf : 0 ≤ file ∧ file < (MAX_FILES : Int)) :
    ∀ (l : List Nat) (p : Platform), p.inUse file.toNat = true →
      ∃ p', l.foldl (fun r c => r.andThen fun q => Platform.WriteByte message q file c)
          (Outcome.returns p) = Outcome.returns p' ∧ p'.inUse = p.inUse := by
  intro l
  induction l with
  | nil => intro p _; exact ⟨p, rfl, rfl⟩
  | cons c l ih =>
    intro p hu
    obtain ⟨p1, h1, hu1⟩ := WriteByte_open message p file c hf hu
    obtain ⟨p2, h2, hu2⟩ := ih p1 (by rw [hu1]; exact hu)
    refine ⟨p2, ?_, by rw [hu2, hu1]⟩
    simp only [List.foldl_cons, Outcome.andThen, h1]
    exact h2

theorem OpenFile_free (message : Platform → List Nat → Outcome Platform) (p : Platform)
    (directory fileName : List Nat) (r : Nat) (hr : p.firstFree = some r) :
    ∃ q, Platform.OpenFile message p directory fileName true = Outcome.returns ((r : Int), q) ∧
      q.inUse r = true := by
  unfold Platform.OpenFile
  simp only [hr, Bool.not_true, Bool.and_false, Bool.false_eq_true, if_false, if_true]
  exact ⟨_, rfl, by simp⟩

theorem GoToEnd_open (message : Platform → List Nat → Outcome Platform) (p : Platform)
    (file : Int) (hf : 0 ≤ file ∧ file < (MAX_FILES : Int)) (hu : p.inUse file.toNat = true) :
    ∃ q, Platform.GoToEnd message p file = Outcome.returns q ∧ q.inUse = p.inUse := by
  unfold Platform.GoToEnd Platform.inUseAt
  simp only [if_pos hf, Outcome.andThen, hu, Bool.not_true, Bool.false_eq_true, if_false]
  exact ⟨_, rfl, rfl⟩

theorem WriteString_open (message : Platform → List Nat → Outcome Platform) (p : Platform)
    (file : Int) (b : List Nat) (hf : 0 ≤ file ∧ file < (MAX_FILES : Int))
    (hu : p.inUse file.toNat = true) :
    ∃ q, Platform.WriteString message p file b = Outcome.returns q ∧ q.inUse = p.inUse := by
  unfold Platform.WriteString Platform.inUseAt
  simp only [if_pos hf, Outcome.andThen, hu, Bool.not_true, Bool.false_eq_true, if_false]
  exact writeBytes_open message file hf (cstr b) p hu

theorem Close_in_bounds (p : Platform) (file : Int) (hf : 0 ≤ file ∧ file < (MAX_FILES : Int)) :
    ∃ q, Platform.Close p file = Outcome.returns q ∧ q.inUse file.toNat = false := by
  unfold Platform.Close
  rw [if_pos hf]
  exact ⟨_, rfl, by simp⟩

/-- With a file slot free, `Message` returns at every nesting depth above 0,
without a nested call of `Message`. -/
theorem Message_free_slot (messageFile : List Nat) (p : Platform)
    (h : ∃ i, i < MAX_FILES ∧ p.inUse i = false) (fuel type : Nat) (m : List Nat) :
    (Platform.Message messageFile (fuel + 1) p type m).isReturn = true := by
  by_cases ht : type = FLASH_LED
  · simp [Platform.Message, ht, Outcome.isReturn]
  · obtain ⟨r, hr, hlt⟩ := firstFree_some p h
    have hf : 0 ≤ (r : Int) ∧ (r : Int) < (MAX_FILES : Int) :=
      ⟨Int.ofNat_nonneg r, by exact_mod_cast hlt⟩
    obtain ⟨p1, h1, u1⟩ := OpenFile_free
      (fun q t => Platform.Message messageFile fuel q HOST_MESSAGE t) p p.webDir messageFile r hr
    obtain ⟨p2, h2, u2⟩ := GoToEnd_open
      (fun q t => Platform.Message messageFile fuel q HOST_MESSAGE t) p1 (r : Int) hf
      (by rw [Int.toNat_ofNat]; exact u1)
    obtain ⟨p3, h3, _⟩ := WriteString_open
      (fun q t => Platform.Message messageFile fuel q HOST_MESSAGE t) p2 (r : Int) m hf
      (by rw [u2, Int.toNat_ofNat]; exact u1)
    obtain ⟨p4, h4, _⟩ := Close_in_bounds
      { p3 with calls := p3.calls ++ [FileCall.lineWrite (cstr m)] } (r : Int) hf
    simp only [Platform.Message, if_neg ht, Platform.messageBody, h1, Outcome.andThen, h2, h3,
      h4, Outcome.isReturn]

theorem openFiles_seven (messageFile : List Nat) :
    ∃ q, openFiles messageFile freshPlatform sevenNames = Outcome.returns q ∧
      ∀ i, i < MAX_FILES → q.inUse i = true := by
  refine ⟨_, rfl, ?_⟩
  intro i hi
  have h7 : i < 7 := hi
  interval_cases i <;> rfl

/-- C27 (code defect): after seven files have been opened on a fresh platform
all `MAX_FILES` slots are in use, and from that state `Message(HOST_MESSAGE, m)`
returns at no nesting depth, for any message `m`: `OpenFile` finds no slot and
reports it through `Message`, which calls `OpenFile` again. -/
theorem C27_message_with_all_slots_in_use (messageFile : List Nat) :
    ∃ q, openFiles messageFile freshPlatform sevenNames = Outcome.returns q ∧
      (List.range MAX_FILES).all q.inUse = true ∧
      ∀ (fuel : Nat) (m : List Nat),
        Platform.Message messageFile fuel q HOST_MESSAGE m = Outcome.tooDeep ∧
        (Platform.Message messageFile fuel q HOST_MESSAGE m).isReturn = false := by
  obtain ⟨q, hq, hall⟩ := openFiles_seven messageFile
  refine ⟨q, hq, ?_, ?_⟩
  · rw [List.all_eq_true]
    intro i hi
    exact hall i (List.mem_range.mp hi)
  · intro fuel m
    have h := Message_slots_in_use messageFile q hall fuel HOST_MESSAGE m (by decide)
    rw [h]
    exact ⟨rfl, rfl⟩

/-! ## The pending request and homing on a full stack -/

/-- C28 (code defect): the state after five `M120` and `G1 X10 Y5` is reachable
and holds a pending request (X 10, Y 5, feed 3, no endstop check) on a full
stack. On the tick that completes the line `G28 X`, `Push` reports the
overflow and returns true, and `DoHome` writes the pending request: its X field
becomes -420, its feed field 50.000001 and `checkEndStops` true, while
`moveAvailable` stayed true; `ReadMove` then delivers this mixed request. -/
theorem C28_pending_request_overwritten_on_full_stack :
    Reachable exampleConfig pendingAtFullStack ∧
    (pendingAtFullStack.moveAvailable = true ∧
      pendingAtFullStack.stackPointer = 5 ∧
      pendingAtFullStack.checkEndStops = false ∧
      (List.range 5).map pendingAtFullStack.moveBuffer = [10, 5, 0, 0, 3] ∧
      (GCodes.Push exampleConfig (webEnv 10) pendingAtFullStack).1 = true ∧
      (GCodes.Spin exampleConfig (webEnv 10) pendingAtFullStack).moveAvailable = true ∧
      (GCodes.Spin exampleConfig (webEnv 10) pendingAtFullStack).checkEndStops = true ∧
      (List.range 5).map (GCodes.Spin exampleConfig (webEnv 10) pendingAtFullStack).moveBuffer
        = [-420, 5, 0, 0, (50000001 : Rat) / 1000000] ∧
      (GCodes.ReadMove (fun _ => 0) false
          (GCodes.Spin exampleConfig (webEnv 10) pendingAtFullStack)).2.2.1 = true ∧
      (List.range 5).map (GCodes.ReadMove (fun _ => 0) false
          (GCodes.Spin exampleConfig (webEnv 10) pendingAtFullStack)).2.1
        = [-420, 5, 0, 0, (50000001 : Rat) / 1000000]) :=
  ⟨reachable_afterWeb _, by decide!⟩

/-! ## The content of a homing move -/

theorem Push_with_room {F : Type} [FloatOps F] (cfg : Config F) (env : Env F) (s : GCodes F)
    (hsp : s.stackPointer < (cfg.STACK : Int)) (hp : (GCodes.Push cfg env s).1 = true) :
    s.moveAvailable = false ∧ env.allMovesAreFinished = true ∧
    (env.getCurrentState s.moveBuffer).1 = true ∧
    GCodes.Push cfg env s = (true,
      { s with
        log := s.log ++ [Event.resumeMoving]
        moveBuffer := (env.getCurrentState s.moveBuffer).2
        drivesRelativeStack := Function.update s.drivesRelativeStack s.stackPointer s.drivesRelative
        axesRelativeStack := Function.update s.axesRelativeStack s.stackPointer s.axesRelative
        feedrateStack := Function.update s.feedrateStack s.stackPointer s.gFeedRate
        stackPointer := s.stackPointer + 1 }) := by
  have hn : ¬ s.stackPointer ≥ (cfg.STACK : Int) := not_le.mpr hsp
  unfold GCodes.Push GCodes.AllMovesAreFinishedAndMoveBufferIsLoaded at hp ⊢
  rw [if_neg hn] at hp ⊢
  cases hm : s.moveAvailable
  · cases ha : env.allMovesAreFinished
    · simp [hm, ha] at hp
    · cases hg : (env.getCurrentState s.moveBuffer).1
      · simp [hm, ha, hg, GCodes.emit] at hp
      · simp [hm, ha, hg, GCodes.emit]
  · simp [hm] at hp

theorem firstRequested_cases {F : Type} (s : GCodes F) (a : Nat)
    (ha : firstRequested s = some a) :
    (a = X_AXIS ∧ s.homeX = true) ∨
    (a = Y_AXIS ∧ s.homeX = false ∧ s.homeY = true) ∨
    (a = Z_AXIS ∧ s.homeX = false ∧ s.homeY = false ∧ s.homeZ = true) := by
  unfold firstRequested at ha
  cases hx : s.homeX
  · cases hy : s.homeY
    · cases hz : s.homeZ
      · simp [hx, hy, hz] at ha
      · simp [hx, hy, hz] at ha
        exact Or.inr (Or.inr ⟨ha.symm, rfl, rfl, rfl⟩)
    · simp [hx, hy] at ha
      exact Or.inr (Or.inl ⟨ha.symm, rfl, rfl⟩)
  · simp [hx] at ha
    exact Or.inl ⟨ha.symm, rfl⟩

/-- The content of a homing move with room on the stack: when `DoHome` finds
the first requested axis `a` (in the order X, Y, Z) not yet Queued, the
operation stack has room and `Push` returns true, `DoHome` returns false and leaves a request posted (`moveAvailable` and
`checkEndStops` set) whose field for `a` is -2 times the configured length of
`a`, whose other axis and drive fields are the positions `Move` reported on this
tick, and whose feed field is the homing feed rate of `a` times 0.016666667; the
axis is marked Queued, and `gFeedRate`, `drivesRelative` and `axesRelative` are
unchanged. -/
theorem homing_move_content_with_room {F : Type} [FloatOps F] (cfg : Config F) (env : Env F)
    (s : GCodes F) (a : Nat)
    (ha : firstRequested s = some a) (hq : queuedAt s a = false)
    (hsp : s.stackPointer < (cfg.STACK : Int))
    (hp : (GCodes.Push cfg env s).1 = true) :
    (GCodes.DoHome cfg env s).1 = false ∧
    (GCodes.DoHome cfg env s).2.moveBuffer a = -2.0 * cfg.AxisLength a ∧
    (∀ i, i ≠ a → i ≠ DRIVES →
      (GCodes.DoHome cfg env s).2.moveBuffer i = (env.getCurrentState s.moveBuffer).2 i) ∧
    (GCodes.DoHome cfg env s).2.moveBuffer DRIVES = cfg.HomeFeedRate a * 0.016666667 ∧
    (GCodes.DoHome cfg env s).2.checkEndStops = true ∧
    (GCodes.DoHome cfg env s).2.moveAvailable = true ∧
    queuedAt (GCodes.DoHome cfg env s).2 a = true ∧
    (GCodes.DoHome cfg env s).2.gFeedRate = s.gFeedRate ∧
    (GCodes.DoHome cfg env s).2.drivesRelative = s.drivesRelative ∧
    (GCodes.DoHome cfg env s).2.axesRelative = s.axesRelative := by
  obtain ⟨_, _, _, hpush⟩ := Push_with_room cfg env s hsp hp
  rcases firstRequested_cases s a ha with ⟨rfl, hx⟩ | ⟨rfl, hx, hy⟩ | ⟨rfl, hx, hy, hz⟩
  · have hq1 : s.homeXQueued = false := by simpa [queuedAt] using hq
    simp only [GCodes.DoHome, hx, if_true, GCodes.doHomeAxis, hq1, Bool.false_eq_true, if_false,
      hpush, Bool.not_true]
    refine ⟨trivial, ?_, ?_, ?_, trivial, trivial, ?_, trivial, trivial, trivial⟩
    · simp [X_AXIS, DRIVES]
    · intro i h1 h2
      simp [Function.update_noteq h1, Function.update_noteq h2]
    · simp
    · simp [queuedAt]
  · have hq1 : s.homeYQueued = false := by simpa [queuedAt, X_AXIS, Y_AXIS] using hq
    simp only [GCodes.DoHome, hx, hy, if_true, GCodes.doHomeAxis, hq1, Bool.false_eq_true,
      if_false, hpush, Bool.not_true]
    refine ⟨trivial, ?_, ?_, ?_, trivial, trivial, ?_, trivial, trivial, trivial⟩
    · simp [Y_AXIS, DRIVES]
    · intro i h1 h2
      simp [Function.update_noteq h1, Function.update_noteq h2]
    · simp
    · simp [queuedAt, X_AXIS, Y_AXIS]
  · have hq1 : s.homeZQueued = false := by simpa [queuedAt, X_AXIS, Y_AXIS, Z_AXIS] using hq
    simp only [GCodes.DoHome, hx, hy, hz, if_true, GCodes.doHomeAxis, hq1, Bool.false_eq_true,
      if_false, hpush, Bool.not_true]
    refine ⟨trivial, ?_, ?_, ?_, trivial, trivial, ?_, trivial, trivial, trivial⟩
    · simp [Z_AXIS, DRIVES]
    · intro i h1 h2
      simp [Function.update_noteq h1, Function.update_noteq h2]
    · simp
    · simp [queuedAt, X_AXIS, Y_AXIS, Z_AXIS]

/-- The content of a homing move with room on the stack, on `G28 Y` after the
move of `G1 X10 Y5` has been taken, with `Move` reporting every position as
zero: the request posted has the fields 0, -400, 0, 0 and the feed 50.000001,
not the X field 10 of the move taken. -/
theorem homing_move_content_with_room_example :
    firstRequested homeYRequest = some 1 ∧ queuedAt homeYRequest 1 = false ∧
    homeYRequest.stackPointer = 0 ∧
    (List.range 5).map homeYRequest.moveBuffer = [10, 5, 0, 0, 3] ∧
    (GCodes.Push exampleConfig idleEnv homeYRequest).1 = true ∧
    (List.range 5).map (GCodes.DoHome exampleConfig idleEnv homeYRequest).2.moveBuffer
      = [0, -400, 0, 0, (50000001 : Rat) / 1000000] ∧
    ((GCodes.DoHome exampleConfig idleEnv homeYRequest).1 = false ∧
    (GCodes.DoHome exampleConfig idleEnv homeYRequest).2.moveBuffer 1
      = -2.0 * exampleConfig.AxisLength 1 ∧
    (∀ i, i ≠ 1 → i ≠ DRIVES →
      (GCodes.DoHome exampleConfig idleEnv homeYRequest).2.moveBuffer i
        = (idleEnv.getCurrentState homeYRequest.moveBuffer).2 i) ∧
    (GCodes.DoHome exampleConfig idleEnv homeYRequest).2.moveBuffer DRIVES
      = exampleConfig.HomeFeedRate 1 * 0.016666667 ∧
    (GCodes.DoHome exampleConfig idleEnv homeYRequest).2.checkEndStops = true ∧
    (GCodes.DoHome exampleConfig idleEnv homeYRequest).2.moveAvailable = true ∧
    queuedAt (GCodes.DoHome exampleConfig idleEnv homeYRequest).2 1 = true ∧
    (GCodes.DoHome exampleConfig idleEnv homeYRequest).2.gFeedRate = homeYRequest.gFeedRate ∧
    (GCodes.DoHome exampleConfig idleEnv homeYRequest).2.drivesRelative
      = homeYRequest.drivesRelative ∧
    (GCodes.DoHome exampleConfig idleEnv homeYRequest).2.axesRelative
      = homeYRequest.axesRelative) :=
  ⟨by decide!, by decide!, by decide!, by decide!, by decide!, by decide!,
    homing_move_content_with_room exampleConfig idleEnv homeYRequest 1 (by decide!) (by decide!)
      (by decide!) (by decide!)⟩

/-- C30 (code defect): `G28 X` on a full stack, with the move of `G1 X10 Y5`
still pending and `Move` reporting every position as zero. X is the first
requested axis and is not Queued, `Push` returns true (it reports the overflow
and does not load `moveBuffer`), and `DoHome` returns false with a request
posted whose Y field is 5, the Y field of the pending move, where `Move`
reports the position 0. The same through `Spin`, from a reachable state: after
the tick that completes the line the request posted has the Y field 5. -/
theorem C30_homing_move_on_full_stack_keeps_old_fields :
    Reachable exampleConfig pendingAtFullStack ∧
    (GCodes.Spin exampleConfig (webEnv 10) pendingAtFullStack).moveAvailable = true ∧
    (GCodes.Spin exampleConfig (webEnv 10) pendingAtFullStack).homeXQueued = true ∧
    (GCodes.Spin exampleConfig (webEnv 10) pendingAtFullStack).moveBuffer 1 = 5 ∧
    ((webEnv 10).getCurrentState pendingAtFullStack.moveBuffer).2 1 = 0 ∧
    firstRequested homeXRequestAtFullStack = some 0 ∧
    queuedAt homeXRequestAtFullStack 0 = false ∧
    homeXRequestAtFullStack.stackPointer = 5 ∧
    (GCodes.Push exampleConfig idleEnv homeXRequestAtFullStack).1 = true ∧
    (GCodes.DoHome exampleConfig idleEnv homeXRequestAtFullStack).1 = false ∧
    (GCodes.DoHome exampleConfig idleEnv homeXRequestAtFullStack).2.moveAvailable = true ∧
    (GCodes.DoHome exampleConfig idleEnv homeXRequestAtFullStack).2.moveBuffer 1 = 5 ∧
    (idleEnv.getCurrentState homeXRequestAtFullStack.moveBuffer).2 1 = 0 ∧
    ¬ (∀ i, i ≠ 0 → i ≠ DRIVES →
      (GCodes.DoHome exampleConfig idleEnv homeXRequestAtFullStack).2.moveBuffer i
        = (idleEnv.getCurrentState homeXRequestAtFullStack.moveBuffer).2 i) := by
  refine ⟨reachable_afterWeb _, by decide!, by decide!, by decide!, by decide!,
    by decide!, by decide!, by decide!, by decide!, by decide!, by decide!, by decide!,
    by decide!, ?_⟩
  intro h
  have h1 := h 1 (by decide) (by decide)
  revert h1
  decide!

/-! ## The homing flags under the handlers -/

theorem SameHome.htrans {F : Type} {s t u : GCodes F} (h1 : SameHome s t) (h2 : SameHome t u) :
    SameHome s u := h2.trans h1

theorem homingInv_of_same {F : Type} {s t : GCodes F} (h : SameHome s t) (hs : HomingInv s) :
    HomingInv t := by
  unfold HomingInv at hs ⊢
  rw [h]
  exact hs

theorem home_emit {F : Type} [FloatOps F] (e : Event F) (s : GCodes F) :
    SameHome s (GCodes.emit e s) := rfl

theorem home_update {F : Type} (s t : GCodes F) (h : homeFlags t = homeFlags s) :
    SameHome s t := h

theorem home_setBuf {F : Type} [FloatOps F] (src : Source) (gb : GCodeBuffer) (s : GCodes F) :
    SameHome s (s.setBuf src gb) := by
  cases src <;> rfl

theorem home_Seen {F : Type} [FloatOps F] (src : Source) (c : Nat) (s : GCodes F) :
    SameHome s (GCodes.Seen src c s).2 :=
  home_setBuf src _ s

theorem home_GetFValue {F : Type} [FloatOps F] (cfg : Config F) (src : Source) (s : GCodes F) :
    SameHome s (GCodes.GetFValue cfg src s).2 :=
  home_setBuf src ((s.buf src).GetFValue cfg.strtod 0.0).2.1 s

theorem home_GetLValue {F : Type} [FloatOps F] (cfg : Config F) (src : Source) (s : GCodes F) :
    SameHome s (GCodes.GetLValue cfg src s).2 :=
  home_setBuf src ((s.buf src).GetLValue cfg.strtol).2.1 s

theorem home_GetIValue {F : Type} [FloatOps F] (cfg : Config F) (src : Source) (s : GCodes F) :
    SameHome s (GCodes.GetIValue cfg src s).2 :=
  home_GetLValue cfg src s

theorem home_setUpMoveDrive {F : Type} [FloatOps F] (cfg : Config F) (src : Source)
    (s : GCodes F) (i : Nat) : SameHome s (GCodes.setUpMoveDrive cfg src s i) := by
  have hS := home_Seen src (s.gCodeLetters i) s
  have hG := home_GetFValue cfg src (GCodes.Seen src (s.gCodeLetters i) s).2
  dsimp only [GCodes.setUpMoveDrive]
  split_ifs <;> first
    | exact hS
    | exact hS.htrans hG

theorem home_setUpMoveLoop {F : Type} [FloatOps F] (cfg : Config F) (src : Source)
    (l : List Nat) (s : GCodes F) : SameHome s (l.foldl (GCodes.setUpMoveDrive cfg src) s) := by
  induction l generalizing s with
  | nil => rfl
  | cons i t ih => exact (home_setUpMoveDrive cfg src s i).htrans (ih _)

theorem home_setUpMoveFeedrate {F : Type} [FloatOps F] (cfg : Config F) (src : Source)
    (s : GCodes F) : SameHome s (GCodes.setUpMoveFeedrate cfg src s) := by
  have hS := home_Seen src (s.gCodeLetters DRIVES) s
  have hG := home_GetFValue cfg src (GCodes.Seen src (s.gCodeLetters DRIVES) s).2
  dsimp only [GCodes.setUpMoveFeedrate]
  split_ifs <;> first
    | exact hS
    | exact hS.htrans hG

theorem home_rememberLastPos {F : Type} [FloatOps F] (s : GCodes F) :
    SameHome s (GCodes.rememberLastPos s) := by
  unfold GCodes.rememberLastPos
  generalize List.range' AXES (DRIVES - AXES) = l
  induction l generalizing s with
  | nil => rfl
  | cons i t ih =>
    have h1 : SameHome s
        { s with lastPos := Function.update s.lastPos (i - AXES) (s.moveBuffer i) } := rfl
    exact h1.htrans (ih _)

theorem home_SetUpMove {F : Type} [FloatOps F] (cfg : Config F) (env : Env F) (src : Source)
    (s : GCodes F) : SameHome s (GCodes.SetUpMove cfg env src s).2 := by
  dsimp only [GCodes.SetUpMove]
  split_ifs
  · rfl
  · rfl
  · have h1 : SameHome s { s with moveBuffer := (env.getCurrentState s.moveBuffer).2 } := rfl
    have h2 := (home_setUpMoveLoop cfg src (List.range DRIVES)
      { s with moveBuffer := (env.getCurrentState s.moveBuffer).2 }).htrans
        (home_setUpMoveFeedrate cfg src _)
    exact h1.htrans (h2.htrans (SameHome.htrans (home_rememberLastPos _) rfl))

theorem home_DoDwell {F : Type} [FloatOps F] (cfg : Config F) (env : Env F) (src : Source)
    (s : GCodes F) : SameHome s (GCodes.DoDwell cfg env src s).2 := by
  have hS := home_Seen src 80 s
  have hG := home_GetLValue cfg src (GCodes.Seen src 80 s).2
  dsimp only [GCodes.DoDwell]
  split_ifs <;> first
    | exact hS
    | exact hS.htrans hG

theorem home_setTemperature {F : Type} [FloatOps F] (cfg : Config F) (src : Source)
    (c : Nat) (ev : F → Event F) (s : GCodes F) :
    SameHome s (if (GCodes.Seen src c s).1 = true then
        GCodes.emit (ev (GCodes.GetFValue cfg src (GCodes.Seen src c s).2).1)
          (GCodes.GetFValue cfg src (GCodes.Seen src c s).2).2
      else (GCodes.Seen src c s).2) := by
  split_ifs
  · exact (home_Seen src c s).htrans (home_GetFValue cfg src _)
  · exact home_Seen src c s

theorem home_SetOffsets {F : Type} [FloatOps F] (cfg : Config F) (src : Source)
    (s : GCodes F) : SameHome s (GCodes.SetOffsets cfg src s).2 := by
  have hS := home_Seen src 80 s
  dsimp only [GCodes.SetOffsets]
  by_cases hP : (GCodes.Seen src 80 s).1 = true
  · rw [if_pos hP]
    have hI := home_GetIValue cfg src (GCodes.Seen src 80 s).2
    refine hS.htrans (hI.htrans ?_)
    exact (home_setTemperature cfg src 82 (Event.setStandbyTemperature _) _).htrans
      (home_setTemperature cfg src 83 (Event.setActiveTemperature _) _)
  · rw [if_neg hP]
    exact hS

theorem home_standbyLoop {F : Type} [FloatOps F] (l : List Nat) (s : GCodes F) :
    SameHome s (l.foldl GCodes.standbyStep s) := by
  induction l generalizing s with
  | nil => rfl
  | cons i t ih =>
    refine SameHome.htrans ?_ (ih _)
    dsimp only [GCodes.standbyStep]
    split_ifs <;> rfl

theorem home_activateLoop {F : Type} [FloatOps F] (code : Int) (l : List Nat)
    (a : Bool × GCodes F) : SameHome a.2 (l.foldl (GCodes.activateStep code) a).2 := by
  induction l generalizing a with
  | nil => rfl
  | cons i t ih =>
    refine SameHome.htrans ?_ (ih _)
    dsimp only [GCodes.activateStep]
    split_ifs <;> rfl

theorem home_invalidCode {F : Type} [FloatOps F] (text : String) (src : Source) (s : GCodes F) :
    SameHome s (GCodes.invalidCode text src s) := rfl

theorem home_actOnT {F : Type} [FloatOps F] (src : Source) (code : Int) (s : GCodes F) :
    SameHome s (GCodes.actOnT src code s).2 := by
  have h1 := home_standbyLoop (List.range' AXES (DRIVES - AXES)) s
  have h2 := home_activateLoop code (List.range' AXES (DRIVES - AXES))
    (false, (List.range' AXES (DRIVES - AXES)).foldl GCodes.standbyStep s)
  dsimp only [GCodes.actOnT]
  split_ifs
  · rfl
  · exact h1.htrans (h2.htrans (home_invalidCode _ src _))
  · exact h1.htrans h2

theorem home_Push {F : Type} [FloatOps F] (cfg : Config F) (env : Env F) (s : GCodes F) :
    SameHome s (GCodes.Push cfg env s).2 := (push_outcome cfg env s).1

theorem home_Pop {F : Type} [FloatOps F] (env : Env F) (s : GCodes F) :
    SameHome s (GCodes.Pop env s).2 := (pop_outcome env s).1

theorem homingInv_homeRequest {F : Type} [FloatOps F] (src : Source) (s : GCodes F)
    (h : HomingInv s) : HomingInv (GCodes.homeRequest src s) := by
  cases hn : GCodes.NoHome s
  · rw [homeRequest_busy src s hn]
    exact h
  · have hv := homeRequest_idle src s hn
    have hq : (homeFlags (GCodes.homeRequest src s)).2 = (homeFlags s).2 := by
      have h1 := congrArg (fun t => (homeFlags t).2) hv
      exact h1
    unfold HomingInv at h ⊢
    unfold GCodes.NoHome at hn
    revert h hq
    generalize homeFlags (GCodes.homeRequest src s) = f
    unfold homeFlags
    revert hn
    cases s.homeX <;> cases s.homeY <;> cases s.homeZ <;> cases s.homeXQueued <;>
      cases s.homeYQueued <;> cases s.homeZQueued <;> intro hn h hq <;>
      first
        | exact absurd hn (by decide)
        | exact absurd h (by decide)
        | (obtain ⟨⟨x, y, z⟩, q⟩ := f
           simp only at hq
           subst hq
           cases x <;> cases y <;> cases z <;> rfl)

theorem homingInv_DoHome {F : Type} [FloatOps F] (cfg : Config F) (env : Env F) (s : GCodes F)
    (h : HomingInv s) : HomingInv (GCodes.DoHome cfg env s).2 := by
  unfold HomingInv at h ⊢
  rcases DoHome_view cfg env s with
    ⟨_, hf, _⟩ | ⟨hx, hxq, _, hf, _⟩ | ⟨hx, hxq, _, hf, _⟩ | ⟨hx, hy, hyq, _, hf, _⟩ |
    ⟨hx, hy, hyq, _, hf, _⟩ | ⟨hx, hy, hz, hzq, _, hf, _⟩ | ⟨hx, hy, hz, hzq, _, hf, _⟩ |
    ⟨_, _, _, _, hf, _⟩
  · rw [hf]; exact h
  · rw [hf]
    unfold homeFlags at h
    rw [hx, hxq] at h
    revert h
    cases s.homeY <;> cases s.homeZ <;> cases s.homeYQueued <;> cases s.homeZQueued <;> decide
  · rw [hf]
    unfold homeFlags at h
    rw [hx, hxq] at h
    revert h
    cases s.homeY <;> cases s.homeZ <;> cases s.homeYQueued <;> cases s.homeZQueued <;> decide
  · rw [hf]
    unfold homeFlags at h
    rw [hx, hy, hyq] at h
    revert h
    cases s.homeZ <;> cases s.homeXQueued <;> cases s.homeZQueued <;> decide
  · rw [hf]
    unfold homeFlags at h
    rw [hx, hy, hyq] at h
    revert h
    cases s.homeZ <;> cases s.homeXQueued <;> cases s.homeZQueued <;> decide
  · rw [hf]
    unfold homeFlags at h
    rw [hx, hy, hz, hzq] at h
    revert h
    cases s.homeXQueued <;> cases s.homeYQueued <;> decide
  · rw [hf]
    unfold homeFlags at h
    rw [hx, hy, hz, hzq] at h
    revert h
    cases s.homeXQueued <;> cases s.homeYQueued <;> decide
  · rw [hf]; exact h

theorem homingInv_actOnG {F : Type} [FloatOps F] (cfg : Config F) (env : Env F) (src : Source)
    (code : Int) (s : GCodes F) (h : HomingInv s) :
    HomingInv (GCodes.actOnG cfg env src code s).2 := by
  unfold GCodes.actOnG
  split_ifs
  · exact homingInv_of_same (home_SetUpMove cfg env src s) h
  · exact homingInv_of_same (home_DoDwell cfg env src s) h
  · exact homingInv_of_same (home_SetOffsets cfg src s) h
  · exact homingInv_of_same (home_update s _ rfl) h
  · exact homingInv_of_same (home_update s _ rfl) h
  · exact homingInv_DoHome cfg env _ (homingInv_homeRequest src s h)
  · exact homingInv_of_same (home_update s _ rfl) h
  · exact homingInv_of_same (home_update s _ rfl) h
  · exact homingInv_of_same (home_emit _ s) h
  · exact homingInv_of_same (home_invalidCode _ src s) h

theorem home_debugLevel {F : Type} [FloatOps F] (cfg : Config F) (src : Source) (s : GCodes F) :
    SameHome s (if (GCodes.Seen src 83 s).1 = true then
        (true, GCodes.emit (Event.setDebug (GCodes.GetIValue cfg src (GCodes.Seen src 83 s).2).1)
          (GCodes.GetIValue cfg src (GCodes.Seen src 83 s).2).2)
      else (true, (GCodes.Seen src 83 s).2)).2 := by
  split_ifs
  · exact (home_Seen src 83 s).htrans ((home_GetIValue cfg src _).htrans (home_emit _ _))
  · exact home_Seen src 83 s

theorem home_bedTemperature {F : Type} [FloatOps F] (cfg : Config F) (src : Source)
    (s : GCodes F) :
    SameHome s (if (GCodes.Seen src 83 s).1 = true then
        (true, GCodes.emit (Event.activate 0)
          (GCodes.emit (Event.setActiveTemperature 0 (GCodes.GetFValue cfg src (GCodes.Seen src 83 s).2).1)
            (GCodes.GetFValue cfg src (GCodes.Seen src 83 s).2).2))
      else (true, (GCodes.Seen src 83 s).2)).2 := by
  split_ifs
  · exact (home_Seen src 83 s).htrans ((home_GetFValue cfg src _).htrans
      ((home_emit _ _).htrans (home_emit _ _)))
  · exact home_Seen src 83 s

theorem home_actOnM {F : Type} [FloatOps F] (cfg : Config F) (env : Env F) (src : Source)
    (code : Int) (s : GCodes F) : SameHome s (GCodes.actOnM cfg env src code s).2 := by
  unfold GCodes.actOnM
  by_cases h0 : code = 0 ∨ code = 1
  · rw [if_pos h0]
    exact home_emit _ s
  rw [if_neg h0]
  by_cases h1 : code = 18
  · rw [if_pos h1]
    exact home_emit _ s
  rw [if_neg h1]
  by_cases h2 : code = 24
  · rw [if_pos h2]
    exact home_update s _ rfl
  rw [if_neg h2]
  by_cases h3 : code = 25
  · rw [if_pos h3]
    exact home_update s _ rfl
  rw [if_neg h3]
  by_cases h4 : code = 82
  · rw [if_pos h4]
    exact home_update s _ rfl
  rw [if_neg h4]
  by_cases h5 : code = 83
  · rw [if_pos h5]
    exact home_update s _ rfl
  rw [if_neg h5]
  by_cases h6 : code = 106
  · rw [if_pos h6]
    exact home_emit _ s
  rw [if_neg h6]
  by_cases h7 : code = 107
  · rw [if_pos h7]
    exact home_emit _ s
  rw [if_neg h7]
  by_cases h8 : code = 116
  · rw [if_pos h8]
    exact home_emit _ s
  rw [if_neg h8]
  by_cases h9 : code = 111
  · rw [if_pos h9]
    exact home_debugLevel cfg src s
  rw [if_neg h9]
  by_cases h10 : code = 120
  · rw [if_pos h10]
    exact home_Push cfg env s
  rw [if_neg h10]
  by_cases h11 : code = 121
  · rw [if_pos h11]
    exact home_Pop env s
  rw [if_neg h11]
  by_cases h12 : code = 122
  · rw [if_pos h12]
    exact home_emit _ s
  rw [if_neg h12]
  by_cases h13 : code = 126
  · rw [if_pos h13]
    exact home_emit _ s
  rw [if_neg h13]
  by_cases h14 : code = 127
  · rw [if_pos h14]
    exact home_emit _ s
  rw [if_neg h14]
  by_cases h15 : code = 140
  · rw [if_pos h15]
    exact home_bedTemperature cfg src s
  rw [if_neg h15]
  by_cases h16 : code = 141
  · rw [if_pos h16]
    exact home_emit _ s
  rw [if_neg h16]
  exact home_invalidCode _ src s

theorem homingInv_ActOnGcode {F : Type} [FloatOps F] (cfg : Config F) (env : Env F)
    (src : Source) (s : GCodes F) (h : HomingInv s) :
    HomingInv (GCodes.ActOnGcode cfg env src s).2 := by
  have hG := home_Seen src 71 s
  have hM := home_Seen src 77 (GCodes.Seen src 71 s).2
  have hT := home_Seen src 84 (GCodes.Seen src 77 (GCodes.Seen src 71 s).2).2
  unfold GCodes.ActOnGcode
  dsimp only
  split_ifs
  · exact homingInv_actOnG cfg env src _ _
      (homingInv_of_same (hG.htrans (home_GetIValue cfg src _)) h)
  · exact homingInv_of_same (((hG.htrans hM).htrans (home_GetIValue cfg src _)).htrans
      (home_actOnM cfg env src _ _)) h
  · exact homingInv_of_same ((((hG.htrans hM).htrans hT).htrans (home_GetIValue cfg src _)).htrans
      (home_actOnT src _ _)) h
  · exact homingInv_of_same ((hG.htrans hM).htrans hT) h

theorem homingInv_actAndStore {F : Type} [FloatOps F] (cfg : Config F) (env : Env F)
    (src : Source) (s : GCodes F) (h : HomingInv s) :
    HomingInv (GCodes.actAndStore cfg env src s) := by
  have h1 : HomingInv (GCodes.emit (Event.actOn src) s) := h
  have h2 := homingInv_ActOnGcode cfg env src (GCodes.emit (Event.actOn src) s) h1
  unfold GCodes.actAndStore GCodes.SetFinished
  dsimp only
  exact homingInv_of_same (home_setBuf src _ _) h2

theorem homingInv_putAndAct {F : Type} [FloatOps F] (cfg : Config F) (env : Env F)
    (src : Source) (c : Nat) (s : GCodes F) (h : HomingInv s) :
    HomingInv (GCodes.putAndAct cfg env src c s) := by
  have h1 : HomingInv
      ((((GCodes.emit (Event.put src c) s).setBuf src
        ((s.buf src).Put cfg.GCODE_LENGTH env.debug c).2.1).messages
        ((s.buf src).Put cfg.GCODE_LENGTH env.debug c).2.2)) :=
    homingInv_of_same (home_setBuf src _ (GCodes.emit (Event.put src c) s)) h
  unfold GCodes.putAndAct
  dsimp only
  split_ifs
  · exact homingInv_actAndStore cfg env src _ h1
  · exact h1

theorem homingInv_Spin {F : Type} [FloatOps F] (cfg : Config F) (env : Env F)
    (s : GCodes F) (h : HomingInv s) : HomingInv (GCodes.Spin cfg env s) := by
  unfold GCodes.Spin
  by_cases ha : (!s.active) = true
  · rw [if_pos ha]; exact h
  rw [if_neg ha]
  by_cases hw : (!s.webGCode.finished) = true
  · rw [if_pos hw]; exact homingInv_actAndStore cfg env _ s h
  rw [if_neg hw]
  by_cases hs : (!s.serialGCode.finished) = true
  · rw [if_pos hs]; exact homingInv_actAndStore cfg env _ s h
  rw [if_neg hs]
  by_cases hf : (!s.fileGCode.finished) = true
  · rw [if_pos hf]; exact homingInv_actAndStore cfg env _ s h
  rw [if_neg hf]
  cases env.web with
  | some c => exact homingInv_putAndAct cfg env _ c _ h
  | none =>
    cases env.serial with
    | some b => exact homingInv_putAndAct cfg env _ b _ h
    | none =>
      dsimp only
      by_cases hp : s.fileBeingPrinted ≥ 0
      · rw [if_pos hp]
        cases env.fileRead with
        | some b => exact homingInv_putAndAct cfg env _ b _ h
        | none => exact homingInv_putAndAct cfg env Source.file 10 _ h
      · rw [if_neg hp]; exact h

theorem homingInv_of_reachable {F : Type} [FloatOps F] (cfg : Config F) (s : GCodes F)
    (h : Reachable cfg s) : HomingInv s := by
  induction h with
  | init env s => rfl
  | push env s _ ih => exact homingInv_of_same (home_Push cfg env s) ih
  | pop env s _ ih => exact homingInv_of_same (home_Pop env s) ih
  | actOn env src s _ ih => exact homingInv_ActOnGcode cfg env src s ih
  | spin env s _ ih => exact homingInv_Spin cfg env s ih
  | readMove m ce s _ ih =>
    unfold GCodes.ReadMove
    split_ifs
    · exact ih
    · exact ih
  | exit s _ ih => exact ih

/-- C29: in every state reachable from `Init` (through `Spin`, and also through
direct calls of `ActOnGcode`, `Push`, `Pop`, `ReadMove` and `Exit`), at most one
of `homeXQueued`, `homeYQueued`, `homeZQueued` is true and an axis that is
Queued is also requested; consequently the request part of G28 changes the
state only when no axis is requested or Queued. -/
theorem C29_homing_exclusivity {F : Type} [FloatOps F] (cfg : Config F) (s : GCodes F)
    (h : Reachable cfg s) :
    (¬ (s.homeXQueued = true ∧ s.homeYQueued = true) ∧
      ¬ (s.homeXQueued = true ∧ s.homeZQueued = true) ∧
      ¬ (s.homeYQueued = true ∧ s.homeZQueued = true)) ∧
    (s.homeXQueued = true → s.homeX = true) ∧
    (s.homeYQueued = true → s.homeY = true) ∧
    (s.homeZQueued = true → s.homeZ = true) ∧
    (∀ src, GCodes.homeRequest src s ≠ s →
      homeFlags s = ((false, false, false), (false, false, false))) := by
  have hi := homingInv_of_reachable cfg s h
  unfold HomingInv homeFlags at hi
  refine ⟨?_, ?_, ?_, ?_, ?_⟩
  · revert hi
    cases s.homeX <;> cases s.homeY <;> cases s.homeZ <;> cases s.homeXQueued <;>
      cases s.homeYQueued <;> cases s.homeZQueued <;> decide
  · revert hi
    cases s.homeX <;> cases s.homeY <;> cases s.homeZ <;> cases s.homeXQueued <;>
      cases s.homeYQueued <;> cases s.homeZQueued <;> decide
  · revert hi
    cases s.homeX <;> cases s.homeY <;> cases s.homeZ <;> cases s.homeXQueued <;>
      cases s.homeYQueued <;> cases s.homeZQueued <;> decide
  · revert hi
    cases s.homeX <;> cases s.homeY <;> cases s.homeZ <;> cases s.homeXQueued <;>
      cases s.homeYQueued <;> cases s.homeZQueued <;> decide
  · intro src hne
    cases hn : GCodes.NoHome s
    · exact absurd (homeRequest_busy src s hn) hne
    · unfold GCodes.NoHome at hn
      unfold homeFlags
      revert hi hn
      cases s.homeX <;> cases s.homeY <;> cases s.homeZ <;> cases s.homeXQueued <;>
        cases s.homeYQueued <;> cases s.homeZQueued <;> decide

/-- C29, witness: the state after the line `G28 X Z`, in which X and Z are
requested and X is Queued. -/
theorem C29_homing_exclusivity_witness :
    homeFlags (afterWeb [71, 50, 56, 32, 88, 32, 90, 10])
      = ((true, false, true), (true, false, false)) ∧
    ((¬ ((afterWeb [71, 50, 56, 32, 88, 32, 90, 10]).homeXQueued = true ∧
          (afterWeb [71, 50, 56, 32, 88, 32, 90, 10]).homeYQueued = true) ∧
      ¬ ((afterWeb [71, 50, 56, 32, 88, 32, 90, 10]).homeXQueued = true ∧
          (afterWeb [71, 50, 56, 32, 88, 32, 90, 10]).homeZQueued = true) ∧
      ¬ ((afterWeb [71, 50, 56, 32, 88, 32, 90, 10]).homeYQueued = true ∧
          (afterWeb [71, 50, 56, 32, 88, 32, 90, 10]).homeZQueued = true)) ∧
    ((afterWeb [71, 50, 56, 32, 88, 32, 90, 10]).homeXQueued = true →
      (afterWeb [71, 50, 56, 32, 88, 32, 90, 10]).homeX = true) ∧
    ((afterWeb [71, 50, 56, 32, 88, 32, 90, 10]).homeYQueued = true →
      (afterWeb [71, 50, 56, 32, 88, 32, 90, 10]).homeY = true) ∧
    ((afterWeb [71, 50, 56, 32, 88, 32, 90, 10]).homeZQueued = true →
      (afterWeb [71, 50, 56, 32, 88, 32, 90, 10]).homeZ = true) ∧
    (∀ src, GCodes.homeRequest src (afterWeb [71, 50, 56, 32, 88, 32, 90, 10])
        ≠ afterWeb [71, 50, 56, 32, 88, 32, 90, 10] →
      homeFlags (afterWeb [71, 50, 56, 32, 88, 32, 90, 10])
        = ((false, false, false), (false, false, false)))) :=
  ⟨by decide!, C29_homing_exclusivity exampleConfig (afterWeb [71, 50, 56, 32, 88, 32, 90, 10])
    (reachable_afterWeb _)⟩

/-! ## The effect of a successful `Pop` -/

theorem Pop_closed_form {F : Type} [FloatOps F] (env : Env F) (s : GCodes F)
    (hsp : 0 < s.stackPointer) (hfree : s.moveAvailable = false)
    (hdrained : env.allMovesAreFinished = true)
    (hstate : (env.getCurrentState s.moveBuffer).1 = true) :
    GCodes.Pop env s = (true,
      { s with
        log := s.log ++ [Event.resumeMoving]
        stackPointer := s.stackPointer - 1
        drivesRelative := s.drivesRelativeStack (s.stackPointer - 1)
        axesRelative := s.axesRelativeStack (s.stackPointer - 1)
        lastPos := Function.update s.lastPos 0 ((env.getCurrentState s.moveBuffer).2 3)
        gFeedRate := s.feedrateStack (s.stackPointer - 1)
        moveBuffer := Function.update (env.getCurrentState s.moveBuffer).2 DRIVES
          (s.feedrateStack (s.stackPointer - 1))
        checkEndStops := false
        moveAvailable := true }) := by
  have hn : ¬ s.stackPointer ≤ 0 := not_le.mpr hsp
  have hr : List.range' AXES (DRIVES - AXES) = [3] := by decide
  unfold GCodes.Pop GCodes.AllMovesAreFinishedAndMoveBufferIsLoaded GCodes.rememberLastPos
  rw [if_neg hn, hr]
  simp [hfree, hdrained, hstate, GCodes.emit, AXES]

/-- C31: when the stack is non-empty, the handoff slot is free, `Move` reports
all moves finished and delivers its current state, `Pop` returns true,
decrements `stackPointer` by one, sets `drivesRelative`, `axesRelative` and
`gFeedRate` to the frame saved at the new depth (the values the matching `Push`
saved: after a `Push` that returned true on a stack with room they are the
values before that `Push`), sets `lastPos` to the drive entries of the state
`Move` delivered, and posts a request (`moveAvailable` true, `checkEndStops`
false) whose axis and drive fields are those of the state `Move` delivered and
whose feed field is the restored feed rate. -/
theorem C31_pop_effect {F : Type} [FloatOps F] (cfg : Config F) (env : Env F) (s : GCodes F)
    (hsp : 0 < s.stackPointer) (hfree : s.moveAvailable = false)
    (hdrained : env.allMovesAreFinished = true)
    (hstate : (env.getCurrentState s.moveBuffer).1 = true) :
    (GCodes.Pop env s).1 = true ∧
    (GCodes.Pop env s).2.stackPointer = s.stackPointer - 1 ∧
    (GCodes.Pop env s).2.drivesRelative = s.drivesRelativeStack (s.stackPointer - 1) ∧
    (GCodes.Pop env s).2.axesRelative = s.axesRelativeStack (s.stackPointer - 1) ∧
    (GCodes.Pop env s).2.gFeedRate = s.feedrateStack (s.stackPointer - 1) ∧
    (∀ i, AXES ≤ i → i < DRIVES →
      (GCodes.Pop env s).2.lastPos (i - AXES) = (env.getCurrentState s.moveBuffer).2 i) ∧
    (GCodes.Pop env s).2.moveAvailable = true ∧
    (GCodes.Pop env s).2.checkEndStops = false ∧
    (∀ i, i < DRIVES →
      (GCodes.Pop env s).2.moveBuffer i = (env.getCurrentState s.moveBuffer).2 i) ∧
    (GCodes.Pop env s).2.moveBuffer DRIVES = (GCodes.Pop env s).2.gFeedRate ∧
    (∀ (env0 : Env F) (s0 : GCodes F), s = (GCodes.Push cfg env0 s0).2 →
      s0.stackPointer < (cfg.STACK : Int) → (GCodes.Push cfg env0 s0).1 = true →
      (GCodes.Pop env s).2.drivesRelative = s0.drivesRelative ∧
      (GCodes.Pop env s).2.axesRelative = s0.axesRelative ∧
      (GCodes.Pop env s).2.gFeedRate = s0.gFeedRate) := by
  rw [Pop_closed_form env s hsp hfree hdrained hstate]
  refine ⟨rfl, rfl, rfl, rfl, rfl, ?_, rfl, rfl, ?_, ?_, ?_⟩
  · intro i h1 h2
    have hi : i = 3 := by
      unfold AXES at h1
      unfold DRIVES at h2
      omega
    subst hi
    simp [AXES]
  · intro i hi
    have hne : i ≠ DRIVES := Nat.ne_of_lt hi
    simp [Function.update_noteq hne]
  · simp
  · intro env0 s0 hs hroom hok
    obtain ⟨p1, p2, p3, p4⟩ := push_effect cfg env0 s0 hroom hok
    rw [← hs] at p1 p2 p3 p4
    have hk : s.stackPointer - 1 = s0.stackPointer := by omega
    simp only [hk, p2, p3, p4, Function.update_same]
    exact ⟨trivial, trivial, trivial⟩

/-- C31, witness: `Pop` on the state after `M120` and `G91`, with `Move`
reporting the positions 7, 8, 9 and the drive entry 2: the modes of before `G91`
come back, `lastPos` is 2 and the request posted has the fields 7, 8, 9, 2 and
the feed 3. -/
theorem C31_pop_effect_witness :
    (0 < oneFrame.stackPointer ∧ oneFrame.moveAvailable = false ∧
      reportEnv.allMovesAreFinished = true ∧
      (reportEnv.getCurrentState oneFrame.moveBuffer).1 = true) ∧
    (oneFrame.axesRelative = true ∧
      (GCodes.Pop reportEnv oneFrame).2.axesRelative = false ∧
      (GCodes.Pop reportEnv oneFrame).2.lastPos 0 = 2 ∧
      (List.range 5).map (GCodes.Pop reportEnv oneFrame).2.moveBuffer = [7, 8, 9, 2, 3]) ∧
    ((GCodes.Pop reportEnv oneFrame).1 = true ∧
    (GCodes.Pop reportEnv oneFrame).2.stackPointer = oneFrame.stackPointer - 1 ∧
    (GCodes.Pop reportEnv oneFrame).2.drivesRelative
      = oneFrame.drivesRelativeStack (oneFrame.stackPointer - 1) ∧
    (GCodes.Pop reportEnv oneFrame).2.axesRelative
      = oneFrame.axesRelativeStack (oneFrame.stackPointer - 1) ∧
    (GCodes.Pop reportEnv oneFrame).2.gFeedRate
      = oneFrame.feedrateStack (oneFrame.stackPointer - 1) ∧
    (∀ i, AXES ≤ i → i < DRIVES →
      (GCodes.Pop reportEnv oneFrame).2.lastPos (i - AXES)
        = (reportEnv.getCurrentState oneFrame.moveBuffer).2 i) ∧
    (GCodes.Pop reportEnv oneFrame).2.moveAvailable = true ∧
    (GCodes.Pop reportEnv oneFrame).2.checkEndStops = false ∧
    (∀ i, i < DRIVES →
      (GCodes.Pop reportEnv oneFrame).2.moveBuffer i
        = (reportEnv.getCurrentState oneFrame.moveBuffer).2 i) ∧
    (GCodes.Pop reportEnv oneFrame).2.moveBuffer DRIVES
      = (GCodes.Pop reportEnv oneFrame).2.gFeedRate ∧
    (∀ (env0 : Env Rat) (s0 : GCodes Rat), oneFrame = (GCodes.Push exampleConfig env0 s0).2 →
      s0.stackPointer < (exampleConfig.STACK : Int) →
      (GCodes.Push exampleConfig env0 s0).1 = true →
      (GCodes.Pop reportEnv oneFrame).2.drivesRelative = s0.drivesRelative ∧
      (GCodes.Pop reportEnv oneFrame).2.axesRelative = s0.axesRelative ∧
      (GCodes.Pop reportEnv oneFrame).2.gFeedRate = s0.gFeedRate)) :=
  ⟨⟨by decide!, by decide!, by decide!, by decide!⟩,
    ⟨by decide!, by decide!, by decide!, by decide!⟩,
    C31_pop_effect exampleConfig reportEnv oneFrame (by decide!) (by decide!) (by decide!)
      (by decide!)⟩

/-! ## Lines longer than the buffer -/

theorem put_overflow (L : Nat) (d : Bool) (gb : GCodeBuffer) (c : Nat)
    (hc : gb.inComment = false) (hp : L ≤ gb.gcodePointer + 1)
    (h10 : c ≠ 10) (h0 : c ≠ 0) (h59 : c ≠ 59) :
    GCodeBuffer.Put L d gb c
      = (false, { gb with gcodeBuffer := (gb.gcodeBuffer.set gb.gcodePointer c).set 0 0,
                          gcodePointer := 0 },
          [Msg.str "G Code buffer length overflow.\n"]) := by
  cases gb with
  | mk idn b p rp ic fin =>
    simp only at hc hp
    subst hc
    simp [GCodeBuffer.Put, h59, h10, h0, hp]

theorem short_run (L : Nat) (d : Bool) :
    ∀ (s : List Nat) (gb : GCodeBuffer), gb.inComment = false →
      gb.gcodePointer + s.length < L → gb.gcodeBuffer.length = L → Plain s →
      ∃ b, GCodeBuffer.putAll L d gb s
          = (List.replicate s.length false,
              { gb with gcodeBuffer := b, gcodePointer := gb.gcodePointer + s.length }) ∧
        b.length = L ∧
        b.take (gb.gcodePointer + s.length) = gb.gcodeBuffer.take gb.gcodePointer ++ s := by
  intro s
  induction s with
  | nil =>
    intro gb _ _ hl _
    exact ⟨gb.gcodeBuffer, by simp [GCodeBuffer.putAll], hl, by simp⟩
  | cons c cs ih =>
    intro gb hc hp hl hpl
    obtain ⟨c10, c0, c59⟩ := hpl c (by simp)
    have hcs : Plain cs := fun x hx => hpl x (by simp [hx])
    simp only [List.length_cons] at hp
    have hput := GCodeBuffer.put_plain L d gb c hc (by omega) c10 c0 c59
    obtain ⟨b, h1, h2, h3⟩ := ih
      { gb with gcodeBuffer := gb.gcodeBuffer.set gb.gcodePointer c,
                gcodePointer := gb.gcodePointer + 1 }
      hc (by simp only; omega) (by simpa using hl) hcs
    refine ⟨b, ?_, h2, ?_⟩
    · simp only [GCodeBuffer.putAll, hput, h1, List.length_cons, List.replicate_succ]
      have e : gb.gcodePointer + 1 + cs.length = gb.gcodePointer + (cs.length + 1) := by omega
      rw [e]
    · simp only at h3
      have e : gb.gcodePointer + (c :: cs).length = gb.gcodePointer + 1 + cs.length := by
        simp only [List.length_cons]; omega
      have hlt : gb.gcodePointer < gb.gcodeBuffer.length := by omega
      rw [e, h3, GCodeBuffer.take_succ_set _ _ _ hlt]
      simp

theorem fill_run (L : Nat) (d : Bool) :
    ∀ (s : List Nat) (gb : GCodeBuffer), gb.inComment = false → s ≠ [] →
      gb.gcodePointer + s.length = L → gb.gcodeBuffer.length = L → Plain s →
      ∃ b, GCodeBuffer.putAll L d gb s
          = (List.replicate s.length false, { gb with gcodeBuffer := b, gcodePointer := 0 }) ∧
        b.length = L := by
  intro s
  induction s with
  | nil => intro gb _ h _ _ _; exact absurd rfl h
  | cons c cs ih =>
    intro gb hc _ hp hl hpl
    obtain ⟨c10, c0, c59⟩ := hpl c (by simp)
    have hcs : Plain cs := fun x hx => hpl x (by simp [hx])
    simp only [List.length_cons] at hp
    cases cs with
    | nil =>
      simp only [List.length_nil] at hp
      have hput := put_overflow L d gb c hc (by omega) c10 c0 c59
      refine ⟨(gb.gcodeBuffer.set gb.gcodePointer c).set 0 0, ?_, by simpa using hl⟩
      simp [GCodeBuffer.putAll, hput]
    | cons c2 cs2 =>
      simp only [List.length_cons] at hp
      have hput := GCodeBuffer.put_plain L d gb c hc (by omega) c10 c0 c59
      obtain ⟨b, h1, h2⟩ := ih
        { gb with gcodeBuffer := gb.gcodeBuffer.set gb.gcodePointer c,
                  gcodePointer := gb.gcodePointer + 1 }
        hc (by simp) (by simp only [List.length_cons]; omega) (by simpa using hl) hcs
      refine ⟨b, ?_, h2⟩
      rw [GCodeBuffer.putAll]
      simp only [hput, h1, List.length_cons, List.replicate_succ]

theorem long_run (L : Nat) (d : Bool) (hL : 0 < L) :
    ∀ (n : Nat) (s : List Nat) (gb : GCodeBuffer), s.length = n → gb.inComment = false →
      gb.gcodePointer = 0 → gb.gcodeBuffer.length = L → Plain s →
      ∃ b, GCodeBuffer.putAll L d gb s
          = (List.replicate s.length false,
              { gb with gcodeBuffer := b, gcodePointer := s.length % L }) ∧
        b.length = L ∧ b.take (s.length % L) = s.drop (L * (s.length / L)) := by
  intro n
  induction n using Nat.strong_induction_on with
  | _ n ih =>
    intro s gb hn hc hp hl hpl
    by_cases hlt : s.length < L
    · obtain ⟨b, h1, h2, h3⟩ := short_run L d s gb hc (by omega) hl hpl
      rw [hp] at h1 h3
      simp only [Nat.zero_add, List.take_zero, List.nil_append] at h1 h3
      refine ⟨b, ?_, h2, ?_⟩
      · rw [Nat.mod_eq_of_lt hlt]; exact h1
      · rw [Nat.mod_eq_of_lt hlt, Nat.div_eq_of_lt hlt, h3]; simp
    · have hge : L ≤ s.length := Nat.le_of_not_lt hlt
      have htl : (s.take L).length = L := by simp [hge]
      have hne : s.take L ≠ [] := by
        intro h0
        rw [h0] at htl
        simp at htl
        omega
      have hpt : Plain (s.take L) := fun x hx => hpl x (List.mem_of_mem_take hx)
      have hpd : Plain (s.drop L) := fun x hx => hpl x (List.mem_of_mem_drop hx)
      obtain ⟨b1, f1, f2⟩ := fill_run L d (s.take L) gb hc hne (by rw [hp, htl]; omega) hl hpt
      have hdl : (s.drop L).length = s.length - L := by simp
      obtain ⟨b2, g1, g2, g3⟩ := ih (s.length - L) (by omega) (s.drop L)
        { gb with gcodeBuffer := b1, gcodePointer := 0 } hdl hc rfl f2 hpd
      have hmod : (s.length - L) % L = s.length % L := (Nat.mod_eq_sub_mod hge).symm
      have hdiv : s.length / L = (s.length - L) / L + 1 := Nat.div_eq_sub_div hL hge
      refine ⟨b2, ?_, g2, ?_⟩
      · have hs : s = s.take L ++ s.drop L := (List.take_append_drop L s).symm
        have e := GCodeBuffer.putAll_append L d gb (s.take L) (s.drop L)
        rw [← hs] at e
        rw [e, f1]
        simp only [g1, htl, hdl, hmod]
        rw [← List.replicate_add]
        have : L + (s.length - L) = s.length := by omega
        rw [this]
      · rw [hdl, hmod] at g3
        rw [g3, List.drop_drop, hdiv]
        congr 1
        rw [Nat.mul_add]
        omega

/-- C32 (amended): for every run of `n` bytes without newline, NUL or `;` fed
to `Put` on a freshly initialised buffer and followed by a newline, in
particular for `n > GCODE_LENGTH`, `Put` returns true on the newline only and
the line it completes consists of the last `n mod GCODE_LENGTH` bytes of the
run: the bytes before them are lost, and the line is empty only when `n` is a
multiple of `GCODE_LENGTH`. -/
theorem C32_overlong_line_keeps_tail (GCODE_LENGTH : Nat) (debug : Bool) (gb : GCodeBuffer)
    (bs : List Nat) (hL : 0 < GCODE_LENGTH) (hlen : gb.gcodeBuffer.length = GCODE_LENGTH)
    (hplain : Plain bs) :
    (GCodeBuffer.putAll GCODE_LENGTH debug gb.Init (bs ++ [10])).1
        = List.replicate bs.length false ++ [true] ∧
    (GCodeBuffer.putAll GCODE_LENGTH debug gb.Init (bs ++ [10])).2.line
        = bs.drop (GCODE_LENGTH * (bs.length / GCODE_LENGTH)) ∧
    (GCodeBuffer.putAll GCODE_LENGTH debug gb.Init (bs ++ [10])).2.line.length
        = bs.length % GCODE_LENGTH := by
  obtain ⟨b, h1, h2, h3⟩ := long_run GCODE_LENGTH debug hL bs.length bs gb.Init rfl rfl rfl
    (by simpa [GCodeBuffer.Init] using hlen) hplain
  have hk : bs.length % GCODE_LENGTH < b.length := by
    rw [h2]; exact Nat.mod_lt _ hL
  have hnz : ∀ x ∈ b.take (bs.length % GCODE_LENGTH), x ≠ 0 := by
    intro x hx
    rw [h3] at hx
    exact (hplain x (List.mem_of_mem_drop hx)).2.1
  have hc := GCodeBuffer.cstr_set_zero b _ hk hnz
  have hline : (GCodeBuffer.putAll GCODE_LENGTH debug gb.Init (bs ++ [10])).2.line
      = bs.drop (GCODE_LENGTH * (bs.length / GCODE_LENGTH)) := by
    rw [GCodeBuffer.putAll_append, h1]
    simp [GCodeBuffer.putAll, GCodeBuffer.Put, GCodeBuffer.Init, GCodeBuffer.line,
      Nat.not_le.mpr hL, hc, h3]
  refine ⟨?_, hline, ?_⟩
  · rw [GCodeBuffer.putAll_append, h1]
    simp [GCodeBuffer.putAll, GCodeBuffer.Put, GCodeBuffer.Init, Nat.not_le.mpr hL]
  · rw [hline, List.length_drop]
    have := Nat.mod_add_div bs.length GCODE_LENGTH
    omega

/-- C32, witness: the seven bytes `XXXXG91` fed to a buffer of capacity 4; the
line completed by the newline is `G91`. -/
theorem C32_overlong_line_keeps_tail_witness :
    Plain [88, 88, 88, 88, 71, 57, 49] ∧
    (GCodeBuffer.putAll 4 false
        (GCodeBuffer.Init ⟨"web: ", [0, 0, 0, 0], 0, -1, false, true⟩)
        ([88, 88, 88, 88, 71, 57, 49] ++ [10])).2.line = [71, 57, 49] ∧
    ((GCodeBuffer.putAll 4 false
        (GCodeBuffer.Init ⟨"web: ", [0, 0, 0, 0], 0, -1, false, true⟩)
        ([88, 88, 88, 88, 71, 57, 49] ++ [10])).1
        = List.replicate [88, 88, 88, 88, 71, 57, 49].length false ++ [true] ∧
    (GCodeBuffer.putAll 4 false
        (GCodeBuffer.Init ⟨"web: ", [0, 0, 0, 0], 0, -1, false, true⟩)
        ([88, 88, 88, 88, 71, 57, 49] ++ [10])).2.line
        = [88, 88, 88, 88, 71, 57, 49].drop (4 * ([88, 88, 88, 88, 71, 57, 49].length / 4)) ∧
    (GCodeBuffer.putAll 4 false
        (GCodeBuffer.Init ⟨"web: ", [0, 0, 0, 0], 0, -1, false, true⟩)
        ([88, 88, 88, 88, 71, 57, 49] ++ [10])).2.line.length
        = [88, 88, 88, 88, 71, 57, 49].length % 4) :=
  ⟨by unfold Plain; decide, by decide,
    C32_overlong_line_keeps_tail 4 false ⟨"web: ", [0, 0, 0, 0], 0, -1, false, true⟩
      [88, 88, 88, 88, 71, 57, 49] (by decide) (by decide) (by unfold Plain; decide)⟩

/-- C32, counterexample: a run of 103 bytes without newline, NUL or `;`, a
hundred times `A` and then `G91`, sent by the web server to the buffer of 100
bytes after `Init`. The line that `Put` completes on the newline is `G91`, not
the empty line, and its dispatch on that tick changes `axesRelative` from false
to true. -/
theorem C32_overlong_line_counterexample :
    Plain overlongLine ∧ exampleConfig.GCODE_LENGTH < overlongLine.length ∧
    (afterWeb overlongLine).axesRelative = false ∧
    (GCodes.Spin exampleConfig (webEnv 10) (afterWeb overlongLine)).webGCode.line
      = [71, 57, 49] ∧
    (newEvents (afterWeb overlongLine)
        (GCodes.Spin exampleConfig (webEnv 10) (afterWeb overlongLine))).filter Event.isActOn
      = [Event.actOn Source.web] ∧
    (GCodes.Spin exampleConfig (webEnv 10) (afterWeb overlongLine)).axesRelative = true :=
  ⟨by unfold Plain; decide, by decide, by decide!, by decide!, by decide!, by decide!⟩

/-! ## A `T` command with an index that is no extruder drive -/

theorem invalid_tool_dispatch {F : Type} [FloatOps F] (cfg : Config F) (env : Env F)
    (src : Source) (s : GCodes F) (hG : 71 ∉ (s.buf src).line) (hM : 77 ∉ (s.buf src).line)
    (hT : 84 ∈ (s.buf src).line)
    (hk : ¬ (0 ≤ cfg.strtol (textAfter 84 (s.buf src).line) ∧
      cfg.strtol (textAfter 84 (s.buf src).line) < (DRIVES : Int) - (AXES : Int)))
    (hne : cfg.strtol (textAfter 84 (s.buf src).line) ≠ s.selectedHead) :
    GCodes.ActOnGcode cfg env src s
      = (true, GCodes.messages [Msg.str "GCodes - invalid T Code: ",
          Msg.buf (s.buf src).line, Msg.str "\n"]
          { cleared src s with log := s.log ++ standbyCalls s }) := by
  have e := ActOnGcode_tcode cfg env src s hG hM hT
  obtain ⟨_, _, c3⟩ := actOnT_cases src (cfg.strtol (textAfter 84 (s.buf src).line))
    (cleared src s)
  have hsel : (cleared src s).selectedHead = s.selectedHead := by cases src <;> rfl
  have hlog : (cleared src s).log = s.log := by cases src <;> rfl
  have hst : standbyCalls (cleared src s) = standbyCalls s := by
    unfold standbyCalls
    rw [hsel]
  have := c3 (by rw [hsel]; exact hne) hk
  rw [hlog, hst, cleared_line] at this
  rw [e, this]

/-- C33 (amended): a `T` command (a line with a `T` and neither `G` nor `M`)
whose index `k` is the index of no extruder drive (`k < 0` or
`k ≥ DRIVES - AXES`) and is not `selectedHead`. `ActOnGcode` returns true, emits
the three messages of an invalid T code, makes no `Activate` call and leaves
`selectedHead` as it was; when no head is selected (`selectedHead` is the index
of no extruder drive) the three messages are all the calls it makes, so there
is no `Standby` call either. -/
theorem C33_invalid_tool_index {F : Type} [FloatOps F] (cfg : Config F) (env : Env F)
    (src : Source) (s : GCodes F) (hG : 71 ∉ (s.buf src).line) (hM : 77 ∉ (s.buf src).line)
    (hT : 84 ∈ (s.buf src).line)
    (hk : ¬ (0 ≤ cfg.strtol (textAfter 84 (s.buf src).line) ∧
      cfg.strtol (textAfter 84 (s.buf src).line) < (DRIVES : Int) - (AXES : Int)))
    (hne : cfg.strtol (textAfter 84 (s.buf src).line) ≠ s.selectedHead) :
    (GCodes.ActOnGcode cfg env src s).1 = true ∧
    (GCodes.ActOnGcode cfg env src s).2.selectedHead = s.selectedHead ∧
    (∃ before : List (Event F),
      newEvents s (GCodes.ActOnGcode cfg env src s).2
        = before ++ [Event.message (Msg.str "GCodes - invalid T Code: "),
            Event.message (Msg.buf (s.buf src).line), Event.message (Msg.str "\n")]) ∧
    (∀ e ∈ newEvents s (GCodes.ActOnGcode cfg env src s).2, ∀ h : Int, e ≠ Event.activate h) ∧
    (¬ (0 ≤ s.selectedHead ∧ s.selectedHead < (DRIVES : Int) - (AXES : Int)) →
      newEvents s (GCodes.ActOnGcode cfg env src s).2
        = [Event.message (Msg.str "GCodes - invalid T Code: "),
            Event.message (Msg.buf (s.buf src).line), Event.message (Msg.str "\n")]) := by
  have e := invalid_tool_dispatch cfg env src s hG hM hT hk hne
  have hlog : (GCodes.ActOnGcode cfg env src s).2.log
      = s.log ++ (standbyCalls s ++ [Event.message (Msg.str "GCodes - invalid T Code: "),
          Event.message (Msg.buf (s.buf src).line), Event.message (Msg.str "\n")]) := by
    rw [e]
    simp [GCodes.messages]
  have hnew := newEvents_of_log s _ _ hlog
  have hsel : (cleared src s).selectedHead = s.selectedHead := by cases src <;> rfl
  refine ⟨by rw [e], ?_, ⟨standbyCalls s, hnew⟩, ?_, ?_⟩
  · rw [e]
    exact hsel
  · intro ev hev h heq
    subst heq
    rw [hnew] at hev
    unfold standbyCalls at hev
    split_ifs at hev <;> simp at hev
  · intro hno
    rw [hnew]
    unfold standbyCalls
    rw [if_neg hno]
    rfl

/-- C33, witness: `T5` after `Init`, when no head is selected: the three
messages are the only calls. -/
theorem C33_invalid_tool_index_witness :
    (exampleConfig.strtol (textAfter 84 ((withLine [84, 53, 10]).buf Source.web).line) = 5 ∧
      (withLine [84, 53, 10]).selectedHead = -1) ∧
    ((GCodes.ActOnGcode exampleConfig idleEnv Source.web (withLine [84, 53, 10])).1 = true ∧
    (GCodes.ActOnGcode exampleConfig idleEnv Source.web (withLine [84, 53, 10])).2.selectedHead
      = (withLine [84, 53, 10]).selectedHead ∧
    (∃ before : List (Event Rat),
      newEvents (withLine [84, 53, 10])
          (GCodes.ActOnGcode exampleConfig idleEnv Source.web (withLine [84, 53, 10])).2
        = before ++ [Event.message (Msg.str "GCodes - invalid T Code: "),
            Event.message (Msg.buf ((withLine [84, 53, 10]).buf Source.web).line),
            Event.message (Msg.str "\n")]) ∧
    (∀ e ∈ newEvents (withLine [84, 53, 10])
        (GCodes.ActOnGcode exampleConfig idleEnv Source.web (withLine [84, 53, 10])).2,
      ∀ h : Int, e ≠ Event.activate h) ∧
    (¬ (0 ≤ (withLine [84, 53, 10]).selectedHead ∧
        (withLine [84, 53, 10]).selectedHead < (DRIVES : Int) - (AXES : Int)) →
      newEvents (withLine [84, 53, 10])
          (GCodes.ActOnGcode exampleConfig idleEnv Source.web (withLine [84, 53, 10])).2
        = [Event.message (Msg.str "GCodes - invalid T Code: "),
            Event.message (Msg.buf ((withLine [84, 53, 10]).buf Source.web).line),
            Event.message (Msg.str "\n")])) :=
  ⟨⟨by decide!, by decide!⟩,
    C33_invalid_tool_index exampleConfig idleEnv Source.web (withLine [84, 53, 10])
      (by decide!) (by decide!) (by decide!) (by decide!) (by decide!)⟩

/-- C33, counterexample: `T-1` after `Init`. The index -1 is the index of no
extruder drive, and `ActOnGcode` returns true without any call: it emits no
diagnostic, because -1 is the value of `selectedHead`. And `T5` after `T0`:
the index 5 is the index of no extruder drive, and the calls made are `Standby`
for heater 1 followed by the three messages, `selectedHead` staying 0. -/
theorem C33_invalid_tool_index_counterexample :
    (84 ∈ ((withLine [84, 45, 49, 10]).buf Source.web).line ∧
      exampleConfig.strtol (textAfter 84 ((withLine [84, 45, 49, 10]).buf Source.web).line)
        = -1 ∧
      (GCodes.ActOnGcode exampleConfig idleEnv Source.web (withLine [84, 45, 49, 10])).1
        = true ∧
      newEvents (withLine [84, 45, 49, 10])
          (GCodes.ActOnGcode exampleConfig idleEnv Source.web (withLine [84, 45, 49, 10])).2
        = []) ∧
    (exampleConfig.strtol
        (textAfter 84 ((lineOn (afterWeb [84, 48, 10]) [84, 53, 10]).buf Source.web).line) = 5 ∧
      (lineOn (afterWeb [84, 48, 10]) [84, 53, 10]).selectedHead = 0 ∧
      newEvents (lineOn (afterWeb [84, 48, 10]) [84, 53, 10])
          (GCodes.ActOnGcode exampleConfig idleEnv Source.web
            (lineOn (afterWeb [84, 48, 10]) [84, 53, 10])).2
        = [Event.standby 1, Event.message (Msg.str "GCodes - invalid T Code: "),
            Event.message (Msg.buf [84, 53]), Event.message (Msg.str "\n")] ∧
      (GCodes.ActOnGcode exampleConfig idleEnv Source.web
        (lineOn (afterWeb [84, 48, 10]) [84, 53, 10])).2.selectedHead = 0) :=
  ⟨⟨by decide!, by decide!, by decide!, by decide!⟩,
    ⟨by decide!, by decide!, by decide!, by decide!⟩⟩

/-! ## Print start and pause -/

theorem dispatch_M24 {F : Type} [FloatOps F] (cfg : Config F) (env : Env F) (src : Source)
    (s : GCodes F) (hG : 71 ∉ (s.buf src).line) (hM : 77 ∈ (s.buf src).line)
    (h24 : cfg.strtol (textAfter 77 (s.buf src).line) = 24) :
    GCodes.ActOnGcode cfg env src s
      = (true, { cleared src s with
          fileBeingPrinted := s.fileToPrint, fileToPrint := -1 }) := by
  have hf : (cleared src s).fileToPrint = s.fileToPrint := by cases src <;> rfl
  rw [ActOnGcode_mcode cfg env src s hG hM, h24]
  unfold GCodes.actOnM
  rw [if_neg (by decide), if_neg (by decide), if_pos rfl, hf]

theorem dispatch_M25 {F : Type} [FloatOps F] (cfg : Config F) (env : Env F) (src : Source)
    (s : GCodes F) (hG : 71 ∉ (s.buf src).line) (hM : 77 ∈ (s.buf src).line)
    (h25 : cfg.strtol (textAfter 77 (s.buf src).line) = 25) :
    GCodes.ActOnGcode cfg env src s
      = (true, { cleared src s with
          fileToPrint := s.fileBeingPrinted, fileBeingPrinted := -1 }) := by
  have hf : (cleared src s).fileBeingPrinted = s.fileBeingPrinted := by cases src <;> rfl
  rw [ActOnGcode_mcode cfg env src s hG hM, h25]
  unfold GCodes.actOnM
  rw [if_neg (by decide), if_neg (by decide), if_neg (by decide), if_pos rfl, hf]

/-- C34 (amended): `M24` (a line with an `M` that reads 24 and no `G`) returns
true and moves the value of `fileToPrint` to `fileBeingPrinted`, leaving
`fileToPrint = -1`; `M25` returns true and moves the value of
`fileBeingPrinted` to `fileToPrint`, leaving `fileBeingPrinted = -1`. So the
handle held in the giving field is still held afterwards, and when
`fileBeingPrinted` was -1 before the `M24`, an `M25` dispatched on the two
fields the `M24` left restores both fields. -/
theorem C34_print_handoff {F : Type} [FloatOps F] (cfg : Config F) (env env2 : Env F)
    (src src2 : Source) (s t : GCodes F)
    (hG : 71 ∉ (s.buf src).line) (hM : 77 ∈ (s.buf src).line)
    (h24 : cfg.strtol (textAfter 77 (s.buf src).line) = 24)
    (hG2 : 71 ∉ (t.buf src2).line) (hM2 : 77 ∈ (t.buf src2).line)
    (h25 : cfg.strtol (textAfter 77 (t.buf src2).line) = 25) :
    ((GCodes.ActOnGcode cfg env src s).1 = true ∧
      (GCodes.ActOnGcode cfg env src s).2.fileBeingPrinted = s.fileToPrint ∧
      (GCodes.ActOnGcode cfg env src s).2.fileToPrint = -1) ∧
    ((GCodes.ActOnGcode cfg env2 src2 t).1 = true ∧
      (GCodes.ActOnGcode cfg env2 src2 t).2.fileToPrint = t.fileBeingPrinted ∧
      (GCodes.ActOnGcode cfg env2 src2 t).2.fileBeingPrinted = -1) ∧
    (s.fileBeingPrinted = -1 →
      t.fileToPrint = (GCodes.ActOnGcode cfg env src s).2.fileToPrint →
      t.fileBeingPrinted = (GCodes.ActOnGcode cfg env src s).2.fileBeingPrinted →
      (GCodes.ActOnGcode cfg env2 src2 t).2.fileToPrint = s.fileToPrint ∧
      (GCodes.ActOnGcode cfg env2 src2 t).2.fileBeingPrinted = s.fileBeingPrinted) := by
  rw [dispatch_M24 cfg env src s hG hM h24, dispatch_M25 cfg env2 src2 t hG2 hM2 h25]
  refine ⟨⟨rfl, rfl, rfl⟩, ⟨rfl, rfl, rfl⟩, ?_⟩
  intro h1 _ h3
  exact ⟨h3, h1.symm⟩

/-- C34, witness: the file with handle 3 queued after `Init`, then `M24`, then
`M25`: the handle goes to `fileBeingPrinted` and comes back to `fileToPrint`. -/
theorem C34_print_handoff_witness :
    (printStart.fileToPrint = 3 ∧ printStart.fileBeingPrinted = -1 ∧
      printPause.fileToPrint = -1 ∧ printPause.fileBeingPrinted = 3) ∧
    (((GCodes.ActOnGcode exampleConfig idleEnv Source.web printStart).1 = true ∧
      (GCodes.ActOnGcode exampleConfig idleEnv Source.web printStart).2.fileBeingPrinted
        = printStart.fileToPrint ∧
      (GCodes.ActOnGcode exampleConfig idleEnv Source.web printStart).2.fileToPrint = -1) ∧
    ((GCodes.ActOnGcode exampleConfig idleEnv Source.web printPause).1 = true ∧
      (GCodes.ActOnGcode exampleConfig idleEnv Source.web printPause).2.fileToPrint
        = printPause.fileBeingPrinted ∧
      (GCodes.ActOnGcode exampleConfig idleEnv Source.web printPause).2.fileBeingPrinted = -1) ∧
    (printStart.fileBeingPrinted = -1 →
      printPause.fileToPrint
        = (GCodes.ActOnGcode exampleConfig idleEnv Source.web printStart).2.fileToPrint →
      printPause.fileBeingPrinted
        = (GCodes.ActOnGcode exampleConfig idleEnv Source.web printStart).2.fileBeingPrinted →
      (GCodes.ActOnGcode exampleConfig idleEnv Source.web printPause).2.fileToPrint
        = printStart.fileToPrint ∧
      (GCodes.ActOnGcode exampleConfig idleEnv Source.web printPause).2.fileBeingPrinted
        = printStart.fileBeingPrinted)) :=
  ⟨⟨by decide!, by decide!, by decide!, by decide!⟩,
    C34_print_handoff exampleConfig idleEnv idleEnv Source.web Source.web printStart printPause
      (by decide!) (by decide!) (by decide!) (by decide!) (by decide!) (by decide!)⟩

/-- C34, counterexample: the open file with handle 3 is queued after `Init`.
After one `M24` it is held in `fileBeingPrinted`; after a second `M24` neither
field holds it (both are -1). Likewise after `M24` and two `M25`. -/
theorem C34_print_handoff_counterexample :
    (printQueued.fileToPrint = 3 ∧ printQueued.fileBeingPrinted = -1) ∧
    ((webFrom printQueued [77, 50, 52, 10]).fileToPrint = -1 ∧
      (webFrom printQueued [77, 50, 52, 10]).fileBeingPrinted = 3) ∧
    ((webFrom printQueued [77, 50, 52, 10, 77, 50, 52, 10]).fileToPrint = -1 ∧
      (webFrom printQueued [77, 50, 52, 10, 77, 50, 52, 10]).fileBeingPrinted = -1) ∧
    ((webFrom printQueued [77, 50, 52, 10, 77, 50, 53, 10]).fileToPrint = 3 ∧
      (webFrom printQueued [77, 50, 52, 10, 77, 50, 53, 10]).fileBeingPrinted = -1) ∧
    ((webFrom printQueued [77, 50, 52, 10, 77, 50, 53, 10, 77, 50, 53, 10]).fileToPrint = -1 ∧
      (webFrom printQueued
        [77, 50, 52, 10, 77, 50, 53, 10, 77, 50, 53, 10]).fileBeingPrinted = -1) := by
  decide!

/-! ## One command in flight -/

theorem oneInFlight_of_sameText {F : Type} {s t : GCodes F} (h : SameText s t)
    (hs : OneInFlight s) : OneInFlight t := by
  intro a b hab ha
  rw [(h a).2.2.2.1] at ha
  rw [(h b).2.2.2.1]
  exact hs a b hab ha

theorem oneInFlight_of_others {F : Type} (src : Source) (s : GCodes F)
    (h : OthersFinished src s) : OneInFlight s := by
  intro a b hab ha
  by_cases hb : b = src
  · have ha2 : a ≠ src := fun e => hab (e.trans hb.symm)
    rw [h a ha2] at ha
    exact absurd ha (by decide)
  · exact h b hb

theorem finished_setBuf_other {F : Type} [FloatOps F] (src b : Source) (gb : GCodeBuffer)
    (s : GCodes F) (hb : b ≠ src) : ((s.setBuf src gb).buf b) = s.buf b := by
  cases src <;> cases b <;> first | rfl | exact absurd rfl hb

theorem others_actAndStore {F : Type} [FloatOps F] (cfg : Config F) (env : Env F)
    (src : Source) (s : GCodes F) (h : OthersFinished src s) :
    OthersFinished src (GCodes.actAndStore cfg env src s) := by
  intro b hb
  have ht := (bounded_ActOnGcode cfg env src (GCodes.emit (Event.actOn src) s)).1.2 b
  unfold GCodes.actAndStore GCodes.SetFinished
  dsimp only
  rw [finished_setBuf_other src b _ _ hb, ht.2.2.2.1]
  exact h b hb

theorem others_putAndAct {F : Type} [FloatOps F] (cfg : Config F) (env : Env F)
    (src : Source) (c : Nat) (s : GCodes F) (h : OthersFinished src s) :
    OthersFinished src (GCodes.putAndAct cfg env src c s) := by
  have h1 : OthersFinished src
      ((((GCodes.emit (Event.put src c) s).setBuf src
        ((s.buf src).Put cfg.GCODE_LENGTH env.debug c).2.1).messages
        ((s.buf src).Put cfg.GCODE_LENGTH env.debug c).2.2)) := by
    intro b hb
    have e := finished_setBuf_other src b ((s.buf src).Put cfg.GCODE_LENGTH env.debug c).2.1
      (GCodes.emit (Event.put src c) s) hb
    have e2 : ((((GCodes.emit (Event.put src c) s).setBuf src
        ((s.buf src).Put cfg.GCODE_LENGTH env.debug c).2.1).messages
        ((s.buf src).Put cfg.GCODE_LENGTH env.debug c).2.2)).buf b
        = ((GCodes.emit (Event.put src c) s).setBuf src
        ((s.buf src).Put cfg.GCODE_LENGTH env.debug c).2.1).buf b := by
      cases b <;> rfl
    rw [e2, e]
    exact h b hb
  unfold GCodes.putAndAct
  dsimp only
  split_ifs
  · exact others_actAndStore cfg env src _ h1
  · exact h1

theorem others_emit {F : Type} [FloatOps F] (src : Source) (e : Event F) (s : GCodes F)
    (h : OthersFinished src s) : OthersFinished src (GCodes.emit e s) := by
  intro b hb
  have : (GCodes.emit e s).buf b = s.buf b := by cases b <;> rfl
  rw [this]
  exact h b hb

theorem others_of_all {F : Type} (src : Source) (s : GCodes F)
    (hw : s.webGCode.finished = true) (hs : s.serialGCode.finished = true)
    (hf : s.fileGCode.finished = true) : OthersFinished src s := by
  intro b _
  cases b
  · exact hw
  · exact hs
  · exact hf

theorem Spin_others {F : Type} [FloatOps F] (cfg : Config F) (env : Env F) (s : GCodes F)
    (h : OneInFlight s) :
    GCodes.Spin cfg env s = s ∨ ∃ src, OthersFinished src (GCodes.Spin cfg env s) := by
  unfold GCodes.Spin
  by_cases ha : (!s.active) = true
  · rw [if_pos ha]; exact Or.inl rfl
  rw [if_neg ha]
  by_cases hw : (!s.webGCode.finished) = true
  · rw [if_pos hw]
    have hw2 : (s.buf Source.web).finished = false := by simpa using hw
    exact Or.inr ⟨Source.web, others_actAndStore cfg env _ s
      (fun b hb => h Source.web b (Ne.symm hb) hw2)⟩
  rw [if_neg hw]
  have hw3 : s.webGCode.finished = true := by simpa using hw
  by_cases hs : (!s.serialGCode.finished) = true
  · rw [if_pos hs]
    have hs2 : (s.buf Source.serial).finished = false := by simpa using hs
    exact Or.inr ⟨Source.serial, others_actAndStore cfg env _ s
      (fun b hb => h Source.serial b (Ne.symm hb) hs2)⟩
  rw [if_neg hs]
  have hs3 : s.serialGCode.finished = true := by simpa using hs
  by_cases hf : (!s.fileGCode.finished) = true
  · rw [if_pos hf]
    have hf2 : (s.buf Source.file).finished = false := by simpa using hf
    exact Or.inr ⟨Source.file, others_actAndStore cfg env _ s
      (fun b hb => h Source.file b (Ne.symm hb) hf2)⟩
  rw [if_neg hf]
  have hf3 : s.fileGCode.finished = true := by simpa using hf
  cases env.web with
  | some c =>
    exact Or.inr ⟨Source.web, others_putAndAct cfg env _ c _
      (others_emit _ _ s (others_of_all _ s hw3 hs3 hf3))⟩
  | none =>
    cases env.serial with
    | some b =>
      exact Or.inr ⟨Source.serial, others_putAndAct cfg env _ b _
        (others_emit _ _ s (others_of_all _ s hw3 hs3 hf3))⟩
    | none =>
      dsimp only
      by_cases hp : s.fileBeingPrinted ≥ 0
      · rw [if_pos hp]
        cases env.fileRead with
        | some b =>
          exact Or.inr ⟨Source.file, others_putAndAct cfg env _ b _
            (others_emit _ _ s (others_of_all _ s hw3 hs3 hf3))⟩
        | none =>
          refine Or.inr ⟨Source.file, ?_⟩
          have h1 := others_putAndAct cfg env Source.file 10 _
            (others_emit Source.file (Event.fileRead s.fileBeingPrinted none) s
              (others_of_all _ s hw3 hs3 hf3))
          intro b hb
          exact h1 b hb
      · rw [if_neg hp]; exact Or.inl rfl

theorem oneInFlight_Spin {F : Type} [FloatOps F] (cfg : Config F) (env : Env F) (s : GCodes F)
    (h : OneInFlight s) : OneInFlight (GCodes.Spin cfg env s) := by
  rcases Spin_others cfg env s h with e | ⟨src, hsrc⟩
  · rw [e]; exact h
  · exact oneInFlight_of_others src _ hsrc

theorem oneInFlight_of_reachable {F : Type} [FloatOps F] (cfg : Config F) (s : GCodes F)
    (h : Reachable cfg s) : OneInFlight s := by
  induction h with
  | init env s =>
    intro a b _ ha
    have : ((GCodes.Init cfg env s).buf a).finished = true := by cases a <;> rfl
    rw [this] at ha
    exact absurd ha (by decide)
  | push env s _ ih => exact oneInFlight_of_sameText (bounded_Push cfg env s).1.2 ih
  | pop env s _ ih => exact oneInFlight_of_sameText (bounded_Pop cfg env s).1.2 ih
  | actOn env src s _ ih => exact oneInFlight_of_sameText (bounded_ActOnGcode cfg env src s).1.2 ih
  | spin env s _ ih => exact oneInFlight_Spin cfg env s ih
  | readMove m ce s _ ih =>
    unfold GCodes.ReadMove
    split_ifs
    · exact ih
    · exact ih
  | exit s _ ih => exact ih

theorem actAndStore_dispatch {F : Type} [FloatOps F] (cfg : Config F) (env : Env F)
    (src : Source) (s : GCodes F) :
    ∃ evs : List (Event F), (GCodes.actAndStore cfg env src s).log = s.log ++ evs ∧
      ∀ a, Event.actOn a ∈ evs → a = src := by
  obtain ⟨rest, h1, h2⟩ := actAndStore_log cfg env src s
  refine ⟨Event.actOn src :: rest, h1, ?_⟩
  intro a ha
  rcases List.mem_cons.mp ha with e | e
  · exact Event.actOn.inj e
  · exact absurd (h2 _ e) (by simp [Event.isHandlerEvent])

theorem putAndAct_dispatch {F : Type} [FloatOps F] (cfg : Config F) (env : Env F)
    (src : Source) (c : Nat) (s : GCodes F) :
    ∃ evs : List (Event F), (GCodes.putAndAct cfg env src c s).log = s.log ++ evs ∧
      ∀ a, Event.actOn a ∈ evs → a = src := by
  have hlog : ((((GCodes.emit (Event.put src c) s).setBuf src
        ((s.buf src).Put cfg.GCODE_LENGTH env.debug c).2.1).messages
        ((s.buf src).Put cfg.GCODE_LENGTH env.debug c).2.2)).log
      = s.log ++ Event.put src c
          :: (((s.buf src).Put cfg.GCODE_LENGTH env.debug c).2.2).map Event.message := by
    show ((GCodes.emit (Event.put src c) s).setBuf src _).log ++ _ = _
    rw [log_setBuf]
    simp [GCodes.emit]
  have hpre : ∀ a, Event.actOn a ∈ (Event.put src c
      :: (((s.buf src).Put cfg.GCODE_LENGTH env.debug c).2.2).map (Event.message (F := F))) →
      a = src := by
    intro a ha
    rcases List.mem_cons.mp ha with e | e
    · exact absurd e (by simp)
    · obtain ⟨m, _, hm⟩ := List.mem_map.mp e
      exact absurd hm (by simp)
  unfold GCodes.putAndAct
  dsimp only
  split_ifs
  · obtain ⟨evs, h1, h2⟩ := actAndStore_dispatch cfg env src
      ((((GCodes.emit (Event.put src c) s).setBuf src
        ((s.buf src).Put cfg.GCODE_LENGTH env.debug c).2.1).messages
        ((s.buf src).Put cfg.GCODE_LENGTH env.debug c).2.2))
    refine ⟨(Event.put src c
      :: (((s.buf src).Put cfg.GCODE_LENGTH env.debug c).2.2).map Event.message) ++ evs, ?_, ?_⟩
    · rw [h1, hlog, List.append_assoc]
    · intro a ha
      rcases List.mem_append.mp ha with e | e
      · exact hpre a e
      · exact h2 a e
  · exact ⟨_, hlog, hpre⟩

theorem read_then_put {F : Type} [FloatOps F] (cfg : Config F) (env : Env F)
    (src : Source) (c : Nat) (r : Event F) (hr : r.isActOn = false) (s : GCodes F) :
    ∃ evs : List (Event F),
      (GCodes.putAndAct cfg env src c (GCodes.emit r s)).log = s.log ++ evs ∧
      ∀ a, Event.actOn a ∈ evs → a = src := by
  obtain ⟨evs, h1, h2⟩ := putAndAct_dispatch cfg env src c (GCodes.emit r s)
  refine ⟨r :: evs, ?_, ?_⟩
  · rw [h1]
    simp [GCodes.emit]
  · intro a ha
    rcases List.mem_cons.mp ha with e | e
    · rw [← e] at hr
      exact absurd hr (by simp [Event.isActOn])
    · exact h2 a e

theorem Spin_in_flight {F : Type} [FloatOps F] (cfg : Config F) (env : Env F) (s : GCodes F)
    (h : OneInFlight s) :
    GCodes.Spin cfg env s = s ∨
    ∃ src, OthersFinished src s ∧ OthersFinished src (GCodes.Spin cfg env s) ∧
      ∃ evs : List (Event F),
      (GCodes.Spin cfg env s).log = s.log ++ evs ∧ ∀ a, Event.actOn a ∈ evs → a = src := by
  unfold GCodes.Spin
  by_cases ha : (!s.active) = true
  · rw [if_pos ha]; exact Or.inl rfl
  rw [if_neg ha]
  by_cases hw : (!s.webGCode.finished) = true
  · rw [if_pos hw]
    have hw2 : (s.buf Source.web).finished = false := by simpa using hw
    exact Or.inr ⟨Source.web, fun b hb => h Source.web b (Ne.symm hb) hw2,
      others_actAndStore cfg env _ s (fun b hb => h Source.web b (Ne.symm hb) hw2),
      actAndStore_dispatch cfg env _ s⟩
  rw [if_neg hw]
  have hw3 : s.webGCode.finished = true := by simpa using hw
  by_cases hs : (!s.serialGCode.finished) = true
  · rw [if_pos hs]
    have hs2 : (s.buf Source.serial).finished = false := by simpa using hs
    exact Or.inr ⟨Source.serial, fun b hb => h Source.serial b (Ne.symm hb) hs2,
      others_actAndStore cfg env _ s (fun b hb => h Source.serial b (Ne.symm hb) hs2),
      actAndStore_dispatch cfg env _ s⟩
  rw [if_neg hs]
  have hs3 : s.serialGCode.finished = true := by simpa using hs
  by_cases hf : (!s.fileGCode.finished) = true
  · rw [if_pos hf]
    have hf2 : (s.buf Source.file).finished = false := by simpa using hf
    exact Or.inr ⟨Source.file, fun b hb => h Source.file b (Ne.symm hb) hf2,
      others_actAndStore cfg env _ s (fun b hb => h Source.file b (Ne.symm hb) hf2),
      actAndStore_dispatch cfg env _ s⟩
  rw [if_neg hf]
  have hf3 : s.fileGCode.finished = true := by simpa using hf
  cases env.web with
  | some c =>
    exact Or.inr ⟨Source.web, others_of_all _ s hw3 hs3 hf3,
      others_putAndAct cfg env _ c _ (others_emit _ _ s (others_of_all _ s hw3 hs3 hf3)),
      read_then_put cfg env Source.web c (Event.webRead c) rfl s⟩
  | none =>
    cases env.serial with
    | some b =>
      exact Or.inr ⟨Source.serial, others_of_all _ s hw3 hs3 hf3,
        others_putAndAct cfg env _ b _ (others_emit _ _ s (others_of_all _ s hw3 hs3 hf3)),
        read_then_put cfg env Source.serial b (Event.serialRead b) rfl s⟩
    | none =>
      dsimp only
      by_cases hp : s.fileBeingPrinted ≥ 0
      · rw [if_pos hp]
        cases env.fileRead with
        | some b =>
          exact Or.inr ⟨Source.file, others_of_all _ s hw3 hs3 hf3,
            others_putAndAct cfg env _ b _ (others_emit _ _ s (others_of_all _ s hw3 hs3 hf3)),
            read_then_put cfg env Source.file b
              (Event.fileRead s.fileBeingPrinted (some b)) rfl s⟩
        | none =>
          have hO := others_putAndAct cfg env Source.file 10 _
            (others_emit Source.file (Event.fileRead s.fileBeingPrinted none) s
              (others_of_all _ s hw3 hs3 hf3))
          refine Or.inr ⟨Source.file, others_of_all _ s hw3 hs3 hf3,
            fun b hb => hO b hb, ?_⟩
          obtain ⟨evs, h1, h2⟩ := read_then_put cfg env Source.file 10
            (Event.fileRead s.fileBeingPrinted none) rfl s
          refine ⟨evs ++ [Event.fileClose (GCodes.putAndAct cfg env Source.file 10
            (GCodes.emit (Event.fileRead s.fileBeingPrinted none) s)).fileBeingPrinted], ?_, ?_⟩
          · show (GCodes.putAndAct cfg env Source.file 10
              (GCodes.emit (Event.fileRead s.fileBeingPrinted none) s)).log ++ _ = _
            rw [h1, List.append_assoc]
          · intro a ha
            rcases List.mem_append.mp ha with e | e
            · exact h2 a e
            · simp at e
      · rw [if_neg hp]; exact Or.inl rfl


/-- C35: in every state reachable from `Init` (by calls of `Spin`, and also by
direct calls of `ActOnGcode`, `Push`, `Pop`, `ReadMove` and `Exit`), with any
answers of the sources and of `Move`, at most one of the three command buffers
is unfinished; and when a call of `Spin` from such a state dispatches a command
of a buffer, every other buffer is finished before and after the call, so that
the only command driving the homing flags, the dwell timer and the operation
stack is that one. -/
theorem C35_one_command_in_flight {F : Type} [FloatOps F] (cfg : Config F) (s : GCodes F)
    (h : Reachable cfg s) :
    (unfinished s).length ≤ 1 ∧
    (∀ a b : Source, a ≠ b → (s.buf a).finished = false → (s.buf b).finished = true) ∧
    (∀ (env : Env F) (src : Source),
      Event.actOn src ∈ newEvents s (GCodes.Spin cfg env s) →
      ∀ b : Source, b ≠ src →
        (s.buf b).finished = true ∧ ((GCodes.Spin cfg env s).buf b).finished = true) := by
  have hO := oneInFlight_of_reachable cfg s h
  refine ⟨?_, hO, ?_⟩
  · have h1 := hO Source.web Source.serial (by decide)
    have h2 := hO Source.web Source.file (by decide)
    have h3 := hO Source.serial Source.file (by decide)
    unfold unfinished
    simp only [GCodes.buf] at h1 h2 h3
    cases hw : s.webGCode.finished <;> cases hs : s.serialGCode.finished <;>
      cases hf : s.fileGCode.finished <;>
      first
        | (simp [List.filter, GCodes.buf, hw, hs, hf]; done)
        | (simp [hw, hs, hf] at h1 h2 h3)
  · intro env src hsrc b hb
    rcases Spin_in_flight cfg env s hO with e | ⟨src0, o1, o2, evs, hl, ha⟩
    · rw [e] at hsrc
      simp [newEvents] at hsrc
    · rw [newEvents_of_log s _ _ hl] at hsrc
      have := ha src hsrc
      subst this
      exact ⟨o1 b hb, o2 b hb⟩

/-- C35, witness: the state after the line `G28`, in which the web buffer is
the one unfinished buffer. -/
theorem C35_one_command_in_flight_witness :
    unfinished (afterWeb [71, 50, 56, 10]) = [Source.web] ∧
    ((unfinished (afterWeb [71, 50, 56, 10])).length ≤ 1 ∧
    (∀ a b : Source, a ≠ b → ((afterWeb [71, 50, 56, 10]).buf a).finished = false →
      ((afterWeb [71, 50, 56, 10]).buf b).finished = true) ∧
    (∀ (env : Env Rat) (src : Source),
      Event.actOn src ∈ newEvents (afterWeb [71, 50, 56, 10])
        (GCodes.Spin exampleConfig env (afterWeb [71, 50, 56, 10])) →
      ∀ b : Source, b ≠ src →
        ((afterWeb [71, 50, 56, 10]).buf b).finished = true ∧
        ((GCodes.Spin exampleConfig env (afterWeb [71, 50, 56, 10])).buf b).finished = true)) :=
  ⟨by decide!, C35_one_command_in_flight exampleConfig (afterWeb [71, 50, 56, 10])
    (reachable_afterWeb _)⟩

/-! ## The last branch of `DoHome` -/

theorem homeRequest_requests {F : Type} [FloatOps F] (src : Source) (w : GCodes F) :
    GCodes.NoHome (GCodes.homeRequest src w) = false := by
  unfold GCodes.homeRequest
  by_cases h1 : GCodes.NoHome w = true
  · rw [if_pos h1]
    dsimp only
    split_ifs with h2
    · rfl
    · simpa using h2
  · rw [if_neg h1]
    simpa using h1

theorem firstRequested_of_request {F : Type} (u : GCodes F) (h : GCodes.NoHome u = false) :
    ∃ a, firstRequested u = some a := by
  unfold GCodes.NoHome at h
  unfold firstRequested
  cases hx : u.homeX
  · cases hy : u.homeY
    · cases hz : u.homeZ
      · simp [hx, hy, hz] at h
      · exact ⟨Z_AXIS, by simp⟩
    · exact ⟨Y_AXIS, by simp⟩
  · exact ⟨X_AXIS, by simp⟩

theorem DoHome_block {F : Type} [FloatOps F] (cfg : Config F) (env : Env F) (u : GCodes F)
    (a : Nat) (ha : firstRequested u = some a) :
    GCodes.DoHome cfg env u = homeAxisBlock cfg env a u := by
  unfold GCodes.DoHome homeAxisBlock
  rcases firstRequested_cases u a ha with ⟨rfl, hx⟩ | ⟨rfl, hx, hy⟩ | ⟨rfl, hx, hy, hz⟩
  · rw [if_pos hx, if_pos rfl]
  · rw [if_neg (by simp [hx]), if_pos hy, if_neg (by decide), if_pos rfl]
  · rw [if_neg (by simp [hx]), if_neg (by simp [hy]), if_pos hz, if_neg (by decide),
      if_neg (by decide)]

theorem doHomeAxis_true {F : Type} [FloatOps F] (cfg : Config F) (env : Env F) (axis : Nat)
    (queued : Bool) (clear setQueued : GCodes F → GCodes F) (s : GCodes F)
    (h : (GCodes.doHomeAxis cfg env axis queued clear setQueued s).1 = true) :
    queued = true ∧ (GCodes.Pop env s).1 = true ∧
    GCodes.NoHome (GCodes.doHomeAxis cfg env axis queued clear setQueued s).2 = true := by
  unfold GCodes.doHomeAxis at h ⊢
  cases queued
  · cases hp : (GCodes.Push cfg env s).1 <;> simp [hp] at h
  · cases hp : (GCodes.Pop env s).1
    · simp [hp] at h
    · simp only [hp, Bool.not_true, Bool.false_eq_true, if_false, if_true] at h ⊢
      exact ⟨trivial, trivial, h⟩

theorem homeAxisBlock_true {F : Type} [FloatOps F] (cfg : Config F) (env : Env F) (a : Nat)
    (u : GCodes F) (ha : firstRequested u = some a)
    (h : (homeAxisBlock cfg env a u).1 = true) :
    queuedAt u a = true ∧ (GCodes.Pop env u).1 = true ∧
    GCodes.NoHome (homeAxisBlock cfg env a u).2 = true := by
  unfold homeAxisBlock at h ⊢
  rcases firstRequested_cases u a ha with ⟨rfl, _⟩ | ⟨rfl, _, _⟩ | ⟨rfl, _, _, _⟩
  · rw [if_pos rfl] at h ⊢
    obtain ⟨q, p, n⟩ := doHomeAxis_true cfg env _ _ _ _ u h
    exact ⟨by simpa [queuedAt] using q, p, n⟩
  · rw [if_neg (by decide), if_pos rfl] at h ⊢
    obtain ⟨q, p, n⟩ := doHomeAxis_true cfg env _ _ _ _ u h
    exact ⟨by simpa [queuedAt, X_AXIS, Y_AXIS] using q, p, n⟩
  · rw [if_neg (by decide), if_neg (by decide)] at h ⊢
    obtain ⟨q, p, n⟩ := doHomeAxis_true cfg env _ _ _ _ u h
    exact ⟨by simpa [queuedAt, X_AXIS, Y_AXIS, Z_AXIS] using q, p, n⟩

theorem flags_clear {F : Type} (t : GCodes F) (hn : GCodes.NoHome t = true)
    (hi : HomingInv t) :
    homeFlags t = ((false, false, false), (false, false, false)) := by
  unfold HomingInv homeFlags at hi
  unfold GCodes.NoHome at hn
  unfold homeFlags
  revert hi hn
  cases t.homeX <;> cases t.homeY <;> cases t.homeZ <;> cases t.homeXQueued <;>
    cases t.homeYQueued <;> cases t.homeZQueued <;> decide

/-! ## The `Pop` that ends a homing move -/

theorem anyQueued_flags {F : Type} (t : GCodes F) :
    anyQueued t = ((homeFlags t).2.1 || (homeFlags t).2.2.1 || (homeFlags t).2.2.2) := rfl

theorem noHome_flags {F : Type} (t : GCodes F) :
    GCodes.NoHome t = !((homeFlags t).1.1 || (homeFlags t).1.2.1 || (homeFlags t).1.2.2) := rfl

theorem quiet_of_idle {F : Type} (t : GCodes F) (hi : HomingInv t)
    (hn : GCodes.NoHome t = true) : anyQueued t = false := by
  rw [anyQueued_flags, flags_clear t hn hi]
  rfl

theorem discipline_home {F : Type} [FloatOps F] (cfg : Config F) (env : Env F) (src : Source)
    (w : GCodes F) (hc : HomeCommand cfg src w) (hi : HomingInv w) (hs : StackInv cfg w)
    (hS : 0 < (cfg.STACK : Int)) (hq : anyQueued w = true → 0 < w.stackPointer) :
    ((GCodes.ActOnGcode cfg env src w).1 = true →
      GCodes.NoHome (GCodes.ActOnGcode cfg env src w).2 = true) ∧
    (anyQueued (GCodes.ActOnGcode cfg env src w).2 = true →
      0 < (GCodes.ActOnGcode cfg env src w).2.stackPointer) := by
  obtain ⟨hA, _, _, d4, d5, _⟩ := home_dispatch cfg env src w hc
  have hn : GCodes.NoHome (homeRequested cfg src w) = false := homeRequest_requests src _
  have hiv : HomingInv (homeRequested cfg src w) :=
    homingInv_homeRequest src _
      (homingInv_of_same ((home_Seen src 71 w).htrans (home_GetIValue cfg src _)) hi)
  have hqv : anyQueued (homeRequested cfg src w) = anyQueued w := by
    rw [anyQueued_flags, anyQueued_flags, d5]
  rw [hA]
  generalize homeRequested cfg src w = v at hn hiv hqv d4
  constructor
  · intro ht
    obtain ⟨a, ha⟩ := firstRequested_of_request v hn
    have hb := DoHome_block cfg env v a ha
    rw [hb] at ht ⊢
    exact (homeAxisBlock_true cfg env a v ha ht).2.2
  · have hsv : 0 ≤ v.stackPointer := by rw [d4]; exact hs.1
    have hD := DoHome_view cfg env v
    generalize GCodes.DoHome cfg env v = r at hD
    unfold HomingInv homeFlags at hiv
    intro hr
    rw [anyQueued_flags] at hr
    unfold SameView Pushed Popped at hD
    rcases hD with ⟨_, hf, _, e, _⟩ | ⟨_, _, _, hf, P⟩ | ⟨hx, hxq, _, hf, _⟩ |
      ⟨_, _, _, _, hf, P⟩ | ⟨hx, hy, hyq, _, hf, _⟩ | ⟨_, _, _, _, _, hf, P⟩ |
      ⟨hx, hy, hz, hzq, _, hf, _⟩ | ⟨_, _, _, _, hf, _, e, _⟩
    · rw [hf, ← anyQueued_flags, hqv] at hr
      rw [e, d4]
      exact hq hr
    · rcases P.2 with ⟨_, p, _⟩ | ⟨p1, p, _⟩ <;> omega
    · rw [hf] at hr
      rw [hx, hxq] at hiv
      exfalso
      revert hiv hr
      cases v.homeY <;> cases v.homeZ <;> cases v.homeYQueued <;> cases v.homeZQueued <;>
        decide
    · rcases P.2 with ⟨_, p, _⟩ | ⟨p1, p, _⟩ <;> omega
    · rw [hf] at hr
      rw [hx, hy, hyq] at hiv
      exfalso
      revert hiv hr
      cases v.homeZ <;> cases v.homeXQueued <;> cases v.homeZQueued <;> decide
    · rcases P.2 with ⟨_, p, _⟩ | ⟨p1, p, _⟩ <;> omega
    · rw [hf] at hr
      rw [hx, hy, hz, hzq] at hiv
      exfalso
      revert hiv hr
      cases v.homeXQueued <;> cases v.homeYQueued <;> decide
    · rw [hf, ← anyQueued_flags, hqv] at hr
      rw [e, d4]
      exact hq hr

theorem home_actOnG_other {F : Type} [FloatOps F] (cfg : Config F) (env : Env F)
    (src : Source) (code : Int) (s : GCodes F) (hcode : code ≠ 28) :
    SameHome s (GCodes.actOnG cfg env src code s).2 := by
  unfold GCodes.actOnG
  split_ifs
  · exact home_SetUpMove cfg env src s
  · exact home_DoDwell cfg env src s
  · exact home_SetOffsets cfg src s
  · exact home_update s _ rfl
  · exact home_update s _ rfl
  · exact home_update s _ rfl
  · exact home_update s _ rfl
  · exact home_emit _ s
  · exact home_invalidCode _ src s

theorem home_ActOnGcode_other {F : Type} [FloatOps F] (cfg : Config F) (env : Env F)
    (src : Source) (s : GCodes F) (hc : ¬ HomeCommand cfg src s) :
    SameHome s (GCodes.ActOnGcode cfg env src s).2 := by
  by_cases hG : 71 ∈ (s.buf src).line
  · have hcode : cfg.strtol (textAfter 71 (s.buf src).line) ≠ 28 := fun e => hc ⟨hG, e⟩
    rw [ActOnGcode_gcode cfg env src s hG]
    exact (home_setBuf src _ s).htrans (home_actOnG_other cfg env src _ _ hcode)
  · have hM := home_Seen src 77 (GCodes.Seen src 71 s).2
    have hT := home_Seen src 84 (GCodes.Seen src 77 (GCodes.Seen src 71 s).2).2
    have hGs := home_Seen src 71 s
    have hno : ¬ (GCodes.Seen src 71 s).1 = true := fun e => hG ((Seen_fst src 71 s).mp e)
    unfold GCodes.ActOnGcode
    dsimp only
    rw [if_neg hno]
    split_ifs
    · exact ((hGs.htrans hM).htrans (home_GetIValue cfg src _)).htrans
        (home_actOnM cfg env src _ _)
    · exact (((hGs.htrans hM).htrans hT).htrans (home_GetIValue cfg src _)).htrans
        (home_actOnT src _ _)
    · exact (hGs.htrans hM).htrans hT

theorem noHome_of_same {F : Type} {s t : GCodes F} (h : SameHome s t) :
    GCodes.NoHome t = GCodes.NoHome s := by
  rw [noHome_flags, noHome_flags, h]

theorem anyQueued_of_same {F : Type} {s t : GCodes F} (h : SameHome s t) :
    anyQueued t = anyQueued s := by
  rw [anyQueued_flags, anyQueued_flags, h]

theorem homeCommand_of_buf {F : Type} (cfg : Config F) (src : Source) {s t : GCodes F}
    (h : (t.buf src).gcodeBuffer = (s.buf src).gcodeBuffer) (hc : HomeCommand cfg src s) :
    HomeCommand cfg src t := by
  unfold HomeCommand GCodeBuffer.line at hc ⊢
  rw [h]
  exact hc

theorem inFlight_of_idle {F : Type} (cfg : Config F) (t : GCodes F) (hi : HomingInv t)
    (hn : GCodes.NoHome t = true) : HomingInFlight cfg t := by
  constructor
  · intro h
    rw [hn] at h
    exact absurd h (by decide)
  · intro h
    rw [quiet_of_idle t hi hn] at h
    exact absurd h (by decide)

theorem discipline_actAndStore {F : Type} [FloatOps F] (cfg : Config F) (env : Env F)
    (src : Source) (s : GCodes F) (hS : 0 < (cfg.STACK : Int)) (hi : HomingInv s)
    (hs : StackInv cfg s) (hO : OthersFinished src s)
    (hq : anyQueued s = true → 0 < s.stackPointer)
    (hh : GCodes.NoHome s = false → HomeCommand cfg src s) :
    Discipline cfg (GCodes.actAndStore cfg env src s) := by
  refine ⟨homingInv_actAndStore cfg env src s hi, stackInv_actAndStore cfg env src s hs,
    oneInFlight_of_others src _ (others_actAndStore cfg env src s hO), ?_⟩
  have hit := homingInv_actAndStore cfg env src s hi
  have hiw : HomingInv (GCodes.emit (Event.actOn src) s) := hi
  have hsw : StackInv cfg (GCodes.emit (Event.actOn src) s) := hs
  have hbw : (GCodes.emit (Event.actOn src) s).buf src = s.buf src := by cases src <;> rfl
  have hfl : SameHome (GCodes.ActOnGcode cfg env src (GCodes.emit (Event.actOn src) s)).2
      (GCodes.actAndStore cfg env src s) := home_setBuf src _ _
  have hsp : (GCodes.actAndStore cfg env src s).stackPointer
      = (GCodes.ActOnGcode cfg env src (GCodes.emit (Event.actOn src) s)).2.stackPointer :=
    stackPointer_setBuf src _ _
  have hfin : ((GCodes.actAndStore cfg env src s).buf src).finished
      = (GCodes.ActOnGcode cfg env src (GCodes.emit (Event.actOn src) s)).1 := by
    unfold GCodes.actAndStore GCodes.SetFinished
    dsimp only
    rw [buf_setBuf]
  have hbuf : ((GCodes.actAndStore cfg env src s).buf src).gcodeBuffer
      = ((GCodes.ActOnGcode cfg env src (GCodes.emit (Event.actOn src) s)).2.buf
          src).gcodeBuffer := by
    unfold GCodes.actAndStore GCodes.SetFinished
    dsimp only
    rw [buf_setBuf]
  by_cases hc : HomeCommand cfg src s
  · have hcw : HomeCommand cfg src (GCodes.emit (Event.actOn src) s) :=
      homeCommand_of_buf cfg src (by rw [hbw]) hc
    obtain ⟨d1, d2⟩ := discipline_home cfg env src _ hcw hiw hsw hS hq
    have hcr := homeCommand_ActOnGcode cfg env src _ hcw
    constructor
    · intro hn
      rw [noHome_of_same hfl] at hn
      refine ⟨src, ?_, homeCommand_of_buf cfg src hbuf hcr⟩
      rw [hfin]
      cases hr : (GCodes.ActOnGcode cfg env src (GCodes.emit (Event.actOn src) s)).1
      · rfl
      · rw [d1 hr] at hn
        exact absurd hn (by decide)
    · intro ha
      rw [anyQueued_of_same hfl] at ha
      rw [hsp]
      exact d2 ha
  · have hn : GCodes.NoHome s = true := by
      cases h : GCodes.NoHome s
      · exact absurd (hh h) hc
      · rfl
    have hcw : ¬ HomeCommand cfg src (GCodes.emit (Event.actOn src) s) :=
      fun h => hc (homeCommand_of_buf cfg src (by rw [hbw]) h)
    have hsame := (home_ActOnGcode_other cfg env src _ hcw).htrans hfl
    apply inFlight_of_idle cfg _ hit
    rw [noHome_of_same hsame]
    exact hn

theorem discipline_putAndAct {F : Type} [FloatOps F] (cfg : Config F) (env : Env F)
    (src : Source) (c : Nat) (s : GCodes F) (hS : 0 < (cfg.STACK : Int)) (hi : HomingInv s)
    (hs : StackInv cfg s) (hO : OthersFinished src s) (hn : GCodes.NoHome s = true) :
    Discipline cfg (GCodes.putAndAct cfg env src c s) := by
  have hsame : SameHome s
      ((((GCodes.emit (Event.put src c) s).setBuf src
        ((s.buf src).Put cfg.GCODE_LENGTH env.debug c).2.1).messages
        ((s.buf src).Put cfg.GCODE_LENGTH env.debug c).2.2)) :=
    home_setBuf src _ (GCodes.emit (Event.put src c) s)
  have hi1 := homingInv_of_same hsame hi
  have hn1 := (noHome_of_same hsame).trans hn
  have hs1 : StackInv cfg
      ((((GCodes.emit (Event.put src c) s).setBuf src
        ((s.buf src).Put cfg.GCODE_LENGTH env.debug c).2.1).messages
        ((s.buf src).Put cfg.GCODE_LENGTH env.debug c).2.2)) := by
    unfold StackInv at hs ⊢
    show 0 ≤ ((GCodes.emit (Event.put src c) s).setBuf src _).stackPointer ∧
      ((GCodes.emit (Event.put src c) s).setBuf src _).stackPointer ≤ (cfg.STACK : Int)
    rw [stackPointer_setBuf]
    exact hs
  have hO1 : OthersFinished src
      ((((GCodes.emit (Event.put src c) s).setBuf src
        ((s.buf src).Put cfg.GCODE_LENGTH env.debug c).2.1).messages
        ((s.buf src).Put cfg.GCODE_LENGTH env.debug c).2.2)) := by
    intro b hb
    have e := finished_setBuf_other src b ((s.buf src).Put cfg.GCODE_LENGTH env.debug c).2.1
      (GCodes.emit (Event.put src c) s) hb
    have e2 : ((((GCodes.emit (Event.put src c) s).setBuf src
        ((s.buf src).Put cfg.GCODE_LENGTH env.debug c).2.1).messages
        ((s.buf src).Put cfg.GCODE_LENGTH env.debug c).2.2)).buf b
        = ((GCodes.emit (Event.put src c) s).setBuf src
        ((s.buf src).Put cfg.GCODE_LENGTH env.debug c).2.1).buf b := by
      cases b <;> rfl
    rw [e2, e]
    exact hO b hb
  unfold GCodes.putAndAct
  dsimp only
  split_ifs
  · refine discipline_actAndStore cfg env src _ hS hi1 hs1 hO1 ?_ ?_
    · intro h
      rw [quiet_of_idle _ hi1 hn1] at h
      exact absurd h (by decide)
    · intro h
      rw [hn1] at h
      exact absurd h (by decide)
  · exact ⟨hi1, hs1, oneInFlight_of_others src _ hO1, inFlight_of_idle cfg _ hi1 hn1⟩

theorem discipline_Spin {F : Type} [FloatOps F] (cfg : Config F) (env : Env F) (s : GCodes F)
    (hS : 0 < (cfg.STACK : Int)) (hD : Discipline cfg s) :
    Discipline cfg (GCodes.Spin cfg env s) := by
  obtain ⟨hi, hs, hO, hf1, hf2⟩ := hD
  have hone : ∀ src0, (s.buf src0).finished = false →
      GCodes.NoHome s = false → HomeCommand cfg src0 s := by
    intro src0 h0 hn
    obtain ⟨src, u, hc⟩ := hf1 hn
    by_cases e : src = src0
    · rw [← e]; exact hc
    · have := hO src src0 e u
      rw [this] at h0
      exact absurd h0 (by decide)
  unfold GCodes.Spin
  by_cases ha : (!s.active) = true
  · rw [if_pos ha]; exact ⟨hi, hs, hO, hf1, hf2⟩
  rw [if_neg ha]
  by_cases hw : (!s.webGCode.finished) = true
  · rw [if_pos hw]
    have hw2 : (s.buf Source.web).finished = false := by simpa using hw
    exact discipline_actAndStore cfg env _ s hS hi hs
      (fun b hb => hO Source.web b (Ne.symm hb) hw2) hf2 (hone _ hw2)
  rw [if_neg hw]
  have hw3 : s.webGCode.finished = true := by simpa using hw
  by_cases hsr : (!s.serialGCode.finished) = true
  · rw [if_pos hsr]
    have hs2 : (s.buf Source.serial).finished = false := by simpa using hsr
    exact discipline_actAndStore cfg env _ s hS hi hs
      (fun b hb => hO Source.serial b (Ne.symm hb) hs2) hf2 (hone _ hs2)
  rw [if_neg hsr]
  have hs3 : s.serialGCode.finished = true := by simpa using hsr
  by_cases hf : (!s.fileGCode.finished) = true
  · rw [if_pos hf]
    have hfi2 : (s.buf Source.file).finished = false := by simpa using hf
    exact discipline_actAndStore cfg env _ s hS hi hs
      (fun b hb => hO Source.file b (Ne.symm hb) hfi2) hf2 (hone _ hfi2)
  rw [if_neg hf]
  have hf3 : s.fileGCode.finished = true := by simpa using hf
  have hn : GCodes.NoHome s = true := by
    cases h : GCodes.NoHome s
    · obtain ⟨src, u, _⟩ := hf1 h
      cases src
      · rw [show (s.buf Source.web).finished = s.webGCode.finished from rfl, hw3] at u
        exact absurd u (by decide)
      · rw [show (s.buf Source.serial).finished = s.serialGCode.finished from rfl, hs3] at u
        exact absurd u (by decide)
      · rw [show (s.buf Source.file).finished = s.fileGCode.finished from rfl, hf3] at u
        exact absurd u (by decide)
    · rfl
  have step : ∀ (src : Source) (c : Nat) (r : Event F),
      Discipline cfg (GCodes.putAndAct cfg env src c (GCodes.emit r s)) := by
    intro src c r
    exact discipline_putAndAct cfg env src c (GCodes.emit r s) hS hi hs
      (others_emit src r s (others_of_all src s hw3 hs3 hf3)) hn
  cases env.web with
  | some c => exact step _ c _
  | none =>
    cases env.serial with
    | some b => exact step _ b _
    | none =>
      dsimp only
      by_cases hp : s.fileBeingPrinted ≥ 0
      · rw [if_pos hp]
        cases env.fileRead with
        | some b => exact step _ b _
        | none =>
          obtain ⟨k1, k2, k3, k4, k5⟩ := step Source.file 10
            (Event.fileRead s.fileBeingPrinted none)
          refine ⟨k1, k2, ?_, ?_, k5⟩
          · intro a b hab hfa
            exact k3 a b hab hfa
          · intro h0
            obtain ⟨src, u, hc⟩ := k4 h0
            exact ⟨src, u, hc⟩
      · rw [if_neg hp]; exact ⟨hi, hs, hO, hf1, hf2⟩

theorem discipline_of_spinReachable {F : Type} [FloatOps F] (cfg : Config F) (s : GCodes F)
    (hS : 0 < (cfg.STACK : Int)) (h : SpinReachable cfg s) : Discipline cfg s := by
  induction h with
  | init env s =>
    have hi : HomingInv (GCodes.Init cfg env s) := rfl
    refine ⟨hi, ⟨le_refl _, Int.ofNat_nonneg _⟩, ?_, inFlight_of_idle cfg _ hi rfl⟩
    intro a b _ ha
    have : ((GCodes.Init cfg env s).buf a).finished = true := by cases a <;> rfl
    rw [this] at ha
    exact absurd ha (by decide)
  | spin env s _ ih => exact discipline_Spin cfg env s hS ih
  | readMove m ce s _ ih =>
    unfold GCodes.ReadMove
    split_ifs
    · exact ih
    · obtain ⟨k1, k2, k3, k4, k5⟩ := ih
      refine ⟨k1, k2, ?_, ?_, k5⟩
      · intro a b hab hfa
        exact k3 a b hab hfa
      · intro h0
        obtain ⟨src, u, hc⟩ := k4 h0
        exact ⟨src, u, hc⟩

theorem spinReachable_reachable {F : Type} [FloatOps F] (cfg : Config F) (s : GCodes F)
    (h : SpinReachable cfg s) : Reachable cfg s := by
  induction h with
  | init env s => exact Reachable.init env s
  | spin env s _ ih => exact Reachable.spin env s ih
  | readMove m ce s _ ih => exact Reachable.readMove m ce s ih

theorem spinReachable_afterWeb (bytes : List Nat) :
    SpinReachable exampleConfig (afterWeb bytes) := by
  have h : ∀ (l : List Nat) (s : GCodes Rat), SpinReachable exampleConfig s →
      SpinReachable exampleConfig
        (l.foldl (fun s c => GCodes.Spin exampleConfig (webEnv c) s) s) := by
    intro l
    induction l with
    | nil => intro s hs; exact hs
    | cons c cs ih => intro s hs; exact ih _ (SpinReachable.spin (webEnv c) s hs)
  exact h bytes initial (SpinReachable.init idleEnv newGCodes)

theorem stackPointer_emit {F : Type} [FloatOps F] (e : Event F) (s : GCodes F) :
    (GCodes.emit e s).stackPointer = s.stackPointer := rfl

theorem homeRequested_cleared {F : Type} [FloatOps F] (cfg : Config F) (src : Source)
    (s : GCodes F) (hG : 71 ∈ (s.buf src).line) :
    homeRequested cfg src s = GCodes.homeRequest src (cleared src s) := by
  unfold homeRequested
  rw [(read_code cfg src 71 s hG).2]

/-- C36: `s` is a state on which `Spin` calls `ActOnGcode`, coming from the
state `s0` reachable from `Init` by `Spin` and `ReadMove`: it has the homing
flags and the stack depth of `s0` (before the dispatch `Spin` only takes a
byte, feeds it to the buffer and records its calls). When `ActOnGcode`
dispatches G28 (a line with a `G` that reads 28) on `s`, `DoHome` is entered,
after the request part of `case 28`, with at least one of `homeX`, `homeY`,
`homeZ` set: it executes the block of the first requested axis and not its last
branch, which clears `moveAvailable` and `checkEndStops`. And when the dispatch
returns true, the first requested axis was Queued, `Pop` returned true, and
afterwards no axis is requested or Queued; with a stack that can hold a frame
(`STACK > 0`) that `Pop` found the stack non-empty and took a frame from it. -/
theorem C36_last_branch_unreachable {F : Type} [FloatOps F] (cfg : Config F) (env : Env F)
    (src : Source) (s s0 : GCodes F) (hr : SpinReachable cfg s0)
    (hflags : homeFlags s = homeFlags s0) (hsp : s.stackPointer = s0.stackPointer)
    (hG : 71 ∈ (s.buf src).line) (h28 : cfg.strtol (textAfter 71 (s.buf src).line) = 28) :
    GCodes.ActOnGcode cfg env src s
      = GCodes.DoHome cfg env (GCodes.homeRequest src (cleared src s)) ∧
    ((GCodes.homeRequest src (cleared src s)).homeX = true ∨
      (GCodes.homeRequest src (cleared src s)).homeY = true ∨
      (GCodes.homeRequest src (cleared src s)).homeZ = true) ∧
    (∃ a, firstRequested (GCodes.homeRequest src (cleared src s)) = some a ∧
      GCodes.DoHome cfg env (GCodes.homeRequest src (cleared src s))
        = homeAxisBlock cfg env a (GCodes.homeRequest src (cleared src s))) ∧
    ((GCodes.ActOnGcode cfg env src s).1 = true →
      (∃ a, firstRequested (GCodes.homeRequest src (cleared src s)) = some a ∧
        queuedAt (GCodes.homeRequest src (cleared src s)) a = true) ∧
      (GCodes.Pop env (GCodes.homeRequest src (cleared src s))).1 = true ∧
      homeFlags (GCodes.ActOnGcode cfg env src s).2
        = ((false, false, false), (false, false, false))) ∧
    (0 < (cfg.STACK : Int) → (GCodes.ActOnGcode cfg env src s).1 = true →
      0 < (GCodes.homeRequest src (cleared src s)).stackPointer ∧
      (GCodes.ActOnGcode cfg env src s).2.stackPointer = s.stackPointer - 1) := by
  have e : GCodes.ActOnGcode cfg env src s
      = GCodes.DoHome cfg env (GCodes.homeRequest src (cleared src s)) := by
    rw [ActOnGcode_gcode cfg env src s hG, h28, actOnG_28]
  have hn := homeRequest_requests src (cleared src s)
  obtain ⟨a, ha⟩ := firstRequested_of_request _ hn
  have hb := DoHome_block cfg env _ a ha
  have his : HomingInv s := by
    have := homingInv_of_reachable cfg s0 (spinReachable_reachable cfg s0 hr)
    unfold HomingInv at this ⊢
    rw [hflags]
    exact this
  have hinv : HomingInv (GCodes.homeRequest src (cleared src s)) :=
    homingInv_homeRequest src _ (homingInv_of_same (home_setBuf src _ s) his)
  obtain ⟨_, _, _, d4, d5, _⟩ := home_dispatch cfg env src s ⟨hG, h28⟩
  rw [homeRequested_cleared cfg src s hG] at d4 d5
  refine ⟨e, ?_, ⟨a, ha, hb⟩, ?_, ?_⟩
  · unfold GCodes.NoHome at hn
    revert hn
    cases (GCodes.homeRequest src (cleared src s)).homeX <;>
      cases (GCodes.homeRequest src (cleared src s)).homeY <;>
      cases (GCodes.homeRequest src (cleared src s)).homeZ <;> simp
  · intro ht
    rw [e] at ht ⊢
    have ht2 := ht
    rw [hb] at ht2
    obtain ⟨q, p, n⟩ := homeAxisBlock_true cfg env a _ ha ht2
    rw [← hb] at n
    exact ⟨⟨a, ha, q⟩, p, flags_clear _ n (homingInv_DoHome cfg env _ hinv)⟩
  · intro hS ht
    rw [e] at ht ⊢
    have ht2 := ht
    rw [hb] at ht2
    obtain ⟨q, _, _⟩ := homeAxisBlock_true cfg env a _ ha ht2
    have hq : anyQueued (GCodes.homeRequest src (cleared src s)) = true := by
      unfold anyQueued
      unfold queuedAt at q
      rcases firstRequested_cases _ a ha with ⟨rfl, _⟩ | ⟨rfl, _, _⟩ | ⟨rfl, _, _, _⟩
      · rw [if_pos rfl] at q
        simp [q]
      · rw [if_neg (by decide), if_pos rfl] at q
        simp [q]
      · rw [if_neg (by decide), if_neg (by decide), if_pos rfl] at q
        simp [q]
    have hq0 : anyQueued s0 = true := by
      rw [anyQueued_flags, d5, hflags, ← anyQueued_flags] at hq
      exact hq
    have hpos : 0 < (GCodes.homeRequest src (cleared src s)).stackPointer := by
      rw [d4, hsp]
      exact (discipline_of_spinReachable cfg s0 hS hr).2.2.2.2 hq0
    refine ⟨hpos, ?_⟩
    rw [← d4]
    have hD := DoHome_view cfg env (GCodes.homeRequest src (cleared src s))
    generalize GCodes.DoHome cfg env (GCodes.homeRequest src (cleared src s)) = r at hD ht
    unfold Popped at hD
    unfold GCodes.NoHome at hn
    rcases hD with ⟨c, _⟩ | ⟨_, _, c, _⟩ | ⟨_, _, _, _, P⟩ | ⟨_, _, _, c, _⟩ |
      ⟨_, _, _, _, _, P⟩ | ⟨_, _, _, _, c, _⟩ | ⟨_, _, _, _, _, _, P⟩ | ⟨x, y, z, _⟩
    · rw [c] at ht; exact absurd ht (by decide)
    · rw [c] at ht; exact absurd ht (by decide)
    · rcases P.2 with ⟨_, p, _⟩ | ⟨p, _⟩ <;> omega
    · rw [c] at ht; exact absurd ht (by decide)
    · rcases P.2 with ⟨_, p, _⟩ | ⟨p, _⟩ <;> omega
    · rw [c] at ht; exact absurd ht (by decide)
    · rcases P.2 with ⟨_, p, _⟩ | ⟨p, _⟩ <;> omega
    · rw [x, y, z] at hn
      exact absurd hn (by decide)

/-- C36, witness: `Spin` dispatching the line `G28 X` of the web buffer after
its homing move has been taken by the consumer; the dispatch returns true and
the stack goes from depth 1 to depth 0. -/
theorem C36_last_branch_unreachable_witness :
    ((GCodes.ActOnGcode exampleConfig idleEnv Source.web
        (GCodes.emit (Event.actOn Source.web) homingXTaken)).1 = true ∧
      homingXTaken.stackPointer = 1) ∧
    (GCodes.ActOnGcode exampleConfig idleEnv Source.web
        (GCodes.emit (Event.actOn Source.web) homingXTaken)
      = GCodes.DoHome exampleConfig idleEnv
          (GCodes.homeRequest Source.web
            (cleared Source.web (GCodes.emit (Event.actOn Source.web) homingXTaken))) ∧
    ((GCodes.homeRequest Source.web
        (cleared Source.web (GCodes.emit (Event.actOn Source.web) homingXTaken))).homeX = true ∨
      (GCodes.homeRequest Source.web
        (cleared Source.web (GCodes.emit (Event.actOn Source.web) homingXTaken))).homeY = true ∨
      (GCodes.homeRequest Source.web
        (cleared Source.web (GCodes.emit (Event.actOn Source.web) homingXTaken))).homeZ
          = true) ∧
    (∃ a, firstRequested (GCodes.homeRequest Source.web
          (cleared Source.web (GCodes.emit (Event.actOn Source.web) homingXTaken))) = some a ∧
      GCodes.DoHome exampleConfig idleEnv
          (GCodes.homeRequest Source.web
            (cleared Source.web (GCodes.emit (Event.actOn Source.web) homingXTaken)))
        = homeAxisBlock exampleConfig idleEnv a
            (GCodes.homeRequest Source.web
              (cleared Source.web (GCodes.emit (Event.actOn Source.web) homingXTaken)))) ∧
    ((GCodes.ActOnGcode exampleConfig idleEnv Source.web
        (GCodes.emit (Event.actOn Source.web) homingXTaken)).1 = true →
      (∃ a, firstRequested (GCodes.homeRequest Source.web
            (cleared Source.web (GCodes.emit (Event.actOn Source.web) homingXTaken)))
          = some a ∧
        queuedAt (GCodes.homeRequest Source.web
            (cleared Source.web (GCodes.emit (Event.actOn Source.web) homingXTaken))) a
          = true) ∧
      (GCodes.Pop idleEnv
        (GCodes.homeRequest Source.web
          (cleared Source.web (GCodes.emit (Event.actOn Source.web) homingXTaken)))).1
        = true ∧
      homeFlags (GCodes.ActOnGcode exampleConfig idleEnv Source.web
          (GCodes.emit (Event.actOn Source.web) homingXTaken)).2
        = ((false, false, false), (false, false, false))) ∧
    (0 < (exampleConfig.STACK : Int) →
      (GCodes.ActOnGcode exampleConfig idleEnv Source.web
        (GCodes.emit (Event.actOn Source.web) homingXTaken)).1 = true →
      0 < (GCodes.homeRequest Source.web
        (cleared Source.web
          (GCodes.emit (Event.actOn Source.web) homingXTaken))).stackPointer ∧
      (GCodes.ActOnGcode exampleConfig idleEnv Source.web
          (GCodes.emit (Event.actOn Source.web) homingXTaken)).2.stackPointer
        = (GCodes.emit (Event.actOn Source.web) homingXTaken).stackPointer - 1)) :=
  ⟨⟨by decide!, by decide!⟩,
    C36_last_branch_unreachable exampleConfig idleEnv Source.web
      (GCodes.emit (Event.actOn Source.web) homingXTaken) homingXTaken
      (SpinReachable.readMove _ _ _ (spinReachable_afterWeb _))
      (home_emit _ homingXTaken) (stackPointer_emit _ homingXTaken)
      (by decide!) (by decide!)⟩

end RepRap
